import Mathlib

/-!
# ADVOCATE analyzer: vector clocks, trace ordering and leak detection

A shallow embedding of parts of the Go analyzer and theorems about them.

* `analyzer/vectorClock/vectorClock.go`: the vector clock and the
  happens-before comparison.
* `analyzer/analysis/traceElementOnce.go`: the once trace element.
* `analyzer/trace/trace.go`: the trace and its sorting.
* `analyzer/analysis/analysisLeak.go`: the leak detectors.
* `analyzer/analysis/analysisResourceDeadlock.go`: the recording of lock
  dependencies and the search for cycles.
* `analyzer/io/reader.go`: the reader of the trace files.
* `analyzer/bugs/bugs.go`: the kind codes and `ProcessBug`.
* `go-patch/src/runtime/dedego_util.go`: the decimal representation of
  integers.

Go's `int` is embedded as `Int`, and it is 64 bits wide. The increment of a
clock entry in `VectorClock.Inc` and the negation in `int64ToString` are
embedded with the wrap `wrapInt64` of the 64-bit `int`. The loop indices of the
embedded functions count up to a size or a length and are embedded without a
wrap.
-/

namespace Advocate

/-! ## analyzer/vectorClock/vectorClock.go -/

/-- The vector clock `struct { size int; clock map[int]int }`.
The Go map is only ever read and written by key, and reading a missing key (or
a nil map) gives 0, so the map is embedded as a total function. -/
structure VectorClock where
  size : Int
  clock : Int → Int

/-- The result of the comparison of two vector clocks: the values `Before`,
`After` and `Concurrent` returned by `GetHappensBefore`. -/
inductive HappensBefore where
  | Before
  | After
  | Concurrent
  deriving DecidableEq, Repr

/-- The loop `for i := 1; i <= size; i++ { c[i] = 0 }` of `NewVectorClock`,
started at index `i` with `n` iterations left. -/
def newLoop (c : Int → Int) : Nat → Int → Int → Int
  | 0, _ => c
  | n + 1, i => newLoop (Function.update c i 0) n (i + 1)

/-- `NewVectorClock(size)`: a fresh map with the keys `1..size` set to 0. -/
def NewVectorClock (size : Int) : VectorClock :=
  { size := size, clock := newLoop (fun _ => 0) size.toNat 1 }

/-- `vc.GetSize()`. -/
def VectorClock.GetSize (vc : VectorClock) : Int := vc.size

/-- The wrap of a mathematical integer to the `int64` it is stored as. -/
def wrapInt64 (n : Int) : Int := (n + 2 ^ 63) % 2 ^ 64 - 2 ^ 63

/-- `vc.Inc(routine)`: `vc.clock[routine]++` and return `vc`. A nil map is
replaced by an empty one first, which reads the same. The entries are 64-bit
`int`s, so the increment wraps from `math.MaxInt64` to `math.MinInt64`. The Go
method also updates the map shared with the receiver; the embedding returns
the updated value. -/
def VectorClock.Inc (vc : VectorClock) (routine : Int) : VectorClock :=
  { vc with clock := Function.update vc.clock routine (wrapInt64 (vc.clock routine + 1)) }

/-- The loop `for i := 1; i <= vc.size; i++ { newVc.clock[i] = vc.clock[i] }`
of `Copy`, started at index `i` with `n` iterations left. -/
def copyLoop (src : Int → Int) (dst : Int → Int) : Nat → Int → Int → Int
  | 0, _ => dst
  | n + 1, i => copyLoop src (Function.update dst i (src i)) n (i + 1)

/-- `vc.Copy()`: panics (here `none`) on a clock of size 0, else builds a new
clock of the same size and copies the entries `1..size`. -/
def VectorClock.Copy (vc : VectorClock) : Option VectorClock :=
  if vc.size = 0 then none
  else
    let newVc := NewVectorClock vc.size
    some { newVc with clock := copyLoop vc.clock newVc.clock vc.size.toNat 1 }

/-- The loop of `Sync`:
`for i := 1; i <= vc.size; i++ { if vc.clock[i] > copy.clock[i] { copy.clock[i] = vc.clock[i] } }`,
started at index `i` with `n` iterations left. -/
def syncLoop (vc : Int → Int) (copy : Int → Int) : Nat → Int → Int → Int
  | 0, _ => copy
  | n + 1, i =>
    if vc i > copy i then syncLoop vc (Function.update copy i (vc i)) n (i + 1)
    else syncLoop vc copy n (i + 1)

/-- `vc.Sync(rec)`. The debug message for two empty clocks has no effect on the
result and is left out; `none` is the panic of `Copy`. -/
def VectorClock.Sync (vc : VectorClock) (rec : VectorClock) : Option VectorClock :=
  let vc := if vc.size = 0 then NewVectorClock rec.size else vc
  if rec.size = 0 then vc.Copy
  else
    match rec.Copy with
    | none => none
    | some copy =>
      some { copy with clock := syncLoop vc.clock copy.clock vc.size.toNat 1 }

/-- The loop of `isCause`, started at index `i` with `n` iterations left and
the current value of `atLeastOneSmaller`. -/
def isCauseLoop (vc1 vc2 : Int → Int) : Nat → Int → Bool → Bool
  | 0, _, atLeastOneSmaller => atLeastOneSmaller
  | n + 1, i, atLeastOneSmaller =>
    if vc1 i > vc2 i then false
    else if vc1 i < vc2 i then isCauseLoop vc1 vc2 n (i + 1) true
    else isCauseLoop vc1 vc2 n (i + 1) atLeastOneSmaller

/-- `isCause(vc1, vc2)`: true if `vc1` is a cause of `vc2`. -/
def isCause (vc1 vc2 : VectorClock) : Bool :=
  isCauseLoop vc1.clock vc2.clock vc1.size.toNat 1 false

/-- `GetHappensBefore(vc1, vc2)`. -/
def GetHappensBefore (vc1 vc2 : VectorClock) : HappensBefore :=
  if isCause vc1 vc2 then HappensBefore.Before
  else if isCause vc2 vc1 then HappensBefore.After
  else HappensBefore.Concurrent

/-- The scenario "a clock joined with any number of received clocks": the
statement `l = l.Sync(x)` run for each `x` of the list in turn; `none` as soon
as one of the joins panics. -/
def syncAll (l : VectorClock) : List VectorClock → Option VectorClock
  | [] => some l
  | x :: xs =>
    match l.Sync x with
    | none => none
    | some l2 => syncAll l2 xs

/-- A vector clock of width `n` of the data model: its size is `n` and its
entries on `1..n` are non-negative. Every clock built by `NewVectorClock(n)`
and changed by `Sync`, `Copy` and, below `math.MaxInt64`, `Inc` is one
(`NewVectorClock_isClock`, `Inc_isClock`, `Sync_isClock`, `Copy_isClock`). -/
def VectorClock.IsClockOfWidth (c : VectorClock) (n : Int) : Prop :=
  c.size = n ∧ ∀ i, 1 ≤ i → i ≤ n → 0 ≤ c.clock i

/-- Example clock `[1, 0]` of width 2. -/
def exClockA : VectorClock := { size := 2, clock := fun i => if i = 1 then 1 else 0 }

/-- Example clock `[1, 2]` of width 2. -/
def exClockB : VectorClock := { size := 2, clock := fun i => if i = 1 then 1 else if i = 2 then 2 else 0 }

/-- Example clock `[0, 3]` of width 2. -/
def exClockC : VectorClock := { size := 2, clock := fun i => if i = 2 then 3 else 0 }

/-- Example of an empty clock, the zero value `VectorClock{}`. -/
def exClockEmpty : VectorClock := { size := 0, clock := fun _ => 0 }

/-- Example clock `[9223372036854775807]` of width 1: its entry is
`math.MaxInt64`. -/
def exClockMax : VectorClock :=
  { size := 1, clock := fun i => if i = 1 then 9223372036854775807 else 0 }

/-! ## Go built-ins used by the analyzer -/

/-- A Go `map[int]V` whose keys are enumerated by `range`: the list of its
entries, each key at most once. `range` visits the entries in an order Go does
not specify; the embedding visits them in list order, so the list order stands
for the order of one run. -/
abbrev GoMap (α : Type) := List (Int × α)

/-- The read `v, ok := m[k]`. -/
def GoMap.lookup {α : Type} : GoMap α → Int → Option α
  | [], _ => none
  | (k2, v) :: rest, k => if k2 = k then some v else GoMap.lookup rest k

/-- The write `m[k] = v`: replaces the entry of an existing key, else adds one. -/
def GoMap.insert {α : Type} : GoMap α → Int → α → GoMap α
  | [], k, v => [(k, v)]
  | (k2, v2) :: rest, k, v =>
    if k2 = k then (k, v) :: rest else (k2, v2) :: GoMap.insert rest k v

/-- The read `m[k]` of a `map[int][]V`: a missing key gives the nil slice. -/
def GoMap.getSlice {α : Type} (m : GoMap (List α)) (k : Int) : List α :=
  (GoMap.lookup m k).getD []

/-- `strconv.Itoa`: the decimal representation, with a leading `-` for negative
numbers. -/
def Itoa (n : Int) : String := toString n

/-- `math.MaxInt` for the 64-bit `int`. -/
def mathMaxInt : Int := 9223372036854775807

/-- One step of `sort.Sort`: put `x` in front of the first element it is less
than. -/
def sortInsert {α : Type} (less : α → α → Bool) (x : α) : List α → List α
  | [] => [x]
  | y :: ys => if less x y then x :: y :: ys else y :: sortInsert less x ys

/-- Go's `sort.Sort` with the `Less` of the sorted type. The standard library
is not part of the repository; its contract (the result is a permutation of the
input in which no element is less than an earlier one) is realised here by
insertion sort. -/
def sortSort {α : Type} (less : α → α → Bool) : List α → List α
  | [] => []
  | x :: xs => sortInsert less x (sortSort less xs)

/-! ## analyzer/analysis/traceElementOnce.go -/

/-- The once trace element `TraceElementOnce`. -/
structure TraceElementOnce where
  routine : Int
  tPre : Int
  tPost : Int
  id : Int
  suc : Bool
  pos : String
  vc : VectorClock

/-- `e.GetID()`. -/
def TraceElementOnce.GetID (e : TraceElementOnce) : Int := e.id

/-- `e.GetRoutine()`. -/
def TraceElementOnce.GetRoutine (e : TraceElementOnce) : Int := e.routine

/-- `e.GetTPre()`. -/
def TraceElementOnce.GetTPre (e : TraceElementOnce) : Int := e.tPre

/-- `e.getTpost()`. -/
def TraceElementOnce.getTpost (e : TraceElementOnce) : Int := e.tPost

/-- `e.GetTSort()`: the timer used for the sorting of the trace. -/
def TraceElementOnce.GetTSort (e : TraceElementOnce) : Int :=
  if e.tPost = 0 then
    -- add at the end of the trace
    mathMaxInt
  else e.tPre

/-- `e.GetPos()`. -/
def TraceElementOnce.GetPos (e : TraceElementOnce) : String := e.pos

/-- `e.GetTID()`. -/
def TraceElementOnce.GetTID (e : TraceElementOnce) : String :=
  e.pos ++ "@" ++ Itoa e.tPre

/-- `e.GetObjType()`. -/
def TraceElementOnce.GetObjType (e : TraceElementOnce) : String :=
  if e.suc then "OE" else "ON"

/-! ## analyzer/trace -/

/-- The `opChannel` enumeration of package `trace`: `send`, `recv`, `close`. -/
inductive Trace.opChannel where
  | send
  | recv
  | close
  deriving DecidableEq, Repr

/-- The channel trace element `traceElementChannel` of package `trace`. The
`partner` pointer, set by `findPartnerChannel`, plays no part in sorting and is
left out. -/
structure Trace.traceElementChannel where
  routine : Int
  tpre : Int
  tpost : Int
  id : Int
  opC : Trace.opChannel
  cl : Bool
  oId : Int
  qSize : Int
  pos : String
  deriving DecidableEq, Repr

/-- `elem.getRoutine()`. -/
def Trace.traceElementChannel.getRoutine (elem : Trace.traceElementChannel) : Int :=
  elem.routine

/-- `elem.getTpre()`. -/
def Trace.traceElementChannel.getTpre (elem : Trace.traceElementChannel) : Int :=
  elem.tpre

/-- `elem.getTpost()`. -/
def Trace.traceElementChannel.getTpost (elem : Trace.traceElementChannel) : Int :=
  elem.tpost

/-- The interface `traceElement` held by the trace of package `trace`. The
channel element is the implementation under `analyzer/trace`; the interface is
embedded as the sum of its implementations. -/
inductive Trace.traceElement where
  | channel (elem : Trace.traceElementChannel)
  deriving DecidableEq, Repr

/-- The interface method `getTpre()`. -/
def Trace.traceElement.getTpre : Trace.traceElement → Int
  | .channel elem => elem.getTpre

/-- The interface method `getTpost()`. -/
def Trace.traceElement.getTpost : Trace.traceElement → Int
  | .channel elem => elem.getTpost

/-- `sortByTPre.Less` on the two compared elements:
`a[i].getTpre() < a[j].getTpre()`. -/
def Trace.sortByTPre.Less (x y : Trace.traceElement) : Bool :=
  decide (x.getTpre < y.getTpre)

/-- `Sort()`: `sort.Sort(sortByTPre(trace))`, on the package variable `trace`
passed in and returned. -/
def Trace.Sort (trace : List Trace.traceElement) : List Trace.traceElement :=
  sortSort Trace.sortByTPre.Less trace

/-- The property "every element with `tpost = 0` appears after all elements
with non-zero `tpost`": no element with `tpost = 0` stands before one with
non-zero `tpost`. -/
def Trace.PendingLast (trace : List Trace.traceElement) : Prop :=
  trace.Pairwise (fun x y => x.getTpost = 0 → y.getTpost = 0)

instance : DecidablePred Trace.PendingLast := fun trace => by
  unfold Trace.PendingLast
  infer_instance

/-- Example trace: a channel send of routine 1 that never completed
(`tpre = 1`, `tpost = 0`) followed by a completed receive of routine 2
(`tpre = 2`, `tpost = 3`). -/
def Trace.exTrace : List Trace.traceElement :=
  [ .channel { routine := 1, tpre := 1, tpost := 0, id := 4, opC := .send, cl := false,
               oId := 0, qSize := 0, pos := "a.go:10" },
    .channel { routine := 2, tpre := 2, tpost := 3, id := 5, opC := .recv, cl := false,
               oId := 1, qSize := 0, pos := "a.go:20" } ]

/-! ## analyzer/analysis: trace elements, recency indices, results -/

/-- The channel operations `SendOp`, `RecvOp`, `CloseOp` of package `analysis`
(an `int` enumeration with the values 0, 1, 2). -/
inductive OpChannel where
  | SendOp
  | RecvOp
  | CloseOp
  deriving DecidableEq, Repr

/-- The conversion `int(ch.opC)`: send = 0, recv = 1, close = 2. -/
def OpChannel.toInt : OpChannel → Int
  | .SendOp => 0
  | .RecvOp => 1
  | .CloseOp => 2

/-- Modelled from the spec: the channel trace element `TraceElementChannel` of
package `analysis`, whose declaration is not among the sources; the fields are
those of the channel event of the data model (routine, pre and post timestamp,
channel id, operation, closed flag, partner id, queue size, position, and the
vector clock `vc` of the event envelope, the zero value until it is set). -/
structure TraceElementChannel where
  routine : Int
  tPre : Int
  tPost : Int
  id : Int
  opC : OpChannel
  cl : Bool
  oID : Int
  qSize : Int
  pos : String
  vc : VectorClock := { size := 0, clock := fun _ => 0 }

/-- Modelled from the spec: `ch.GetTID()`, the trace identifier
`<file>:<line>@<pre>` of the element, built as `TraceElementOnce.GetTID` builds
it: the position, an `@` and the pre timestamp. -/
def TraceElementChannel.GetTID (ch : TraceElementChannel) : String :=
  ch.pos ++ "@" ++ Itoa ch.tPre

/-- The mutex operations of package `analysis` (an `int` enumeration whose
declaration is not among the sources): `LockOp`, `RLockOp`, `TryLockOp`,
`TryRLockOp`, `UnlockOp`, `RUnlockOp`. -/
inductive OpMutex where
  | LockOp
  | RLockOp
  | TryLockOp
  | TryRLockOp
  | UnlockOp
  | RUnlockOp
  deriving DecidableEq, Repr

/-- The conversion `int(op)` of a mutex operation; distinct operations have
distinct values. -/
def OpMutex.toInt : OpMutex → Int
  | .LockOp => 0
  | .RLockOp => 1
  | .TryLockOp => 2
  | .TryRLockOp => 3
  | .UnlockOp => 4
  | .RUnlockOp => 5

/-- Modelled from the spec: the mutex trace element `TraceElementMutex`, whose
declaration is not among the sources; the fields are those of the mutex event
of the data model (routine, pre and post timestamp, mutex id, reader/writer
flag, operation, success, position, vector clock). -/
structure TraceElementMutex where
  routine : Int
  tPre : Int
  tPost : Int
  id : Int
  rw : Bool
  opM : OpMutex
  suc : Bool
  pos : String
  vc : VectorClock := { size := 0, clock := fun _ => 0 }

/-- Modelled from the spec: `mu.GetTID()`, the position, an `@` and the pre
timestamp, as `TraceElementOnce.GetTID` builds it. -/
def TraceElementMutex.GetTID (mu : TraceElementMutex) : String :=
  mu.pos ++ "@" ++ Itoa mu.tPre

/-- `mu.GetID()`. -/
def TraceElementMutex.GetID (mu : TraceElementMutex) : Int := mu.id

/-- `mu.GetRoutine()`. -/
def TraceElementMutex.GetRoutine (mu : TraceElementMutex) : Int := mu.routine

/-- `mu.GetVC()`. -/
def TraceElementMutex.GetVC (mu : TraceElementMutex) : VectorClock := mu.vc

/-- Modelled from the spec: the select trace element `TraceElementSelect`,
whose declaration is not among the sources, with the fields the leak detectors
read (routine, pre and post timestamp, select id, position). The cases of the
select reach the detectors as the arguments `ids`, `buffered` and `opTypes`. -/
structure TraceElementSelect where
  routine : Int
  tPre : Int
  tPost : Int
  id : Int
  pos : String

/-- Modelled from the spec: `se.GetTID()`, the position, an `@` and the pre
timestamp. -/
def TraceElementSelect.GetTID (se : TraceElementSelect) : String :=
  se.pos ++ "@" ++ Itoa se.tPre

/-- `se.GetID()`. -/
def TraceElementSelect.GetID (se : TraceElementSelect) : Int := se.id

/-- Modelled from the spec: the fork trace element `TraceElementFork`, whose
declaration is not among the sources (routine, pre and post timestamp, id of
the new routine, position). -/
structure TraceElementFork where
  routine : Int
  tPre : Int
  tPost : Int
  id : Int
  pos : String

/-- `fo.GetPos()`. -/
def TraceElementFork.GetPos (fo : TraceElementFork) : String := fo.pos

/-- Modelled from the spec: the routine-end trace element
`TraceElementRoutineEnd`, whose declaration is not among the sources: the
routine and the one timestamp of the trace line `E,<pre>`. -/
structure TraceElementRoutineEnd where
  routine : Int
  tPre : Int

/-- The interface `TraceElement` of package `analysis`, as far as the detectors
use it: the sum of the element types embedded here. -/
inductive TraceElement where
  | channel (ch : TraceElementChannel)
  | once (e : TraceElementOnce)
  | mutex (mu : TraceElementMutex)
  | select (se : TraceElementSelect)
  | fork (fo : TraceElementFork)
  | routineEnd (re : TraceElementRoutineEnd)

/-- The interface method `GetTID()`: the position, an `@` and the pre timestamp
(the routine end has no position). -/
def TraceElement.GetTID : TraceElement → String
  | .channel ch => ch.GetTID
  | .once e => e.GetTID
  | .mutex mu => mu.GetTID
  | .select se => se.GetTID
  | .fork fo => fo.pos ++ "@" ++ Itoa fo.tPre
  | .routineEnd re => "@" ++ Itoa re.tPre

/-- The interface method `GetRoutine()`. -/
def TraceElement.GetRoutine : TraceElement → Int
  | .channel ch => ch.routine
  | .once e => e.GetRoutine
  | .mutex mu => mu.GetRoutine
  | .select se => se.routine
  | .fork fo => fo.routine
  | .routineEnd re => re.routine

/-- The interface method `GetTPre()`. -/
def TraceElement.GetTPre : TraceElement → Int
  | .channel ch => ch.tPre
  | .once e => e.GetTPre
  | .mutex mu => mu.tPre
  | .select se => se.tPre
  | .fork fo => fo.tPre
  | .routineEnd re => re.tPre

/-- The interface method `getTpost()`. The routine end has one timestamp. -/
def TraceElement.getTpost : TraceElement → Int
  | .channel ch => ch.tPost
  | .once e => e.getTpost
  | .mutex mu => mu.tPost
  | .select se => se.tPost
  | .fork fo => fo.tPost
  | .routineEnd re => re.tPre

/-- The type switch `case *TraceElementRoutineEnd`. -/
def TraceElement.isRoutineEnd : TraceElement → Bool
  | .routineEnd _ => true
  | _ => false

/-- Modelled from the spec: the entry `VectorClockTID3` of a recency index, an
element with its clock and an operation kind; the fields `Elem`, `Vc`, `Val`
are those the detectors read. -/
structure VectorClockTID3 where
  Elem : TraceElement
  Vc : VectorClock
  Val : Int

/-- Modelled from the spec: the leak-bucket entry `VectorClockTID2`, in the
order of the positional literals of `analysisLeak.go`: routine, channel id,
clock, TID, operation kind, select pre or -1, buffered, is-select-case, select
object id. -/
structure VectorClockTID2 where
  routine : Int
  id : Int
  vc : VectorClock
  tID : String
  typeVal : Int
  val : Int
  buffered : Bool
  sel : Bool
  selID : Int

/-- Modelled from the spec: `VectorClockTID`, a clock with the TID and the
routine of its operation; the fields `Vc`, `TID`, `Routine` are those the
detectors read. -/
structure VectorClockTID where
  Vc : VectorClock
  TID : String
  Routine : Int

/-- Modelled from the spec: `allSelectCase`, one recorded case of a select,
with the fields `checkForLeak` reads: the select, the channel id of the case,
the clock and TID of the select, whether the case is a send, and whether the
channel is buffered. -/
structure allSelectCase where
  sel : TraceElementSelect
  chanID : Int
  vcTID : VectorClockTID
  send : Bool
  buffered : Bool

/-- The severity of a result, `results.CRITICAL` or `results.WARNING`. -/
inductive ResultLevel where
  | CRITICAL
  | WARNING
  deriving DecidableEq, Repr

/-- The kind code of a result, a Go string. -/
abbrev ResultType := String

/-- `LUnbufferedWith`, with the code of the constant of this name in
`bugs.go`. -/
def LUnbufferedWith : ResultType := "L01"

/-- `LUnbufferedWithout`. -/
def LUnbufferedWithout : ResultType := "L02"

/-- `LBufferedWith`. -/
def LBufferedWith : ResultType := "L03"

/-- `LBufferedWithout`. -/
def LBufferedWithout : ResultType := "L04"

/-- `LNilChan`. -/
def LNilChan : ResultType := "L05"

/-- `LSelectWith`. -/
def LSelectWith : ResultType := "L06"

/-- `LSelectWithout`. -/
def LSelectWithout : ResultType := "L07"

/-- `LMutex`. -/
def LMutex : ResultType := "L08"

/-- `results.TraceElementResult`, one participant of a result. -/
structure TraceElementResult where
  RoutineID : Int
  ObjID : Int
  TPre : Int
  ObjType : String
  File : String
  Line : Int
  deriving DecidableEq, Repr

/-- One call `results.Result(level, resType, argType1, arg1, argType2, arg2)`.
The result sink is not among the sources; a detector's emissions are embedded
as the list of its calls, in order. -/
structure ResultCall where
  level : ResultLevel
  resType : ResultType
  argType1 : String
  arg1 : List TraceElementResult
  argType2 : String
  arg2 : List TraceElementResult
  deriving DecidableEq, Repr

/-- The package variables of `analysis` that the leak detectors read and write,
and the calls of `results.Result` so far. `mostRecentSend` and
`mostRecentReceive` map a routine to a map from channel id to the most recent
operation; `closeData` maps a channel id to its close, `mostRecentAcquireTotal`
a mutex id to its most recent acquire, `traces` a routine to its events and
`allForks` a routine to the fork that started it; `selectCases` is the slice of
the recorded select cases. -/
structure AnalysisState where
  mostRecentSend : GoMap (GoMap VectorClockTID3) := []
  mostRecentReceive : GoMap (GoMap VectorClockTID3) := []
  leakingChannels : GoMap (List VectorClockTID2) := []
  results : List ResultCall := []
  closeData : GoMap TraceElementChannel := []
  mostRecentAcquireTotal : GoMap VectorClockTID3 := []
  selectCases : List allSelectCase := []
  traces : GoMap (List TraceElement) := []
  allForks : GoMap TraceElementFork := []

/-! ### The position lookup -/

/-- `strings.Split` on one separator character, on the characters of a string. -/
def splitChars (sep : Char) : List Char → List (List Char)
  | [] => [[]]
  | c :: cs =>
    match splitChars sep cs with
    | [] => [[c]]
    | first :: more => if c = sep then [] :: first :: more else (c :: first) :: more

/-- The value of a string of decimal digits, `none` if a character is no
digit. `acc` is the value of the digits read so far. -/
def digitsValue : List Char → Nat → Option Nat
  | [], acc => some acc
  | c :: cs, acc =>
    if '0' ≤ c ∧ c ≤ '9' then digitsValue cs (10 * acc + (c.toNat - '0'.toNat)) else none

/-- `strconv.Atoi` on the characters of a string: an optional sign and at
least one decimal digit. -/
def atoiChars : List Char → Option Int
  | [] => none
  | '-' :: c :: cs => (digitsValue (c :: cs) 0).map (fun n => - (n : Int))
  | '+' :: c :: cs => (digitsValue (c :: cs) 0).map (fun n => (n : Int))
  | '-' :: [] => none
  | '+' :: [] => none
  | c :: cs => (digitsValue (c :: cs) 0).map (fun n => (n : Int))

/-- Modelled from the spec: `infoFromTID`, whose source is not among the
sources. A TID is the string `<file>:<line>@<pre>`; the lookup gives the file,
the line and the pre timestamp, and fails (`none`) on a string that is not of
this form. -/
def infoFromTID (tID : String) : Option (String × Int × Int) :=
  match splitChars '@' tID.data with
  | [filePos, pre] =>
    match splitChars ':' filePos with
    | [file, line] =>
      match atoiChars pre, atoiChars line with
      | some tPre, some lineInt => some (String.mk file, lineInt, tPre)
      | _, _ => none
    | _ => none
  | _ => none

/-! ## analyzer/analysis/analysisLeak.go -/

/-- The state of the loop over a recency index in `CheckForLeakChannelStuck`:
the calls of `results.Result` so far, the variable `foundPartner`, and whether
the function has returned from inside the loop. -/
structure StuckLoopState where
  results : List ResultCall
  foundPartner : Bool
  returned : Bool

/-- The loop `for partnerRout, mrr := range mostRecent... { ... }` of
`CheckForLeakChannelStuck`, over the entries of the recency index of the
opposite operation. The send and the receive branch of the source differ only
in the index and in the two object type tags, here `objType1` for the stuck
operation and `objType2` for the partner. -/
def stuckLoop (info : String → Option (String × Int × Int)) (ch : TraceElementChannel)
    (vc : VectorClock) (buffered : Bool) (objType1 objType2 : String) :
    GoMap (GoMap VectorClockTID3) → List ResultCall → Bool → StuckLoopState
  | [], results, foundPartner =>
    { results := results, foundPartner := foundPartner, returned := false }
  | (partnerRout, mrr) :: rest, results, foundPartner =>
    match GoMap.lookup mrr ch.id with
    | none => stuckLoop info ch vc buffered objType1 objType2 rest results foundPartner
    | some mr =>
      if GetHappensBefore mr.Vc vc = HappensBefore.Concurrent then
        let bugType : ResultType := if buffered then LBufferedWith else LUnbufferedWith
        match info ch.GetTID with
        | none => { results := results, foundPartner := foundPartner, returned := true }
        | some (file1, line1, tPre1) =>
          match info mr.Elem.GetTID with
          | none => { results := results, foundPartner := foundPartner, returned := true }
          | some (file2, line2, tPre2) =>
            let arg1 : TraceElementResult :=
              { RoutineID := ch.routine, ObjID := ch.id, TPre := tPre1, ObjType := objType1,
                File := file1, Line := line1 }
            let arg2 : TraceElementResult :=
              { RoutineID := partnerRout, ObjID := ch.id, TPre := tPre2, ObjType := objType2,
                File := file2, Line := line2 }
            stuckLoop info ch vc buffered objType1 objType2 rest
              (results ++
                [{ level := ResultLevel.CRITICAL, resType := bugType, argType1 := "channel",
                   arg1 := [arg1], argType2 := "partner", arg2 := [arg2] }])
              true
      else stuckLoop info ch vc buffered objType1 objType2 rest results foundPartner

/-- `CheckForLeakChannelStuck(ch, vc)`, run for a channel operation without a
post event, on the package state passed in and returned. `info` is the
position lookup `infoFromTID`. -/
def CheckForLeakChannelStuck (info : String → Option (String × Int × Int))
    (st : AnalysisState) (ch : TraceElementChannel) (vc : VectorClock) : AnalysisState :=
  let buffered : Bool := decide (ch.qSize ≠ 0)
  if ch.id = -1 then
    let objType : Option String :=
      if ch.opC = OpChannel.SendOp then some ("C" ++ "S")
      else if ch.opC = OpChannel.RecvOp then some ("C" ++ "R")
      else none -- close
    match objType with
    | none => st
    | some objType =>
      match info ch.GetTID with
      | none => st
      | some (file, line, tPre) =>
        let arg1 : TraceElementResult :=
          { RoutineID := ch.routine, ObjID := ch.id, TPre := tPre, ObjType := objType,
            File := file, Line := line }
        { st with results := st.results ++
            [{ level := ResultLevel.CRITICAL, resType := LNilChan, argType1 := "Channel",
               arg1 := [arg1], argType2 := "", arg2 := [] }] }
  else
    let loop : StuckLoopState :=
      if ch.opC = OpChannel.SendOp then
        stuckLoop info ch vc buffered "CS" "CR" st.mostRecentReceive st.results false
      else if ch.opC = OpChannel.RecvOp then
        stuckLoop info ch vc buffered "CR" "CS" st.mostRecentSend st.results false
      else { results := st.results, foundPartner := false, returned := false }
    if loop.returned then { st with results := loop.results }
    else if !loop.foundPartner then
      { st with
        results := loop.results
        leakingChannels :=
          GoMap.insert st.leakingChannels ch.id
            (GoMap.getSlice st.leakingChannels ch.id ++
              [{ routine := ch.routine, id := ch.id, vc := vc, tID := ch.GetTID,
                 typeVal := ch.opC.toInt, val := -1, buffered := buffered, sel := false,
                 selID := 0 }]) }
    else { st with results := loop.results }

/-- The state of the loops of `CheckForLeakChannelRun`. The slice
`leakingChannels[objID]` is changed while the loops range over it: `range`
works on the slice header taken when the loop starts and reads each element
from the array at the time of the iteration, and `append(s[:i], s[i+1:]...)`
moves the elements behind `i` one place down inside that array. `backing` is
the array (as long as the slice at the start of the call), `buckets` is
`leakingChannels`, `results` the calls of `results.Result` so far and `res`
the return value. -/
structure RunLoopState where
  backing : List VectorClockTID2
  buckets : GoMap (List VectorClockTID2)
  results : List ResultCall
  res : Bool

/-- The statement
`leakingChannels[objID] = append(leakingChannels[objID][:j], leakingChannels[objID][j+1:]...)`.
`none` is the panic of the slice expression `[j+1:]` when `j + 1` exceeds the
length of the slice (`[:j]` is in range, `j` being below the capacity). The new
slice is the old one without its element `j`; in the array the elements
behind `j` move one place down and the old last place keeps its value. -/
def removeAt (s : RunLoopState) (objID : Int) (j : Nat) : Option RunLoopState :=
  let cur := GoMap.getSlice s.buckets objID
  if j + 1 ≤ cur.length then
    some { s with
      buckets := GoMap.insert s.buckets objID (cur.take j ++ cur.drop (j + 1))
      backing := s.backing.take j ++ cur.drop (j + 1) ++ s.backing.drop (cur.length - 1) }
  else none

/-- The loop
`for j, vcTID3 := range leakingChannels[objID] { if vcTID3.val == vcTID2.val { remove j } }`
with `n` iterations left, at index `j`. -/
def runRemoveLoop (val : Int) (objID : Int) : Nat → Nat → RunLoopState → Option RunLoopState
  | 0, _, s => some s
  | n + 1, j, s =>
    match s.backing[j]? with
    | none => none
    | some vcTID3 =>
      if vcTID3.val = val then
        match removeAt s objID j with
        | none => none
        | some s2 => runRemoveLoop val objID n (j + 1) s2
      else runRemoveLoop val objID n (j + 1) s

/-- The loop `for i, vcTID2 := range leakingChannels[objID] { ... }` of
`CheckForLeakChannelRun`, with `n` iterations left, at index `i`. The two
branches of the source differ in which entries they skip and in the object
type tags; `tags` gives for an entry `none` when the branch skips it
(`continue`) and else the tags of the first and the second participant. A
failed position lookup returns from the function with the state reached. -/
def runLoop (info : String → Option (String × Int × Int)) (routineID objID : Int)
    (vcTID : VectorClockTID) (buffered : Bool)
    (tags : VectorClockTID2 → Option (String × String)) :
    Nat → Nat → RunLoopState → Option RunLoopState
  | 0, _, s => some s
  | n + 1, i, s =>
    match s.backing[i]? with
    | none => none
    | some vcTID2 =>
      match tags vcTID2 with
      | none => runLoop info routineID objID vcTID buffered tags n (i + 1) s
      | some (objType1, objType2) =>
        if GetHappensBefore vcTID2.vc vcTID.Vc = HappensBefore.Concurrent then
          let bugType : ResultType := if buffered then LBufferedWith else LUnbufferedWith
          match info vcTID2.tID with -- leaking
          | none => some s
          | some (file1, line1, tPre1) =>
            match info vcTID.TID with -- partner
            | none => some s
            | some (file2, line2, tPre2) =>
              let arg1 : TraceElementResult :=
                { RoutineID := routineID, ObjID := objID, TPre := tPre1, ObjType := objType1,
                  File := file1, Line := line1 }
              let arg2 : TraceElementResult :=
                { RoutineID := vcTID2.routine, ObjID := objID, TPre := tPre2,
                  ObjType := objType2, File := file2, Line := line2 }
              let s1 : RunLoopState :=
                { s with
                  results := s.results ++
                    [{ level := ResultLevel.CRITICAL, resType := bugType,
                       argType1 := "channel", arg1 := [arg1], argType2 := "partner",
                       arg2 := [arg2] }]
                  res := true }
              -- remove the stuck operation from the list. If it is a select,
              -- remove all operations with the same val
              let removed : Option RunLoopState :=
                if vcTID2.val = -1 then removeAt s1 objID i
                else
                  runRemoveLoop vcTID2.val objID (GoMap.getSlice s1.buckets objID).length 0 s1
              match removed with
              | none => none
              | some s2 => runLoop info routineID objID vcTID buffered tags n (i + 1) s2
        else runLoop info routineID objID vcTID buffered tags n (i + 1) s

/-- The entries the send-or-close branch of `CheckForLeakChannelRun` looks at
(`if vcTID2.val != 1 { continue }`) and the tags of its results: `CR` for the
first participant, `CS` or `CC` for the second. -/
def runTagsSendClose (opType : Int) (vcTID2 : VectorClockTID2) : Option (String × String) :=
  if vcTID2.val ≠ 1 then none
  else some ("CR", if opType = 0 then "C" ++ "S" else "C" ++ "C")

/-- The entries the receive branch looks at and the tags of its results:
`CS` for `val == 0`, `CC` for `val == 2`, `continue` otherwise; `CR` for the
second participant. -/
def runTagsRecv (vcTID2 : VectorClockTID2) : Option (String × String) :=
  if vcTID2.val = 0 then some ("C" ++ "S", "CR")
  else if vcTID2.val = 2 then some ("C" ++ "C", "CR")
  else none

/-- `CheckForLeakChannelRun(routineID, objID, vcTID, opType, buffered)`, run for
a channel operation with a post event: the state after the call and the
returned value, or `none` when the call panics. -/
def CheckForLeakChannelRun (info : String → Option (String × Int × Int))
    (st : AnalysisState) (routineID objID : Int) (vcTID : VectorClockTID) (opType : Int)
    (buffered : Bool) : Option (AnalysisState × Bool) :=
  let bucket := GoMap.getSlice st.leakingChannels objID
  let start : RunLoopState :=
    { backing := bucket, buckets := st.leakingChannels, results := st.results, res := false }
  let finish (s : RunLoopState) : AnalysisState × Bool :=
    ({ st with leakingChannels := s.buckets, results := s.results }, s.res)
  if opType = 0 ∨ opType = 2 then -- send or close
    (runLoop info routineID objID vcTID buffered (runTagsSendClose opType)
      bucket.length 0 start).map finish
  else if opType = 1 then -- recv
    (runLoop info routineID objID vcTID buffered runTagsRecv bucket.length 0 start).map finish
  else some (st, false)

/-- The result `LSelectWith` that `CheckForLeakSelectStuck` emits for the
select and a partner. -/
def selectWithCall (se : TraceElementSelect) (file1 : String) (line1 : Int)
    (partner : TraceElementResult) : ResultCall :=
  let arg1 : TraceElementResult :=
    { RoutineID := se.routine, ObjID := se.id, TPre := se.tPre, ObjType := "SS",
      File := file1, Line := line1 }
  { level := ResultLevel.CRITICAL, resType := LSelectWith, argType1 := "select",
    arg1 := [arg1], argType2 := "partner", arg2 := [partner] }

/-- The loop `for routinePartner, mr := range mostRecent... { ... }` of
`CheckForLeakSelectStuck` for the case on channel `id`, over the recency index
of the opposite operation; `objType2` is the tag of the partner (`CR` for a
send case, `CS` for a receive case). -/
def selectPartnerLoop (info : String → Option (String × Int × Int))
    (se : TraceElementSelect) (vc : VectorClock) (id : Int) (objType2 : String) :
    GoMap (GoMap VectorClockTID3) → List ResultCall → Bool → StuckLoopState
  | [], results, foundPartner =>
    { results := results, foundPartner := foundPartner, returned := false }
  | (routinePartner, mr) :: rest, results, foundPartner =>
    match GoMap.lookup mr id with
    | none => selectPartnerLoop info se vc id objType2 rest results foundPartner
    | some op =>
      if GetHappensBefore vc op.Vc = HappensBefore.Concurrent then
        match info se.GetTID with -- select
        | none => { results := results, foundPartner := foundPartner, returned := true }
        | some (file1, line1, _) =>
          match info op.Elem.GetTID with -- partner
          | none => { results := results, foundPartner := foundPartner, returned := true }
          | some (file2, line2, tPre2) =>
            let arg2 : TraceElementResult :=
              { RoutineID := routinePartner, ObjID := id, TPre := tPre2, ObjType := objType2,
                File := file2, Line := line2 }
            selectPartnerLoop info se vc id objType2 rest
              (results ++ [selectWithCall se file1 line1 arg2]) true
      else selectPartnerLoop info se vc id objType2 rest results foundPartner

/-- The check `if cl, ok := closeData[id]; ok { ... }` of a receive case. -/
def selectCloseCheck (info : String → Option (String × Int × Int))
    (closeData : GoMap TraceElementChannel) (se : TraceElementSelect) (id : Int)
    (results : List ResultCall) (foundPartner : Bool) : StuckLoopState :=
  match GoMap.lookup closeData id with
  | none => { results := results, foundPartner := foundPartner, returned := false }
  | some cl =>
    match info se.GetTID with -- select
    | none => { results := results, foundPartner := foundPartner, returned := true }
    | some (file1, line1, _) =>
      match info cl.GetTID with -- partner
      | none => { results := results, foundPartner := foundPartner, returned := true }
      | some (file2, line2, tPre2) =>
        let arg2 : TraceElementResult :=
          { RoutineID := cl.routine, ObjID := id, TPre := tPre2, ObjType := "CS",
            File := file2, Line := line2 }
        { results := results ++ [selectWithCall se file1 line1 arg2], foundPartner := true,
          returned := false }

/-- The body of the loop `for i, id := range ids { ... }` of
`CheckForLeakSelectStuck` for the case on channel `id` with the operation
`opType`: a send case (0) is tried against the most recent receives, a receive
case (1) against the most recent sends and then against the close of the
channel. -/
def selectCase (info : String → Option (String × Int × Int)) (st : AnalysisState)
    (se : TraceElementSelect) (vc : VectorClock) (id : Int) (opType : Int)
    (results : List ResultCall) (foundPartner : Bool) : StuckLoopState :=
  if opType = 0 then -- send
    selectPartnerLoop info se vc id "CR" st.mostRecentReceive results foundPartner
  else if opType = 1 then -- recv
    let loop := selectPartnerLoop info se vc id "CS" st.mostRecentSend results foundPartner
    if loop.returned then loop
    else selectCloseCheck info st.closeData se id loop.results loop.foundPartner
  else { results := results, foundPartner := foundPartner, returned := false }

/-- The loop `for i, id := range ids { ... }` of `CheckForLeakSelectStuck` over
the cases from index `i` on. `none` is the panic of `opTypes[i]` out of
range. -/
def selectCaseLoop (info : String → Option (String × Int × Int)) (st : AnalysisState)
    (se : TraceElementSelect) (vc : VectorClock) (opTypes : List Int) :
    List Int → Nat → List ResultCall → Bool → Option StuckLoopState
  | [], _, results, foundPartner =>
    some { results := results, foundPartner := foundPartner, returned := false }
  | id :: rest, i, results, foundPartner =>
    match opTypes[i]? with
    | none => none
    | some opType =>
      let step := selectCase info st se vc id opType results foundPartner
      if step.returned then some step
      else selectCaseLoop info st se vc opTypes rest (i + 1) step.results step.foundPartner

/-- The loop of `CheckForLeakSelectStuck` that adds all cases of the select to
`leakingChannels`, from index `i` on. `none` is the panic of `opTypes[i]` or
`buffered[i]` out of range. -/
def selectPushLoop (se : TraceElementSelect) (vc : VectorClock) (opTypes : List Int)
    (buffered : List Bool) :
    List Int → Nat → GoMap (List VectorClockTID2) → Option (GoMap (List VectorClockTID2))
  | [], _, buckets => some buckets
  | id :: rest, i, buckets =>
    match opTypes[i]?, buffered[i]? with
    | some opType, some buf =>
      selectPushLoop se vc opTypes buffered rest (i + 1)
        (GoMap.insert buckets id
          (GoMap.getSlice buckets id ++
            [{ routine := se.routine, id := id, vc := vc, tID := se.GetTID, typeVal := opType,
               val := se.tPre, buffered := buf, sel := true, selID := se.id }]))
    | _, _ => none

/-- `CheckForLeakSelectStuck(se, ids, buffered, vc, opTypes)`, run for a select
without a post event; `none` when the call panics. -/
def CheckForLeakSelectStuck (info : String → Option (String × Int × Int))
    (st : AnalysisState) (se : TraceElementSelect) (ids : List Int) (buffered : List Bool)
    (vc : VectorClock) (opTypes : List Int) : Option AnalysisState :=
  if ids.length = 0 then
    match info se.GetTID with
    | none => some st
    | some (file, line, _) =>
      let arg1 : TraceElementResult :=
        { RoutineID := se.routine, ObjID := se.id, TPre := se.tPre, ObjType := "SS",
          File := file, Line := line }
      some { st with results := st.results ++
        [{ level := ResultLevel.CRITICAL, resType := LSelectWithout, argType1 := "select",
           arg1 := [arg1], argType2 := "", arg2 := [] }] }
  else
    match selectCaseLoop info st se vc opTypes ids 0 st.results false with
    | none => none
    | some loop =>
      if loop.returned then some { st with results := loop.results }
      else if !loop.foundPartner then
        match selectPushLoop se vc opTypes buffered ids 0 st.leakingChannels with
        | none => none
        | some buckets => some { st with results := loop.results, leakingChannels := buckets }
      else some { st with results := loop.results }

/-- The possible partners of a case on channel `id` of a stuck select with the
clock `vc` in a recency index: the routines whose most recent operation on
the channel has a clock with which `vc` compares as `Concurrent`. -/
def selectPartners (index : GoMap (GoMap VectorClockTID3)) (id : Int)
    (vc : VectorClock) : List (Int × VectorClockTID3) :=
  index.filterMap (fun entry =>
    match GoMap.lookup entry.2 id with
    | none => none
    | some op =>
      if GetHappensBefore vc op.Vc = HappensBefore.Concurrent then some (entry.1, op) else none)

/-- A case of a stuck select, on channel `id` with the operation `opType`, has
a partner in the state: a send case (`opType = 0`) a possible partner among the
most recent receives, a receive case (`opType = 1`) a possible partner among
the most recent sends or a recorded close of the channel. -/
def caseHasPartner (st : AnalysisState) (vc : VectorClock) (id : Int) (opType : Int) : Prop :=
  (opType = 0 ∧ selectPartners st.mostRecentReceive id vc ≠ []) ∨
    (opType = 1 ∧
      (selectPartners st.mostRecentSend id vc ≠ [] ∨ (GoMap.lookup st.closeData id).isSome))

/-- The leak-bucket entries of the cases of a select from case `i` on, one for
each channel id of the list: the entry of a case carries the routine, the
clock, the TID, the pre and the id of the select, and the channel id, the
operation and the buffered flag of the case. -/
def selectEntriesFrom (se : TraceElementSelect) (vc : VectorClock) (opTypes : List Int)
    (buffered : List Bool) : List Int → Nat → List VectorClockTID2
  | [], _ => []
  | id :: rest, i =>
    { routine := se.routine, id := id, vc := vc, tID := se.GetTID,
      typeVal := opTypes.getD i 0, val := se.tPre, buffered := buffered.getD i false,
      sel := true, selID := se.id } :: selectEntriesFrom se vc opTypes buffered rest (i + 1)

/-- A result of `CheckForLeakSelectStuck` for a select with a partner: critical,
of kind `LSelectWith`, with the select as the first participant and one
partner. -/
def IsSelectWithCall (se : TraceElementSelect) (file1 : String) (line1 : Int)
    (call : ResultCall) : Prop :=
  call.level = ResultLevel.CRITICAL ∧ call.resType = LSelectWith ∧
    call.argType1 = "select" ∧
    call.arg1 = [{ RoutineID := se.routine, ObjID := se.id, TPre := se.tPre, ObjType := "SS",
                   File := file1, Line := line1 }] ∧
    call.argType2 = "partner" ∧ call.arg2.length = 1

/-- The search of `checkForLeak` for a partner of the bucket entry `vcTID`
among the recorded select cases: the loop `for _, c := range selectCases`
with its `break`. It gives the partner, if one is found, and the value of the
variable `buffered` after the loop. -/
def leakPartnerLoop (vcTID : VectorClockTID2) :
    List allSelectCase → Bool → Option allSelectCase × Bool
  | [], buffered => (none, buffered)
  | c :: rest, buffered =>
    if c.chanID ≠ vcTID.id then leakPartnerLoop vcTID rest buffered
    else if (c.send ∧ vcTID.typeVal = 0) ∨ (¬ c.send ∧ vcTID.typeVal = 1) then
      leakPartnerLoop vcTID rest buffered
    else
      let hb := GetHappensBefore c.vcTID.Vc vcTID.vc
      if hb = HappensBefore.Concurrent then
        (some c, if c.buffered then true else buffered)
      else if c.buffered then
        if (c.send ∧ hb = HappensBefore.Before) ∨ (¬ c.send ∧ hb = HappensBefore.After) then
          (some c, true)
        else leakPartnerLoop vcTID rest buffered
      else leakPartnerLoop vcTID rest buffered

/-- The test of `checkForLeak` that pairs the bucket entry `vcTID` with the
recorded select case `c`: the case is on the channel of the entry, the
direction test does not skip it, and the comparison `hb` of the clock of the
case with the clock of the entry is `Concurrent`, or the case is buffered and
`(c.send && hb == Before) || (!c.send && hb == After)`. -/
def casePairs (vcTID : VectorClockTID2) (c : allSelectCase) : Prop :=
  c.chanID = vcTID.id ∧
    ¬ ((c.send ∧ vcTID.typeVal = 0) ∨ (¬ c.send ∧ vcTID.typeVal = 1)) ∧
    (GetHappensBefore c.vcTID.Vc vcTID.vc = HappensBefore.Concurrent ∨
      (c.buffered ∧
        ((c.send ∧ GetHappensBefore c.vcTID.Vc vcTID.vc = HappensBefore.Before) ∨
          (¬ c.send ∧ GetHappensBefore c.vcTID.Vc vcTID.vc = HappensBefore.After))))

instance (vcTID : VectorClockTID2) (c : allSelectCase) : Decidable (casePairs vcTID c) := by
  unfold casePairs
  infer_instance

/-- The body of the loop `for _, vcTID := range vcTIDs` of `checkForLeak` for
one bucket entry: the results it emits and the value of the variable
`buffered` afterwards, from the value before (the variable is declared once
for the bucket, outside this loop). -/
def leakEntry (info : String → Option (String × Int × Int)) (selectCases : List allSelectCase)
    (vcTID : VectorClockTID2) (buffered : Bool) : List ResultCall × Bool :=
  if vcTID.tID = "" then ([], buffered)
  else
    match leakPartnerLoop vcTID selectCases buffered with
    | (some partner, buffered) =>
      match info vcTID.tID with
      | none => ([], buffered)
      | some (file1, line1, tPre1) =>
        match info partner.vcTID.TID with
        | none => ([], buffered)
        | some (file2, line2, tPre2) =>
          let arg2 : TraceElementResult := -- select
            { RoutineID := partner.vcTID.Routine, ObjID := partner.sel.GetID, TPre := tPre2,
              ObjType := "SS", File := file2, Line := line2 }
          if vcTID.sel then
            let arg1 : TraceElementResult := -- select
              { RoutineID := vcTID.routine, ObjID := vcTID.id, TPre := tPre1, ObjType := "SS",
                File := file1, Line := line1 }
            ([{ level := ResultLevel.CRITICAL, resType := LSelectWith, argType1 := "select",
                arg1 := [arg1], argType2 := "partner", arg2 := [arg2] }], buffered)
          else
            let obType : String := if vcTID.typeVal = 0 then "C" ++ "S" else "C" ++ "R"
            let bugType : ResultType := if buffered then LBufferedWith else LUnbufferedWith
            let arg1 : TraceElementResult := -- channel
              { RoutineID := vcTID.routine, ObjID := vcTID.id, TPre := tPre1,
                ObjType := obType, File := file1, Line := line1 }
            ([{ level := ResultLevel.CRITICAL, resType := bugType, argType1 := "channel",
                arg1 := [arg1], argType2 := "partner", arg2 := [arg2] }], buffered)
    | (none, buffered) =>
      if vcTID.sel then
        match info vcTID.tID with
        | none => ([], buffered)
        | some (file, line, tPre) =>
          let arg1 : TraceElementResult :=
            { RoutineID := vcTID.routine, ObjID := vcTID.selID, TPre := tPre, ObjType := "SS",
              File := file, Line := line }
          ([{ level := ResultLevel.CRITICAL, resType := LSelectWithout, argType1 := "select",
              arg1 := [arg1], argType2 := "", arg2 := [] }], buffered)
      else
        let objType : String := if vcTID.typeVal = 0 then "C" ++ "S" else "C" ++ "R"
        match info vcTID.tID with
        | none => ([], buffered)
        | some (file, line, tPre) =>
          let arg1 : TraceElementResult :=
            { RoutineID := vcTID.routine, ObjID := vcTID.id, TPre := tPre, ObjType := objType,
              File := file, Line := line }
          let bugType : ResultType := if buffered then LBufferedWithout else LUnbufferedWithout
          ([{ level := ResultLevel.CRITICAL, resType := bugType, argType1 := "channel",
              arg1 := [arg1], argType2 := "", arg2 := [] }], buffered)

/-- The loop `for _, vcTID := range vcTIDs` of `checkForLeak` over the entries
of one bucket: the results emitted, from the value of `buffered` so far. -/
def leakBucket (info : String → Option (String × Int × Int)) (selectCases : List allSelectCase) :
    List VectorClockTID2 → Bool → List ResultCall
  | [], _ => []
  | vcTID :: rest, buffered =>
    let step := leakEntry info selectCases vcTID buffered
    step.1 ++ leakBucket info selectCases rest step.2

/-- The value of the variable `buffered` of `checkForLeak` after the entries
of a list, from its value before. -/
def leakCarry (info : String → Option (String × Int × Int)) (selectCases : List allSelectCase) :
    List VectorClockTID2 → Bool → Bool
  | [], buffered => buffered
  | vcTID :: rest, buffered =>
    leakCarry info selectCases rest (leakEntry info selectCases vcTID buffered).2

/-- `checkForLeak()`: the loop `for _, vcTIDs := range leakingChannels`, with
`buffered := false` at the start of every bucket. -/
def checkForLeak (info : String → Option (String × Int × Int)) (st : AnalysisState) :
    AnalysisState :=
  { st with results := st.results ++
      st.leakingChannels.flatMap (fun bucket =>
        leakBucket info st.selectCases bucket.2 false) }

/-- The possible partners of a stuck operation on channel `id` with clock `vc`
in a recency index: the routines whose most recent operation on the channel
has a clock `Concurrent` with `vc`, each with that operation. -/
def concurrentPartners (index : GoMap (GoMap VectorClockTID3)) (id : Int)
    (vc : VectorClock) : List (Int × VectorClockTID3) :=
  index.filterMap (fun entry =>
    match GoMap.lookup entry.2 id with
    | none => none
    | some mr =>
      if GetHappensBefore mr.Vc vc = HappensBefore.Concurrent then some (entry.1, mr)
      else none)

/-- Go's `strconv.Atoi` on the characters of a string, as the pair of its
value and whether it succeeded: on a syntax error the value is 0, on a value
outside the 64-bit range it is the nearest bound. -/
def strconvAtoi (s : List Char) : Int × Bool :=
  match atoiChars s with
  | none => (0, false)
  | some n =>
    if n > mathMaxInt then (mathMaxInt, false)
    else if n < -mathMaxInt - 1 then (-mathMaxInt - 1, false)
    else (n, true)

/-- `CheckForLeakMutex(mu)`, run for a mutex operation without a post event.
`none` is the panic of the call `mostRecentAcquireTotal[mu.id].Elem.GetTID()`
when the map has no entry for the mutex (the element of the zero value is
nil). -/
def CheckForLeakMutex (info : String → Option (String × Int × Int))
    (st : AnalysisState) (mu : TraceElementMutex) : Option AnalysisState :=
  match info mu.GetTID with
  | none => some st
  | some (file1, line1, tPre1) =>
    match GoMap.lookup st.mostRecentAcquireTotal mu.id with
    | none => none
    | some acquire =>
      match info acquire.Elem.GetTID with
      | none => some st
      | some (file2, line2, tPre2) =>
        let objType1 : Option String :=
          if mu.opM = OpMutex.LockOp then some ("M" ++ "L") -- lock
          else if mu.opM = OpMutex.RLockOp then some ("M" ++ "R") -- rlock
          else none -- only lock and rlock can lead to leak
        match objType1 with
        | none => some st
        | some objType1 =>
          let objType2 : Option String :=
            if acquire.Val = OpMutex.LockOp.toInt then some ("M" ++ "L")
            else if acquire.Val = OpMutex.RLockOp.toInt then some ("M" ++ "R")
            else if acquire.Val = OpMutex.TryLockOp.toInt then some ("M" ++ "T")
            else if acquire.Val = OpMutex.TryRLockOp.toInt then some ("M" ++ "Y")
            else none
          match objType2 with
          | none => some st
          | some objType2 =>
            let arg1 : TraceElementResult :=
              { RoutineID := mu.routine, ObjID := mu.id, TPre := tPre1, ObjType := objType1,
                File := file1, Line := line1 }
            let arg2 : TraceElementResult :=
              { RoutineID := acquire.Elem.GetRoutine, ObjID := mu.id, TPre := tPre2,
                ObjType := objType2, File := file2, Line := line2 }
            some { st with results := st.results ++
              [{ level := ResultLevel.CRITICAL, resType := LMutex, argType1 := "mutex",
                 arg1 := [arg1], argType2 := "last", arg2 := [arg2] }] }

/-- `addMostRecentAcquireTotal(mu, vc, op)`; `none` is the panic of `vc.Copy()`
on a clock of size 0. -/
def addMostRecentAcquireTotal (st : AnalysisState) (mu : TraceElementMutex)
    (vc : VectorClock) (op : Int) : Option AnalysisState :=
  match vc.Copy with
  | none => none
  | some copy =>
    let entry : VectorClockTID3 := { Elem := .mutex mu, Vc := copy, Val := op }
    some { st with
      mostRecentAcquireTotal := GoMap.insert st.mostRecentAcquireTotal mu.id entry }

/-- The file and line that `checkForStuckRoutine` takes from the fork of a
routine: `""` and `-1` unless a fork is recorded whose position splits at `:`
into exactly two parts, then the first part and the value `strconv.Atoi` gives
for the second (its error is dropped). -/
def forkFileLine (allForks : GoMap TraceElementFork) (routine : Int) : String × Int :=
  match GoMap.lookup allForks routine with
  | none => ("", -1)
  | some p =>
    match splitChars ':' p.GetPos.data with
    | [file, line] => (String.mk file, (strconvAtoi line).1)
    | _ => ("", -1)

/-- The body of the loop of `checkForStuckRoutine` for one routine and its
trace: the result it emits, if any. `LWithoutBlock` is the constant
`results.LWithoutBlock`, whose value is not among the sources. -/
def stuckRoutineResult (LWithoutBlock : ResultType) (allForks : GoMap TraceElementFork)
    (routine : Int) (trace : List TraceElement) : Option ResultCall :=
  match trace.getLast? with
  | none => none -- len(trace) < 1
  | some lastElem =>
    if lastElem.isRoutineEnd then none
    -- do not record extra if a leak with a blocked operation is present
    else if lastElem.getTpost = 0 then none
    else
      let fileLine := forkFileLine allForks routine
      let arg : TraceElementResult :=
        { RoutineID := routine, ObjID := -1, TPre := lastElem.GetTPre, ObjType := "GE",
          File := fileLine.1, Line := fileLine.2 }
      some { level := ResultLevel.CRITICAL, resType := LWithoutBlock, argType1 := "fork",
             arg1 := [arg], argType2 := "", arg2 := [] }

/-- `checkForStuckRoutine()`: the loop `for routine, trace := range traces`. -/
def checkForStuckRoutine (LWithoutBlock : ResultType) (st : AnalysisState) : AnalysisState :=
  { st with results := st.results ++
      st.traces.filterMap (fun entry =>
        stuckRoutineResult LWithoutBlock st.allForks entry.1 entry.2) }

/-! ## analyzer/analysis/analysisResourceDeadlock.go: recording -/

/-- A Go map with keys of a comparable type `κ`, as the list of its entries in
the order `range` visits them. -/
abbrev GoMapK (κ : Type) (α : Type) := List (κ × α)

/-- The read `v, ok := m[k]`. -/
def GoMapK.lookup {κ α : Type} [DecidableEq κ] : GoMapK κ α → κ → Option α
  | [], _ => none
  | (k2, v) :: rest, k => if k2 = k then some v else GoMapK.lookup rest k

/-- The write `m[k] = v`. -/
def GoMapK.insert {κ α : Type} [DecidableEq κ] : GoMapK κ α → κ → α → GoMapK κ α
  | [], k, v => [(k, v)]
  | (k2, v2) :: rest, k, v =>
    if k2 = k then (k, v) :: rest else (k2, v2) :: GoMapK.insert rest k v

/-- The read `m[k]` of a map of slices: a missing key gives the nil slice. -/
def GoMapK.getSlice {κ α : Type} [DecidableEq κ] (m : GoMapK κ (List α)) (k : κ) : List α :=
  (GoMapK.lookup m k).getD []

/-- `type ThreadId int`. -/
abbrev ThreadId := Int

/-- `type LockId struct { id int; readLock bool }`. -/
structure LockId where
  id : Int
  readLock : Bool
  deriving DecidableEq, Repr

/-- `type Lockset map[LockId]struct{}`: a set of lock ids. The methods below
do not depend on the order in which `range` visits the keys, so the map is
embedded as a finite set. -/
abbrev Lockset := Finset LockId

/-- `ls.empty()`: `len(ls) == 0`. -/
def Lockset.empty (ls : Lockset) : Bool := decide (ls.card = 0)

/-- `ls.add(x)`: `ls[x] = struct{}{}`. -/
def Lockset.add (ls : Lockset) (x : LockId) : Lockset := Insert.insert x ls

/-- `ls.remove(x)`: `delete(ls, x)`. -/
def Lockset.remove (ls : Lockset) (x : LockId) : Lockset := ls.erase x

/-- `ls.Clone()`: a new map with the keys of `ls`; as a value, the same set. -/
def Lockset.Clone (ls : Lockset) : Lockset := ls

/-- `ls.equal(ls2)`: the same length, and every key of `ls` is in `ls2`. -/
def Lockset.equal (ls ls2 : Lockset) : Bool :=
  if ls.card ≠ ls2.card then false
  else decide (∀ l ∈ ls, l ∈ ls2)

/-- `ls.disjoint(ls2)`: no key of `ls` is in `ls2`. -/
def Lockset.disjoint (ls ls2 : Lockset) : Bool :=
  decide (∀ l ∈ ls, l ∉ ls2)

/-- `type Event struct { thread_id ThreadId; trace_id string; vector_clock clock.VectorClock }`. -/
structure Event where
  thread_id : ThreadId
  trace_id : String
  vector_clock : VectorClock

/-- `type Dep struct { ls Lockset; requests []Event }`. -/
structure Dep where
  ls : Lockset
  requests : List Event

/-- `type Thread struct`: the id of the thread, its current lockset, and its
lock dependencies by lock. -/
structure Thread where
  thread_id : ThreadId
  lockset : Lockset
  lock_dependencies : GoMapK LockId (List Dep)

/-- `type Entry struct { thread_id ThreadId; requests []Event }`. -/
structure Entry where
  thread_id : ThreadId
  requests : List Event

/-- `type Cycle []Entry`. -/
abbrev Cycle := List Entry

/-- `type State struct { threads map[ThreadId]Thread; cycles []Cycle }`. -/
structure State where
  threads : GoMap Thread := []
  cycles : List Cycle := []

/-- `insert(ds, ls, event)`: add the event to the dependency that has the
lockset `ls`, or append a new dependency with a clone of `ls`. -/
def insert : List Dep → Lockset → Event → List Dep
  | [], ls, event => [{ ls := ls.Clone, requests := [event] }]
  | v :: rest, ls, event =>
    if v.ls.equal ls then { v with requests := v.requests ++ [event] } :: rest
    else v :: insert rest ls event

/-- `acquire(s, lockId, event)`. The thread is created when it does not exist;
its lockset and its dependencies are Go maps, so the changes made through the
copy `s.threads[event.thread_id]` reach the state. -/
def acquire (s : State) (lockId : LockId) (event : Event) : State :=
  let thread : Thread :=
    match GoMap.lookup s.threads event.thread_id with
    | some thread => thread
    | none => { thread_id := event.thread_id, lockset := ∅, lock_dependencies := [] }
  let ls := thread.lockset
  let deps :=
    if !ls.empty then
      GoMapK.insert thread.lock_dependencies lockId
        (insert (GoMapK.getSlice thread.lock_dependencies lockId) ls event)
    else thread.lock_dependencies
  let thread2 : Thread := { thread with lock_dependencies := deps, lockset := ls.add lockId }
  { s with threads := GoMap.insert s.threads event.thread_id thread2 }

/-- `release(s, lockId, event)`. For a thread that does not exist the read
`s.threads[event.thread_id]` gives the zero value, whose lockset is the nil
map, and `delete` on it does nothing. -/
def release (s : State) (lockId : LockId) (event : Event) : State :=
  match GoMap.lookup s.threads event.thread_id with
  | none => s
  | some thread =>
    let thread2 : Thread := { thread with lockset := thread.lockset.remove lockId }
    { s with threads := GoMap.insert s.threads event.thread_id thread2 }

/-- The current lockset of a thread in a state, empty for a thread the state
does not have. -/
def State.locksetOf (s : State) (t : ThreadId) : Lockset :=
  match GoMap.lookup s.threads t with
  | some thread => thread.lockset
  | none => ∅

/-- The dependencies recorded for a thread and a lock in a state. -/
def State.depsOf (s : State) (t : ThreadId) (l : LockId) : List Dep :=
  match GoMap.lookup s.threads t with
  | some thread => GoMapK.getSlice thread.lock_dependencies l
  | none => []

/-- The number of events recorded in a list of dependencies. -/
def requestCount (ds : List Dep) : Nat :=
  (ds.map (fun d => d.requests.length)).sum

/-- Example: a stuck send of routine 2 on the buffered channel 7. -/
def exStuckSend : TraceElementChannel :=
  { routine := 2, tPre := 9, tPost := 0, id := 7, opC := .SendOp, cl := false, oID := 0,
    qSize := 1, pos := "a.go:12" }

/-- Example: a completed receive of routine 3 on channel 7. -/
def exRecv : TraceElementChannel :=
  { routine := 3, tPre := 4, tPost := 5, id := 7, opC := .RecvOp, cl := false, oID := 1,
    qSize := 1, pos := "a.go:30" }

/-- Example state: routine 3 has a most recent receive on channel 7 with the
clock `[0, 3]`, routine 1 has one with the clock `[1, 0]`; no bucket, no
result so far. -/
def exState : AnalysisState :=
  { mostRecentReceive :=
      [(3, [(7, { Elem := .channel exRecv, Vc := exClockC, Val := 1 })]),
       (1, [(7, { Elem := .channel { exRecv with routine := 1, pos := "a.go:40" },
                  Vc := exClockA, Val := 1 })])] }

/-- Example: a stuck send of routine 1 on the nil channel whose recorded
position has no line number. -/
def exNilSend : TraceElementChannel :=
  { routine := 1, tPre := 5, tPost := 0, id := -1, opC := .SendOp, cl := false, oID := 0,
    qSize := 0, pos := "a.go" }

/-- Example: a stuck receive of routine 1 on the nil channel. -/
def exNilRecv : TraceElementChannel :=
  { routine := 1, tPre := 5, tPost := 0, id := -1, opC := .RecvOp, cl := false, oID := 0,
    qSize := 0, pos := "a.go:8" }

/-- Example: a stuck `Lock` of routine 2 on mutex 4, recorded at `m.go:7`. -/
def exStuckLock : TraceElementMutex :=
  { routine := 2, tPre := 11, tPost := 0, id := 4, rw := false, opM := .LockOp, suc := true,
    pos := "m.go:7" }

/-- Example: a completed `TryLock` of routine 1 on mutex 4, recorded at
`m.go:3`. -/
def exTryLock : TraceElementMutex :=
  { routine := 1, tPre := 6, tPost := 8, id := 4, rw := false, opM := .TryLockOp, suc := true,
    pos := "m.go:3" }

/-- Example state: the most recent acquire of mutex 4 is the `TryLock` of
routine 1. -/
def exMutexState : AnalysisState :=
  { mostRecentAcquireTotal :=
      [(4, { Elem := .mutex exTryLock, Vc := exClockA, Val := OpMutex.TryLockOp.toInt })] }

/-- Example state for the stuck routines. Routine 1 ends with a routine end;
routine 2 ends with a completed receive and was forked at `main.go:21`;
routine 3 ends with a send that never completed; routine 4 has no event;
routine 5 ends with a completed receive and has no recorded fork. -/
def exRoutineState : AnalysisState :=
  { traces :=
      [(1, [.channel exRecv, .routineEnd { routine := 1, tPre := 20 }]),
       (2, [.channel { exRecv with routine := 2 }]),
       (3, [.channel exStuckSend]),
       (4, []),
       (5, [.channel { exRecv with routine := 5, tPre := 14, tPost := 15 }])],
    allForks :=
      [(2, { routine := 1, tPre := 2, tPost := 3, id := 2, pos := "main.go:21" }),
       (3, { routine := 1, tPre := 4, tPost := 5, id := 3, pos := "main.go:22" })] }

/-- Example state for the position of the fork. Routines 2 and 3 end with a
completed receive; the fork of routine 2 is recorded with the position
`main.go:xx`, the fork of routine 3 with the position `:`. -/
def exForkPosState : AnalysisState :=
  { traces :=
      [(2, [.channel { exRecv with routine := 2 }]),
       (3, [.channel { exRecv with routine := 3 }])],
    allForks :=
      [(2, { routine := 1, tPre := 2, tPost := 3, id := 2, pos := "main.go:xx" }),
       (3, { routine := 1, tPre := 4, tPost := 5, id := 3, pos := ":" })] }

/-- Example events of threads 1 and 2. -/
def exEventA : Event := { thread_id := 1, trace_id := "d.go:5@3", vector_clock := exClockA }

/-- Example: a later event of thread 1. -/
def exEventA2 : Event := { thread_id := 1, trace_id := "d.go:6@8", vector_clock := exClockB }

/-- Example: an event of thread 2. -/
def exEventB : Event := { thread_id := 2, trace_id := "d.go:9@4", vector_clock := exClockC }

/-- Example: a stuck receive of routine 2 on the buffered channel 7. -/
def exStuckRecv : TraceElementChannel :=
  { routine := 2, tPre := 9, tPost := 0, id := 7, opC := .RecvOp, cl := false, oID := 0,
    qSize := 1, pos := "a.go:12" }

/-- Example: the clock, TID and routine of a completed send of routine 3 on
channel 7, with the clock `[0, 3]`. -/
def exSendVcTID : VectorClockTID := { Vc := exClockC, TID := "a.go:30@4", Routine := 3 }

/-- Example: the leak-bucket entry of the stuck send of routine 2 on the
buffered channel 7, as `CheckForLeakChannelStuck` pushes it, with the clock
`[1, 2]`. -/
def exSendEntry : VectorClockTID2 :=
  { routine := 2, id := 7, vc := exClockB, tID := "a.go:12@9", typeVal := 0, val := -1,
    buffered := true, sel := false, selID := 0 }

/-- Example: a stuck select of routine 4 with the pre timestamp 1. -/
def exSelect : TraceElementSelect :=
  { routine := 4, tPre := 1, tPost := 0, id := 12, pos := "s.go:3" }

/-- Example: a recorded receive case on the buffered channel 7 of a select of
routine 5, with the clock `[1, 0]`. -/
def exRecvCase : allSelectCase :=
  { sel := { routine := 5, tPre := 2, tPost := 3, id := 13, pos := "s.go:9" }, chanID := 7,
    vcTID := { Vc := exClockA, TID := "s.go:9@2", Routine := 5 }, send := false,
    buffered := true }

/-- Example: the leak-bucket entry of the receive case on channel 5 of the
stuck select `exSelect`, as `CheckForLeakSelectStuck` pushes it. -/
def exSelectEntry : VectorClockTID2 :=
  { routine := 4, id := 5, vc := exClockB, tID := exSelect.GetTID, typeVal := 1, val := 1,
    buffered := false, sel := true, selID := 12 }

/-- Example: the close of channel 7 by routine 1, with the clock `[1, 0]`. -/
def exClose : TraceElementChannel :=
  { routine := 1, tPre := 2, tPost := 3, id := 7, opC := .CloseOp, cl := false, oID := 0,
    qSize := 1, pos := "a.go:50", vc := exClockA }

/-- The entries the branch of `CheckForLeakChannelRun` for the operation kind
`opType` looks at, with the tags of its results; no entry for a kind that is
not send, receive or close. -/
def runTags (opType : Int) : VectorClockTID2 → Option (String × String) :=
  if opType = 0 ∨ opType = 2 then runTagsSendClose opType
  else if opType = 1 then runTagsRecv
  else fun _ => none

/-- An entry that the branch with the tags `tags` can match against the
completed operation `vcTID`: the branch looks at it and its clock is
`Concurrent` to the clock of the operation. -/
def runMatches (tags : VectorClockTID2 → Option (String × String)) (vcTID : VectorClockTID)
    (m : VectorClockTID2) : Bool :=
  (tags m).isSome && decide (GetHappensBefore m.vc vcTID.Vc = HappensBefore.Concurrent)

/-- An entry `e` whose `val` is not the `val` of any entry of the bucket that
the branch can match: it is neither matched nor removed together with a
matched entry. -/
def runKeeps (tags : VectorClockTID2 → Option (String × String)) (vcTID : VectorClockTID)
    (bucket : List VectorClockTID2) (e : VectorClockTID2) : Bool :=
  bucket.all (fun m => !(runMatches tags vcTID m && decide (m.val = e.val)))

/-- The invariant of the loops of `CheckForLeakChannelRun` on the bucket
`orig` of channel `objID` in the buckets `buckets0`: the slice is the start of
the array, the array holds entries of `orig` only, the slice is `orig` with
some entries left out, in the same order, the entries that `keep` marks are
all still there, no other bucket has changed, and no bucket holds an entry
that was not in a bucket before. -/
structure RunInv (keep : VectorClockTID2 → Bool) (objID : Int) (orig : List VectorClockTID2)
    (buckets0 : GoMap (List VectorClockTID2)) (s : RunLoopState) : Prop where
  isTake : GoMap.getSlice s.buckets objID =
    s.backing.take (GoMap.getSlice s.buckets objID).length
  backingMem : ∀ x ∈ s.backing, x ∈ orig
  isSublist : (GoMap.getSlice s.buckets objID).Sublist orig
  kept : (GoMap.getSlice s.buckets objID).filter keep = orig.filter keep
  others : ∀ c, c ≠ objID → GoMap.lookup s.buckets c = GoMap.lookup buckets0 c
  entriesMem : ∀ b ∈ s.buckets, ∀ e ∈ b.2, e ∈ orig ∨ ∃ b0 ∈ buckets0, e ∈ b0.2

/-- Example: the leak-bucket entry of a receive case on the buffered channel 7
of the stuck select `exSelect`, with the clock `[1, 2]`. -/
def exCase7 : VectorClockTID2 :=
  { routine := 4, id := 7, vc := exClockB, tID := exSelect.GetTID, typeVal := 1, val := 1,
    buffered := true, sel := true, selID := 12 }

/-- Example: the entry of the case of the same select on channel 8. -/
def exCase8 : VectorClockTID2 := { exCase7 with id := 8 }

/-- Example: the leak-bucket entry of the stuck receive `exStuckRecv` of routine
2 on channel 7, with the clock `[1, 2]`. -/
def exPlain : VectorClockTID2 :=
  { routine := 2, id := 7, vc := exClockB, tID := exStuckRecv.GetTID, typeVal := 1, val := -1,
    buffered := true, sel := false, selID := 0 }

/-- Example state: bucket 7 holds the entry of a stuck receive and the entry of
a case of the stuck select, bucket 8 the entry of the other case of the
select. -/
def exCaseState : AnalysisState :=
  { leakingChannels := [(7, [exPlain, exCase7]), (8, [exCase8])] }

/-- A call of one of the three detectors that work on the leak buckets while
the trace is swept, with its arguments. -/
inductive LeakOp where
  | stuck (ch : TraceElementChannel) (vc : VectorClock)
  | selectStuck (se : TraceElementSelect) (ids : List Int) (buffered : List Bool)
      (vc : VectorClock) (opTypes : List Int)
  | run (routineID objID : Int) (vcTID : VectorClockTID) (opType : Int) (buffered : Bool)

/-- Whether the call is a call of `CheckForLeakChannelRun`. -/
def LeakOp.isRun : LeakOp → Bool
  | .stuck _ _ => false
  | .selectStuck _ _ _ _ _ => false
  | .run _ _ _ _ _ => true

/-- The state after one call of a detector; `none` when the call panics. -/
def applyOp (info : String → Option (String × Int × Int)) (st : AnalysisState) :
    LeakOp → Option AnalysisState
  | .stuck ch vc => some (CheckForLeakChannelStuck info st ch vc)
  | .selectStuck se ids buffered vc opTypes =>
    CheckForLeakSelectStuck info st se ids buffered vc opTypes
  | .run routineID objID vcTID opType buffered =>
    (CheckForLeakChannelRun info st routineID objID vcTID opType buffered).map Prod.fst

/-- The state after a sequence of calls of the detectors, one after the
other; `none` when one of them panics. -/
def applyOps (info : String → Option (String × Int × Int)) :
    AnalysisState → List LeakOp → Option AnalysisState
  | st, [] => some st
  | st, op :: rest => (applyOp info st op).bind (fun st2 => applyOps info st2 rest)

/-- The entries of all leak buckets of a state, bucket after bucket in the
order in which `checkForLeak` visits them. -/
def bucketEntries (st : AnalysisState) : List VectorClockTID2 :=
  st.leakingChannels.flatMap (fun bucket => bucket.2)

/-- A result that reports the bucket entry `e`: critical, with one first
participant that carries the routine of the entry and the file, line and pre
that the position lookup gives for the TID of the entry. -/
def IsLeakReport (info : String → Option (String × Int × Int)) (e : VectorClockTID2)
    (call : ResultCall) : Prop :=
  call.level = ResultLevel.CRITICAL ∧
    ∃ r, call.arg1 = [r] ∧ r.RoutineID = e.routine ∧ info e.tID = some (r.File, r.Line, r.TPre)

/-- Example: a sequence of calls of the detectors. The stuck select `exSelect`
with receive cases on the channels 7 and 8, the stuck receive `exStuckRecv` on
channel 7, and the completed send of routine 3 on channel 7 with the clock
`[0, 3]`. -/
def exDrainOps : List LeakOp :=
  [.selectStuck exSelect [7, 8] [true, true] exClockB [1, 1],
   .stuck exStuckRecv exClockB,
   .run 3 7 exSendVcTID 0 true]

/-- Example: the state after the calls `exDrainOps` on the empty state. The
completed send has matched the entry of the select in bucket 7. -/
def exDrainState : AnalysisState :=
  { results :=
      [{ level := ResultLevel.CRITICAL, resType := "L03", argType1 := "channel",
         arg1 := [{ RoutineID := 3, ObjID := 7, TPre := 1, ObjType := "CR", File := "s.go",
                    Line := 3 }],
         argType2 := "partner",
         arg2 := [{ RoutineID := 4, ObjID := 7, TPre := 4, ObjType := "CS", File := "a.go",
                    Line := 30 }] }]
    leakingChannels := [(7, [exPlain]), (8, [exCase8])] }

/-! ## analyzer/analysis/analysisResourceDeadlock.go: eviction and cycles -/

/-- The loop `for i := 1; i <= vc1.GetSize(); i++ { ... }` of the helper
`equalModuloTID` of `insert2`, started at index `i` with `n` iterations
left. -/
def equalModuloLoop (tid : Int) (c1 c2 : Int → Int) : Nat → Int → Bool
  | 0, _ => true
  | n + 1, i =>
    if i = tid then equalModuloLoop tid c1 c2 n (i + 1)
    else if c1 i ≠ c2 i then false
    else equalModuloLoop tid c1 c2 n (i + 1)

/-- The helper `equalModuloTID(tid, vc1, vc2)` of `insert2`: the clocks have
the same size and `vc1[k] == vc2[k]` for all `k` in `1..size` but `tid`.
`GetClock()` reads the map of the clock. -/
def equalModuloTID (tid : ThreadId) (vc1 vc2 : VectorClock) : Bool :=
  if vc1.GetSize ≠ vc2.GetSize then false
  else equalModuloLoop tid vc1.clock vc2.clock vc1.GetSize.toNat 1

/-- The loop `for j, f := range ds[i].requests { ... }` of `insert2`: every
stored event that is equal to `event` modulo its thread is overwritten by
`event`, and `add_vc` is cleared when this happens. The pair is the slice
after the loop and the value of `add_vc`. -/
def evictLoop (event : Event) : List Event → Bool → List Event × Bool
  | [], add_vc => ([], add_vc)
  | f :: rest, add_vc =>
    if equalModuloTID event.thread_id event.vector_clock f.vector_clock then
      ((evictLoop event rest false).1.cons event, (evictLoop event rest false).2)
    else ((evictLoop event rest add_vc).1.cons f, (evictLoop event rest add_vc).2)

/-- `insert2(ds, lockset, event)`, the variant of `insert` with the eviction
strategy. No function of the package calls it. -/
def insert2 : List Dep → Lockset → Event → List Dep
  | [], lockset, event => [{ ls := lockset.Clone, requests := [event] }]
  | v :: rest, lockset, event =>
    if v.ls.equal lockset then
      let loop := evictLoop event v.requests true
      { v with requests := if loop.2 then loop.1 ++ [event] else loop.1 } :: rest
    else v :: insert2 rest lockset event

/-- `type LockDependency struct { thread_id ThreadId; l LockId; ls Lockset; reqs []Event }`. -/
structure LockDependency where
  thread_id : ThreadId
  l : LockId
  ls : Lockset
  reqs : List Event

/-- The loop `for _, d := range *chain_stack { ... }` of `isChain`; false when
the loop returns false. -/
def isChainLoop (dependency : LockDependency) : List LockDependency → Bool
  | [] => true
  | d :: rest =>
    -- Exit early. No two deps can hold the same lock.
    if d.l = dependency.l then false
    -- Check (LD-1)
    else if !d.ls.disjoint dependency.ls then false
    else isChainLoop dependency rest

/-- `isChain(chain_stack, dependency)`. The second loop ranges over the
lockset of the dependency and reads the last element of the stack in every
iteration: with a non-empty lockset and an empty stack this index is out of
range (`none`). -/
def isChain (chain_stack : List LockDependency) (dependency : LockDependency) : Option Bool :=
  if !isChainLoop dependency chain_stack then some false
  -- Check (LD-2) l_i in ls_i+1
  else if dependency.ls = ∅ then some false
  else
    match chain_stack.getLast? with
    | none => none
    | some top => some (decide (top.l ∈ dependency.ls))

/-- `isCycleChain(chain_stack, dependency)`, the check (LD-3); `none` is the
panic of `(*chain_stack)[0]` on an empty stack. -/
def isCycleChain (chain_stack : List LockDependency) (dependency : LockDependency) :
    Option Bool :=
  match chain_stack.head? with
  | none => none
  | some first => some (decide (dependency.l ∈ first.ls))

/-- Why a run of the cycle search stops without a result: a runtime panic of
the Go code, or the recursion bound of the embedding (which `find_cycles`
chooses larger than the depth the recursion can reach). -/
inductive Stop where
  | panic
  | fuel
  deriving DecidableEq, Repr

/-- The cycle that `dfs` reports for the stack and the dependency that closes
it: one entry for every stacked dependency, then one for the closing one. -/
def cycleOf (chain_stack : List LockDependency) (ld : LockDependency) : Cycle :=
  chain_stack.map (fun d => ({ thread_id := d.thread_id, requests := d.reqs } : Entry)) ++
    [{ thread_id := ld.thread_id, requests := ld.reqs }]

/-- The dependencies `s.threads[tid].lock_dependencies` of a thread; a missing
thread gives the nil map. -/
def State.lockDeps (s : State) (tid : ThreadId) : GoMapK LockId (List Dep) :=
  match GoMap.lookup s.threads tid with
  | some thread => thread.lock_dependencies
  | none => []

/-- The loop `for _, l_ls_d := range l_d { ... }` of `dfs`. `dfsRec` is the
recursive call of `dfs`; it leaves the stack and `is_traversed` as they were
(push and pop, set and reset), so only the reported cycles are passed on. -/
def dfsDeps (dfsRec : List LockDependency → (ThreadId → Bool) → List Cycle →
      Except Stop (List Cycle))
    (chain_stack : List LockDependency) (is_traversed : ThreadId → Bool) (tid : ThreadId)
    (l : LockId) : List Dep → List Cycle → Except Stop (List Cycle)
  | [], cycles => .ok cycles
  | l_ls_d :: rest, cycles =>
    let ld : LockDependency :=
      { thread_id := tid, l := l, ls := l_ls_d.ls, reqs := l_ls_d.requests }
    match isChain chain_stack ld with
    | none => .error .panic
    | some false => dfsDeps dfsRec chain_stack is_traversed tid l rest cycles
    | some true =>
      match isCycleChain chain_stack ld with
      | none => .error .panic
      | some true =>
        dfsDeps dfsRec chain_stack is_traversed tid l rest (cycles ++ [cycleOf chain_stack ld])
      | some false =>
        match dfsRec (chain_stack ++ [ld]) (Function.update is_traversed tid true) cycles with
        | .error e => .error e
        | .ok cycles2 => dfsDeps dfsRec chain_stack is_traversed tid l rest cycles2

/-- The loop `for l, l_d := range s.threads[tid].lock_dependencies` of `dfs`. -/
def dfsLocks (dfsRec : List LockDependency → (ThreadId → Bool) → List Cycle →
      Except Stop (List Cycle))
    (chain_stack : List LockDependency) (is_traversed : ThreadId → Bool) (tid : ThreadId) :
    GoMapK LockId (List Dep) → List Cycle → Except Stop (List Cycle)
  | [], cycles => .ok cycles
  | (l, l_d) :: rest, cycles =>
    match dfsDeps dfsRec chain_stack is_traversed tid l l_d cycles with
    | .error e => .error e
    | .ok cycles2 => dfsLocks dfsRec chain_stack is_traversed tid rest cycles2

/-- The loop `for tid := range thread_ids` of `dfs`. -/
def dfsThreads (s : State)
    (dfsRec : List LockDependency → (ThreadId → Bool) → List Cycle →
      Except Stop (List Cycle))
    (chain_stack : List LockDependency) (is_traversed : ThreadId → Bool) :
    List ThreadId → List Cycle → Except Stop (List Cycle)
  | [], cycles => .ok cycles
  | tid :: rest, cycles =>
    if (s.lockDeps tid).length = 0 then
      dfsThreads s dfsRec chain_stack is_traversed rest cycles
    else if !is_traversed tid then
      match dfsLocks dfsRec chain_stack is_traversed tid (s.lockDeps tid) cycles with
      | .error e => .error e
      | .ok cycles2 => dfsThreads s dfsRec chain_stack is_traversed rest cycles2
    else dfsThreads s dfsRec chain_stack is_traversed rest cycles

/-- `dfs(s, chain_stack, visiting, is_traversed, thread_ids)`: the cycles
reported so far are passed in and returned. `thread_ids` lists the keys of the
map in the order `range` visits them, `is_traversed` is the map read by key
(a missing key reads false). The argument `visiting` is not read by the
function. The first argument bounds the depth of the recursion. -/
def dfs (s : State) (thread_ids : List ThreadId) :
    Nat → List LockDependency → (ThreadId → Bool) → List Cycle → Except Stop (List Cycle)
  | 0, _, _, _ => .error .fuel
  | fuel + 1, chain_stack, is_traversed, cycles =>
    dfsThreads s (fun stack2 traversed2 cycles2 => dfs s thread_ids fuel stack2 traversed2 cycles2)
      chain_stack is_traversed thread_ids cycles

/-- The loop `for l, ds := range s.threads[thread_id].lock_dependencies` of
`find_cycles`: all dependencies of the lock are pushed, `dfs` runs once, and
one element is popped. `none` in place of the pop is the panic of
`chain_stack[:len(chain_stack)-1]` on an empty stack. -/
def findLocks (s : State) (thread_ids : List ThreadId) (fuel : Nat) (thread_id : ThreadId)
    (is_traversed : ThreadId → Bool) :
    GoMapK LockId (List Dep) → List LockDependency → List Cycle →
      Except Stop (List LockDependency × List Cycle)
  | [], chain_stack, cycles => .ok (chain_stack, cycles)
  | (l, ds) :: rest, chain_stack, cycles =>
    let pushed := chain_stack ++
      ds.map (fun d =>
        ({ thread_id := thread_id, l := l, ls := d.ls, reqs := d.requests } : LockDependency))
    match dfs s thread_ids fuel pushed is_traversed cycles with
    | .error e => .error e
    | .ok cycles2 =>
      if pushed.length = 0 then .error .panic
      else findLocks s thread_ids fuel thread_id is_traversed rest pushed.dropLast cycles2

/-- The variables of `find_cycles` that live across the loop over the
threads. -/
structure FindState where
  cycles : List Cycle
  chain_stack : List LockDependency
  is_traversed : ThreadId → Bool

/-- The loop `for thread_id := range thread_ids` of `find_cycles`. The entry
of `is_traversed` for the thread is set and never reset. -/
def findThreads (s : State) (thread_ids : List ThreadId) (fuel : Nat) :
    List ThreadId → FindState → Except Stop FindState
  | [], fs => .ok fs
  | thread_id :: rest, fs =>
    if (s.lockDeps thread_id).length = 0 then findThreads s thread_ids fuel rest fs
    else
      let is_traversed := Function.update fs.is_traversed thread_id true
      match findLocks s thread_ids fuel thread_id is_traversed (s.lockDeps thread_id)
          fs.chain_stack fs.cycles with
      | .error e => .error e
      | .ok (stack, cycles) =>
        findThreads s thread_ids fuel rest
          { cycles := cycles, chain_stack := stack, is_traversed := is_traversed }

/-- `find_cycles(s)`: the cycles are appended to `s.cycles`. This is the run in
which every `range` statement over the thread ids visits them in the order of
the list `s.threads`. Go chooses the order anew for every `range` statement it
executes; `find_cyclesAt` takes these orders as an argument, and `find_cycles`
is the case in which they are all the order of the list
(`find_cyclesAt_const`). Every recursive call of `dfs` marks one more thread,
so the depth of the recursion stays below the bound `len(s.threads) + 1`. -/
def find_cycles (s : State) : Except Stop State :=
  let thread_ids := s.threads.map (fun entry => entry.1)
  match findThreads s thread_ids (thread_ids.length + 1) thread_ids
      { cycles := s.cycles, chain_stack := [], is_traversed := fun _ => false } with
  | .error e => .error e
  | .ok fs => .ok { s with cycles := fs.cycles }

/-- `get_cycles(s)`: the state with the cycles found, which are also the
value returned. -/
def get_cycles (s : State) : Except Stop State :=
  find_cycles { s with cycles := [] }

/-- The loop `for i := 0; i < len(cycle); i++ { ... }` of
`checkForResourceDeadlock` over the entries of one cycle, collecting
`cycleElements`. An entry whose position lookup fails is passed over
(`continue`); `none` is the panic of `cycle[i].requests[0]` on an entry without
a request. -/
def cycleElementsLoop (info : String → Option (String × Int × Int)) :
    List Entry → List TraceElementResult → Option (List TraceElementResult)
  | [], cycleElements => some cycleElements
  | entry :: rest, cycleElements =>
    match entry.requests.head? with
    | none => none
    | some request =>
      match info request.trace_id with
      | none => cycleElementsLoop info rest cycleElements
      | some (file, line, tPre) =>
        cycleElementsLoop info rest
          (cycleElements ++
            [{ RoutineID := entry.thread_id, ObjID := 0, TPre := tPre, ObjType := "DC",
               File := file, Line := line }])

/-- The loop `for _, cycle := range currentState.cycles` of
`checkForResourceDeadlock`; `none` is a panic, of the loop over the entries or
of `cycleElements[0]` when no entry of the cycle was collected.
`PCyclicDeadlock` is the constant `results.PCyclicDeadlock`, whose value is not
among the sources. -/
def reportCycles (info : String → Option (String × Int × Int)) (PCyclicDeadlock : ResultType) :
    List Cycle → List ResultCall → Option (List ResultCall)
  | [], results => some results
  | cycle :: rest, results =>
    match cycleElementsLoop info cycle [] with
    | none => none
    | some cycleElements =>
      match cycleElements.head? with
      | none => none
      | some head =>
        reportCycles info PCyclicDeadlock rest
          (results ++
            [{ level := ResultLevel.CRITICAL, resType := PCyclicDeadlock, argType1 := "head",
               arg1 := [head], argType2 := "tail", arg2 := cycleElements }])

/-- `checkForResourceDeadlock()` on the state `s` of the recorder and the
results so far: the state with the cycles found and the results afterwards.
`none` is a panic. -/
def checkForResourceDeadlock (info : String → Option (String × Int × Int))
    (PCyclicDeadlock : ResultType) (s : State) (results : List ResultCall) :
    Option (State × List ResultCall) :=
  match get_cycles s with
  | .error _ => none
  | .ok s2 =>
    match reportCycles info PCyclicDeadlock s2.cycles results with
    | none => none
    | some results2 => some (s2, results2)

/-- `handleMutexEventForRessourceDeadlock(element)` on the state of the
recorder; `none` is the panic of `Copy` on an empty clock. The `switch` has no
case for `TryRLockOp`. -/
def handleMutexEventForRessourceDeadlock (s : State) (element : TraceElementMutex) :
    Option State :=
  match element.GetVC.Copy with
  | none => none
  | some vc =>
    let event : Event :=
      { thread_id := element.GetRoutine, trace_id := element.GetTID, vector_clock := vc }
    match element.opM with
    | .LockOp => some (acquire s { id := element.GetID, readLock := false } event)
    | .TryLockOp =>
      -- Currently suc seems to always be false on trylocks
      if element.suc then some (acquire s { id := element.GetID, readLock := false } event)
      else some s
    | .RLockOp => some (acquire s { id := element.GetID, readLock := true } event)
    | .UnlockOp => some (release s { id := element.GetID, readLock := false } event)
    | .RUnlockOp => some (release s { id := element.GetID, readLock := true } event)
    | .TryRLockOp => some s

/-- A sequence of `acquire` calls, one after the other. -/
def acquireAll (s : State) : List (LockId × Event) → State
  | [] => s
  | call :: rest => acquireAll (acquire s call.1 call.2) rest

/-- The events of the dependency that `insert2` changes: with a stored event
equal to the new one modulo its thread the new event takes the place of every
such event, else it is appended. -/
def evicted (event : Event) (reqs : List Event) : List Event :=
  if reqs.any (fun f => equalModuloTID event.thread_id event.vector_clock f.vector_clock) then
    reqs.map (fun f =>
      if equalModuloTID event.thread_id event.vector_clock f.vector_clock then event else f)
  else reqs ++ [event]

/-- No two events of the list are equal modulo the coordinate of the thread
`tid`. -/
def NoEqualModulo (tid : ThreadId) (reqs : List Event) : Prop :=
  reqs.Pairwise (fun f g => equalModuloTID tid f.vector_clock g.vector_clock = false)

/-- The state of the recorder in the scenario of two threads that acquire two
locks in opposite order: thread `A` has acquired `l1` and then `l2` (event
`eA2`), thread `B` has acquired `l2` and then `l1` (event `eB1`), and `A` was
the first to acquire. -/
def s4State (A B : ThreadId) (l1 l2 : LockId) (eA2 eB1 : Event) : State :=
  { threads :=
      [(A, { thread_id := A, lockset := {l2, l1},
             lock_dependencies := [(l2, [{ ls := {l1}, requests := [eA2] }])] }),
       (B, { thread_id := B, lockset := {l1, l2},
             lock_dependencies := [(l1, [{ ls := {l2}, requests := [eB1] }])] })],
    cycles := [] }

/-- Example: the event of the second acquire of thread 2 in the scenario of two
threads, recorded at `d.go:10`. -/
def exEventB2 : Event := { thread_id := 2, trace_id := "d.go:10@6", vector_clock := exClockC }

/-- A call of the recorder of lock dependencies: `acquire(s, l, e)` or
`release(s, l, e)`. -/
inductive LockCall where
  | acquire (l : LockId) (e : Event)
  | release (l : LockId) (e : Event)

/-- The state after a sequence of `acquire` and `release` calls. -/
def applyLockCalls (s : State) : List LockCall → State
  | [] => s
  | .acquire l e :: rest => applyLockCalls (acquire s l e) rest
  | .release l e :: rest => applyLockCalls (release s l e) rest

/-- Example: an event of thread `tid` recorded at line `n` of `d.go` with the
pre timestamp `n`. -/
def exEventAt (tid : ThreadId) (n : Nat) : Event :=
  { thread_id := tid, trace_id := "d.go:" ++ toString n ++ "@" ++ toString n,
    vector_clock := exClockA }

/-- Example: thread 1 acquires lock 3 twice, once while it holds lock 1 and
once while it holds lock 2. -/
def exDoubleCallsA : List LockCall :=
  [.acquire ⟨1, false⟩ (exEventAt 1 1), .acquire ⟨3, false⟩ (exEventAt 1 2),
   .release ⟨3, false⟩ (exEventAt 1 3), .release ⟨1, false⟩ (exEventAt 1 4),
   .acquire ⟨2, false⟩ (exEventAt 1 5), .acquire ⟨3, false⟩ (exEventAt 1 6)]

/-- Example: thread 2 acquires lock 1 twice, once while it holds lock 3 and
once while it holds lock 4. -/
def exDoubleCallsB : List LockCall :=
  [.acquire ⟨3, false⟩ (exEventAt 2 7), .acquire ⟨1, false⟩ (exEventAt 2 8),
   .release ⟨1, false⟩ (exEventAt 2 9), .release ⟨3, false⟩ (exEventAt 2 10),
   .acquire ⟨4, false⟩ (exEventAt 2 11), .acquire ⟨1, false⟩ (exEventAt 2 12)]

/-- The thread and the events (by TID) of every entry of every cycle of a
run of the cycle search, for display. -/
def cycleSummary (out : Except Stop State) : Option (List (List (ThreadId × List String))) :=
  out.toOption.map (fun s => s.cycles.map (fun c => c.map (fun entry =>
    (entry.thread_id, entry.requests.map (fun e => e.trace_id)))))

/-- Example: a stacked dependency of thread 1 on the write lock 5 under the
lockset that holds the write lock of mutex 1. -/
def exStackedWrite : LockDependency :=
  { thread_id := 1, l := ⟨5, false⟩, ls := {⟨1, false⟩}, reqs := [exEventA] }

/-- Example: a candidate dependency of thread 2 on the write lock 6 under the
lockset that holds the read lock of mutex 1 and the write lock 5. -/
def exCandidateRead : LockDependency :=
  { thread_id := 2, l := ⟨6, false⟩, ls := {⟨1, true⟩, ⟨5, false⟩}, reqs := [exEventB] }

/-- Example: a successful `TryRLock` of routine 1 on mutex 4 with the clock
`[1, 0]`. -/
def exTryRLock : TraceElementMutex :=
  { routine := 1, tPre := 6, tPost := 8, id := 4, rw := true, opM := .TryRLockOp, suc := true,
    pos := "m.go:3", vc := exClockA }

/-- Example clock `[0, 1, 4]` of width 3. -/
def exClockW3 : VectorClock :=
  { size := 3, clock := fun i => if i = 2 then 1 else if i = 3 then 4 else 0 }

/-- The participant that `checkForResourceDeadlock` collects for an entry of
a cycle: none when the position lookup of the first request of the entry
fails. -/
def cycleElement (info : String → Option (String × Int × Int)) (entry : Entry) :
    Option TraceElementResult :=
  match entry.requests.head? with
  | none => none
  | some request =>
    match info request.trace_id with
    | none => none
    | some (file, line, tPre) =>
      some { RoutineID := entry.thread_id, ObjID := 0, TPre := tPre, ObjType := "DC",
             File := file, Line := line }

/-- Example: an event of thread 1 whose recorded position has no line
number. -/
def exEventNoLine : Event := { thread_id := 1, trace_id := "d.go@8", vector_clock := exClockB }

/-- Example clock `[2, 1]` of width 2. -/
def exClockD : VectorClock :=
  { size := 2, clock := fun i => if i = 1 then 2 else if i = 2 then 1 else 0 }

/-- Example state: the routines 3 and 1 have a most recent receive on channel 7
with the clocks `[0, 3]` and `[2, 1]`, the buckets 7 and 8 hold stuck
operations, and the routines 2 and 5 end with a completed receive. The maps are
visited in the orders 3, 1 and 7, 8 and 2, 5. -/
def exOrderStateA : AnalysisState :=
  { mostRecentReceive :=
      [(3, [(7, { Elem := .channel exRecv, Vc := exClockC, Val := 1 })]),
       (1, [(7, { Elem := .channel { exRecv with routine := 1, pos := "a.go:40" },
                  Vc := exClockD, Val := 1 })])]
    leakingChannels := [(7, [exPlain, exCase7]), (8, [exCase8])]
    traces :=
      [(2, [.channel { exRecv with routine := 2 }]),
       (5, [.channel { exRecv with routine := 5, tPre := 14, tPost := 15 }])]
    allForks := [(2, { routine := 1, tPre := 2, tPost := 3, id := 2, pos := "main.go:21" })] }

/-- Example state: the same maps as in `exOrderStateA`, visited in the orders
1, 3 and 8, 7 and 5, 2. -/
def exOrderStateB : AnalysisState :=
  { mostRecentReceive :=
      [(1, [(7, { Elem := .channel { exRecv with routine := 1, pos := "a.go:40" },
                  Vc := exClockD, Val := 1 })]),
       (3, [(7, { Elem := .channel exRecv, Vc := exClockC, Val := 1 })])]
    leakingChannels := [(8, [exCase8]), (7, [exPlain, exCase7])]
    traces :=
      [(5, [.channel { exRecv with routine := 5, tPre := 14, tPost := 15 }]),
       (2, [.channel { exRecv with routine := 2 }])]
    allForks := [(2, { routine := 1, tPre := 2, tPost := 3, id := 2, pos := "main.go:21" })] }

/-- Example clock `[2, 0]` of width 2. -/
def exClockA2 : VectorClock := { size := 2, clock := fun i => if i = 1 then 2 else 0 }

/-- Example: an event of thread 1 with the clock `[2, 0]`, which differs from
the clock `[1, 0]` of `exEventA` in the coordinate of thread 1 only. -/
def exEventA3 : Event := { thread_id := 1, trace_id := "d.go:5@11", vector_clock := exClockA2 }

/-- Example: thread 1 acquires lock 1, then lock 2 (event `exEventA`),
releases lock 2 and acquires it again (event `exEventA3`). -/
def exLoopState : State :=
  acquire (release (acquire (acquire {} ⟨1, false⟩ exEventA2) ⟨2, false⟩ exEventA)
    ⟨2, false⟩ exEventA) ⟨2, false⟩ exEventA3

/-! ## analyzer/io/reader.go -/

/-- Go's `strconv.ParseBool`: `none` is its error. -/
def strconvParseBool (str : String) : Option Bool :=
  if str ∈ ["1", "t", "T", "TRUE", "true", "True"] then some true
  else if str ∈ ["0", "f", "F", "FALSE", "false", "False"] then some false
  else none

/-- The functions of package `analysis` that add an element to the trace and
whose source is not among the sources, on a trace state of type `σ`: each gives
the state afterwards and its `error` (`none` is `nil`). -/
structure TraceAdders (σ : Type) where
  AddElementToTrace : σ → TraceElement → σ × Option String
  AddTraceElementAtomic : σ → Int → String → String → String → String → σ × Option String
  AddTraceElementChannel : σ → Int → String → String → String → String → String → String →
    String → String → σ × Option String
  AddTraceElementMutex : σ → Int → String → String → String → String → String → String →
    String → σ × Option String
  AddTraceElementFork : σ → Int → String → String → String → σ × Option String
  AddTraceElementSelect : σ → Int → String → String → String → String → String → String →
    σ × Option String
  AddTraceElementWait : σ → Int → String → String → String → String → String → String →
    String → σ × Option String
  AddTraceElementCond : σ → Int → String → String → String → String → String →
    σ × Option String
  AddTraceElementRoutineEnd : σ → Int → String → σ × Option String

/-- `AddTraceElementOnce(routine, tPre, tPost, id, suc, pos)` of
`traceElementOnce.go`: the trace state afterwards and the returned `error`. -/
def AddTraceElementOnce {σ : Type} (adders : TraceAdders σ) (st : σ) (routine : Int)
    (tPre tPost id suc pos : String) : σ × Option String :=
  let tPreInt := strconvAtoi tPre.data
  if tPreInt.2 = false then (st, some "tpre is not an integer")
  else
    let tPostInt := strconvAtoi tPost.data
    if tPostInt.2 = false then (st, some "tpost is not an integer")
    else
      let idInt := strconvAtoi id.data
      if idInt.2 = false then (st, some "id is not an integer")
      else
        match strconvParseBool suc with
        | none => (st, some "suc is not a boolean")
        | some sucBool =>
          adders.AddElementToTrace st
            (.once { routine := routine, tPre := tPreInt.1, tPost := tPostInt.1, id := idInt.1,
                     suc := sucBool, pos := pos, vc := { size := 0, clock := fun _ => 0 } })

/-- `strings.Split(element, ",")`. -/
def lineFields (element : String) : List String :=
  (splitChars ',' element.data).map String.mk

/-- `processElement(element, routine, ignoreAtomics)`: the trace state
afterwards and the returned `error`. `none` is the panic of an index
expression `fields[i]` with `i` not below the number of fields. -/
def processElement {σ : Type} (adders : TraceAdders σ) (st : σ) (element : String)
    (routine : Int) (ignoreAtomics : Bool) : Option (σ × Option String) :=
  if element = "" then some (st, some "Element is empty")
  else
    let fields := lineFields element
    match fields[0]? with
    | none => none
    | some tag =>
      if tag = "A" then
        if ignoreAtomics then some (st, none)
        else do
          let f1 ← fields[1]?
          let f2 ← fields[2]?
          let f3 ← fields[3]?
          let f4 ← fields[4]?
          pure (adders.AddTraceElementAtomic st routine f1 f2 f3 f4)
      else if tag = "C" then do
        let f1 ← fields[1]?
        let f2 ← fields[2]?
        let f3 ← fields[3]?
        let f4 ← fields[4]?
        let f5 ← fields[5]?
        let f6 ← fields[6]?
        let f7 ← fields[7]?
        let f8 ← fields[8]?
        pure (adders.AddTraceElementChannel st routine f1 f2 f3 f4 f5 f6 f7 f8)
      else if tag = "M" then do
        let f1 ← fields[1]?
        let f2 ← fields[2]?
        let f3 ← fields[3]?
        let f4 ← fields[4]?
        let f5 ← fields[5]?
        let f6 ← fields[6]?
        let f7 ← fields[7]?
        pure (adders.AddTraceElementMutex st routine f1 f2 f3 f4 f5 f6 f7)
      else if tag = "G" then do
        let f1 ← fields[1]?
        let f2 ← fields[2]?
        let f3 ← fields[3]?
        pure (adders.AddTraceElementFork st routine f1 f2 f3)
      else if tag = "S" then do
        let f1 ← fields[1]?
        let f2 ← fields[2]?
        let f3 ← fields[3]?
        let f4 ← fields[4]?
        let f5 ← fields[5]?
        let f6 ← fields[6]?
        pure (adders.AddTraceElementSelect st routine f1 f2 f3 f4 f5 f6)
      else if tag = "W" then do
        let f1 ← fields[1]?
        let f2 ← fields[2]?
        let f3 ← fields[3]?
        let f4 ← fields[4]?
        let f5 ← fields[5]?
        let f6 ← fields[6]?
        let f7 ← fields[7]?
        pure (adders.AddTraceElementWait st routine f1 f2 f3 f4 f5 f6 f7)
      else if tag = "O" then do
        let f1 ← fields[1]?
        let f2 ← fields[2]?
        let f3 ← fields[3]?
        let f4 ← fields[4]?
        let f5 ← fields[5]?
        pure (AddTraceElementOnce adders st routine f1 f2 f3 f4 f5)
      else if tag = "N" then do
        let f1 ← fields[1]?
        let f2 ← fields[2]?
        let f3 ← fields[3]?
        let f4 ← fields[4]?
        let f5 ← fields[5]?
        pure (adders.AddTraceElementCond st routine f1 f2 f3 f4 f5)
      else if tag = "E" then do
        let f1 ← fields[1]?
        pure (adders.AddTraceElementRoutineEnd st routine f1)
      else some (st, some ("Unknown element type in: " ++ element))

/-- What `CreateTraceFromFile` gets from a file it could open: the lines that
`scanner.Scan()` yields, and the value of `scanner.Err()` after the loop
(`none` is `nil`). -/
structure FileScan where
  lines : List String
  err : Option String

/-- The loop `for scanner.Scan() { ... }` of `CreateTraceFromFile`: the trace
state and the variable `containsElem` afterwards. The value that
`processElement` returns is not assigned. `none` is a panic of
`processElement`. -/
def scanLoop {σ : Type} (adders : TraceAdders σ) (routine : Int) (ignoreAtomics : Bool) :
    List String → σ → Bool → Option (σ × Bool)
  | [], st, containsElem => some (st, containsElem)
  | line :: rest, st, _ =>
    match processElement adders st line routine ignoreAtomics with
    | none => none
    | some out => scanLoop adders routine ignoreAtomics rest out.1 true

/-- `CreateTraceFromFile(filePath, routine, ignoreAtomics)`: the trace state
afterwards and the two returned values. `file` is what `os.Open` and the
scanner give for the path: the error of `os.Open`, or the scanned lines. -/
def CreateTraceFromFile {σ : Type} (adders : TraceAdders σ) (st : σ)
    (file : Except String FileScan) (routine : Int) (ignoreAtomics : Bool) :
    Option (σ × Bool × Option String) :=
  match file with
  | .error err => some (st, false, some err)
  | .ok scan =>
    match scanLoop adders routine ignoreAtomics scan.lines st false with
    | none => none
    | some (st2, containsElem) =>
      match scan.err with
      | some err => some (st2, containsElem, some err)
      | none => some (st2, containsElem, none)

/-- The tags that have a case in the switch of `processElement`. -/
def knownTags : List String := ["A", "C", "M", "G", "S", "W", "O", "N", "E"]

/-- The highest index of `fields` that the case of `processElement` for a tag
reads. -/
def lastFieldIndex (tag : String) : Nat :=
  if tag = "A" then 4 else if tag = "C" then 8 else if tag = "M" then 7
  else if tag = "G" then 3 else if tag = "S" then 6 else if tag = "W" then 7
  else if tag = "O" then 5 else if tag = "N" then 5 else if tag = "E" then 1 else 0

/-- Example adders on a trace state that counts the added elements: each adds
one and gives no error. -/
def exAdders : TraceAdders Nat :=
  { AddElementToTrace := fun n _ => (n + 1, none)
    AddTraceElementAtomic := fun n _ _ _ _ _ => (n + 1, none)
    AddTraceElementChannel := fun n _ _ _ _ _ _ _ _ _ => (n + 1, none)
    AddTraceElementMutex := fun n _ _ _ _ _ _ _ _ => (n + 1, none)
    AddTraceElementFork := fun n _ _ _ _ => (n + 1, none)
    AddTraceElementSelect := fun n _ _ _ _ _ _ _ => (n + 1, none)
    AddTraceElementWait := fun n _ _ _ _ _ _ _ _ => (n + 1, none)
    AddTraceElementCond := fun n _ _ _ _ _ _ => (n + 1, none)
    AddTraceElementRoutineEnd := fun n _ _ => (n + 1, none) }

/-- Example: a stacked dependency of thread 2 on the write lock 6 under the
lockset that holds the write lock 2. -/
def exStackedTop : LockDependency :=
  { thread_id := 2, l := ⟨6, false⟩, ls := {⟨2, false⟩}, reqs := [exEventB] }

/-- Example: a candidate dependency of thread 3 on the write lock 5, the lock
of the stacked dependency `exStackedWrite`, under the lockset that holds the
write lock 6. -/
def exCandidateSameLock : LockDependency :=
  { thread_id := 3, l := ⟨5, false⟩, ls := {⟨6, false⟩},
    reqs := [{ thread_id := 3, trace_id := "d.go:20@9", vector_clock := exClockC }] }

/-! ## analyzer/bugs/bugs.go -/

/-- `ASendOnClosed`. -/
def ASendOnClosed : ResultType := "A01"

/-- `ARecvOnClosed`. -/
def ARecvOnClosed : ResultType := "A02"

/-- `ACloseOnClosed`. -/
def ACloseOnClosed : ResultType := "A03"

/-- `AConcurrentRecv`. -/
def AConcurrentRecv : ResultType := "A04"

/-- `ASelCaseWithoutPartner`. -/
def ASelCaseWithoutPartner : ResultType := "A05"

/-- `PSendOnClosed`. -/
def PSendOnClosed : ResultType := "P01"

/-- `PRecvOnClosed`. -/
def PRecvOnClosed : ResultType := "P02"

/-- `PNegWG`. -/
def PNegWG : ResultType := "P03"

/-- `LWaitGroup`. -/
def LWaitGroup : ResultType := "L09"

/-- `LCond`. -/
def LCond : ResultType := "L10"

/-- `type Bug struct { Type ResultType; TraceElement1, TraceElement2 []*trace.TraceElement }`,
over a type `τ` of trace elements. The field `Type` is named `Typ` here. -/
structure Bug (τ : Type) where
  Typ : ResultType
  TraceElement1 : List τ
  TraceElement2 : List τ
  deriving DecidableEq, Repr

/-- Go's `unicode.IsSpace`. -/
def unicodeIsSpace (c : Char) : Bool :=
  c = '\t' || c = '\n' || c.toNat = 0x0B || c.toNat = 0x0C || c = '\r' || c = ' ' ||
    c.toNat = 0x85 || c.toNat = 0xA0 || c.toNat = 0x1680 ||
    (0x2000 ≤ c.toNat && c.toNat ≤ 0x200A) || c.toNat = 0x2028 || c.toNat = 0x2029 ||
    c.toNat = 0x202F || c.toNat = 0x205F || c.toNat = 0x3000

/-- Go's `strings.TrimSpace`: the string without its leading and trailing white
space. -/
def stringsTrimSpace (str : String) : String :=
  String.mk ((str.data.dropWhile unicodeIsSpace).reverse.dropWhile unicodeIsSpace).reverse

/-- `strings.Split(str, sep)` for a separator of one character. -/
def stringsSplit (str : String) (sep : Char) : List String :=
  (splitChars sep str.data).map String.mk

/-- The `switch bugType` of `ProcessBug`: the value given to `bug.Type` and the
values of `actual` and `containsArg2` after it; `none` is the default case. -/
def bugSwitch (bugType : String) : Option (ResultType × Bool × Bool) :=
  if bugType = "A01" then some (ASendOnClosed, true, true)
  else if bugType = "A02" then some (ARecvOnClosed, true, true)
  else if bugType = "A03" then some (ACloseOnClosed, true, true)
  else if bugType = "A04" then some (AConcurrentRecv, true, true)
  else if bugType = "A05" then some (ASelCaseWithoutPartner, true, true)
  else if bugType = "P01" then some (PSendOnClosed, false, true)
  else if bugType = "P02" then some (PRecvOnClosed, false, true)
  else if bugType = "P03" then some (PNegWG, false, true)
  else if bugType = "L01" then some (LUnbufferedWith, false, true)
  else if bugType = "L02" then some (LUnbufferedWithout, false, false)
  else if bugType = "L03" then some (LBufferedWith, false, true)
  else if bugType = "L04" then some (LBufferedWithout, false, false)
  else if bugType = "L05" then some (LNilChan, false, false)
  else if bugType = "L06" then some (LSelectWith, false, true)
  else if bugType = "L07" then some (LSelectWithout, false, false)
  else if bugType = "L08" then some (LMutex, false, true)
  else if bugType = "L09" then some (LWaitGroup, false, false)
  else if bugType = "L10" then some (LCond, false, false)
  else none

/-- The loop `for _, bugArg := range strings.Split(bugArg1, ";")` of
`ProcessBug` over the first argument: the elements collected, or the elements
collected so far and the error of a failing lookup. `getElem` is
`trace.GetTraceElementFromBugArg`, whose source is not among the sources. -/
def bugArgs1 {τ : Type} (getElem : String → Except String τ) :
    List String → List τ → Except (List τ × String) (List τ)
  | [], elems => .ok elems
  | bugArg :: rest, elems =>
    if stringsTrimSpace bugArg = "" then bugArgs1 getElem rest elems
    else
      match getElem bugArg with
      | .error err => .error (elems, err)
      | .ok elem => bugArgs1 getElem rest (elems ++ [elem])

/-- The loop of `ProcessBug` over the second argument, which looks up the
arguments whose first byte is `T`. The inner `none` is the panic of
`bugArg[0]` on an empty string. -/
def bugArgs2 {τ : Type} (getElem : String → Except String τ) :
    List String → List τ → Option (Except (List τ × String) (List τ))
  | [], elems => some (.ok elems)
  | bugArg :: rest, elems =>
    if stringsTrimSpace bugArg = "" then bugArgs2 getElem rest elems
    else
      match bugArg.data with
      | [] => none
      | first :: _ =>
        if first = 'T' then
          match getElem bugArg with
          | .error err => some (.error (elems, err))
          | .ok elem => bugArgs2 getElem rest (elems ++ [elem])
        else bugArgs2 getElem rest elems

/-- `ProcessBug(bugStr)`: the three returned values (`none` for the error is
`nil`), or `none` when the call panics at an index expression. -/
def ProcessBug {τ : Type} (getElem : String → Except String τ) (bugStr : String) :
    Option (Bool × Bug τ × Option String) :=
  let bug : Bug τ := { Typ := "", TraceElement1 := [], TraceElement2 := [] }
  let bugSplit := lineFields bugStr
  if bugSplit.length ≠ 3 ∧ bugSplit.length ≠ 2 then
    some (false, bug, some ("Could not split bug: " ++ bugStr))
  else
    match bugSplit[0]? with
    | none => none
    | some bugType =>
      match bugSwitch bugType with
      | none => some (false, bug, some ("Unknown bug type: " ++ bugStr))
      | some (typ, actual, containsArg2) =>
        let bug : Bug τ := { bug with Typ := typ }
        match bugSplit[1]?, (if containsArg2 then bugSplit[2]? else some "") with
        | some bugArg1, some bugArg2 =>
          match bugArgs1 getElem (stringsSplit bugArg1 ';') [] with
          | .error (elems, err) => some (actual, { bug with TraceElement1 := elems }, some err)
          | .ok elems =>
            let bug : Bug τ := { bug with TraceElement1 := elems }
            if !containsArg2 then some (actual, bug, none)
            else
              match bugArgs2 getElem (stringsSplit bugArg2 ';') [] with
              | none => none
              | some (.error (elems2, err)) =>
                some (actual, { bug with TraceElement2 := elems2 }, some err)
              | some (.ok elems2) => some (actual, { bug with TraceElement2 := elems2 }, none)
        | _, _ => none

/-- The kind codes of the actual bugs. -/
def actualCodes : List String := ["A01", "A02", "A03", "A04", "A05"]

/-- The kind codes that `ProcessBug` knows. -/
def bugCodes : List String :=
  ["A01", "A02", "A03", "A04", "A05", "P01", "P02", "P03", "L01", "L02", "L03", "L04", "L05",
   "L06", "L07", "L08", "L09", "L10"]

/-- The kind codes for which `ProcessBug` sets `containsArg2 = false`. -/
def oneListCodes : List String := ["L02", "L04", "L05", "L07", "L09", "L10"]

/-- Example lookup of a trace element: an argument starting with `T` is found
(the element is its text), any other is not. -/
def exGetElem (bugArg : String) : Except String String :=
  if bugArg.data.head? = some 'T' then .ok bugArg else .error "not found"

/-! ## go-patch/src/runtime/dedego_util.go -/

/-- The expression `string(rune(n + '0'))` for `n` from 0 to 9: the string of
the one character with the code `n + 48`. -/
def digitString (n : Nat) : String := String.mk [Char.ofNat (n + 48)]

/-- `uint64ToString(n)` with a bound on the depth of the recursion: `none`
when the recursion is not finished within the bound. The argument is a
`uint64`, a natural number below `2 ^ 64`; no operation of the function
overflows on it. -/
def uint64ToString : Nat → Nat → Option String
  | 0, _ => none
  | fuel + 1, n =>
    if n < 10 then some (digitString n)
    else (uint64ToString fuel (n / 10)).map (fun str => str ++ digitString (n % 10))

/-- `int64ToString(n)` with a bound on the depth of the recursion: `none` when
the recursion is not finished within the bound. The argument is an `int64`;
the negation `-n` wraps. -/
def int64ToString : Nat → Int → Option String
  | 0, _ => none
  | fuel + 1, n =>
    if n < 0 then (int64ToString fuel (wrapInt64 (-n))).map (fun str => "-" ++ str)
    else if n < 10 then some (digitString n.toNat)
    else
      (int64ToString fuel (n / 10)).map (fun str => str ++ digitString (n % 10).toNat)

/-- The smallest `int64`, `-2 ^ 63`. -/
def minInt64 : Int := -9223372036854775808

/-- `e.ToString()` of `traceElementOnce.go`: the line of the element in the
trace file. -/
def TraceElementOnce.ToString (e : TraceElementOnce) : String :=
  let res := "O,"
  let res := res ++ (Itoa e.tPre ++ ",")
  let res := res ++ (Itoa e.tPost ++ ",")
  let res := res ++ (Itoa e.id ++ ",")
  let res := if e.suc then res ++ "t" else res ++ "f"
  res ++ ("," ++ e.pos)

/-- The element that `AddTraceElementOnce` builds from its parsed arguments:
the vector clock is the zero value. -/
def onceElem (routine tPre tPost id : Int) (suc : Bool) (pos : String) : TraceElementOnce :=
  { routine := routine, tPre := tPre, tPost := tPost, id := id, suc := suc, pos := pos,
    vc := { size := 0, clock := fun _ => 0 } }

/-- Example: a successful once of routine 3 on the object 8. -/
def exOnce : TraceElementOnce :=
  { routine := 3, tPre := 12, tPost := 15, id := 8, suc := true, pos := "o.go:7",
    vc := exClockA }

/-- The invariant of the dependencies stored under one lock: there is one,
every one has a non-empty lockset and a non-empty list of events, and no two
have the same lockset. -/
def DepsInv (ds : List Dep) : Prop :=
  ds ≠ [] ∧ (∀ d ∈ ds, d.ls ≠ ∅ ∧ d.requests ≠ []) ∧ ds.Pairwise (fun a b => a.ls ≠ b.ls)

/-- The invariant of the dependency store: `DepsInv` for every lock of every
thread. -/
def State.StoreInv (s : State) : Prop :=
  ∀ entry ∈ s.threads, ∀ ld ∈ entry.2.lock_dependencies, DepsInv ld.2

/-- Every entry of every cycle has at least one request. -/
def CyclesHaveRequests (cycles : List Cycle) : Prop :=
  ∀ c ∈ cycles, ∀ entry ∈ c, entry.requests ≠ []

/-- The number of threads of the list that `is_traversed` does not mark. -/
def untraversed (thread_ids : List ThreadId) (is_traversed : ThreadId → Bool) : Nat :=
  (thread_ids.filter (fun tid => !is_traversed tid)).length

/-- A run of a loop of the cycle search has not panicked, and when it has
returned, every entry of every cycle reported has a request. -/
def SearchOk (out : Except Stop (List Cycle)) : Prop :=
  out ≠ .error .panic ∧ ∀ cycles, out = .ok cycles → CyclesHaveRequests cycles

/-! ## The check for concurrent receives -/

/-- The loop `for _, l_ls_d := range l_d { ... }` of `dfs`, as `dfsDeps`. -/
def dfsDepsAt (dfsRec : List LockDependency → (ThreadId → Bool) → List Cycle × Nat →
      Except Stop (List Cycle × Nat))
    (chain_stack : List LockDependency) (is_traversed : ThreadId → Bool) (tid : ThreadId)
    (l : LockId) : List Dep → List Cycle × Nat → Except Stop (List Cycle × Nat)
  | [], acc => .ok acc
  | l_ls_d :: rest, acc =>
    let ld : LockDependency :=
      { thread_id := tid, l := l, ls := l_ls_d.ls, reqs := l_ls_d.requests }
    match isChain chain_stack ld with
    | none => .error .panic
    | some false => dfsDepsAt dfsRec chain_stack is_traversed tid l rest acc
    | some true =>
      match isCycleChain chain_stack ld with
      | none => .error .panic
      | some true =>
        dfsDepsAt dfsRec chain_stack is_traversed tid l rest
          (acc.1 ++ [cycleOf chain_stack ld], acc.2)
      | some false =>
        match dfsRec (chain_stack ++ [ld]) (Function.update is_traversed tid true) acc with
        | .error e => .error e
        | .ok acc2 => dfsDepsAt dfsRec chain_stack is_traversed tid l rest acc2

/-- The loop `for l, l_d := range s.threads[tid].lock_dependencies` of `dfs`,
as `dfsLocks`. -/
def dfsLocksAt (dfsRec : List LockDependency → (ThreadId → Bool) → List Cycle × Nat →
      Except Stop (List Cycle × Nat))
    (chain_stack : List LockDependency) (is_traversed : ThreadId → Bool) (tid : ThreadId) :
    GoMapK LockId (List Dep) → List Cycle × Nat → Except Stop (List Cycle × Nat)
  | [], acc => .ok acc
  | (l, l_d) :: rest, acc =>
    match dfsDepsAt dfsRec chain_stack is_traversed tid l l_d acc with
    | .error e => .error e
    | .ok acc2 => dfsLocksAt dfsRec chain_stack is_traversed tid rest acc2

/-- The loop `for tid := range thread_ids` of `dfs`, as `dfsThreads`, over the
thread ids in the order of this execution of the statement. -/
def dfsThreadsAt (s : State)
    (dfsRec : List LockDependency → (ThreadId → Bool) → List Cycle × Nat →
      Except Stop (List Cycle × Nat))
    (chain_stack : List LockDependency) (is_traversed : ThreadId → Bool) :
    List ThreadId → List Cycle × Nat → Except Stop (List Cycle × Nat)
  | [], acc => .ok acc
  | tid :: rest, acc =>
    if (s.lockDeps tid).length = 0 then
      dfsThreadsAt s dfsRec chain_stack is_traversed rest acc
    else if !is_traversed tid then
      match dfsLocksAt dfsRec chain_stack is_traversed tid (s.lockDeps tid) acc with
      | .error e => .error e
      | .ok acc2 => dfsThreadsAt s dfsRec chain_stack is_traversed rest acc2
    else dfsThreadsAt s dfsRec chain_stack is_traversed rest acc

/-- `dfs(s, chain_stack, visiting, is_traversed, thread_ids)`, as `dfs`: its
`range` statement over `thread_ids` is executed as number `acc.2` and visits
the thread ids in the order `order acc.2`. -/
def dfsAt (s : State) (order : Nat → List ThreadId) :
    Nat → List LockDependency → (ThreadId → Bool) → List Cycle × Nat →
      Except Stop (List Cycle × Nat)
  | 0, _, _, _ => .error .fuel
  | fuel + 1, chain_stack, is_traversed, acc =>
    dfsThreadsAt s (fun stack2 traversed2 acc2 => dfsAt s order fuel stack2 traversed2 acc2)
      chain_stack is_traversed (order acc.2) (acc.1, acc.2 + 1)

/-- The loop `for l, ds := range s.threads[thread_id].lock_dependencies` of
`find_cycles`, as `findLocks`. -/
def findLocksAt (s : State) (order : Nat → List ThreadId) (fuel : Nat) (thread_id : ThreadId)
    (is_traversed : ThreadId → Bool) :
    GoMapK LockId (List Dep) → List LockDependency → List Cycle × Nat →
      Except Stop (List LockDependency × (List Cycle × Nat))
  | [], chain_stack, acc => .ok (chain_stack, acc)
  | (l, ds) :: rest, chain_stack, acc =>
    let pushed := chain_stack ++
      ds.map (fun d =>
        ({ thread_id := thread_id, l := l, ls := d.ls, reqs := d.requests } : LockDependency))
    match dfsAt s order fuel pushed is_traversed acc with
    | .error e => .error e
    | .ok acc2 =>
      if pushed.length = 0 then .error .panic
      else findLocksAt s order fuel thread_id is_traversed rest pushed.dropLast acc2

/-- The loop `for thread_id := range thread_ids` of `find_cycles`, as
`findThreads`, over the thread ids in the order of this execution of the
statement; the second argument of the result counts the `range` statements
executed. -/
def findThreadsAt (s : State) (order : Nat → List ThreadId) (fuel : Nat) :
    List ThreadId → FindState → Nat → Except Stop (FindState × Nat)
  | [], fs, k => .ok (fs, k)
  | thread_id :: rest, fs, k =>
    if (s.lockDeps thread_id).length = 0 then findThreadsAt s order fuel rest fs k
    else
      let is_traversed := Function.update fs.is_traversed thread_id true
      match findLocksAt s order fuel thread_id is_traversed (s.lockDeps thread_id)
          fs.chain_stack (fs.cycles, k) with
      | .error e => .error e
      | .ok (stack, acc) =>
        findThreadsAt s order fuel rest
          { cycles := acc.1, chain_stack := stack, is_traversed := is_traversed } acc.2

/-- `find_cycles(s)`, as `find_cycles`, with the order of every `range` over
the thread ids given: the loop of `find_cycles` is statement number 0, the
loops of the calls of `dfs` follow in the order of the calls. (The first loop
of the function, over `s.threads`, only fills the two maps; its order does not
show.) -/
def find_cyclesAt (order : Nat → List ThreadId) (s : State) : Except Stop State :=
  match findThreadsAt s order (s.threads.length + 1) (order 0)
      { cycles := s.cycles, chain_stack := [], is_traversed := fun _ => false } 1 with
  | .error e => .error e
  | .ok out => .ok { s with cycles := out.1.cycles }

/-- `get_cycles(s)`, as `get_cycles`, with the order of every `range` over the
thread ids given. -/
def get_cyclesAt (order : Nat → List ThreadId) (s : State) : Except Stop State :=
  find_cyclesAt order { s with cycles := [] }

/-- `checkForResourceDeadlock()`, as `checkForResourceDeadlock`, with the
order of every `range` over the thread ids given. -/
def checkForResourceDeadlockAt (info : String → Option (String × Int × Int))
    (PCyclicDeadlock : ResultType) (order : Nat → List ThreadId) (s : State)
    (results : List ResultCall) : Option (State × List ResultCall) :=
  match get_cyclesAt order s with
  | .error _ => none
  | .ok s2 =>
    match reportCycles info PCyclicDeadlock s2.cycles results with
    | none => none
    | some results2 => some (s2, results2)

/-! ### Loop lemmas -/

theorem newLoop_apply (c : Int → Int) (n : Nat) (i j : Int) :
    newLoop c n i j = if i ≤ j ∧ j < i + n then 0 else c j := by
  induction n generalizing c i with
  | zero => rw [newLoop, if_neg (by omega)]
  | succ n ih =>
    rw [newLoop, ih]
    by_cases h3 : j = i
    · subst h3
      rw [if_neg (by omega), Function.update_same, if_pos (by omega)]
    · rw [Function.update_noteq h3]
      split_ifs <;> first | rfl | omega

theorem NewVectorClock_clock (size : Int) (j : Int) :
    (NewVectorClock size).clock j = 0 := by
  simp [NewVectorClock, newLoop_apply]

theorem copyLoop_apply (src dst : Int → Int) (n : Nat) (i j : Int) :
    copyLoop src dst n i j = if i ≤ j ∧ j < i + n then src j else dst j := by
  induction n generalizing dst i with
  | zero => rw [copyLoop, if_neg (by omega)]
  | succ n ih =>
    rw [copyLoop, ih]
    by_cases h3 : j = i
    · subst h3
      rw [if_neg (by omega), Function.update_same, if_pos (by omega)]
    · rw [Function.update_noteq h3]
      split_ifs <;> first | rfl | omega

theorem syncLoop_apply (vc copy : Int → Int) (n : Nat) (i j : Int) :
    syncLoop vc copy n i j =
      if i ≤ j ∧ j < i + n then max (vc j) (copy j) else copy j := by
  induction n generalizing copy i with
  | zero => rw [syncLoop, if_neg (by omega)]
  | succ n ih =>
    rw [syncLoop]
    by_cases h3 : j = i
    · subst h3
      split
      · rename_i hgt
        rw [ih, if_neg (by omega), Function.update_same, if_pos (by omega)]
        omega
      · rename_i hgt
        rw [ih, if_neg (by omega), if_pos (by omega)]
        omega
    · split
      · rw [ih, Function.update_noteq h3]
        split_ifs <;> first | rfl | omega
      · rw [ih]
        split_ifs <;> first | rfl | omega

theorem isCauseLoop_eq_true (vc1 vc2 : Int → Int) (n : Nat) (i : Int) (acc : Bool) :
    isCauseLoop vc1 vc2 n i acc = true ↔
      (∀ j, i ≤ j → j < i + n → vc1 j ≤ vc2 j) ∧
        (acc = true ∨ ∃ j, i ≤ j ∧ j < i + n ∧ vc1 j < vc2 j) := by
  induction n generalizing i acc with
  | zero =>
    simp only [isCauseLoop]
    constructor
    · intro h
      exact ⟨fun j h1 h2 => by simp at h2; omega, Or.inl h⟩
    · rintro ⟨_, h | ⟨j, h1, h2, _⟩⟩
      · exact h
      · simp at h2; omega
  | succ n ih =>
    rw [isCauseLoop]
    by_cases hgt : vc1 i > vc2 i
    · simp only [hgt, if_true]
      constructor
      · intro h; exact absurd h (by simp)
      · rintro ⟨h, _⟩
        have := h i (le_refl _) (by push_cast; omega)
        omega
    · by_cases hlt : vc1 i < vc2 i
      · simp only [hgt, hlt, if_false, if_true, ih]
        constructor
        · rintro ⟨h, _⟩
          refine ⟨fun j h1 h2 => ?_, Or.inr ⟨i, le_refl _, by push_cast; omega, hlt⟩⟩
          by_cases hj : j = i
          · subst hj; omega
          · exact h j (by omega) (by push_cast at h2; omega)
        · rintro ⟨h, _⟩
          exact ⟨fun j h1 h2 => h j (by omega) (by push_cast; omega), Or.inl trivial⟩
      · simp only [hgt, hlt, if_false, ih]
        constructor
        · rintro ⟨h, hacc⟩
          refine ⟨fun j h1 h2 => ?_, ?_⟩
          · by_cases hj : j = i
            · subst hj; omega
            · exact h j (by omega) (by push_cast at h2; omega)
          · rcases hacc with hacc | ⟨j, h1, h2, h3⟩
            · exact Or.inl hacc
            · exact Or.inr ⟨j, by omega, by push_cast; omega, h3⟩
        · rintro ⟨h, hacc⟩
          refine ⟨fun j h1 h2 => h j (by omega) (by push_cast; omega), ?_⟩
          rcases hacc with hacc | ⟨j, h1, h2, h3⟩
          · exact Or.inl hacc
          · refine Or.inr ⟨j, ?_, by push_cast at h2; omega, h3⟩
            by_cases hj : j = i
            · subst hj; omega
            · omega

/-- `isCause(vc1, vc2)` holds exactly when `vc1` is nowhere greater than `vc2`
on the coordinates `1..vc1.size` and somewhere smaller. -/
theorem isCause_iff (vc1 vc2 : VectorClock) :
    isCause vc1 vc2 = true ↔
      (∀ j, 1 ≤ j → j ≤ vc1.size → vc1.clock j ≤ vc2.clock j) ∧
        ∃ j, 1 ≤ j ∧ j ≤ vc1.size ∧ vc1.clock j < vc2.clock j := by
  unfold isCause
  rw [isCauseLoop_eq_true]
  constructor
  · rintro ⟨h, hacc⟩
    refine ⟨fun j h1 h2 => h j h1 (by omega), ?_⟩
    rcases hacc with hacc | ⟨j, h1, h2, h3⟩
    · exact absurd hacc (by simp)
    · exact ⟨j, h1, by omega, h3⟩
  · rintro ⟨h, j, h1, h2, h3⟩
    exact ⟨fun k hk1 hk2 => h k hk1 (by omega), Or.inr ⟨j, h1, by omega, h3⟩⟩

/-- A copy of a non-empty clock succeeds, has the same size and the same
entries on `1..size`, and reads 0 elsewhere. -/
theorem Copy_spec (vc : VectorClock) (h : vc.size ≠ 0) :
    ∃ c, vc.Copy = some c ∧ c.size = vc.size ∧
      ∀ j, c.clock j = if 1 ≤ j ∧ j ≤ vc.size then vc.clock j else 0 := by
  refine ⟨{ size := vc.size,
            clock := copyLoop vc.clock (NewVectorClock vc.size).clock vc.size.toNat 1 },
    by simp only [VectorClock.Copy, if_neg h]; rfl, rfl, fun j => ?_⟩
  show copyLoop vc.clock (NewVectorClock vc.size).clock vc.size.toNat 1 j = _
  rw [copyLoop_apply, NewVectorClock_clock]
  split_ifs <;> first | rfl | omega

/-- The join of two non-empty clocks succeeds; its size is that of the received
clock, and entry `j` is the larger of the two entries on `1..vc.size` and the
copied received entry elsewhere. -/
theorem Sync_spec (vc rec : VectorClock) (hvc : vc.size ≠ 0) (hrec : rec.size ≠ 0) :
    ∃ r, vc.Sync rec = some r ∧ r.size = rec.size ∧
      ∀ j, r.clock j =
        if 1 ≤ j ∧ j ≤ vc.size then
          max (vc.clock j) (if 1 ≤ j ∧ j ≤ rec.size then rec.clock j else 0)
        else if 1 ≤ j ∧ j ≤ rec.size then rec.clock j else 0 := by
  obtain ⟨c, hc, hcs, hcc⟩ := Copy_spec rec hrec
  refine ⟨{ c with clock := syncLoop vc.clock c.clock vc.size.toNat 1 }, ?_, hcs, fun j => ?_⟩
  · simp only [VectorClock.Sync, if_neg hvc, if_neg hrec, hc]
  · show syncLoop vc.clock c.clock vc.size.toNat 1 j = _
    rw [syncLoop_apply, hcc]
    split_ifs <;> first | rfl | omega

/-- The join of two clocks of the same non-zero width is the elementwise
maximum on `1..n`. -/
theorem Sync_same_width (a b : VectorClock) (hsz : a.size = b.size) (hne : a.size ≠ 0) :
    ∃ r, a.Sync b = some r ∧ r.size = a.size ∧
      ∀ i, 1 ≤ i → i ≤ a.size → r.clock i = max (a.clock i) (b.clock i) := by
  obtain ⟨r, hr, hrs, hrc⟩ := Sync_spec a b hne (by omega)
  refine ⟨r, hr, by omega, fun i h1 h2 => ?_⟩
  rw [hrc, if_pos ⟨h1, h2⟩, if_pos ⟨h1, by omega⟩]

/-- `GetHappensBefore` is `Before` exactly when the first clock is a cause of
the second. -/
theorem GetHappensBefore_eq_Before (a b : VectorClock) :
    GetHappensBefore a b = HappensBefore.Before ↔ isCause a b = true := by
  unfold GetHappensBefore
  by_cases h1 : isCause a b = true
  · simp [h1]
  · by_cases h2 : isCause b a = true <;> simp [h1, h2]

/-- `GetHappensBefore` is `After` exactly when the first clock is no cause of
the second and the second is a cause of the first. -/
theorem GetHappensBefore_eq_After (a b : VectorClock) :
    GetHappensBefore a b = HappensBefore.After ↔
      isCause a b = false ∧ isCause b a = true := by
  unfold GetHappensBefore
  by_cases h1 : isCause a b = true
  · simp [h1]
  · by_cases h2 : isCause b a = true <;> simp [h1, h2]

/-- Joining a clock of non-zero width `n` with clocks of width `n` succeeds,
keeps the width and lowers no coordinate in `1..n`. -/
theorem syncAll_mono (n : Int) (hn : n ≠ 0) (xs : List VectorClock) :
    ∀ l : VectorClock, l.size = n → (∀ x ∈ xs, x.size = n) →
      ∃ l2, syncAll l xs = some l2 ∧ l2.size = n ∧
        ∀ i, 1 ≤ i → i ≤ n → l.clock i ≤ l2.clock i := by
  induction xs with
  | nil =>
    intro l hl _
    exact ⟨l, rfl, hl, fun i _ _ => le_refl _⟩
  | cons x xs ih =>
    intro l hl hxs
    have hx : x.size = n := hxs x (List.mem_cons_self _ _)
    obtain ⟨m, hm, hms, hmc⟩ := Sync_same_width l x (by omega) (by omega)
    obtain ⟨l2, hl2, hl2s, hl2c⟩ :=
      ih m (by omega) (fun y hy => hxs y (List.mem_cons_of_mem _ hy))
    refine ⟨l2, by simp only [syncAll, hm, hl2], hl2s, fun i h1 h2 => ?_⟩
    have h3 := hmc i h1 (by omega)
    have h4 := hl2c i h1 h2
    have h5 : l.clock i ≤ max (l.clock i) (x.clock i) := le_max_left _ _
    omega

/-- `NewVectorClock(n)` is a clock of width `n`. -/
theorem NewVectorClock_isClock (n : Int) : (NewVectorClock n).IsClockOfWidth n :=
  ⟨rfl, fun i _ _ => by rw [NewVectorClock_clock]⟩

/-- The wrap leaves every `int64` as it is. -/
theorem wrapInt64_eq (x : Int) (hmin : -9223372036854775808 ≤ x)
    (hmax : x ≤ 9223372036854775807) : wrapInt64 x = x := by
  unfold wrapInt64
  omega

/-- On an entry that is an `int64` below `math.MaxInt64`, `Inc` adds one. -/
theorem Inc_clock_self (c : VectorClock) (r : Int) (hmin : -9223372036854775808 ≤ c.clock r)
    (hmax : c.clock r < 9223372036854775807) : (c.Inc r).clock r = c.clock r + 1 := by
  simp only [VectorClock.Inc, Function.update_same]
  exact wrapInt64_eq _ (by omega) (by omega)

/-- `Inc` keeps a clock of width `n` one, when the entry of the routine is
below `math.MaxInt64`. -/
theorem Inc_isClock (c : VectorClock) (n r : Int) (h : c.IsClockOfWidth n)
    (hmax : 1 ≤ r → r ≤ n → c.clock r < 9223372036854775807) :
    (c.Inc r).IsClockOfWidth n := by
  refine ⟨h.1, fun i h1 h2 => ?_⟩
  have := h.2 i h1 h2
  by_cases hi : i = r
  · subst hi
    rw [Inc_clock_self c i (by omega) (hmax h1 h2)]
    omega
  · simp only [VectorClock.Inc, Function.update_noteq hi]; exact this

/-- `Copy` of a clock of width `n` gives a clock of width `n`. -/
theorem Copy_isClock (c e : VectorClock) (n : Int) (h : c.IsClockOfWidth n)
    (he : c.Copy = some e) : e.IsClockOfWidth n := by
  have hne : c.size ≠ 0 := by
    intro h0
    simp [VectorClock.Copy, h0] at he
  obtain ⟨e2, he2, hs, hc⟩ := Copy_spec c hne
  rw [he] at he2
  cases he2
  refine ⟨by rw [hs]; exact h.1, fun i h1 h2 => ?_⟩
  rw [hc, if_pos ⟨h1, by rw [h.1]; exact h2⟩]
  exact h.2 i h1 h2

/-- `Sync` of two clocks of width `n` gives a clock of width `n`. -/
theorem Sync_isClock (a b c : VectorClock) (n : Int) (ha : a.IsClockOfWidth n)
    (hb : b.IsClockOfWidth n) (hc : a.Sync b = some c) : c.IsClockOfWidth n := by
  by_cases hn : n = 0
  · subst hn
    simp [VectorClock.Sync, ha.1, hb.1, VectorClock.Copy, NewVectorClock] at hc
  · obtain ⟨r, hr, hrs, hrc⟩ := Sync_same_width a b (ha.1.trans hb.1.symm) (by rw [ha.1]; exact hn)
    rw [hc] at hr
    cases hr
    refine ⟨hrs.trans ha.1, fun i h1 h2 => ?_⟩
    rw [hrc i h1 (by rw [ha.1]; exact h2)]
    exact le_trans (ha.2 i h1 h2) (le_max_left _ _)

/-! ## Theorems on the vector clock -/

/-- C1: for two clocks of the same width, `GetHappensBefore(a, b)` is `Before`
exactly when `a[i] ≤ b[i]` for all `i` in `1..n` and `a[i] < b[i]` for some `i`,
`After` exactly when the same holds with `a` and `b` swapped, and `Concurrent`
in every other case, in particular when the two clocks agree on `1..n`. -/
theorem C1_GetHappensBefore_characterisation (a b : VectorClock) (hsz : a.size = b.size) :
    (GetHappensBefore a b = HappensBefore.Before ↔
        (∀ i, 1 ≤ i → i ≤ a.size → a.clock i ≤ b.clock i) ∧
          ∃ i, 1 ≤ i ∧ i ≤ a.size ∧ a.clock i < b.clock i) ∧
      (GetHappensBefore a b = HappensBefore.After ↔
        (∀ i, 1 ≤ i → i ≤ a.size → b.clock i ≤ a.clock i) ∧
          ∃ i, 1 ≤ i ∧ i ≤ a.size ∧ b.clock i < a.clock i) ∧
      (GetHappensBefore a b = HappensBefore.Concurrent ↔
        ¬ ((∀ i, 1 ≤ i → i ≤ a.size → a.clock i ≤ b.clock i) ∧
            ∃ i, 1 ≤ i ∧ i ≤ a.size ∧ a.clock i < b.clock i) ∧
          ¬ ((∀ i, 1 ≤ i → i ≤ a.size → b.clock i ≤ a.clock i) ∧
            ∃ i, 1 ≤ i ∧ i ≤ a.size ∧ b.clock i < a.clock i)) ∧
      ((∀ i, 1 ≤ i → i ≤ a.size → a.clock i = b.clock i) →
        GetHappensBefore a b = HappensBefore.Concurrent) := by
  have hab := isCause_iff a b
  have hba := isCause_iff b a
  rw [← hsz] at hba
  have hexcl : isCause a b = true → isCause b a = true → False := by
    intro h1 h2
    obtain ⟨hle, _⟩ := hab.mp h1
    obtain ⟨_, i, hi1, hi2, hlt⟩ := hba.mp h2
    have := hle i hi1 hi2
    omega
  refine ⟨?_, ?_, ?_, ?_⟩
  · rw [← hab]; unfold GetHappensBefore
    by_cases h1 : isCause a b = true
    · simp [h1]
    · by_cases h2 : isCause b a = true <;> simp [h1, h2]
  · rw [← hba]; unfold GetHappensBefore
    by_cases h1 : isCause a b = true
    · have h2 : ¬ isCause b a = true := fun h2 => hexcl h1 h2
      simp [h1, h2]
    · by_cases h2 : isCause b a = true <;> simp [h1, h2]
  · rw [← hab, ← hba]; unfold GetHappensBefore
    by_cases h1 : isCause a b = true
    · simp [h1]
    · by_cases h2 : isCause b a = true <;> simp [h1, h2]
  · intro heq
    have h1 : ¬ isCause a b = true := by
      intro h
      obtain ⟨_, i, hi1, hi2, hlt⟩ := hab.mp h
      have := heq i hi1 hi2
      omega
    have h2 : ¬ isCause b a = true := by
      intro h
      obtain ⟨_, i, hi1, hi2, hlt⟩ := hba.mp h
      have := heq i hi1 hi2
      omega
    unfold GetHappensBefore
    simp [h1, h2]

/-- Witness of C1 on the clocks `[1, 0]` and `[1, 2]`. -/
theorem C1_GetHappensBefore_characterisation_witness :
    exClockA.size = exClockB.size ∧
      ((∀ i, 1 ≤ i → i ≤ exClockA.size → exClockA.clock i ≤ exClockB.clock i) ∧
        ∃ i, 1 ≤ i ∧ i ≤ exClockA.size ∧ exClockA.clock i < exClockB.clock i) :=
  ⟨rfl, (C1_GetHappensBefore_characterisation exClockA exClockB rfl).1.mp (by decide)⟩

/-- C2: `Sync` is the elementwise maximum. For two clocks of the same non-zero
width `n`, `a.Sync(b)` has width `n` and entry `max(a[i], b[i])` at every `i`
in `1..n`. When exactly one of the two clocks is empty it counts as the zero
vector: the result has the width and (for non-negative entries) the entries of
the non-empty operand. -/
theorem C2_Sync_elementwise_max (a b : VectorClock) :
    (a.size = b.size → a.size ≠ 0 →
        ∃ r, a.Sync b = some r ∧ r.size = a.size ∧
          ∀ i, 1 ≤ i → i ≤ a.size → r.clock i = max (a.clock i) (b.clock i)) ∧
      (a.size = 0 → b.size ≠ 0 → (∀ i, 1 ≤ i → i ≤ b.size → 0 ≤ b.clock i) →
        ∃ r, a.Sync b = some r ∧ r.size = b.size ∧
          ∀ i, 1 ≤ i → i ≤ b.size → r.clock i = b.clock i) ∧
      (b.size = 0 → a.size ≠ 0 →
        ∃ r, a.Sync b = some r ∧ r.size = a.size ∧
          ∀ i, 1 ≤ i → i ≤ a.size → r.clock i = a.clock i) := by
  refine ⟨fun hsz hne => Sync_same_width a b hsz hne, fun ha hb hnn => ?_, fun hb ha => ?_⟩
  · have hnew : (NewVectorClock b.size).size ≠ 0 := hb
    obtain ⟨r, hr, hrs, hrc⟩ := Sync_spec (NewVectorClock b.size) b hnew hb
    refine ⟨r, ?_, hrs, fun i h1 h2 => ?_⟩
    · rw [← hr]
      simp only [VectorClock.Sync, if_pos ha, if_neg hnew]
    · have h0 := hnn i h1 h2
      have hsize : (NewVectorClock b.size).size = b.size := rfl
      rw [hrc, hsize, if_pos ⟨h1, h2⟩, if_pos ⟨h1, h2⟩, NewVectorClock_clock]
      omega
  · obtain ⟨c, hc, hcs, hcc⟩ := Copy_spec a ha
    refine ⟨c, ?_, hcs, fun i h1 h2 => ?_⟩
    · simp only [VectorClock.Sync, if_neg ha, if_pos hb, hc]
    · rw [hcc, if_pos ⟨h1, h2⟩]

/-- Witness of C2: `[1, 0]` joined with `[0, 3]`, the empty clock joined with
`[1, 2]`, and `[1, 2]` joined with the empty clock. -/
theorem C2_Sync_elementwise_max_witness :
    (exClockA.size = exClockC.size ∧ exClockA.size ≠ 0 ∧
        ∃ r, exClockA.Sync exClockC = some r ∧ r.size = exClockA.size ∧
          ∀ i, 1 ≤ i → i ≤ exClockA.size →
            r.clock i = max (exClockA.clock i) (exClockC.clock i)) ∧
      (exClockEmpty.size = 0 ∧ exClockB.size ≠ 0 ∧
        ∃ r, exClockEmpty.Sync exClockB = some r ∧ r.size = exClockB.size ∧
          ∀ i, 1 ≤ i → i ≤ exClockB.size → r.clock i = exClockB.clock i) ∧
      (exClockEmpty.size = 0 ∧ exClockB.size ≠ 0 ∧
        ∃ r, exClockB.Sync exClockEmpty = some r ∧ r.size = exClockB.size ∧
          ∀ i, 1 ≤ i → i ≤ exClockB.size → r.clock i = exClockB.clock i) :=
  ⟨⟨rfl, by decide, (C2_Sync_elementwise_max exClockA exClockC).1 rfl (by decide)⟩,
    ⟨rfl, by decide,
      (C2_Sync_elementwise_max exClockEmpty exClockB).2.1 rfl (by decide)
        (fun i _ _ => by unfold exClockB; dsimp only; split_ifs <;> decide)⟩,
    ⟨rfl, by decide, (C2_Sync_elementwise_max exClockB exClockEmpty).2.2 rfl (by decide)⟩⟩

/-- C3 on the code: the entries are 64-bit `int`s. On the clock
`[9223372036854775807]` of width 1, `Inc(1)` wraps: the coordinate 1 becomes
`-9223372036854775808`, which is not one greater than the entry
`9223372036854775807` of the clock. -/
theorem C3_Inc_wraps_counterexample :
    exClockMax.size = 1 ∧ exClockMax.clock 1 = 9223372036854775807 ∧
      (exClockMax.Inc 1).clock 1 = -9223372036854775808 ∧
      (exClockMax.Inc 1).clock 1 ≠ exClockMax.clock 1 + 1 := by
  refine ⟨rfl, by decide, by decide, by decide⟩

/-- C3 (amended): `NewVectorClock(n)` has width `n` and reads 0 everywhere, and
for every clock `c` of width `n` and every routine `r`, `c.Inc(r)` has width
`n`, its coordinate `r` is the 64-bit wrap of the coordinate of `c` plus one,
which is one greater than that of `c` whenever that is an `int64` below
`math.MaxInt64`, and every other coordinate equals that of `c`. -/
theorem C3_Inc_increments_own_coordinate (c : VectorClock) (n r : Int)
    (hsz : c.size = n) :
    ((NewVectorClock n).size = n ∧ ∀ i, (NewVectorClock n).clock i = 0) ∧
      (c.Inc r).size = n ∧
      (c.Inc r).clock r = wrapInt64 (c.clock r + 1) ∧
      (-9223372036854775808 ≤ c.clock r → c.clock r < 9223372036854775807 →
        (c.Inc r).clock r = c.clock r + 1) ∧
      (∀ i, i ≠ r → (c.Inc r).clock i = c.clock i) ∧
      (((NewVectorClock n).Inc r).clock r = 1 ∧
        ∀ i, i ≠ r → ((NewVectorClock n).Inc r).clock i = 0) := by
  refine ⟨⟨rfl, NewVectorClock_clock n⟩, hsz, ?_, Inc_clock_self c r, fun i hi => ?_, ?_,
    fun i hi => ?_⟩
  · simp [VectorClock.Inc]
  · simp [VectorClock.Inc, Function.update_noteq hi]
  · rw [Inc_clock_self _ _ (by rw [NewVectorClock_clock]; decide)
      (by rw [NewVectorClock_clock]; decide), NewVectorClock_clock]
    rfl
  · simp [VectorClock.Inc, Function.update_noteq hi, NewVectorClock_clock]

/-- Witness of C3 (amended) on the clock `[1, 2]` and routine 2. -/
theorem C3_Inc_increments_own_coordinate_witness :
    exClockB.size = 2 ∧
      (exClockB.Inc 2).size = 2 ∧ (exClockB.Inc 2).clock 2 = exClockB.clock 2 + 1 :=
  ⟨rfl, (C3_Inc_increments_own_coordinate exClockB 2 2 rfl).2.1,
    (C3_Inc_increments_own_coordinate exClockB 2 2 rfl).2.2.2.1 (by decide) (by decide)⟩

/-- C4 on the code: the entries are 64-bit `int`s. On the clock
`[9223372036854775807]` of width 1, a clock of the data model, the snapshot
of the earlier event reads `9223372036854775807` at routine 1 and the clock
after `Inc(1)` (with no join) reads `-9223372036854775808`: the later clock is
smaller, and `GetHappensBefore(e, l)` is `After`, not `Before`. -/
theorem C4_wrapped_entry_counterexample :
    exClockMax.IsClockOfWidth 1 ∧
      exClockMax.Copy.map (fun e => e.clock 1) = some 9223372036854775807 ∧
      (syncAll (exClockMax.Inc 1) []).map (fun l => l.clock 1) =
        some (-9223372036854775808) ∧
      exClockMax.Copy.bind (fun e =>
          (syncAll (exClockMax.Inc 1) []).map (fun l => GetHappensBefore e l)) =
        some HappensBefore.After ∧
      exClockMax.Copy.bind (fun e =>
          (syncAll (exClockMax.Inc 1) []).map (fun l => GetHappensBefore l e)) =
        some HappensBefore.Before := by
  refine ⟨⟨rfl, fun i _ _ => by unfold exClockMax; dsimp only; split_ifs <;> decide⟩,
    by decide, by decide, by decide, by decide⟩

/-- C4 (amended): vector-clock monotonicity on one routine. Let `c` be a clock
of width `n ≥ 1` and `r` a routine in `1..n` whose entry `c[r]` is below
`math.MaxInt64`; let `e` be the snapshot `c.Copy()` of the earlier event and
`l` the clock obtained from `c` by `Inc(r)` followed by any number of `Sync`
joins with clocks of width `n`. Then the snapshot and the joins succeed,
`l[r] > e[r] ≥ 0` (so `l[r] ≥ 1`), `GetHappensBefore(e, l) = Before` and
`GetHappensBefore(l, e) = After`; so two such events of one routine are never
`Concurrent`. -/
theorem C4_same_routine_monotone (c : VectorClock) (n r : Int) (xs : List VectorClock)
    (hc : c.IsClockOfWidth n) (hn : 1 ≤ n) (hr : 1 ≤ r ∧ r ≤ n)
    (hmax : c.clock r < 9223372036854775807) (hxs : ∀ x ∈ xs, x.size = n) :
    ∃ e l, c.Copy = some e ∧ syncAll (c.Inc r) xs = some l ∧ l.size = n ∧
      e.clock r < l.clock r ∧ 0 ≤ e.clock r ∧ 1 ≤ l.clock r ∧
      GetHappensBefore e l = HappensBefore.Before ∧
      GetHappensBefore l e = HappensBefore.After ∧
      GetHappensBefore e l ≠ HappensBefore.Concurrent ∧
      GetHappensBefore l e ≠ HappensBefore.Concurrent := by
  obtain ⟨hsz, hnn⟩ := hc
  obtain ⟨e, he, hes, hec⟩ := Copy_spec c (by omega)
  obtain ⟨l, hl, hls, hlc⟩ := syncAll_mono n (by omega) xs (c.Inc r) hsz hxs
  have heq : ∀ i, 1 ≤ i → i ≤ n → e.clock i = c.clock i := by
    intro i h1 h2
    rw [hec, if_pos ⟨h1, by omega⟩]
  have hincr : (c.Inc r).clock r = c.clock r + 1 :=
    Inc_clock_self c r (by have := hnn r hr.1 hr.2; omega) hmax
  have hinc : ∀ i, c.clock i ≤ (c.Inc r).clock i := by
    intro i
    by_cases hi : i = r
    · subst hi; omega
    · simp [VectorClock.Inc, Function.update_noteq hi]
  have hle : ∀ i, 1 ≤ i → i ≤ n → e.clock i ≤ l.clock i := by
    intro i h1 h2
    have a1 := heq i h1 h2
    have a2 := hinc i
    have a3 := hlc i h1 h2
    omega
  have hlt : e.clock r < l.clock r := by
    have a1 := heq r hr.1 hr.2
    have a3 := hlc r hr.1 hr.2
    omega
  have h0 : 0 ≤ e.clock r := by
    have a1 := heq r hr.1 hr.2
    have a2 := hnn r hr.1 hr.2
    omega
  have hcause : isCause e l = true :=
    (isCause_iff e l).mpr
      ⟨fun j h1 h2 => hle j h1 (by omega), r, hr.1, by omega, hlt⟩
  have hncause : isCause l e = false := by
    cases hb : isCause l e with
    | false => rfl
    | true =>
      have := ((isCause_iff l e).mp hb).1 r hr.1 (by omega)
      omega
  have hB : GetHappensBefore e l = HappensBefore.Before :=
    (GetHappensBefore_eq_Before e l).mpr hcause
  have hA : GetHappensBefore l e = HappensBefore.After :=
    (GetHappensBefore_eq_After l e).mpr ⟨hncause, hcause⟩
  refine ⟨e, l, he, hl, hls, hlt, h0, by omega, hB, hA, ?_, ?_⟩
  · rw [hB]; decide
  · rw [hA]; decide

/-- Witness of C4 (amended): the clock `[1, 2]`, routine 1, joined with
`[0, 3]` and then with `[1, 0]`. -/
theorem C4_same_routine_monotone_witness :
    exClockB.IsClockOfWidth 2 ∧ exClockB.clock 1 < 9223372036854775807 ∧
      (∀ x ∈ [exClockC, exClockA], x.size = 2) ∧
      ∃ e l, exClockB.Copy = some e ∧
        syncAll (exClockB.Inc 1) [exClockC, exClockA] = some l ∧ l.size = 2 ∧
        e.clock 1 < l.clock 1 ∧ 0 ≤ e.clock 1 ∧ 1 ≤ l.clock 1 ∧
        GetHappensBefore e l = HappensBefore.Before ∧
        GetHappensBefore l e = HappensBefore.After ∧
        GetHappensBefore e l ≠ HappensBefore.Concurrent ∧
        GetHappensBefore l e ≠ HappensBefore.Concurrent :=
  ⟨⟨rfl, fun i _ _ => by unfold exClockB; dsimp only; split_ifs <;> decide⟩,
    by decide,
    by intro x hx; simp at hx; rcases hx with rfl | rfl <;> rfl,
    C4_same_routine_monotone exClockB 2 1 [exClockC, exClockA]
      ⟨rfl, fun i _ _ => by unfold exClockB; dsimp only; split_ifs <;> decide⟩
      (by decide) (by decide) (by decide)
      (by intro x hx; simp at hx; rcases hx with rfl | rfl <;> rfl)⟩

/-- C5: happens-before correctness of a join. For a sender clock `s` and a
receiver clock `c` of the same non-zero width, the join `j = c.Sync(s)`
succeeds, `s[i] ≤ j[i]` for every `i` in `1..n`, `GetHappensBefore(s, j)` is
not `After`, and it is `Before` whenever `c[k] > s[k]` for some `k` in `1..n`. -/
theorem C5_join_happens_before (s c : VectorClock) (hsz : s.size = c.size)
    (hne : c.size ≠ 0) :
    ∃ j, c.Sync s = some j ∧ j.size = s.size ∧
      (∀ i, 1 ≤ i → i ≤ s.size → s.clock i ≤ j.clock i) ∧
      GetHappensBefore s j ≠ HappensBefore.After ∧
      ((∃ k, 1 ≤ k ∧ k ≤ s.size ∧ s.clock k < c.clock k) →
        GetHappensBefore s j = HappensBefore.Before) := by
  obtain ⟨j, hj, hjs, hjc⟩ := Sync_same_width c s hsz.symm hne
  have hle : ∀ i, 1 ≤ i → i ≤ s.size → s.clock i ≤ j.clock i := by
    intro i h1 h2
    have a1 := hjc i h1 (by omega)
    have a2 : s.clock i ≤ max (c.clock i) (s.clock i) := le_max_right _ _
    omega
  refine ⟨j, hj, by omega, hle, ?_, ?_⟩
  · intro hA
    obtain ⟨_, hb⟩ := (GetHappensBefore_eq_After s j).mp hA
    obtain ⟨_, i, h1, h2, hlt⟩ := (isCause_iff j s).mp hb
    have := hle i h1 (by omega)
    omega
  · rintro ⟨k, h1, h2, hlt⟩
    refine (GetHappensBefore_eq_Before s j).mpr ((isCause_iff s j).mpr ⟨hle, k, h1, h2, ?_⟩)
    have a1 := hjc k h1 (by omega)
    have a2 : c.clock k ≤ max (c.clock k) (s.clock k) := le_max_left _ _
    omega

/-- Witness of C5: sender `[1, 0]`, receiver `[0, 3]`. -/
theorem C5_join_happens_before_witness :
    exClockA.size = exClockC.size ∧ exClockC.size ≠ 0 ∧
      (∃ k, 1 ≤ k ∧ k ≤ exClockA.size ∧ exClockA.clock k < exClockC.clock k) ∧
      ∃ j, exClockC.Sync exClockA = some j ∧ j.size = exClockA.size ∧
        (∀ i, 1 ≤ i → i ≤ exClockA.size → exClockA.clock i ≤ j.clock i) ∧
        GetHappensBefore exClockA j ≠ HappensBefore.After ∧
        GetHappensBefore exClockA j = HappensBefore.Before :=
  ⟨rfl, by decide, ⟨2, by decide, by decide, by decide⟩,
    (C5_join_happens_before exClockA exClockC rfl (by decide)).elim
      (fun j h => ⟨j, h.1, h.2.1, h.2.2.1, h.2.2.2.1,
        h.2.2.2.2 ⟨2, by decide, by decide, by decide⟩⟩)⟩

/-! ## Theorems on the trace order -/

/-- C6: the sort key of a once event is `math.MaxInt` when the event never
completed (`tPost = 0`) and its `tPre` otherwise. -/
theorem C6_GetTSort_once (e : TraceElementOnce) :
    (e.tPost = 0 → e.GetTSort = mathMaxInt) ∧ (e.tPost ≠ 0 → e.GetTSort = e.tPre) := by
  constructor
  · intro h; simp [TraceElementOnce.GetTSort, h]
  · intro h; simp [TraceElementOnce.GetTSort, h]

/-- Witness of C6 on a pending and on a completed once event. -/
theorem C6_GetTSort_once_witness :
    ((0 : Int) = 0 ∧
        TraceElementOnce.GetTSort
          { routine := 1, tPre := 7, tPost := 0, id := 3, suc := false, pos := "a.go:5",
            vc := exClockA } = mathMaxInt) ∧
      ((8 : Int) ≠ 0 ∧
        TraceElementOnce.GetTSort
          { routine := 1, tPre := 7, tPost := 8, id := 3, suc := true, pos := "a.go:5",
            vc := exClockA } = 7) :=
  ⟨⟨rfl, (C6_GetTSort_once
      { routine := 1, tPre := 7, tPost := 0, id := 3, suc := false, pos := "a.go:5",
        vc := exClockA }).1 rfl⟩,
    ⟨by decide, (C6_GetTSort_once
      { routine := 1, tPre := 7, tPost := 8, id := 3, suc := true, pos := "a.go:5",
        vc := exClockA }).2 (by decide)⟩⟩

theorem sortInsert_perm {α : Type} (less : α → α → Bool) (x : α) (l : List α) :
    (sortInsert less x l).Perm (x :: l) := by
  induction l with
  | nil => exact List.Perm.refl _
  | cons y ys ih =>
    unfold sortInsert
    split
    · exact List.Perm.refl _
    · exact (List.Perm.cons y ih).trans (List.Perm.swap x y ys)

theorem sortSort_perm {α : Type} (less : α → α → Bool) (l : List α) :
    (sortSort less l).Perm l := by
  induction l with
  | nil => exact List.Perm.refl _
  | cons x xs ih =>
    exact (sortInsert_perm less x _).trans (List.Perm.cons x ih)

theorem sortInsert_sorted_tpre (x : Trace.traceElement) (l : List Trace.traceElement)
    (h : l.Pairwise (fun a b => a.getTpre ≤ b.getTpre)) :
    (sortInsert Trace.sortByTPre.Less x l).Pairwise (fun a b => a.getTpre ≤ b.getTpre) := by
  induction l with
  | nil => simp [sortInsert]
  | cons y ys ih =>
    rw [List.pairwise_cons] at h
    unfold sortInsert
    by_cases hlt : Trace.sortByTPre.Less x y = true
    · rw [if_pos hlt]
      have hxy : x.getTpre < y.getTpre := by
        simpa [Trace.sortByTPre.Less] using hlt
      refine List.pairwise_cons.mpr ⟨fun z hz => ?_, List.pairwise_cons.mpr h⟩
      rcases List.mem_cons.mp hz with rfl | hz
      · omega
      · have := h.1 z hz
        omega
    · rw [if_neg hlt]
      have hxy : y.getTpre ≤ x.getTpre := by
        have : ¬ x.getTpre < y.getTpre := by
          simpa [Trace.sortByTPre.Less] using hlt
        omega
      refine List.pairwise_cons.mpr ⟨fun z hz => ?_, ih h.2⟩
      have hz2 := (sortInsert_perm Trace.sortByTPre.Less x ys).subset hz
      rcases List.mem_cons.mp hz2 with rfl | hz2
      · exact hxy
      · exact h.1 z hz2

/-- Every order of the example trace that is sorted by `tpre` has the pending
send first: the failure of the pending-last property on it does not depend on
how `sort.Sort` orders equal keys. -/
theorem exTrace_no_sorted_order_pending_last (out : List Trace.traceElement)
    (hperm : out.Perm Trace.exTrace)
    (hsorted : out.Pairwise (fun a b => a.getTpre ≤ b.getTpre)) :
    ¬ Trace.PendingLast out := by
  have hlen : out.length = 2 := by rw [hperm.length_eq]; rfl
  match out, hlen with
  | [a, b], _ =>
    have ha : a ∈ Trace.exTrace := hperm.subset (by simp)
    have hb : b ∈ Trace.exTrace := hperm.subset (by simp)
    have hab : a.getTpre ≤ b.getTpre := by
      have := List.pairwise_cons.mp hsorted
      exact this.1 b (by simp)
    have hnd : [a, b].Nodup := hperm.nodup_iff.mpr (by decide)
    have hne : a ≠ b := by
      intro h; subst h; simp at hnd
    simp only [Trace.exTrace, List.mem_cons, List.mem_singleton, List.not_mem_nil,
      or_false] at ha hb
    rcases ha with rfl | rfl <;> rcases hb with rfl | rfl
    · exact absurd rfl hne
    · decide
    · revert hab; decide
    · exact absurd rfl hne

/-- C7, as stated, fails: on the example trace, whose pending send has the
smaller `tpre`, the trace after `Sort()` has the element with `tpost = 0`
before the one with non-zero `tpost`. -/
theorem C7_Sort_pending_last_counterexample :
    ¬ ((Trace.Sort Trace.exTrace).Perm Trace.exTrace ∧
        Trace.PendingLast (Trace.Sort Trace.exTrace)) := by
  intro h
  exact absurd h.2 (by decide)

/-- C7, amended: after `Sort()` the trace is a permutation of the trace before
the call, in non-decreasing order of `tpre`. -/
theorem C7_Sort_perm_sorted_by_tpre (trace : List Trace.traceElement) :
    (Trace.Sort trace).Perm trace ∧
      (Trace.Sort trace).Pairwise (fun a b => a.getTpre ≤ b.getTpre) := by
  refine ⟨sortSort_perm _ _, ?_⟩
  unfold Trace.Sort
  induction trace with
  | nil => simp [sortSort]
  | cons x xs ih => exact sortInsert_sorted_tpre x _ ih

/-! ## Lemmas on maps and on the loop of `CheckForLeakChannelStuck` -/

theorem GoMap.lookup_insert_self {α : Type} (m : GoMap α) (k : Int) (v : α) :
    GoMap.lookup (GoMap.insert m k v) k = some v := by
  induction m with
  | nil => simp [GoMap.insert, GoMap.lookup]
  | cons e rest ih =>
    obtain ⟨k2, v2⟩ := e
    by_cases h : k2 = k
    · simp [GoMap.insert, GoMap.lookup, h]
    · simp [GoMap.insert, GoMap.lookup, h, ih]

theorem GoMap.lookup_insert_other {α : Type} (m : GoMap α) (k k3 : Int) (v : α)
    (hk : k3 ≠ k) : GoMap.lookup (GoMap.insert m k v) k3 = GoMap.lookup m k3 := by
  induction m with
  | nil =>
    have : ¬ k = k3 := fun h => hk h.symm
    simp [GoMap.insert, GoMap.lookup, this]
  | cons e rest ih =>
    obtain ⟨k2, v2⟩ := e
    by_cases h : k2 = k
    · subst h
      have : ¬ k2 = k3 := fun h => hk h.symm
      simp [GoMap.insert, GoMap.lookup, this]
    · by_cases h3 : k2 = k3
      · subst h3
        simp [GoMap.insert, GoMap.lookup, h]
      · simp [GoMap.insert, GoMap.lookup, h, h3, ih]

/-- Without a possible partner the loop changes nothing and does not return. -/
theorem stuckLoop_no_partner (info : String → Option (String × Int × Int))
    (ch : TraceElementChannel) (vc : VectorClock) (buffered : Bool) (o1 o2 : String)
    (index : GoMap (GoMap VectorClockTID3)) (results : List ResultCall) (found : Bool)
    (h : concurrentPartners index ch.id vc = []) :
    stuckLoop info ch vc buffered o1 o2 index results found =
      { results := results, foundPartner := found, returned := false } := by
  induction index generalizing results found with
  | nil => rfl
  | cons e rest ih =>
    obtain ⟨p, mrr⟩ := e
    unfold concurrentPartners at h
    rw [List.filterMap_cons] at h
    unfold stuckLoop
    cases hl : GoMap.lookup mrr ch.id with
    | none =>
      simp only [hl] at h
      exact ih results found h
    | some mr =>
      simp only [hl] at h
      by_cases hc : GetHappensBefore mr.Vc vc = HappensBefore.Concurrent
      · simp [hc] at h
      · simp only [hc, if_false] at h ⊢
        exact ih results found h

/-- With a possible partner the loop either returns from the function or sets
`foundPartner`. -/
theorem stuckLoop_partner (info : String → Option (String × Int × Int))
    (ch : TraceElementChannel) (vc : VectorClock) (buffered : Bool) (o1 o2 : String)
    (index : GoMap (GoMap VectorClockTID3)) (results : List ResultCall) (found : Bool)
    (h : found = true ∨ concurrentPartners index ch.id vc ≠ []) :
    (stuckLoop info ch vc buffered o1 o2 index results found).returned = true ∨
      (stuckLoop info ch vc buffered o1 o2 index results found).foundPartner = true := by
  induction index generalizing results found with
  | nil =>
    rcases h with h | h
    · exact Or.inr h
    · exact absurd rfl h
  | cons e rest ih =>
    obtain ⟨p, mrr⟩ := e
    unfold concurrentPartners at h
    rw [List.filterMap_cons] at h
    unfold stuckLoop
    cases hl : GoMap.lookup mrr ch.id with
    | none =>
      simp only [hl] at h
      exact ih results found h
    | some mr =>
      simp only [hl] at h
      by_cases hc : GetHappensBefore mr.Vc vc = HappensBefore.Concurrent
      · simp only [hc, if_true]
        cases h1 : info ch.GetTID with
        | none => exact Or.inl rfl
        | some i1 =>
          obtain ⟨f1, l1, t1⟩ := i1
          cases h2 : info mr.Elem.GetTID with
          | none => exact Or.inl rfl
          | some i2 =>
            obtain ⟨f2, l2, t2⟩ := i2
            exact ih _ true (Or.inl rfl)
      · simp only [hc, if_false] at h ⊢
        exact ih results found h

/-- When the position lookups of the stuck operation and of its possible
partners succeed, the loop emits one result for each possible partner, in the
order of the index, and does not return. -/
theorem stuckLoop_lookups_succeed (info : String → Option (String × Int × Int))
    (pos : String → String × Int × Int)
    (ch : TraceElementChannel) (vc : VectorClock) (buffered : Bool) (o1 o2 : String)
    (hself : info ch.GetTID = some (pos ch.GetTID))
    (index : GoMap (GoMap VectorClockTID3)) (results : List ResultCall) (found : Bool)
    (hpart : ∀ pm ∈ concurrentPartners index ch.id vc,
      info pm.2.Elem.GetTID = some (pos pm.2.Elem.GetTID)) :
    stuckLoop info ch vc buffered o1 o2 index results found =
      { results := results ++ (concurrentPartners index ch.id vc).map (fun pm =>
          { level := ResultLevel.CRITICAL
            resType := if buffered then LBufferedWith else LUnbufferedWith
            argType1 := "channel"
            arg1 := [{ RoutineID := ch.routine, ObjID := ch.id, TPre := (pos ch.GetTID).2.2,
                       ObjType := o1, File := (pos ch.GetTID).1, Line := (pos ch.GetTID).2.1 }]
            argType2 := "partner"
            arg2 := [{ RoutineID := pm.1, ObjID := ch.id, TPre := (pos pm.2.Elem.GetTID).2.2,
                       ObjType := o2, File := (pos pm.2.Elem.GetTID).1,
                       Line := (pos pm.2.Elem.GetTID).2.1 }] })
        foundPartner := found || !(concurrentPartners index ch.id vc).isEmpty
        returned := false } := by
  induction index generalizing results found with
  | nil => simp [stuckLoop, concurrentPartners]
  | cons e rest ih =>
    obtain ⟨p, mrr⟩ := e
    unfold concurrentPartners at hpart ⊢
    rw [List.filterMap_cons] at hpart ⊢
    unfold stuckLoop
    cases hl : GoMap.lookup mrr ch.id with
    | none =>
      simp only [hl] at hpart ⊢
      exact ih results found hpart
    | some mr =>
      simp only [hl] at hpart ⊢
      by_cases hc : GetHappensBefore mr.Vc vc = HappensBefore.Concurrent
      · simp only [hc, if_true] at hpart ⊢
        have h2 := hpart (p, mr) (List.mem_cons_self _ _)
        have hrest := fun pm hpm => hpart pm (List.mem_cons_of_mem _ hpm)
        simp only at h2
        rw [hself, h2]
        rcases hp1 : pos ch.GetTID with ⟨f1, l1, t1⟩
        rcases hp2 : pos mr.Elem.GetTID with ⟨f2, l2, t2⟩
        simp only []
        rw [ih _ true hrest]
        simp [hp1, hp2, concurrentPartners]
      · simp only [hc, if_false] at hpart ⊢
        exact ih results found hpart

/-! ## Theorems on `CheckForLeakChannelStuck` -/

/-- C8: for a stuck send on a channel with id other than -1, when the position
lookups of the send and of its possible partners succeed,
`CheckForLeakChannelStuck` emits one critical result for each routine `p` whose
most recent receive on the channel has a clock `Concurrent` with the clock of
the stuck send, of kind `LBufferedWith` (`L03`) when `qSize != 0` and
`LUnbufferedWith` (`L01`) when `qSize = 0`, with role `channel` the stuck send
(its routine, the channel id, tag `CS`) and role `partner` the receive of `p`
(routine `p`, the channel id, tag `CR`); and the same for a stuck receive
against the most recent sends, with the tags `CR` and `CS`. -/
theorem C8_stuck_channel_partner_results (info : String → Option (String × Int × Int))
    (pos : String → String × Int × Int) (st : AnalysisState) (ch : TraceElementChannel)
    (vc : VectorClock) (hid : ch.id ≠ -1)
    (hself : info ch.GetTID = some (pos ch.GetTID)) :
    (ch.opC = OpChannel.SendOp →
        (∀ pm ∈ concurrentPartners st.mostRecentReceive ch.id vc,
          info pm.2.Elem.GetTID = some (pos pm.2.Elem.GetTID)) →
        (CheckForLeakChannelStuck info st ch vc).results =
          st.results ++ (concurrentPartners st.mostRecentReceive ch.id vc).map (fun pm =>
            { level := ResultLevel.CRITICAL
              resType := if ch.qSize ≠ 0 then LBufferedWith else LUnbufferedWith
              argType1 := "channel"
              arg1 := [{ RoutineID := ch.routine, ObjID := ch.id, TPre := (pos ch.GetTID).2.2,
                         ObjType := "CS", File := (pos ch.GetTID).1,
                         Line := (pos ch.GetTID).2.1 }]
              argType2 := "partner"
              arg2 := [{ RoutineID := pm.1, ObjID := ch.id,
                         TPre := (pos pm.2.Elem.GetTID).2.2, ObjType := "CR",
                         File := (pos pm.2.Elem.GetTID).1,
                         Line := (pos pm.2.Elem.GetTID).2.1 }] })) ∧
      (ch.opC = OpChannel.RecvOp →
        (∀ pm ∈ concurrentPartners st.mostRecentSend ch.id vc,
          info pm.2.Elem.GetTID = some (pos pm.2.Elem.GetTID)) →
        (CheckForLeakChannelStuck info st ch vc).results =
          st.results ++ (concurrentPartners st.mostRecentSend ch.id vc).map (fun pm =>
            { level := ResultLevel.CRITICAL
              resType := if ch.qSize ≠ 0 then LBufferedWith else LUnbufferedWith
              argType1 := "channel"
              arg1 := [{ RoutineID := ch.routine, ObjID := ch.id, TPre := (pos ch.GetTID).2.2,
                         ObjType := "CR", File := (pos ch.GetTID).1,
                         Line := (pos ch.GetTID).2.1 }]
              argType2 := "partner"
              arg2 := [{ RoutineID := pm.1, ObjID := ch.id,
                         TPre := (pos pm.2.Elem.GetTID).2.2, ObjType := "CS",
                         File := (pos pm.2.Elem.GetTID).1,
                         Line := (pos pm.2.Elem.GetTID).2.1 }] })) ∧
      LBufferedWith = "L03" ∧ LUnbufferedWith = "L01" := by
  refine ⟨fun hop hpart => ?_, fun hop hpart => ?_, rfl, rfl⟩
  · have hloop := stuckLoop_lookups_succeed info pos ch vc (decide (ch.qSize ≠ 0)) "CS" "CR"
      hself st.mostRecentReceive st.results false hpart
    unfold CheckForLeakChannelStuck
    simp only [if_neg hid, hop, if_true, hloop]
    by_cases hq : ch.qSize = 0 <;>
      cases hp : (concurrentPartners st.mostRecentReceive ch.id vc).isEmpty <;> simp [hq, hp]
  · have hloop := stuckLoop_lookups_succeed info pos ch vc (decide (ch.qSize ≠ 0)) "CR" "CS"
      hself st.mostRecentSend st.results false hpart
    have hne : ¬ (OpChannel.RecvOp = OpChannel.SendOp) := by decide
    unfold CheckForLeakChannelStuck
    simp only [if_neg hid, hop, if_neg hne, if_true, hloop]
    by_cases hq : ch.qSize = 0 <;>
      cases hp : (concurrentPartners st.mostRecentSend ch.id vc).isEmpty <;> simp [hq, hp]

/-- Witness of C8: the stuck send of routine 2 on the buffered channel 7 with
the clock `[1, 2]`; routine 3's most recent receive has the concurrent clock
`[0, 3]`, routine 1's has the earlier clock `[1, 0]`. One `L03` result is
emitted, with routine 3 as the partner. -/
theorem C8_stuck_channel_partner_results_witness :
    exStuckSend.id ≠ -1 ∧
      infoFromTID exStuckSend.GetTID = some ("a.go", 12, 9) ∧
      exStuckSend.opC = OpChannel.SendOp ∧
      (CheckForLeakChannelStuck infoFromTID exState exStuckSend exClockB).results =
        [{ level := ResultLevel.CRITICAL, resType := "L03", argType1 := "channel",
           arg1 := [{ RoutineID := 2, ObjID := 7, TPre := 9, ObjType := "CS", File := "a.go",
                      Line := 12 }],
           argType2 := "partner",
           arg2 := [{ RoutineID := 3, ObjID := 7, TPre := 4, ObjType := "CR", File := "a.go",
                      Line := 30 }] }] :=
  ⟨by decide, by decide, rfl,
    ((C8_stuck_channel_partner_results infoFromTID
        (fun tid => (infoFromTID tid).getD ("", 0, 0)) exState exStuckSend exClockB
        (by decide) (by decide)).1 rfl
      (by
        have hcp : concurrentPartners exState.mostRecentReceive exStuckSend.id exClockB =
            [(3, { Elem := .channel exRecv, Vc := exClockC, Val := 1 })] := rfl
        intro pm hpm
        rw [hcp] at hpm
        rw [List.mem_singleton.mp hpm]
        decide)).trans (by decide)⟩

/-- C9: for a stuck send or receive on a channel with id other than -1,
`CheckForLeakChannelStuck` pushes into the leak bucket exactly when no possible
partner was found. When no routine's most recent opposite operation on the
channel is `Concurrent` with the stuck clock, it emits no result and appends
one entry (routine, id, clock, TID, operation kind, select pre -1, buffered,
not a select case) at the end of `leakingChannels[id]`, and every other bucket
is unchanged; when there is a possible partner, no bucket is changed. -/
theorem C9_stuck_channel_leak_bucket (info : String → Option (String × Int × Int))
    (st : AnalysisState) (ch : TraceElementChannel) (vc : VectorClock) (hid : ch.id ≠ -1) :
    (ch.opC = OpChannel.SendOp →
        (concurrentPartners st.mostRecentReceive ch.id vc = [] →
          (CheckForLeakChannelStuck info st ch vc).results = st.results ∧
          GoMap.getSlice (CheckForLeakChannelStuck info st ch vc).leakingChannels ch.id =
            GoMap.getSlice st.leakingChannels ch.id ++
              [{ routine := ch.routine, id := ch.id, vc := vc, tID := ch.GetTID, typeVal := 0,
                 val := -1, buffered := decide (ch.qSize ≠ 0), sel := false, selID := 0 }] ∧
          ∀ id2, id2 ≠ ch.id →
            GoMap.lookup (CheckForLeakChannelStuck info st ch vc).leakingChannels id2 =
              GoMap.lookup st.leakingChannels id2) ∧
        (concurrentPartners st.mostRecentReceive ch.id vc ≠ [] →
          (CheckForLeakChannelStuck info st ch vc).leakingChannels = st.leakingChannels)) ∧
      (ch.opC = OpChannel.RecvOp →
        (concurrentPartners st.mostRecentSend ch.id vc = [] →
          (CheckForLeakChannelStuck info st ch vc).results = st.results ∧
          GoMap.getSlice (CheckForLeakChannelStuck info st ch vc).leakingChannels ch.id =
            GoMap.getSlice st.leakingChannels ch.id ++
              [{ routine := ch.routine, id := ch.id, vc := vc, tID := ch.GetTID, typeVal := 1,
                 val := -1, buffered := decide (ch.qSize ≠ 0), sel := false, selID := 0 }] ∧
          ∀ id2, id2 ≠ ch.id →
            GoMap.lookup (CheckForLeakChannelStuck info st ch vc).leakingChannels id2 =
              GoMap.lookup st.leakingChannels id2) ∧
        (concurrentPartners st.mostRecentSend ch.id vc ≠ [] →
          (CheckForLeakChannelStuck info st ch vc).leakingChannels = st.leakingChannels)) := by
  have hne : ¬ (OpChannel.RecvOp = OpChannel.SendOp) := by decide
  refine ⟨fun hop => ⟨fun hnone => ?_, fun hsome => ?_⟩,
    fun hop => ⟨fun hnone => ?_, fun hsome => ?_⟩⟩
  · have hloop := stuckLoop_no_partner info ch vc (decide (ch.qSize ≠ 0)) "CS" "CR"
      st.mostRecentReceive st.results false hnone
    unfold CheckForLeakChannelStuck
    simp only [if_neg hid, hop, if_true, hloop]
    refine ⟨by simp, ?_, fun id2 h2 => ?_⟩
    · simp [GoMap.getSlice, GoMap.lookup_insert_self, OpChannel.toInt]
    · simp [GoMap.lookup_insert_other _ _ _ _ h2]
  · have hloop := stuckLoop_partner info ch vc (decide (ch.qSize ≠ 0)) "CS" "CR"
      st.mostRecentReceive st.results false (Or.inr hsome)
    unfold CheckForLeakChannelStuck
    simp only [if_neg hid, hop, if_true]
    generalize stuckLoop info ch vc (decide (ch.qSize ≠ 0)) "CS" "CR"
      st.mostRecentReceive st.results false = out at hloop ⊢
    obtain ⟨res, fp, ret⟩ := out
    simp only at hloop
    rcases hloop with rfl | rfl
    · simp
    · cases ret <;> simp
  · have hloop := stuckLoop_no_partner info ch vc (decide (ch.qSize ≠ 0)) "CR" "CS"
      st.mostRecentSend st.results false hnone
    unfold CheckForLeakChannelStuck
    simp only [if_neg hid, hop, if_neg hne, if_true, hloop]
    refine ⟨by simp, ?_, fun id2 h2 => ?_⟩
    · simp [GoMap.getSlice, GoMap.lookup_insert_self, OpChannel.toInt]
    · simp [GoMap.lookup_insert_other _ _ _ _ h2]
  · have hloop := stuckLoop_partner info ch vc (decide (ch.qSize ≠ 0)) "CR" "CS"
      st.mostRecentSend st.results false (Or.inr hsome)
    unfold CheckForLeakChannelStuck
    simp only [if_neg hid, hop, if_neg hne, if_true]
    generalize stuckLoop info ch vc (decide (ch.qSize ≠ 0)) "CR" "CS"
      st.mostRecentSend st.results false = out at hloop ⊢
    obtain ⟨res, fp, ret⟩ := out
    simp only at hloop
    rcases hloop with rfl | rfl
    · simp
    · cases ret <;> simp

/-- Witness of C9: the stuck send of routine 2 on channel 7 with the clock
`[1, 2]` in the example state has a possible partner, so no bucket changes; in
the state without recency entries it has none, so it is pushed. -/
theorem C9_stuck_channel_leak_bucket_witness :
    exStuckSend.id ≠ -1 ∧ exStuckSend.opC = OpChannel.SendOp ∧
      concurrentPartners exState.mostRecentReceive exStuckSend.id exClockB ≠ [] ∧
      (CheckForLeakChannelStuck infoFromTID exState exStuckSend exClockB).leakingChannels =
        exState.leakingChannels ∧
      concurrentPartners ({} : AnalysisState).mostRecentReceive exStuckSend.id exClockB = [] ∧
      (CheckForLeakChannelStuck infoFromTID {} exStuckSend exClockB).results = [] ∧
      ((GoMap.getSlice
          (CheckForLeakChannelStuck infoFromTID {} exStuckSend exClockB).leakingChannels
          exStuckSend.id).map (fun x => (x.routine, x.id, x.tID, x.typeVal, x.val, x.buffered,
            x.sel))) = [(2, 7, "a.go:12@9", 0, -1, true, false)] :=
  ⟨by decide, rfl,
    by
      have hcp : concurrentPartners exState.mostRecentReceive exStuckSend.id exClockB =
          [(3, { Elem := .channel exRecv, Vc := exClockC, Val := 1 })] := rfl
      rw [hcp]; exact List.cons_ne_nil _ _,
    ((C9_stuck_channel_leak_bucket infoFromTID exState exStuckSend exClockB (by decide)).1
      rfl).2
      (by
        have hcp : concurrentPartners exState.mostRecentReceive exStuckSend.id exClockB =
            [(3, { Elem := .channel exRecv, Vc := exClockC, Val := 1 })] := rfl
        rw [hcp]; exact List.cons_ne_nil _ _),
    rfl,
    (((C9_stuck_channel_leak_bucket infoFromTID {} exStuckSend exClockB (by decide)).1
      rfl).1 rfl).1,
    by
      rw [(((C9_stuck_channel_leak_bucket infoFromTID {} exStuckSend exClockB
        (by decide)).1 rfl).1 rfl).2.1]
      rfl⟩

/-- C10, as stated, fails: the stuck send on the nil channel whose recorded
position has no line number (TID `a.go@5`) makes the position lookup fail, and
`CheckForLeakChannelStuck` then returns without emitting a result. -/
theorem C10_nil_channel_counterexample :
    exNilSend.id = -1 ∧ exNilSend.opC = OpChannel.SendOp ∧ exNilSend.tPost = 0 ∧
      infoFromTID exNilSend.GetTID = none ∧
      (CheckForLeakChannelStuck infoFromTID {} exNilSend exClockA).results = [] :=
  ⟨rfl, rfl, rfl, by decide, by decide⟩

/-- C10, amended: for a stuck send or receive on the nil channel (id -1),
`CheckForLeakChannelStuck` pushes nothing into any leak bucket; when the
position lookup of the operation succeeds it emits exactly one critical result
of kind `LNilChan` (`L05`) whose only participant is that operation (tag `CS`
for a send, `CR` for a receive), with an empty second participant list, and
when the lookup fails it emits nothing. -/
theorem C10_nil_channel_result (info : String → Option (String × Int × Int))
    (st : AnalysisState) (ch : TraceElementChannel) (vc : VectorClock) (hid : ch.id = -1)
    (hop : ch.opC = OpChannel.SendOp ∨ ch.opC = OpChannel.RecvOp) :
    (CheckForLeakChannelStuck info st ch vc).leakingChannels = st.leakingChannels ∧
      (∀ file line tPre, info ch.GetTID = some (file, line, tPre) →
        (CheckForLeakChannelStuck info st ch vc).results =
          st.results ++
            [{ level := ResultLevel.CRITICAL, resType := LNilChan, argType1 := "Channel",
               arg1 := [{ RoutineID := ch.routine, ObjID := ch.id, TPre := tPre,
                          ObjType := if ch.opC = OpChannel.SendOp then "CS" else "CR",
                          File := file, Line := line }],
               argType2 := "", arg2 := [] }]) ∧
      (info ch.GetTID = none →
        (CheckForLeakChannelStuck info st ch vc).results = st.results) ∧
      LNilChan = "L05" := by
  have hne : ¬ (OpChannel.RecvOp = OpChannel.SendOp) := by decide
  have hCS : "C" ++ "S" = "CS" := by decide
  have hCR : "C" ++ "R" = "CR" := by decide
  refine ⟨?_, fun file line tPre hinfo => ?_, fun hinfo => ?_, rfl⟩
  · unfold CheckForLeakChannelStuck
    rcases hop with hop | hop
    · cases hinfo : info ch.GetTID with
      | none => simp [hid, hop, hinfo]
      | some i => obtain ⟨f, l, t⟩ := i; simp [hid, hop, hinfo]
    · cases hinfo : info ch.GetTID with
      | none => simp [hid, hop, hinfo]
      | some i => obtain ⟨f, l, t⟩ := i; simp [hid, hop, hinfo]
  · unfold CheckForLeakChannelStuck
    rcases hop with hop | hop
    · simp [hid, hop, hinfo, hCS]
    · simp [hid, hop, hinfo, hCR]
  · unfold CheckForLeakChannelStuck
    rcases hop with hop | hop
    · simp [hid, hop, hinfo]
    · simp [hid, hop, hinfo]

/-- Witness of C10 (amended): the stuck receive on the nil channel recorded at
`a.go:8` gives one `L05` result with the tag `CR`. -/
theorem C10_nil_channel_result_witness :
    exNilRecv.id = -1 ∧
      (exNilRecv.opC = OpChannel.SendOp ∨ exNilRecv.opC = OpChannel.RecvOp) ∧
      infoFromTID exNilRecv.GetTID = some ("a.go", 8, 5) ∧
      (CheckForLeakChannelStuck infoFromTID {} exNilRecv exClockA).results =
        [{ level := ResultLevel.CRITICAL, resType := "L05", argType1 := "Channel",
           arg1 := [{ RoutineID := 1, ObjID := -1, TPre := 5, ObjType := "CR",
                      File := "a.go", Line := 8 }],
           argType2 := "", arg2 := [] }] :=
  ⟨rfl, Or.inr rfl, by decide,
    ((C10_nil_channel_result infoFromTID {} exNilRecv exClockA rfl (Or.inr rfl)).2.1
      "a.go" 8 5 (by decide)).trans (by decide)⟩

/-! ## Theorems on `CheckForLeakMutex` and `checkForStuckRoutine` -/

/-- C18, as stated, fails: for the stuck `Lock` on mutex 4 whose recorded
position has no line number the position lookup fails, and `CheckForLeakMutex`
returns without a result although the mutex has a most recent acquire; and
`addMostRecentAcquireTotal` with the empty clock panics in `Copy` instead of
setting an entry. -/
theorem C18_mutex_leak_counterexample :
    ({ exStuckLock with pos := "m.go" } : TraceElementMutex).opM = OpMutex.LockOp ∧
      (GoMap.lookup exMutexState.mostRecentAcquireTotal 4).isSome = true ∧
      infoFromTID ({ exStuckLock with pos := "m.go" } : TraceElementMutex).GetTID = none ∧
      (CheckForLeakMutex infoFromTID exMutexState { exStuckLock with pos := "m.go" }).map
        (fun out => out.results) = some [] ∧
      (addMostRecentAcquireTotal {} exTryLock exClockEmpty 2).isNone = true :=
  ⟨rfl, rfl, by decide, by decide, rfl⟩

/-- C18, amended: let `mostRecentAcquireTotal` hold the entry `acquire` for the
mutex of `mu`. When `mu` is a `Lock` or `RLock`, `acquire` is a `Lock`,
`RLock`, `TryLock` or `TryRLock` and the position lookups of both operations
succeed, `CheckForLeakMutex` emits exactly one critical result of kind `LMutex`
(`L08`) with role `mutex` the stuck operation (tag `ML` or `MR`) and role
`last` the acquire (its routine, the pre of its TID, tag `ML`, `MR`, `MT` or
`MY`); when a lookup fails it emits nothing; for an element of any other
operation kind it emits nothing. For a clock of non-zero size,
`addMostRecentAcquireTotal(mu, vc, op)` sets the entry of the id of `mu` to
`mu`, the copy of `vc` and `op`, and changes no entry of another id. -/
theorem C18_mutex_leak_result (info : String → Option (String × Int × Int))
    (st : AnalysisState) (mu : TraceElementMutex) (acquire : VectorClockTID3)
    (hacq : GoMap.lookup st.mostRecentAcquireTotal mu.id = some acquire) :
    (∀ file1 line1 tPre1 file2 line2 tPre2,
        (mu.opM = OpMutex.LockOp ∨ mu.opM = OpMutex.RLockOp) →
        (acquire.Val = OpMutex.LockOp.toInt ∨ acquire.Val = OpMutex.RLockOp.toInt ∨
          acquire.Val = OpMutex.TryLockOp.toInt ∨ acquire.Val = OpMutex.TryRLockOp.toInt) →
        info mu.GetTID = some (file1, line1, tPre1) →
        info acquire.Elem.GetTID = some (file2, line2, tPre2) →
        (CheckForLeakMutex info st mu).map (fun out => out.results) =
          some (st.results ++
            [{ level := ResultLevel.CRITICAL, resType := LMutex, argType1 := "mutex",
               arg1 := [{ RoutineID := mu.routine, ObjID := mu.id, TPre := tPre1,
                          ObjType := if mu.opM = OpMutex.LockOp then "ML" else "MR",
                          File := file1, Line := line1 }],
               argType2 := "last",
               arg2 := [{ RoutineID := acquire.Elem.GetRoutine, ObjID := mu.id, TPre := tPre2,
                          ObjType :=
                            if acquire.Val = OpMutex.LockOp.toInt then "ML"
                            else if acquire.Val = OpMutex.RLockOp.toInt then "MR"
                            else if acquire.Val = OpMutex.TryLockOp.toInt then "MT"
                            else "MY",
                          File := file2, Line := line2 }] }])) ∧
      ((info mu.GetTID = none ∨ info acquire.Elem.GetTID = none) →
        (CheckForLeakMutex info st mu).map (fun out => out.results) = some st.results) ∧
      (mu.opM ≠ OpMutex.LockOp → mu.opM ≠ OpMutex.RLockOp →
        (CheckForLeakMutex info st mu).map (fun out => out.results) = some st.results ∧
        ∀ st2 out, CheckForLeakMutex info st2 mu = some out → out.results = st2.results) ∧
      (∀ (vc : VectorClock) (op : Int), vc.size ≠ 0 →
        ∃ copy out, vc.Copy = some copy ∧
          addMostRecentAcquireTotal st mu vc op = some out ∧
          GoMap.lookup out.mostRecentAcquireTotal mu.id =
            some { Elem := TraceElement.mutex mu, Vc := copy, Val := op } ∧
          ∀ id2, id2 ≠ mu.id →
            GoMap.lookup out.mostRecentAcquireTotal id2 =
              GoMap.lookup st.mostRecentAcquireTotal id2) ∧
      LMutex = "L08" := by
  have hML : "M" ++ "L" = "ML" := by decide
  have hMR : "M" ++ "R" = "MR" := by decide
  have hMT : "M" ++ "T" = "MT" := by decide
  have hMY : "M" ++ "Y" = "MY" := by decide
  have hRL : ¬ (OpMutex.RLockOp = OpMutex.LockOp) := by decide
  refine ⟨?_, ?_, ?_, ?_, rfl⟩
  · intro file1 line1 tPre1 file2 line2 tPre2 hop hval h1 h2
    unfold CheckForLeakMutex
    simp only [h1, hacq, h2]
    rcases hop with hop | hop
    · rcases hval with hv | hv | hv | hv <;>
        simp [hop, hv, hML, hMR, hMT, hMY, OpMutex.toInt]
    · rcases hval with hv | hv | hv | hv <;>
        simp [hop, hv, hML, hMR, hMT, hMY, OpMutex.toInt]
  · intro hfail
    unfold CheckForLeakMutex
    rcases hfail with h | h
    · simp [h]
    · cases h1 : info mu.GetTID with
      | none => simp
      | some i1 => obtain ⟨f, l, t⟩ := i1; simp [hacq, h]
  · intro hL hR
    constructor
    · unfold CheckForLeakMutex
      cases h1 : info mu.GetTID with
      | none => simp
      | some i1 =>
        obtain ⟨f, l, t⟩ := i1
        cases h2 : info acquire.Elem.GetTID with
        | none => simp [hacq, h2]
        | some i2 => obtain ⟨f2, l2, t2⟩ := i2; simp [hacq, h2, hL, hR]
    · intro st2 out hout
      unfold CheckForLeakMutex at hout
      cases h1 : info mu.GetTID with
      | none => simp [h1] at hout; rw [← hout]
      | some i1 =>
        obtain ⟨f, l, t⟩ := i1
        cases h3 : GoMap.lookup st2.mostRecentAcquireTotal mu.id with
        | none => simp [h1, h3] at hout
        | some acq2 =>
          cases h2 : info acq2.Elem.GetTID with
          | none => simp [h1, h3, h2] at hout; rw [← hout]
          | some i2 =>
            obtain ⟨f2, l2, t2⟩ := i2
            simp [h1, h3, h2, hL, hR] at hout
            rw [← hout]
  · intro vc op hsz
    obtain ⟨copy, hcopy, _, _⟩ := Copy_spec vc hsz
    refine ⟨copy,
      { st with
        mostRecentAcquireTotal := GoMap.insert st.mostRecentAcquireTotal mu.id
          { Elem := TraceElement.mutex mu, Vc := copy, Val := op } },
      hcopy, by simp only [addMostRecentAcquireTotal, hcopy], ?_, ?_⟩
    · exact GoMap.lookup_insert_self _ _ _
    · intro id2 h2
      exact GoMap.lookup_insert_other _ _ _ _ h2

/-- Witness of C18 (amended): the stuck `Lock` of routine 2 on mutex 4, whose
most recent acquire is the `TryLock` of routine 1, gives one `L08` result with
the tags `ML` and `MT`. -/
theorem C18_mutex_leak_result_witness :
    GoMap.lookup exMutexState.mostRecentAcquireTotal exStuckLock.id =
        some { Elem := .mutex exTryLock, Vc := exClockA, Val := OpMutex.TryLockOp.toInt } ∧
      exStuckLock.opM = OpMutex.LockOp ∧
      infoFromTID exStuckLock.GetTID = some ("m.go", 7, 11) ∧
      infoFromTID exTryLock.GetTID = some ("m.go", 3, 6) ∧
      (CheckForLeakMutex infoFromTID exMutexState exStuckLock).map (fun out => out.results) =
        some [{ level := ResultLevel.CRITICAL, resType := "L08", argType1 := "mutex",
                arg1 := [{ RoutineID := 2, ObjID := 4, TPre := 11, ObjType := "ML",
                           File := "m.go", Line := 7 }],
                argType2 := "last",
                arg2 := [{ RoutineID := 1, ObjID := 4, TPre := 6, ObjType := "MT",
                           File := "m.go", Line := 3 }] }] :=
  ⟨rfl, rfl, by decide, by decide,
    ((C18_mutex_leak_result infoFromTID exMutexState exStuckLock
        { Elem := .mutex exTryLock, Vc := exClockA, Val := OpMutex.TryLockOp.toInt } rfl).1
      "m.go" 7 11 "m.go" 3 6 (Or.inl rfl) (Or.inr (Or.inr (Or.inl rfl)))
      (by decide) (by decide)).trans (by decide)⟩

/-- The value `forkFileLine` gives, by the recorded fork and its position. -/
theorem forkFileLine_spec (allForks : GoMap TraceElementFork) (routine : Int) :
    (GoMap.lookup allForks routine = none → forkFileLine allForks routine = ("", -1)) ∧
      (∀ p, GoMap.lookup allForks routine = some p →
        (∀ file line, splitChars ':' p.pos.data = [file, line] →
          forkFileLine allForks routine = (String.mk file, (strconvAtoi line).1)) ∧
        ((splitChars ':' p.pos.data).length ≠ 2 →
          forkFileLine allForks routine = ("", -1))) := by
  refine ⟨fun h => by simp [forkFileLine, h], fun p hp => ⟨fun file line hs => ?_, fun hlen => ?_⟩⟩
  · simp [forkFileLine, hp, TraceElementFork.GetPos, hs]
  · unfold forkFileLine
    simp only [hp, TraceElementFork.GetPos]
    split
    · rename_i file line heq
      rw [heq] at hlen
      exact absurd rfl hlen
    · rfl

/-- C19 on the code: a recorded fork position that splits at `:` into two parts
is taken as file and line whatever the parts are, and the error of
`strconv.Atoi` is dropped. For the fork position `main.go:xx` the result has
the file `main.go` and the line 0, and for the fork position `:` the file `""`
and the line 0; neither position has the form of a file and a line, and
neither result has the line -1. -/
theorem C19_fork_position_counterexample :
    (exForkPosState.allForks.map (fun entry => (entry.1, entry.2.pos))) =
        [(2, "main.go:xx"), (3, ":")] ∧
      (checkForStuckRoutine "LWithoutBlock" exForkPosState).results =
        [{ level := ResultLevel.CRITICAL, resType := "LWithoutBlock", argType1 := "fork",
           arg1 := [{ RoutineID := 2, ObjID := -1, TPre := 4, ObjType := "GE",
                      File := "main.go", Line := 0 }],
           argType2 := "", arg2 := [] },
         { level := ResultLevel.CRITICAL, resType := "LWithoutBlock", argType1 := "fork",
           arg1 := [{ RoutineID := 3, ObjID := -1, TPre := 4, ObjType := "GE",
                      File := "", Line := 0 }],
           argType2 := "", arg2 := [] }] := by
  refine ⟨by decide, by decide⟩

/-- C19 (amended): `checkForStuckRoutine` emits, in the order of the loop over
`traces`, exactly one result for every routine whose trace is non-empty, whose
last event is no routine end and whose last event has `tPost != 0`, and none
for any other routine. The result is critical, of kind `LWithoutBlock`, with role
`fork` and one participant: the routine, object id -1, the pre of the last
event, tag `GE`, and as file and line: when a fork of the routine is recorded
whose position splits at `:` into exactly two parts, the first part and the
value `strconv.Atoi` gives for the second (0 when it is not a number), else
`""` and -1. -/
theorem C19_stuck_routine_result (LWithoutBlock : ResultType) (st : AnalysisState) :
    (checkForStuckRoutine LWithoutBlock st).results =
        st.results ++ st.traces.filterMap (fun entry =>
          stuckRoutineResult LWithoutBlock st.allForks entry.1 entry.2) ∧
      (∀ routine trace,
        ((∃ r, stuckRoutineResult LWithoutBlock st.allForks routine trace = some r) ↔
          ∃ lastElem, trace.getLast? = some lastElem ∧ lastElem.isRoutineEnd = false ∧
            lastElem.getTpost ≠ 0) ∧
        (∀ lastElem, trace.getLast? = some lastElem → lastElem.isRoutineEnd = false →
          lastElem.getTpost ≠ 0 →
          stuckRoutineResult LWithoutBlock st.allForks routine trace =
            some { level := ResultLevel.CRITICAL, resType := LWithoutBlock, argType1 := "fork",
                   arg1 := [{ RoutineID := routine, ObjID := -1, TPre := lastElem.GetTPre,
                              ObjType := "GE",
                              File := (forkFileLine st.allForks routine).1,
                              Line := (forkFileLine st.allForks routine).2 }],
                   argType2 := "", arg2 := [] })) ∧
      (∀ routine,
        (GoMap.lookup st.allForks routine = none →
          forkFileLine st.allForks routine = ("", -1)) ∧
        (∀ p, GoMap.lookup st.allForks routine = some p →
          (∀ file line, splitChars ':' p.pos.data = [file, line] →
            forkFileLine st.allForks routine = (String.mk file, (strconvAtoi line).1)) ∧
          ((splitChars ':' p.pos.data).length ≠ 2 →
            forkFileLine st.allForks routine = ("", -1)))) := by
  refine ⟨rfl, fun routine trace => ⟨?_, ?_⟩, fun routine => forkFileLine_spec _ _⟩
  · unfold stuckRoutineResult
    cases hl : trace.getLast? with
    | none => simp
    | some lastElem =>
      cases hre : lastElem.isRoutineEnd with
      | true => simp
      | false =>
        by_cases hp : lastElem.getTpost = 0
        · simp [hp]
        · simp [hp]
  · intro lastElem hl hre hp
    simp [stuckRoutineResult, hl, hre, hp]

/-- Witness of C19 (amended) on the example state: of the five routines only routine 2
(forked at `main.go:21`) and routine 5 (no recorded fork) get a result. -/
theorem C19_stuck_routine_result_witness :
    (checkForStuckRoutine "LWithoutBlock" exRoutineState).results =
      [{ level := ResultLevel.CRITICAL, resType := "LWithoutBlock", argType1 := "fork",
         arg1 := [{ RoutineID := 2, ObjID := -1, TPre := 4, ObjType := "GE",
                    File := "main.go", Line := 21 }],
         argType2 := "", arg2 := [] },
       { level := ResultLevel.CRITICAL, resType := "LWithoutBlock", argType1 := "fork",
         arg1 := [{ RoutineID := 5, ObjID := -1, TPre := 14, ObjType := "GE",
                    File := "", Line := -1 }],
         argType2 := "", arg2 := [] }] :=
  (C19_stuck_routine_result "LWithoutBlock" exRoutineState).1.trans (by decide)

/-! ## Theorems on the recording of lock dependencies -/

theorem GoMapK.lookupK_insert_self {κ α : Type} [DecidableEq κ] (m : GoMapK κ α) (k : κ)
    (v : α) : GoMapK.lookup (GoMapK.insert m k v) k = some v := by
  induction m with
  | nil => simp [GoMapK.insert, GoMapK.lookup]
  | cons e rest ih =>
    obtain ⟨k2, v2⟩ := e
    by_cases h : k2 = k
    · simp [GoMapK.insert, GoMapK.lookup, h]
    · simp [GoMapK.insert, GoMapK.lookup, h, ih]

theorem GoMapK.lookupK_insert_other {κ α : Type} [DecidableEq κ] (m : GoMapK κ α)
    (k k3 : κ) (v : α) (hk : k3 ≠ k) :
    GoMapK.lookup (GoMapK.insert m k v) k3 = GoMapK.lookup m k3 := by
  induction m with
  | nil =>
    have : ¬ k = k3 := fun h => hk h.symm
    simp [GoMapK.insert, GoMapK.lookup, this]
  | cons e rest ih =>
    obtain ⟨k2, v2⟩ := e
    by_cases h : k2 = k
    · subst h
      have : ¬ k2 = k3 := fun h => hk h.symm
      simp [GoMapK.insert, GoMapK.lookup, this]
    · by_cases h3 : k2 = k3
      · subst h3
        simp [GoMapK.insert, GoMapK.lookup, h]
      · simp [GoMapK.insert, GoMapK.lookup, h, h3, ih]

/-- `ls.empty()` holds exactly for the empty set. -/
theorem Lockset.empty_iff (ls : Lockset) : ls.empty = true ↔ ls = ∅ := by
  simp [Lockset.empty]

/-- `ls.equal(ls2)` holds exactly when the two locksets have the same keys. -/
theorem Lockset.equal_iff (ls ls2 : Lockset) : ls.equal ls2 = true ↔ ls = ls2 := by
  unfold Lockset.equal
  constructor
  · intro h
    by_cases hc : ls.card ≠ ls2.card
    · simp [hc] at h
    · simp only [hc, if_false, decide_eq_true_eq] at h
      exact Finset.eq_of_subset_of_card_le h (by omega)
  · rintro rfl
    simp

/-- `insert` records the event under the lockset: either in the first
dependency that has this lockset, or in a new last dependency. -/
theorem insert_spec (ds : List Dep) (ls : Lockset) (event : Event) :
    (∃ pre d post, ds = pre ++ d :: post ∧ d.ls = ls ∧ (∀ x ∈ pre, x.ls ≠ ls) ∧
        insert ds ls event = pre ++ { d with requests := d.requests ++ [event] } :: post) ∨
      ((∀ x ∈ ds, x.ls ≠ ls) ∧
        insert ds ls event = ds ++ [{ ls := ls, requests := [event] }]) := by
  induction ds with
  | nil => exact Or.inr ⟨fun x hx => by simp at hx, rfl⟩
  | cons v rest ih =>
    by_cases hv : v.ls.equal ls = true
    · have hls : v.ls = ls := (Lockset.equal_iff _ _).mp hv
      exact Or.inl ⟨[], v, rest, rfl, hls, fun x hx => by simp at hx,
        by simp [insert, hv]⟩
    · have hls : v.ls ≠ ls := fun h => hv ((Lockset.equal_iff _ _).mpr h)
      rcases ih with ⟨pre, d, post, h1, h2, h3, h4⟩ | ⟨h1, h2⟩
      · refine Or.inl ⟨v :: pre, d, post, by simp [h1], h2, ?_, by simp [insert, hv, h4]⟩
        intro x hx
        rcases List.mem_cons.mp hx with rfl | hx
        · exact hls
        · exact h3 x hx
      · refine Or.inr ⟨?_, by simp [insert, hv, h2]⟩
        intro x hx
        rcases List.mem_cons.mp hx with rfl | hx
        · exact hls
        · exact h1 x hx

/-- After `insert` some dependency has the lockset and holds the event. -/
theorem insert_mem (ds : List Dep) (ls : Lockset) (event : Event) :
    ∃ d ∈ insert ds ls event, d.ls = ls ∧ event ∈ d.requests := by
  rcases insert_spec ds ls event with ⟨pre, d, post, _, h2, _, h4⟩ | ⟨_, h2⟩
  · exact ⟨{ d with requests := d.requests ++ [event] }, by simp [h4], h2, by simp⟩
  · exact ⟨{ ls := ls, requests := [event] }, by simp [h2], rfl, by simp⟩

/-- `insert` adds exactly one event. -/
theorem insert_requestCount (ds : List Dep) (ls : Lockset) (event : Event) :
    requestCount (insert ds ls event) = requestCount ds + 1 := by
  induction ds with
  | nil => simp [insert, requestCount]
  | cons v rest ih =>
    unfold requestCount at ih ⊢
    by_cases hv : v.ls.equal ls = true
    · simp [insert, hv]; omega
    · simp [insert, hv, ih]; omega

/-- `insert` keeps every recorded dependency: its lockset is unchanged and its
events stay, in order, at the front of its events. -/
theorem insert_keeps (ds : List Dep) (ls : Lockset) (event : Event) :
    ∀ d ∈ ds, ∃ d2 ∈ insert ds ls event, d2.ls = d.ls ∧ d.requests <+: d2.requests := by
  induction ds with
  | nil => intro d hd; simp at hd
  | cons v rest ih =>
    intro d hd
    by_cases hv : v.ls.equal ls = true
    · rcases List.mem_cons.mp hd with rfl | hd
      · exact ⟨{ d with requests := d.requests ++ [event] }, by simp [insert, hv], rfl,
          List.prefix_append _ _⟩
      · exact ⟨d, by simp [insert, hv, hd], rfl, List.prefix_refl _⟩
    · rcases List.mem_cons.mp hd with rfl | hd
      · exact ⟨d, by simp [insert, hv], rfl, List.prefix_refl _⟩
      · obtain ⟨d2, hd2, h1, h2⟩ := ih d hd
        exact ⟨d2, by simp [insert, hv, hd2], h1, h2⟩

/-- The locksets and dependencies of a state after `acquire`, from the thread
the event belongs to before the call. -/
theorem acquire_thread (s : State) (l : LockId) (e : Event) :
    ∃ thread : Thread,
      (thread.lockset = s.locksetOf e.thread_id) ∧
      (∀ l2, GoMapK.getSlice thread.lock_dependencies l2 = s.depsOf e.thread_id l2) ∧
      GoMap.lookup (acquire s l e).threads e.thread_id =
        some { thread with
          lock_dependencies :=
            if !thread.lockset.empty then
              GoMapK.insert thread.lock_dependencies l
                (insert (GoMapK.getSlice thread.lock_dependencies l) thread.lockset e)
            else thread.lock_dependencies
          lockset := thread.lockset.add l } := by
  unfold acquire State.locksetOf State.depsOf
  cases h : GoMap.lookup s.threads e.thread_id with
  | none =>
    exact ⟨{ thread_id := e.thread_id, lockset := ∅, lock_dependencies := [] }, rfl,
      fun l2 => rfl, by simp only [GoMap.lookup_insert_self]⟩
  | some thread =>
    exact ⟨thread, rfl, fun l2 => rfl, by simp only [GoMap.lookup_insert_self]⟩

/-- C20: lock-dependency recording. `acquire(s, l, e)` for an event of thread
`t` records a dependency for `(t, l)` exactly when the lockset of `t` was
non-empty before the call: then one event more is recorded under `l`, in a
dependency whose lockset is the lockset of `t` before the call and whose events
hold `e`, and with an empty lockset the dependencies of `t` are unchanged.
Recorded locksets are snapshots: every dependency recorded before the call is
still recorded with the same lockset. Afterwards `l` is in the lockset of `t`,
and the other threads are unchanged. `release(s, l, e)` removes `l` from the
lockset of `t` and changes no dependency and no other thread. -/
theorem C20_acquire_release_recording (s : State) (l : LockId) (e : Event) :
    ((acquire s l e).locksetOf e.thread_id = Insert.insert l (s.locksetOf e.thread_id) ∧
        l ∈ (acquire s l e).locksetOf e.thread_id) ∧
      (∀ t2, t2 ≠ e.thread_id →
        GoMap.lookup (acquire s l e).threads t2 = GoMap.lookup s.threads t2) ∧
      (∀ l2, l2 ≠ l → (acquire s l e).depsOf e.thread_id l2 = s.depsOf e.thread_id l2) ∧
      (s.locksetOf e.thread_id = ∅ →
        (acquire s l e).depsOf e.thread_id l = s.depsOf e.thread_id l) ∧
      (s.locksetOf e.thread_id ≠ ∅ →
        requestCount ((acquire s l e).depsOf e.thread_id l) =
            requestCount (s.depsOf e.thread_id l) + 1 ∧
          (∃ d ∈ (acquire s l e).depsOf e.thread_id l,
            d.ls = s.locksetOf e.thread_id ∧ e ∈ d.requests) ∧
          ((∃ pre d post, s.depsOf e.thread_id l = pre ++ d :: post ∧
              d.ls = s.locksetOf e.thread_id ∧
              (∀ x ∈ pre, x.ls ≠ s.locksetOf e.thread_id) ∧
              (acquire s l e).depsOf e.thread_id l =
                pre ++ { d with requests := d.requests ++ [e] } :: post) ∨
            ((∀ x ∈ s.depsOf e.thread_id l, x.ls ≠ s.locksetOf e.thread_id) ∧
              (acquire s l e).depsOf e.thread_id l =
                s.depsOf e.thread_id l ++
                  [{ ls := s.locksetOf e.thread_id, requests := [e] }]))) ∧
      (∀ l2, ∀ d ∈ s.depsOf e.thread_id l2,
        ∃ d2 ∈ (acquire s l e).depsOf e.thread_id l2,
          d2.ls = d.ls ∧ d.requests <+: d2.requests) ∧
      ((release s l e).locksetOf e.thread_id = (s.locksetOf e.thread_id).erase l ∧
        l ∉ (release s l e).locksetOf e.thread_id) ∧
      (∀ t2 l2, (release s l e).depsOf t2 l2 = s.depsOf t2 l2) ∧
      (∀ t2, t2 ≠ e.thread_id →
        GoMap.lookup (release s l e).threads t2 = GoMap.lookup s.threads t2) := by
  obtain ⟨thread, hls, hdeps, hnew⟩ := acquire_thread s l e
  have hlsA : (acquire s l e).locksetOf e.thread_id = Insert.insert l (s.locksetOf e.thread_id) := by
    have h1 : (acquire s l e).locksetOf e.thread_id = thread.lockset.add l := by
      simp only [State.locksetOf, hnew]
    rw [h1, ← hls]; rfl
  have hdepsA : ∀ l2, (acquire s l e).depsOf e.thread_id l2 =
      GoMapK.getSlice (if !thread.lockset.empty then
          GoMapK.insert thread.lock_dependencies l
            (insert (GoMapK.getSlice thread.lock_dependencies l) thread.lockset e)
        else thread.lock_dependencies) l2 := by
    intro l2
    simp only [State.depsOf, hnew]
  have hrelease : ∀ t2, t2 ≠ e.thread_id →
      GoMap.lookup (release s l e).threads t2 = GoMap.lookup s.threads t2 := by
    intro t2 h2
    unfold release
    cases h : GoMap.lookup s.threads e.thread_id with
    | none => rfl
    | some th => exact GoMap.lookup_insert_other _ _ _ _ h2
  refine ⟨⟨hlsA, by rw [hlsA]; exact Finset.mem_insert_self _ _⟩, ?_, ?_, ?_, ?_, ?_, ?_, ?_,
    hrelease⟩
  · intro t2 h2
    unfold acquire
    exact GoMap.lookup_insert_other _ _ _ _ h2
  · intro l2 h2
    rw [hdepsA, ← hdeps]
    by_cases hemp : thread.lockset.empty = true
    · simp [hemp]
    · simp only [hemp, Bool.not_false, if_true, Bool.not_eq_true] at *
      simp [GoMapK.getSlice, GoMapK.lookupK_insert_other _ _ _ _ h2, hemp]
  · intro hempty
    have hemp : thread.lockset.empty = true := by
      rw [Lockset.empty_iff, hls]; exact hempty
    rw [hdepsA, ← hdeps]
    simp [hemp]
  · intro hne
    have hemp : thread.lockset.empty = false := by
      cases h : thread.lockset.empty with
      | false => rfl
      | true => exact absurd (hls ▸ (Lockset.empty_iff _).mp h) hne
    have hD : (acquire s l e).depsOf e.thread_id l =
        insert (s.depsOf e.thread_id l) (s.locksetOf e.thread_id) e := by
      rw [hdepsA, ← hdeps, ← hls]
      simp [hemp, GoMapK.getSlice, GoMapK.lookupK_insert_self]
    rw [hD]
    exact ⟨insert_requestCount _ _ _, insert_mem _ _ _, insert_spec _ _ _⟩
  · intro l2 d hd
    have hd2 : d ∈ GoMapK.getSlice thread.lock_dependencies l2 := by rw [hdeps]; exact hd
    by_cases hemp : thread.lockset.empty = true
    · refine ⟨d, ?_, rfl, List.prefix_refl _⟩
      rw [hdepsA]
      simpa [hemp] using hd2
    · by_cases h2 : l2 = l
      · subst h2
        have hD : (acquire s l2 e).depsOf e.thread_id l2 =
            insert (s.depsOf e.thread_id l2) (s.locksetOf e.thread_id) e := by
          rw [hdepsA, ← hdeps, ← hls]
          simp [hemp, GoMapK.getSlice, GoMapK.lookupK_insert_self]
        rw [hD]
        exact insert_keeps _ _ _ d hd
      · refine ⟨d, ?_, rfl, List.prefix_refl _⟩
        rw [hdepsA]
        simpa [hemp, GoMapK.getSlice, GoMapK.lookupK_insert_other _ _ _ _ h2] using hd2
  · have hR : (release s l e).locksetOf e.thread_id = (s.locksetOf e.thread_id).erase l := by
      unfold release State.locksetOf
      cases h : GoMap.lookup s.threads e.thread_id with
      | none => simp [h]
      | some th => simp [GoMap.lookup_insert_self, Lockset.remove]
    exact ⟨hR, by rw [hR]; exact Finset.not_mem_erase _ _⟩
  · intro t2 l2
    unfold release State.depsOf
    cases h : GoMap.lookup s.threads e.thread_id with
    | none => rfl
    | some th =>
      by_cases ht : t2 = e.thread_id
      · subst ht
        simp [GoMap.lookup_insert_self, h]
      · simp [GoMap.lookup_insert_other _ _ _ _ ht]

/-- Witness of C20: thread 1 acquires lock 1 and then lock 2. Before the second
call its lockset is `{1}`, so the call records under lock 2 a dependency with
the lockset `{1}` that holds the event, and the lockset becomes `{1, 2}`;
releasing lock 1 afterwards leaves the recorded dependency as it is. -/
theorem C20_acquire_release_recording_witness :
    (acquire {} ⟨1, false⟩ exEventA).locksetOf exEventA2.thread_id = {⟨1, false⟩} ∧
      (acquire (acquire {} ⟨1, false⟩ exEventA) ⟨2, false⟩ exEventA2).locksetOf 1 =
        {⟨1, false⟩, ⟨2, false⟩} ∧
      (∃ d ∈ (acquire (acquire {} ⟨1, false⟩ exEventA) ⟨2, false⟩ exEventA2).depsOf 1
          ⟨2, false⟩,
        d.ls = (acquire {} ⟨1, false⟩ exEventA).locksetOf exEventA2.thread_id ∧
          exEventA2 ∈ d.requests) ∧
      (release (acquire (acquire {} ⟨1, false⟩ exEventA) ⟨2, false⟩ exEventA2) ⟨1, false⟩
          exEventA2).depsOf 1 ⟨2, false⟩ =
        (acquire (acquire {} ⟨1, false⟩ exEventA) ⟨2, false⟩ exEventA2).depsOf 1 ⟨2, false⟩ :=
  ⟨by decide,
    (C20_acquire_release_recording (acquire {} ⟨1, false⟩ exEventA) ⟨2, false⟩
      exEventA2).1.1.trans (by decide),
    ((C20_acquire_release_recording (acquire {} ⟨1, false⟩ exEventA) ⟨2, false⟩
      exEventA2).2.2.2.2.1 (by decide)).2.1,
    (C20_acquire_release_recording (acquire (acquire {} ⟨1, false⟩ exEventA) ⟨2, false⟩
      exEventA2) ⟨1, false⟩ exEventA2).2.2.2.2.2.2.2.1 1 ⟨2, false⟩⟩

/-! ## Theorems on `CheckForLeakChannelRun` and `checkForLeak` -/

/-- When the branch skips every element of the array, the loop of
`CheckForLeakChannelRun` changes nothing. -/
theorem runLoop_all_skipped (info : String → Option (String × Int × Int))
    (routineID objID : Int) (vcTID : VectorClockTID) (buffered : Bool)
    (tags : VectorClockTID2 → Option (String × String)) (s : RunLoopState)
    (hskip : ∀ e ∈ s.backing, tags e = none) :
    ∀ n i, i + n ≤ s.backing.length →
      runLoop info routineID objID vcTID buffered tags n i s = some s := by
  intro n
  induction n with
  | zero => intro i _; rfl
  | succ n ih =>
    intro i hi
    have hlt : i < s.backing.length := by omega
    unfold runLoop
    rw [List.getElem?_eq_getElem hlt]
    simp only [hskip _ (List.getElem_mem hlt)]
    exact ih (i + 1) (by omega)

/-- C11 on the code: a bucket that holds only entries of plain channel
operations (`val = -1`, as `CheckForLeakChannelStuck` pushes them) is never
matched. For every completed send, receive or close, `CheckForLeakChannelRun`
emits nothing, removes nothing and returns false, whatever the clocks are. -/
theorem C11_run_never_matches_plain_entries (info : String → Option (String × Int × Int))
    (st : AnalysisState) (routineID objID : Int) (vcTID : VectorClockTID) (opType : Int)
    (buffered : Bool) (hplain : ∀ e ∈ GoMap.getSlice st.leakingChannels objID, e.val = -1) :
    CheckForLeakChannelRun info st routineID objID vcTID opType buffered = some (st, false) := by
  have h1 : ∀ e ∈ GoMap.getSlice st.leakingChannels objID, runTagsSendClose opType e = none := by
    intro e he
    simp [runTagsSendClose, hplain e he]
  have h2 : ∀ e ∈ GoMap.getSlice st.leakingChannels objID, runTagsRecv e = none := by
    intro e he
    simp [runTagsRecv, hplain e he]
  unfold CheckForLeakChannelRun
  by_cases hop : opType = 0 ∨ opType = 2
  · simp only [if_pos hop]
    rw [runLoop_all_skipped info routineID objID vcTID buffered _ _ h1 _ 0 (by simp)]
    rfl
  · by_cases hop1 : opType = 1
    · simp only [if_neg hop, if_pos hop1]
      rw [runLoop_all_skipped info routineID objID vcTID buffered _ _ h2 _ 0 (by simp)]
      rfl
    · simp only [if_neg hop, if_neg hop1]

/-- The failing input of C11: the stuck receive of routine 2 on channel 7 with
the clock `[1, 2]` is pushed by `CheckForLeakChannelStuck`; the completed send
on channel 7 with the concurrent clock `[0, 3]` does not match it:
`CheckForLeakChannelRun` emits no result, returns false and leaves the entry
in the bucket. -/
theorem C11_run_never_matches_plain_entries_witness :
    (GoMap.getSlice (CheckForLeakChannelStuck infoFromTID {} exStuckRecv exClockB).leakingChannels
        7).map (fun e => (e.typeVal, e.val, e.sel)) = [(1, -1, false)] ∧
      GetHappensBefore exClockB exSendVcTID.Vc = HappensBefore.Concurrent ∧
      (CheckForLeakChannelRun infoFromTID
          (CheckForLeakChannelStuck infoFromTID {} exStuckRecv exClockB) 3 7 exSendVcTID 0
          true).map (fun out => (out.1.results, out.2,
            (GoMap.getSlice out.1.leakingChannels 7).map (fun e => e.tID))) =
        some ([], false, ["a.go:12@9"]) := by
  refine ⟨rfl, by decide, ?_⟩
  rw [C11_run_never_matches_plain_entries infoFromTID
    (CheckForLeakChannelStuck infoFromTID {} exStuckRecv exClockB) 3 7 exSendVcTID 0 true
    (by
      have hb : GoMap.getSlice
          (CheckForLeakChannelStuck infoFromTID {} exStuckRecv exClockB).leakingChannels 7 =
          [{ routine := 2, id := 7, vc := exClockB, tID := exStuckRecv.GetTID, typeVal := 1,
             val := -1, buffered := true, sel := false, selID := 0 }] := rfl
      intro e he
      rw [hb] at he
      rw [List.mem_singleton.mp he])]
  rfl

/-- One step of the partner search: a case that does not pair is passed over. -/
theorem leakPartnerLoop_cons_not_pairs (e : VectorClockTID2) (c : allSelectCase)
    (rest : List allSelectCase) (b : Bool) (h : ¬ casePairs e c) :
    leakPartnerLoop e (c :: rest) b = leakPartnerLoop e rest b := by
  unfold casePairs at h
  rw [leakPartnerLoop]
  by_cases h1 : c.chanID ≠ e.id
  · rw [if_pos h1]
  · rw [if_neg h1]
    by_cases h2 : (c.send ∧ e.typeVal = 0) ∨ (¬ c.send ∧ e.typeVal = 1)
    · rw [if_pos h2]
    · rw [if_neg h2]
      have h1' : c.chanID = e.id := not_not.mp h1
      have h3 : ¬ (GetHappensBefore c.vcTID.Vc e.vc = HappensBefore.Concurrent ∨
          (c.buffered ∧
            ((c.send ∧ GetHappensBefore c.vcTID.Vc e.vc = HappensBefore.Before) ∨
              (¬ c.send ∧ GetHappensBefore c.vcTID.Vc e.vc = HappensBefore.After)))) :=
        fun h3 => h ⟨h1', h2, h3⟩
      simp only
      rw [if_neg (fun hc => h3 (Or.inl hc))]
      by_cases hb : c.buffered = true
      · rw [if_pos hb]
        rw [if_neg]
        intro h4
        exact h3 (Or.inr ⟨hb, h4⟩)
      · rw [if_neg hb]

/-- One step of the partner search: a case that pairs is the partner. -/
theorem leakPartnerLoop_cons_pairs (e : VectorClockTID2) (c : allSelectCase)
    (rest : List allSelectCase) (b : Bool) (h : casePairs e c) :
    (leakPartnerLoop e (c :: rest) b).1 = some c := by
  obtain ⟨h1, h2, h3⟩ := h
  rw [leakPartnerLoop]
  rw [if_neg (not_not.mpr h1), if_neg h2]
  simp only
  by_cases hc : GetHappensBefore c.vcTID.Vc e.vc = HappensBefore.Concurrent
  · rw [if_pos hc]
  · rw [if_neg hc]
    rcases h3 with h3 | ⟨hb, h4⟩
    · exact absurd h3 hc
    · rw [if_pos hb, if_pos h4]

/-- The partner search finds the first recorded case that pairs with the
entry, and none when no recorded case pairs; without a partner the variable
`buffered` keeps its value. -/
theorem leakPartnerLoop_spec (e : VectorClockTID2) (cases : List allSelectCase) (b : Bool) :
    ((∀ c ∈ cases, ¬ casePairs e c) ∧ leakPartnerLoop e cases b = (none, b)) ∨
      ∃ pre c post, cases = pre ++ c :: post ∧ (∀ x ∈ pre, ¬ casePairs e x) ∧
        casePairs e c ∧ (leakPartnerLoop e cases b).1 = some c := by
  induction cases with
  | nil => exact Or.inl ⟨fun c hc => by simp at hc, rfl⟩
  | cons c rest ih =>
    by_cases hp : casePairs e c
    · exact Or.inr ⟨[], c, rest, rfl, fun x hx => by simp at hx, hp,
        leakPartnerLoop_cons_pairs e c rest b hp⟩
    · rw [leakPartnerLoop_cons_not_pairs e c rest b hp]
      rcases ih with ⟨h1, h2⟩ | ⟨pre, c2, post, h1, h2, h3, h4⟩
      · refine Or.inl ⟨fun x hx => ?_, h2⟩
        rcases List.mem_cons.mp hx with rfl | hx
        · exact hp
        · exact h1 x hx
      · refine Or.inr ⟨c :: pre, c2, post, by simp [h1], fun x hx => ?_, h3, h4⟩
        rcases List.mem_cons.mp hx with rfl | hx
        · exact hp
        · exact h2 x hx

/-- C15, as stated, fails: the stuck send of routine 2 on the buffered
channel 7 (clock `[1, 2]`) and the recorded receive case on channel 7 whose
clock `[1, 0]` is `Before` it are not paired by `checkForLeak`. -/
theorem C15_pairing_criterion_counterexample :
    exSendEntry.typeVal = 0 ∧ exRecvCase.chanID = exSendEntry.id ∧
      exRecvCase.send = false ∧ exRecvCase.buffered = true ∧
      GetHappensBefore exRecvCase.vcTID.Vc exSendEntry.vc = HappensBefore.Before ∧
      (leakPartnerLoop exSendEntry [exRecvCase] false).1.isSome = false :=
  ⟨rfl, rfl, rfl, rfl, by decide, by decide⟩

/-- C15, amended: in `checkForLeak` a bucket entry is paired with a recorded
select case exactly when some recorded case pairs with it, and its partner is
the first such case. A case pairs with a stuck send when it is a receive case
on the same channel and the comparison of the clock of the case with the
clock of the entry is `Concurrent`, or the case is buffered and the
comparison is `After`; it pairs with a stuck receive when it is a send case
on the same channel and the comparison is `Concurrent`, or the case is
buffered and the comparison is `Before`. For an unbuffered case only
`Concurrent` pairs. -/
theorem C15_pairing_criterion (e : VectorClockTID2) (cases : List allSelectCase) (b : Bool) :
    ((leakPartnerLoop e cases b).1.isSome = true ↔ ∃ c ∈ cases, casePairs e c) ∧
      (∀ c, (leakPartnerLoop e cases b).1 = some c →
        ∃ pre post, cases = pre ++ c :: post ∧ (∀ x ∈ pre, ¬ casePairs e x) ∧
          casePairs e c) ∧
      (∀ c, e.typeVal = 0 →
        (casePairs e c ↔
          c.chanID = e.id ∧ c.send = false ∧
            (GetHappensBefore c.vcTID.Vc e.vc = HappensBefore.Concurrent ∨
              (c.buffered = true ∧
                GetHappensBefore c.vcTID.Vc e.vc = HappensBefore.After)))) ∧
      (∀ c, e.typeVal = 1 →
        (casePairs e c ↔
          c.chanID = e.id ∧ c.send = true ∧
            (GetHappensBefore c.vcTID.Vc e.vc = HappensBefore.Concurrent ∨
              (c.buffered = true ∧
                GetHappensBefore c.vcTID.Vc e.vc = HappensBefore.Before)))) := by
  refine ⟨?_, ?_, ?_, ?_⟩
  · rcases leakPartnerLoop_spec e cases b with ⟨h1, h2⟩ | ⟨pre, c, post, h1, h2, h3, h4⟩
    · rw [h2]
      constructor
      · intro h; simp at h
      · rintro ⟨c, hc, hp⟩; exact absurd hp (h1 c hc)
    · rw [h4]
      exact ⟨fun _ => ⟨c, by simp [h1], h3⟩, fun _ => rfl⟩
  · intro c hc
    rcases leakPartnerLoop_spec e cases b with ⟨h1, h2⟩ | ⟨pre, c2, post, h1, h2, h3, h4⟩
    · rw [h2] at hc; simp at hc
    · rw [h4] at hc
      cases hc
      exact ⟨pre, post, h1, h2, h3⟩
  · intro c ht
    unfold casePairs
    cases hs : c.send <;> simp [ht, hs]
  · intro c ht
    unfold casePairs
    cases hs : c.send <;> simp [ht, hs]

/-- Witness of C15 (amended): the stuck send on the buffered channel 7 with the
clock `[1, 0]` pairs with the recorded receive case whose clock `[1, 2]` is
`After` it. -/
theorem C15_pairing_criterion_witness :
    ({ exSendEntry with vc := exClockA } : VectorClockTID2).typeVal = 0 ∧
      GetHappensBefore exClockB exClockA = HappensBefore.After ∧
      casePairs { exSendEntry with vc := exClockA }
        { exRecvCase with vcTID := { Vc := exClockB, TID := "s.go:9@2", Routine := 5 } } :=
  ⟨rfl, by decide,
    ((C15_pairing_criterion { exSendEntry with vc := exClockA } [] false).2.2.1
      { exRecvCase with vcTID := { Vc := exClockB, TID := "s.go:9@2", Routine := 5 } }
      rfl).mpr ⟨rfl, rfl, Or.inr ⟨rfl, by decide⟩⟩⟩

/-- The results of a bucket are those of its front part followed by those of
its rest, the rest starting with the value of `buffered` the front part left. -/
theorem leakBucket_append (info : String → Option (String × Int × Int))
    (cases : List allSelectCase) (xs ys : List VectorClockTID2) (b : Bool) :
    leakBucket info cases (xs ++ ys) b =
      leakBucket info cases xs b ++ leakBucket info cases ys (leakCarry info cases xs b) := by
  induction xs generalizing b with
  | nil => rfl
  | cons x xs ih => simp [leakBucket, leakCarry, ih]

/-- A TID built from a position and a pre timestamp is not the empty string. -/
theorem tid_ne_empty (pos : String) (tPre : Int) : pos ++ "@" ++ Itoa tPre ≠ "" := by
  intro h
  have h2 := congrArg String.length h
  have h3 : "@".length = 1 := by decide
  simp only [String.length_append, h3] at h2
  have h4 : "".length = 0 := by decide
  omega

/-- The result of `checkForLeak` for a plain channel entry without a partner:
its kind follows the variable `buffered`, not the entry. -/
theorem leakEntry_unpaired_plain (info : String → Option (String × Int × Int))
    (cases : List allSelectCase) (e : VectorClockTID2) (b : Bool) (file : String)
    (line tPre : Int) (hsel : e.sel = false) (htid : e.tID ≠ "")
    (hnone : ∀ c ∈ cases, ¬ casePairs e c) (hinfo : info e.tID = some (file, line, tPre)) :
    leakEntry info cases e b =
      ([{ level := ResultLevel.CRITICAL
          resType := if b then LBufferedWithout else LUnbufferedWithout
          argType1 := "channel"
          arg1 := [{ RoutineID := e.routine, ObjID := e.id, TPre := tPre,
                     ObjType := if e.typeVal = 0 then "CS" else "CR", File := file,
                     Line := line }]
          argType2 := "", arg2 := [] }], b) := by
  have hCS : "C" ++ "S" = "CS" := by decide
  have hCR : "C" ++ "R" = "CR" := by decide
  have hloop : leakPartnerLoop e cases b = (none, b) := by
    rcases leakPartnerLoop_spec e cases b with ⟨_, h2⟩ | ⟨pre, c, post, h1, _, h3, _⟩
    · exact h2
    · exact absurd h3 (hnone c (by simp [h1]))
  unfold leakEntry
  rw [if_neg htid, hloop]
  simp [hsel, hinfo, hCS, hCR]

/-- The result of `checkForLeak` for a select entry without a partner. -/
theorem leakEntry_unpaired_select (info : String → Option (String × Int × Int))
    (cases : List allSelectCase) (e : VectorClockTID2) (b : Bool) (hsel : e.sel = true)
    (htid : e.tID ≠ "") (hnone : ∀ c ∈ cases, ¬ casePairs e c) :
    (∀ file line tPre, info e.tID = some (file, line, tPre) →
        leakEntry info cases e b =
          ([{ level := ResultLevel.CRITICAL, resType := LSelectWithout, argType1 := "select",
              arg1 := [{ RoutineID := e.routine, ObjID := e.selID, TPre := tPre,
                         ObjType := "SS", File := file, Line := line }],
              argType2 := "", arg2 := [] }], b)) ∧
      (info e.tID = none → leakEntry info cases e b = ([], b)) := by
  have hloop : leakPartnerLoop e cases b = (none, b) := by
    rcases leakPartnerLoop_spec e cases b with ⟨_, h2⟩ | ⟨pre, c, post, h1, _, h3, _⟩
    · exact h2
    · exact absurd h3 (hnone c (by simp [h1]))
  constructor
  · intro file line tPre hinfo
    unfold leakEntry
    rw [if_neg htid, hloop]
    simp [hsel, hinfo]
  · intro hinfo
    unfold leakEntry
    rw [if_neg htid, hloop]
    simp [hsel, hinfo]

/-- C14: select without partner. For a bucket entry of a stuck select (a
select case, with the TID of the select) with which no recorded select case
pairs, `checkForLeak` emits, when the position lookup of the TID succeeds,
exactly one result: critical, of kind `LSelectWithout` (`L07`), with the select
(its routine, the object id of the select, the pre of its TID, tag `SS`) as
the sole participant and an empty second list; when the lookup fails it emits
nothing for the entry. A stuck select without cases is reported in the same
way by `CheckForLeakSelectStuck`, with the pre of the select. -/
theorem C14_select_without_partner (info : String → Option (String × Int × Int))
    (cases : List allSelectCase) (e : VectorClockTID2) (hsel : e.sel = true)
    (htid : e.tID ≠ "") (hnone : ∀ c ∈ cases, ¬ casePairs e c) :
    (∀ pre post file line tPre, info e.tID = some (file, line, tPre) →
        leakBucket info cases (pre ++ e :: post) false =
          leakBucket info cases pre false ++
            [{ level := ResultLevel.CRITICAL, resType := LSelectWithout, argType1 := "select",
               arg1 := [{ RoutineID := e.routine, ObjID := e.selID, TPre := tPre,
                          ObjType := "SS", File := file, Line := line }],
               argType2 := "", arg2 := [] }] ++
            leakBucket info cases post (leakCarry info cases pre false)) ∧
      (∀ pre post, info e.tID = none →
        leakBucket info cases (pre ++ e :: post) false =
          leakBucket info cases pre false ++
            leakBucket info cases post (leakCarry info cases pre false)) ∧
      (∀ (st : AnalysisState) (se : TraceElementSelect) (buffered : List Bool)
          (vc : VectorClock) (opTypes : List Int),
        (∀ file line tPre, info se.GetTID = some (file, line, tPre) →
          (CheckForLeakSelectStuck info st se [] buffered vc opTypes).map
              (fun out => (out.results, out.leakingChannels)) =
            some (st.results ++
              [{ level := ResultLevel.CRITICAL, resType := LSelectWithout,
                 argType1 := "select",
                 arg1 := [{ RoutineID := se.routine, ObjID := se.id, TPre := se.tPre,
                            ObjType := "SS", File := file, Line := line }],
                 argType2 := "", arg2 := [] }], st.leakingChannels)) ∧
        (info se.GetTID = none →
          (CheckForLeakSelectStuck info st se [] buffered vc opTypes).map
              (fun out => (out.results, out.leakingChannels)) =
            some (st.results, st.leakingChannels)) ∧
        se.GetTID ≠ "") ∧
      LSelectWithout = "L07" := by
  refine ⟨?_, ?_, ?_, rfl⟩
  · intro pre post file line tPre hinfo
    rw [leakBucket_append, leakBucket,
      (leakEntry_unpaired_select info cases e _ hsel htid hnone).1 file line tPre hinfo]
    simp
  · intro pre post hinfo
    rw [leakBucket_append, leakBucket,
      (leakEntry_unpaired_select info cases e _ hsel htid hnone).2 hinfo]
    simp
  · intro st se buffered vc opTypes
    refine ⟨fun file line tPre hinfo => ?_, fun hinfo => ?_, tid_ne_empty _ _⟩
    · simp [CheckForLeakSelectStuck, hinfo]
    · simp [CheckForLeakSelectStuck, hinfo]

/-- Witness of C14: the stuck select of routine 4 (object id 12, pre 1,
recorded at `s.go:3`) with a receive case on channel 5 and a send case on
channel 6, and no recorded select case. Its entry in bucket 5 gives one `L07`
result, and the run of `CheckForLeakSelectStuck` followed by `checkForLeak`
gives one `L07` result for each of its two entries. -/
theorem C14_select_without_partner_witness :
    exSelectEntry.sel = true ∧ exSelectEntry.tID ≠ "" ∧
      leakBucket infoFromTID [] ([] ++ exSelectEntry :: []) false =
        leakBucket infoFromTID [] [] false ++
          [{ level := ResultLevel.CRITICAL, resType := LSelectWithout, argType1 := "select",
             arg1 := [{ RoutineID := 4, ObjID := 12, TPre := 1, ObjType := "SS",
                        File := "s.go", Line := 3 }],
             argType2 := "", arg2 := [] }] ++
          leakBucket infoFromTID [] [] (leakCarry infoFromTID [] [] false) ∧
      (CheckForLeakSelectStuck infoFromTID {} exSelect [5, 6] [false, false] exClockB
          [1, 0]).map (fun out => (checkForLeak infoFromTID out).results) =
        some [{ level := ResultLevel.CRITICAL, resType := "L07", argType1 := "select",
                arg1 := [{ RoutineID := 4, ObjID := 12, TPre := 1, ObjType := "SS",
                           File := "s.go", Line := 3 }],
                argType2 := "", arg2 := [] },
              { level := ResultLevel.CRITICAL, resType := "L07", argType1 := "select",
                arg1 := [{ RoutineID := 4, ObjID := 12, TPre := 1, ObjType := "SS",
                           File := "s.go", Line := 3 }],
                argType2 := "", arg2 := [] }] :=
  ⟨rfl, by decide,
    (C14_select_without_partner infoFromTID [] exSelectEntry rfl (by decide)
      (fun c hc => by simp at hc)).1 [] [] "s.go" 3 1 (by decide),
    by decide⟩

/-- C16 on the code: for a plain channel entry without a partner whose
position lookup succeeds, the kind `checkForLeak` emits follows the variable
`buffered`, which is false at the start of a bucket and is set only when an
entry is paired with a buffered case; the field `buffered` of the entry is not
read. So the first entry of a bucket gets `LUnbufferedWithout` (`L02`) also
when its channel is buffered. -/
theorem C16_unpaired_kind_ignores_entry_buffered
    (info : String → Option (String × Int × Int)) (cases : List allSelectCase)
    (e : VectorClockTID2) (file : String) (line tPre : Int) (hsel : e.sel = false)
    (htid : e.tID ≠ "") (hnone : ∀ c ∈ cases, ¬ casePairs e c)
    (hinfo : info e.tID = some (file, line, tPre)) :
    (∀ b, (leakEntry info cases e b).1.map (fun call => call.resType) =
        [if b then LBufferedWithout else LUnbufferedWithout]) ∧
      (∀ post, leakBucket info cases (e :: post) false =
        { level := ResultLevel.CRITICAL, resType := LUnbufferedWithout, argType1 := "channel",
          arg1 := [{ RoutineID := e.routine, ObjID := e.id, TPre := tPre,
                     ObjType := if e.typeVal = 0 then "CS" else "CR", File := file,
                     Line := line }],
          argType2 := "", arg2 := [] } :: leakBucket info cases post false) ∧
      LUnbufferedWithout = "L02" ∧ LBufferedWithout = "L04" := by
  refine ⟨fun b => ?_, fun post => ?_, rfl, rfl⟩
  · rw [leakEntry_unpaired_plain info cases e b file line tPre hsel htid hnone hinfo]
    rfl
  · rw [leakBucket, leakEntry_unpaired_plain info cases e false file line tPre hsel htid hnone
      hinfo]
    rfl

/-- The failing input of C16: the bucket of the buffered channel 7 holds the
entry of the stuck send of routine 2 (`buffered = true`), and no select case
is recorded; `checkForLeak` emits `L02` for it, not `L04`. -/
theorem C16_unpaired_kind_ignores_entry_buffered_witness :
    exSendEntry.sel = false ∧ exSendEntry.buffered = true ∧ exSendEntry.tID ≠ "" ∧
      infoFromTID exSendEntry.tID = some ("a.go", 12, 9) ∧
      (checkForLeak infoFromTID { leakingChannels := [(7, [exSendEntry])] }).results =
        [{ level := ResultLevel.CRITICAL, resType := "L02", argType1 := "channel",
           arg1 := [{ RoutineID := 2, ObjID := 7, TPre := 9, ObjType := "CS", File := "a.go",
                      Line := 12 }],
           argType2 := "", arg2 := [] }] :=
  ⟨rfl, rfl, by decide, by decide,
    (show (checkForLeak infoFromTID { leakingChannels := [(7, [exSendEntry])] }).results =
        leakBucket infoFromTID [] (exSendEntry :: []) false from by
          simp [checkForLeak]).trans
      (((C16_unpaired_kind_ignores_entry_buffered infoFromTID [] exSendEntry "a.go" 12 9 rfl
        (by decide) (fun c hc => by simp at hc) (by decide)).2.1 []).trans (by decide))⟩

/-! ## Theorems on `CheckForLeakSelectStuck` -/

/-- Without a possible partner the loop over a recency index changes nothing. -/
theorem selectPartnerLoop_no_partner (info : String → Option (String × Int × Int))
    (se : TraceElementSelect) (vc : VectorClock) (id : Int) (o2 : String)
    (index : GoMap (GoMap VectorClockTID3)) (results : List ResultCall) (found : Bool)
    (h : selectPartners index id vc = []) :
    selectPartnerLoop info se vc id o2 index results found =
      { results := results, foundPartner := found, returned := false } := by
  induction index generalizing results found with
  | nil => rfl
  | cons e rest ih =>
    obtain ⟨p, mrr⟩ := e
    unfold selectPartners at h
    rw [List.filterMap_cons] at h
    unfold selectPartnerLoop
    cases hl : GoMap.lookup mrr id with
    | none =>
      simp only [hl] at h
      exact ih results found h
    | some mr =>
      simp only [hl] at h
      by_cases hc : GetHappensBefore vc mr.Vc = HappensBefore.Concurrent
      · simp [hc] at h
      · simp only [hc, if_false] at h ⊢
        exact ih results found h

/-- With the position lookups succeeding, the loop over a recency index emits
one `LSelectWith` result for each possible partner and does not return. -/
theorem selectPartnerLoop_lookups (info : String → Option (String × Int × Int))
    (se : TraceElementSelect) (vc : VectorClock) (id : Int) (o2 : String)
    (file1 : String) (line1 tPre1 : Int)
    (hself : info se.GetTID = some (file1, line1, tPre1))
    (index : GoMap (GoMap VectorClockTID3)) (results : List ResultCall) (found : Bool)
    (hpart : ∀ pm ∈ selectPartners index id vc, (info pm.2.Elem.GetTID).isSome = true) :
    ∃ new, selectPartnerLoop info se vc id o2 index results found =
        { results := results ++ new, foundPartner := found || !new.isEmpty,
          returned := false } ∧
      new.length = (selectPartners index id vc).length ∧
      ∀ call ∈ new, IsSelectWithCall se file1 line1 call := by
  induction index generalizing results found with
  | nil => exact ⟨[], by simp [selectPartnerLoop], rfl, fun c hc => by simp at hc⟩
  | cons e rest ih =>
    obtain ⟨p, mrr⟩ := e
    unfold selectPartners at hpart ⊢
    rw [List.filterMap_cons] at hpart ⊢
    unfold selectPartnerLoop
    cases hl : GoMap.lookup mrr id with
    | none =>
      simp only [hl] at hpart ⊢
      exact ih results found hpart
    | some mr =>
      simp only [hl] at hpart ⊢
      by_cases hc : GetHappensBefore vc mr.Vc = HappensBefore.Concurrent
      · simp only [hc, if_true] at hpart ⊢
        have h2 := hpart (p, mr) (List.mem_cons_self _ _)
        have hrest := fun pm hpm => hpart pm (List.mem_cons_of_mem _ hpm)
        simp only at h2
        obtain ⟨i2, hi2⟩ := Option.isSome_iff_exists.mp h2
        obtain ⟨f2, l2, t2⟩ := i2
        rw [hself, hi2]
        simp only []
        obtain ⟨new, hnew, hlen, hall⟩ := ih
          (results ++ [selectWithCall se file1 line1
            { RoutineID := p, ObjID := id, TPre := t2, ObjType := o2, File := f2,
              Line := l2 }]) true hrest
        refine ⟨selectWithCall se file1 line1
            { RoutineID := p, ObjID := id, TPre := t2, ObjType := o2, File := f2,
              Line := l2 } :: new, ?_, ?_, ?_⟩
        · rw [hnew]; simp
        · simp [hlen, selectPartners]
        · intro call hcall
          rcases List.mem_cons.mp hcall with rfl | hcall
          · exact ⟨rfl, rfl, rfl, rfl, rfl, rfl⟩
          · exact hall call hcall
      · simp only [hc, if_false] at hpart ⊢
        exact ih results found hpart

/-- A possible partner comes from an entry of the recency index. -/
theorem mem_selectPartners (index : GoMap (GoMap VectorClockTID3)) (id : Int)
    (vc : VectorClock) (pm : Int × VectorClockTID3) (h : pm ∈ selectPartners index id vc) :
    ∃ entry ∈ index, GoMap.lookup entry.2 id = some pm.2 := by
  unfold selectPartners at h
  obtain ⟨entry, hentry, hsome⟩ := List.mem_filterMap.mp h
  refine ⟨entry, hentry, ?_⟩
  cases hl : GoMap.lookup entry.2 id with
  | none => simp [hl] at hsome
  | some op =>
    simp only [hl] at hsome
    by_cases hc : GetHappensBefore vc op.Vc = HappensBefore.Concurrent
    · simp only [hc, if_true, Option.some.injEq] at hsome
      rw [← hsome]
    · simp [hc] at hsome

/-- With the position lookups succeeding, the body of the case loop emits only
`LSelectWith` results for the select, does not return, and emits a result
exactly when the case has a partner. -/
theorem selectCase_lookups (info : String → Option (String × Int × Int))
    (st : AnalysisState) (se : TraceElementSelect) (vc : VectorClock)
    (file1 : String) (line1 tPre1 : Int)
    (hself : info se.GetTID = some (file1, line1, tPre1))
    (hrecv : ∀ entry ∈ st.mostRecentReceive, ∀ id op,
      GoMap.lookup entry.2 id = some op → (info op.Elem.GetTID).isSome = true)
    (hsend : ∀ entry ∈ st.mostRecentSend, ∀ id op,
      GoMap.lookup entry.2 id = some op → (info op.Elem.GetTID).isSome = true)
    (hclose : ∀ id cl, GoMap.lookup st.closeData id = some cl → (info cl.GetTID).isSome = true)
    (id opType : Int) (results : List ResultCall) (found : Bool) :
    ∃ new, selectCase info st se vc id opType results found =
        { results := results ++ new, foundPartner := found || !new.isEmpty,
          returned := false } ∧
      (∀ call ∈ new, IsSelectWithCall se file1 line1 call) ∧
      (new ≠ [] ↔ caseHasPartner st vc id opType) := by
  unfold selectCase caseHasPartner
  by_cases h0 : opType = 0
  · subst h0
    obtain ⟨new, hnew, hlen, hall⟩ := selectPartnerLoop_lookups info se vc id "CR" file1 line1
      tPre1 hself st.mostRecentReceive results found (fun pm hpm => by
        obtain ⟨entry, he, hl⟩ := mem_selectPartners _ _ _ _ hpm
        exact hrecv entry he id pm.2 hl)
    refine ⟨new, by simp [hnew], hall, ?_⟩
    rw [← List.length_pos, ← List.length_pos, hlen]
    simp
  · by_cases h1 : opType = 1
    · subst h1
      obtain ⟨new, hnew, hlen, hall⟩ := selectPartnerLoop_lookups info se vc id "CS" file1
        line1 tPre1 hself st.mostRecentSend results found (fun pm hpm => by
          obtain ⟨entry, he, hl⟩ := mem_selectPartners _ _ _ _ hpm
          exact hsend entry he id pm.2 hl)
      have hnew1 : new ≠ [] ↔ selectPartners st.mostRecentSend id vc ≠ [] := by
        rw [← List.length_pos, ← List.length_pos, hlen]
      simp only [if_neg h0, if_true, hnew, Bool.false_eq_true, if_false]
      unfold selectCloseCheck
      cases hcl : GoMap.lookup st.closeData id with
      | none =>
        refine ⟨new, by simp, hall, ?_⟩
        simp [hnew1]
      | some cl =>
        obtain ⟨i2, hi2⟩ := Option.isSome_iff_exists.mp (hclose id cl hcl)
        obtain ⟨f2, l2, t2⟩ := i2
        refine ⟨new ++ [selectWithCall se file1 line1
          { RoutineID := cl.routine, ObjID := id, TPre := t2, ObjType := "CS", File := f2,
            Line := l2 }], by simp [hself, hi2], ?_, by simp⟩
        intro call hcall
        rcases List.mem_append.mp hcall with hcall | hcall
        · exact hall call hcall
        · rw [List.mem_singleton.mp hcall]
          exact ⟨rfl, rfl, rfl, rfl, rfl, rfl⟩
    · refine ⟨[], by simp [h0, h1], fun c hc => by simp at hc, ?_⟩
      simp [h0, h1]

/-- With the position lookups succeeding and an operation given for every
case, the case loop emits only `LSelectWith` results for the select, does not
return, and emits a result exactly when some case has a partner. -/
theorem selectCaseLoop_lookups (info : String → Option (String × Int × Int))
    (st : AnalysisState) (se : TraceElementSelect) (vc : VectorClock) (opTypes : List Int)
    (file1 : String) (line1 tPre1 : Int)
    (hself : info se.GetTID = some (file1, line1, tPre1))
    (hrecv : ∀ entry ∈ st.mostRecentReceive, ∀ id op,
      GoMap.lookup entry.2 id = some op → (info op.Elem.GetTID).isSome = true)
    (hsend : ∀ entry ∈ st.mostRecentSend, ∀ id op,
      GoMap.lookup entry.2 id = some op → (info op.Elem.GetTID).isSome = true)
    (hclose : ∀ id cl, GoMap.lookup st.closeData id = some cl → (info cl.GetTID).isSome = true)
    (ids : List Int) :
    ∀ (i : Nat) (results : List ResultCall) (found : Bool), i + ids.length ≤ opTypes.length →
      ∃ new, selectCaseLoop info st se vc opTypes ids i results found =
          some { results := results ++ new, foundPartner := found || !new.isEmpty,
                 returned := false } ∧
        (∀ call ∈ new, IsSelectWithCall se file1 line1 call) ∧
        (new ≠ [] ↔ ∃ j id, ids[j]? = some id ∧
          caseHasPartner st vc id (opTypes.getD (i + j) 0)) := by
  induction ids with
  | nil =>
    intro i results found _
    exact ⟨[], by simp [selectCaseLoop], fun c hc => by simp at hc, by simp⟩
  | cons id rest ih =>
    intro i results found hi
    have hlt : i < opTypes.length := by simp at hi; omega
    obtain ⟨new1, hnew1, hall1, hiff1⟩ := selectCase_lookups info st se vc file1 line1 tPre1
      hself hrecv hsend hclose id opTypes[i] results found
    obtain ⟨new2, hnew2, hall2, hiff2⟩ := ih (i + 1) (results ++ new1)
      (found || !new1.isEmpty) (by simp at hi; omega)
    refine ⟨new1 ++ new2, ?_, ?_, ?_⟩
    · unfold selectCaseLoop
      rw [List.getElem?_eq_getElem hlt]
      simp only [hnew1, Bool.false_eq_true, if_false, hnew2]
      cases new1 <;> cases new2 <;> simp
    · intro call hcall
      rcases List.mem_append.mp hcall with hcall | hcall
      · exact hall1 call hcall
      · exact hall2 call hcall
    · have hget : opTypes.getD i 0 = opTypes[i] := by
        rw [List.getD_eq_getElem?_getD, List.getElem?_eq_getElem hlt]; rfl
      constructor
      · intro hne
        by_cases h1 : new1 = []
        · have h2 : new2 ≠ [] := by
            intro h2; exact hne (by simp [h1, h2])
          obtain ⟨j, id2, hj, hp⟩ := hiff2.mp h2
          refine ⟨j + 1, id2, by simpa using hj, ?_⟩
          have : i + (j + 1) = i + 1 + j := by omega
          rw [this]; exact hp
        · exact ⟨0, id, by simp, by rw [Nat.add_zero, hget]; exact hiff1.mp h1⟩
      · rintro ⟨j, id2, hj, hp⟩
        cases j with
        | zero =>
          simp only [List.getElem?_cons_zero, Option.some.injEq] at hj
          subst hj
          rw [Nat.add_zero, hget] at hp
          have := hiff1.mpr hp
          intro h; exact this (List.append_eq_nil.mp h).1
        | succ j =>
          have hj2 : rest[j]? = some id2 := by simpa using hj
          have : i + (j + 1) = i + 1 + j := by omega
          rw [this] at hp
          have := hiff2.mpr ⟨j, id2, hj2, hp⟩
          intro h; exact this (List.append_eq_nil.mp h).2

/-- With an operation and a buffered flag given for every case, the push loop
succeeds and appends to the bucket of every channel the entries of the cases on
that channel, in the order of the cases. -/
theorem selectPushLoop_spec (se : TraceElementSelect) (vc : VectorClock) (opTypes : List Int)
    (buffered : List Bool) (ids : List Int) :
    ∀ (i : Nat) (buckets : GoMap (List VectorClockTID2)),
      i + ids.length ≤ opTypes.length → i + ids.length ≤ buffered.length →
      ∃ out, selectPushLoop se vc opTypes buffered ids i buckets = some out ∧
        ∀ c, GoMap.getSlice out c =
          GoMap.getSlice buckets c ++
            (selectEntriesFrom se vc opTypes buffered ids i).filter (fun e => e.id = c) := by
  induction ids with
  | nil =>
    intro i buckets _ _
    exact ⟨buckets, rfl, fun c => by simp [selectEntriesFrom]⟩
  | cons id rest ih =>
    intro i buckets h1 h2
    have hlt1 : i < opTypes.length := by simp at h1; omega
    have hlt2 : i < buffered.length := by simp at h2; omega
    obtain ⟨out, hout, hspec⟩ := ih (i + 1)
      (GoMap.insert buckets id
        (GoMap.getSlice buckets id ++
          [{ routine := se.routine, id := id, vc := vc, tID := se.GetTID,
             typeVal := opTypes[i], val := se.tPre, buffered := buffered[i], sel := true,
             selID := se.id }]))
      (by simp at h1; omega) (by simp at h2; omega)
    refine ⟨out, ?_, fun c => ?_⟩
    · unfold selectPushLoop
      rw [List.getElem?_eq_getElem hlt1, List.getElem?_eq_getElem hlt2]
      exact hout
    · rw [hspec c]
      have hg1 : opTypes.getD i 0 = opTypes[i] := by
        rw [List.getD_eq_getElem?_getD, List.getElem?_eq_getElem hlt1]; rfl
      have hg2 : buffered.getD i false = buffered[i] := by
        rw [List.getD_eq_getElem?_getD, List.getElem?_eq_getElem hlt2]; rfl
      by_cases hc : id = c
      · subst hc
        simp [selectEntriesFrom, GoMap.getSlice, GoMap.lookup_insert_self, ← hg1, ← hg2]
      · have hc2 : c ≠ id := fun h => hc h.symm
        simp [selectEntriesFrom, GoMap.getSlice, GoMap.lookup_insert_other _ _ _ _ hc2, hc]

/-- When the loop over a recency index does not return, it has found a partner
exactly when one was found before or the index holds a possible partner. -/
theorem selectPartnerLoop_found (info : String → Option (String × Int × Int))
    (se : TraceElementSelect) (vc : VectorClock) (id : Int) (o2 : String)
    (index : GoMap (GoMap VectorClockTID3)) (results : List ResultCall) (found : Bool)
    (hret : (selectPartnerLoop info se vc id o2 index results found).returned = false) :
    (selectPartnerLoop info se vc id o2 index results found).foundPartner = true ↔
      (found = true ∨ selectPartners index id vc ≠ []) := by
  induction index generalizing results found with
  | nil => simp [selectPartnerLoop, selectPartners]
  | cons e rest ih =>
    obtain ⟨p, mrr⟩ := e
    unfold selectPartners
    rw [List.filterMap_cons]
    unfold selectPartnerLoop at hret ⊢
    cases hl : GoMap.lookup mrr id with
    | none =>
      simp only [hl] at hret ⊢
      exact ih results found hret
    | some mr =>
      simp only [hl] at hret ⊢
      by_cases hc : GetHappensBefore vc mr.Vc = HappensBefore.Concurrent
      · simp only [hc, if_true] at hret ⊢
        cases h1 : info se.GetTID with
        | none => simp [h1] at hret
        | some i1 =>
          obtain ⟨f1, l1, t1⟩ := i1
          cases h2 : info mr.Elem.GetTID with
          | none => simp [h1, h2] at hret
          | some i2 =>
            obtain ⟨f2, l2, t2⟩ := i2
            simp only [h1, h2] at hret ⊢
            rw [ih _ true hret]
            simp
      · simp only [hc, if_false] at hret ⊢
        exact ih results found hret

/-- When the body of the case loop does not return, it has found a partner
exactly when one was found before or the case has a partner. -/
theorem selectCase_found (info : String → Option (String × Int × Int))
    (st : AnalysisState) (se : TraceElementSelect) (vc : VectorClock)
    (id opType : Int) (results : List ResultCall) (found : Bool)
    (hret : (selectCase info st se vc id opType results found).returned = false) :
    (selectCase info st se vc id opType results found).foundPartner = true ↔
      (found = true ∨ caseHasPartner st vc id opType) := by
  unfold selectCase at hret ⊢
  unfold caseHasPartner
  by_cases h0 : opType = 0
  · subst h0
    simp only [if_true] at hret ⊢
    rw [selectPartnerLoop_found info se vc id "CR" _ results found hret]
    simp
  · by_cases h1 : opType = 1
    · subst h1
      simp only [if_neg h0, if_true] at hret ⊢
      by_cases hr : (selectPartnerLoop info se vc id "CS" st.mostRecentSend results
          found).returned = true
      · simp [hr] at hret
      · have hr2 := Bool.eq_false_iff.mpr hr
        have hf := selectPartnerLoop_found info se vc id "CS" _ results found hr2
        simp only [hr2, Bool.false_eq_true, if_false] at hret ⊢
        unfold selectCloseCheck at hret ⊢
        cases hcl : GoMap.lookup st.closeData id with
        | none =>
          simp only [hcl]
          rw [hf]
          simp
        | some cl =>
          simp only [hcl] at hret ⊢
          cases h1 : info se.GetTID with
          | none => simp [h1] at hret
          | some i1 =>
            obtain ⟨f1, l1, t1⟩ := i1
            cases h2 : info cl.GetTID with
            | none => simp [h1, h2] at hret
            | some i2 =>
              obtain ⟨f2, l2, t2⟩ := i2
              simp
    · simp [h0, h1]

/-- A case without a partner leaves the results and the flag unchanged. -/
theorem selectCase_no_partner (info : String → Option (String × Int × Int))
    (st : AnalysisState) (se : TraceElementSelect) (vc : VectorClock)
    (id opType : Int) (results : List ResultCall) (found : Bool)
    (h : ¬ caseHasPartner st vc id opType) :
    selectCase info st se vc id opType results found =
      { results := results, foundPartner := found, returned := false } := by
  unfold caseHasPartner at h
  unfold selectCase
  by_cases h0 : opType = 0
  · subst h0
    have h2 : selectPartners st.mostRecentReceive id vc = [] := by
      by_contra hne; exact h (Or.inl ⟨rfl, hne⟩)
    simp only [if_true]
    exact selectPartnerLoop_no_partner info se vc id "CR" _ results found h2
  · by_cases h1 : opType = 1
    · subst h1
      have h2 : selectPartners st.mostRecentSend id vc = [] := by
        by_contra hne; exact h (Or.inr ⟨rfl, Or.inl hne⟩)
      have h3 : GoMap.lookup st.closeData id = none := by
        cases hcl : GoMap.lookup st.closeData id with
        | none => rfl
        | some cl => exact absurd (Or.inr ⟨rfl, Or.inr (by simp [hcl])⟩) h
      simp only [if_neg h0, if_true]
      rw [selectPartnerLoop_no_partner info se vc id "CS" _ results found h2]
      simp [selectCloseCheck, h3]
    · simp [h0, h1]

/-- With an operation given for every case the case loop does not panic; when
it does not return it has found a partner exactly when one was found before or
some case has a partner, and when no case has a partner it leaves the results
and the flag unchanged. -/
theorem selectCaseLoop_found (info : String → Option (String × Int × Int))
    (st : AnalysisState) (se : TraceElementSelect) (vc : VectorClock) (opTypes : List Int)
    (ids : List Int) :
    ∀ (i : Nat) (results : List ResultCall) (found : Bool), i + ids.length ≤ opTypes.length →
      ∃ out, selectCaseLoop info st se vc opTypes ids i results found = some out ∧
        (out.returned = false →
          (out.foundPartner = true ↔ (found = true ∨ ∃ j id, ids[j]? = some id ∧
            caseHasPartner st vc id (opTypes.getD (i + j) 0)))) ∧
        ((¬ ∃ j id, ids[j]? = some id ∧ caseHasPartner st vc id (opTypes.getD (i + j) 0)) →
          out = { results := results, foundPartner := found, returned := false }) := by
  induction ids with
  | nil =>
    intro i results found _
    exact ⟨_, rfl, by simp, fun _ => rfl⟩
  | cons id rest ih =>
    intro i results found hi
    have hlt : i < opTypes.length := by simp at hi; omega
    have hget : opTypes.getD i 0 = opTypes[i] := by
      rw [List.getD_eq_getElem?_getD, List.getElem?_eq_getElem hlt]; rfl
    have hex : (∃ j id2, (id :: rest)[j]? = some id2 ∧
          caseHasPartner st vc id2 (opTypes.getD (i + j) 0)) ↔
        (caseHasPartner st vc id opTypes[i] ∨
          ∃ j id2, rest[j]? = some id2 ∧
            caseHasPartner st vc id2 (opTypes.getD (i + 1 + j) 0)) := by
      constructor
      · rintro ⟨j, id2, hj, hp⟩
        cases j with
        | zero =>
          simp only [List.getElem?_cons_zero, Option.some.injEq] at hj
          subst hj
          rw [Nat.add_zero, hget] at hp
          exact Or.inl hp
        | succ j =>
          have hj2 : rest[j]? = some id2 := by simpa using hj
          have : i + (j + 1) = i + 1 + j := by omega
          rw [this] at hp
          exact Or.inr ⟨j, id2, hj2, hp⟩
      · rintro (hp | ⟨j, id2, hj, hp⟩)
        · exact ⟨0, id, by simp, by rw [Nat.add_zero, hget]; exact hp⟩
        · refine ⟨j + 1, id2, by simpa using hj, ?_⟩
          have : i + (j + 1) = i + 1 + j := by omega
          rw [this]; exact hp
    unfold selectCaseLoop
    rw [List.getElem?_eq_getElem hlt]
    simp only []
    by_cases hr : (selectCase info st se vc id opTypes[i] results found).returned = true
    · refine ⟨_, by rw [if_pos hr], fun h => by simp [hr] at h, fun hno => ?_⟩
      rw [hex] at hno
      rw [selectCase_no_partner info st se vc id opTypes[i] results found
        (fun h => hno (Or.inl h))]
    · have hr2 := Bool.eq_false_iff.mpr hr
      obtain ⟨out, hout, hfound, hnone⟩ := ih (i + 1)
        (selectCase info st se vc id opTypes[i] results found).results
        (selectCase info st se vc id opTypes[i] results found).foundPartner
        (by simp at hi; omega)
      refine ⟨out, by rw [if_neg hr]; exact hout, fun h => ?_, fun hno => ?_⟩
      · rw [hfound h, selectCase_found info st se vc id opTypes[i] results found hr2, hex,
          or_assoc]
      · rw [hex] at hno
        rw [hnone (fun h => hno (Or.inr h)),
          selectCase_no_partner info st se vc id opTypes[i] results found
            (fun h => hno (Or.inl h))]

/-- The bucket entries of the cases of a select, by index. -/
theorem selectEntriesFrom_getElem? (se : TraceElementSelect) (vc : VectorClock)
    (opTypes : List Int) (buffered : List Bool) (ids : List Int) :
    ∀ (i j : Nat), (selectEntriesFrom se vc opTypes buffered ids i)[j]? =
      ids[j]?.map (fun id =>
        { routine := se.routine, id := id, vc := vc, tID := se.GetTID,
          typeVal := opTypes.getD (i + j) 0, val := se.tPre,
          buffered := buffered.getD (i + j) false, sel := true, selID := se.id }) := by
  induction ids with
  | nil => intro i j; simp [selectEntriesFrom]
  | cons id rest ih =>
    intro i j
    cases j with
    | zero => simp [selectEntriesFrom]
    | succ j =>
      have : i + (j + 1) = i + 1 + j := by omega
      simp [selectEntriesFrom, ih, this]

theorem selectEntriesFrom_length (se : TraceElementSelect) (vc : VectorClock)
    (opTypes : List Int) (buffered : List Bool) (ids : List Int) :
    ∀ (i : Nat), (selectEntriesFrom se vc opTypes buffered ids i).length = ids.length := by
  induction ids with
  | nil => intro i; rfl
  | cons id rest ih => intro i; simp [selectEntriesFrom, ih]

/-! ## Theorems on `CheckForLeakSelectStuck` -/

/-- C13, as stated, fails in two ways. (1) The stuck select of routine 4 whose
recorded position has no line number has a send case on channel 7 that is
`Concurrent` to the most recent receive of routine 3, but the position lookup
of the select fails: the call emits nothing and pushes nothing. (2) For a
select with a receive case on channel 7 whose close is recorded with the clock
`[1, 0]`, which is not `Concurrent` to the clock `[1, 2]` of the select (and no
send on the channel is recorded), the call emits an `LSelectWith` result with
the close as the partner. -/
theorem C13_select_stuck_counterexample :
    (infoFromTID ({ exSelect with pos := "s.go" } : TraceElementSelect).GetTID = none ∧
      caseHasPartner exState exClockB 7 0 ∧
      (CheckForLeakSelectStuck infoFromTID exState { exSelect with pos := "s.go" } [7] [true]
          exClockB [0]).map (fun out => (out.results, out.leakingChannels)) =
        some ([], [])) ∧
    (GetHappensBefore exClockB exClose.vc = HappensBefore.After ∧
      (CheckForLeakSelectStuck infoFromTID { closeData := [(7, exClose)] } exSelect [7] [true]
          exClockB [1]).map (fun out => (out.results, out.leakingChannels)) =
        some ([{ level := ResultLevel.CRITICAL, resType := "L06", argType1 := "select",
                 arg1 := [{ RoutineID := 4, ObjID := 12, TPre := 1, ObjType := "SS",
                            File := "s.go", Line := 3 }],
                 argType2 := "partner",
                 arg2 := [{ RoutineID := 1, ObjID := 7, TPre := 2, ObjType := "CS",
                            File := "a.go", Line := 50 }] }], [])) :=
  ⟨⟨by decide, Or.inl ⟨rfl, fun h => absurd (congrArg List.length h) (by decide)⟩, rfl⟩,
    by decide, rfl⟩

/-- C13, amended: let a stuck select have `k ≥ 1` cases (`ids`, `opTypes` and
`buffered` of length `k`). A case has a partner when it is a send case and a
most recent receive on its channel is `Concurrent` to the select, or it is a
receive case and a most recent send on its channel is `Concurrent` to the
select or a close of its channel is recorded (whatever the clock of the close).
`CheckForLeakSelectStuck` returns; when no case has a partner it emits nothing
and appends to every bucket the entries of the cases on that channel, one per
case in the order of the cases, the entry of case `j` tagged as a select case
and carrying the routine, the clock, the TID, the pre and the id of the select
and the channel, operation and buffered flag of the case; when a case has a
partner it changes no bucket, and if the position lookups of the select, of
the recorded most recent operations and of the recorded closes succeed, what
it emits is a non-empty list of critical `LSelectWith` (`L06`) results with
the select as the first participant and one partner each. -/
theorem C13_select_stuck (info : String → Option (String × Int × Int))
    (st : AnalysisState) (se : TraceElementSelect) (ids : List Int) (buffered : List Bool)
    (vc : VectorClock) (opTypes : List Int) (hids : ids ≠ [])
    (hop : opTypes.length = ids.length) (hbuf : buffered.length = ids.length) :
    ∃ out, CheckForLeakSelectStuck info st se ids buffered vc opTypes = some out ∧
      ((¬ ∃ j id, ids[j]? = some id ∧ caseHasPartner st vc id (opTypes.getD j 0)) →
        out.results = st.results ∧
        ∀ c, GoMap.getSlice out.leakingChannels c =
          GoMap.getSlice st.leakingChannels c ++
            (selectEntriesFrom se vc opTypes buffered ids 0).filter (fun e => e.id = c)) ∧
      (∀ j, (selectEntriesFrom se vc opTypes buffered ids 0)[j]? =
        ids[j]?.map (fun id =>
          ({ routine := se.routine, id := id, vc := vc, tID := se.GetTID,
             typeVal := opTypes.getD j 0, val := se.tPre, buffered := buffered.getD j false,
             sel := true, selID := se.id } : VectorClockTID2))) ∧
      ((∃ j id, ids[j]? = some id ∧ caseHasPartner st vc id (opTypes.getD j 0)) →
        out.leakingChannels = st.leakingChannels ∧
        ∀ file1 line1 tPre1, info se.GetTID = some (file1, line1, tPre1) →
          (∀ entry ∈ st.mostRecentReceive, ∀ id op,
            GoMap.lookup entry.2 id = some op → (info op.Elem.GetTID).isSome = true) →
          (∀ entry ∈ st.mostRecentSend, ∀ id op,
            GoMap.lookup entry.2 id = some op → (info op.Elem.GetTID).isSome = true) →
          (∀ id cl, GoMap.lookup st.closeData id = some cl → (info cl.GetTID).isSome = true) →
          ∃ new, new ≠ [] ∧ out.results = st.results ++ new ∧
            ∀ call ∈ new, IsSelectWithCall se file1 line1 call) ∧
      LSelectWith = "L06" := by
  have hlen : ¬ ids.length = 0 := fun h => hids (List.length_eq_zero.mp h)
  have hi1 : 0 + ids.length ≤ opTypes.length := by omega
  have hi2 : 0 + ids.length ≤ buffered.length := by omega
  obtain ⟨loop, hloop, hfound, hnone⟩ :=
    selectCaseLoop_found info st se vc opTypes ids 0 st.results false hi1
  obtain ⟨buckets, hpush, hbuckets⟩ :=
    selectPushLoop_spec se vc opTypes buffered ids 0 st.leakingChannels hi1 hi2
  simp only [Nat.zero_add] at hfound hnone
  have hentries := selectEntriesFrom_getElem? se vc opTypes buffered ids 0
  simp only [Nat.zero_add] at hentries
  unfold CheckForLeakSelectStuck
  rw [if_neg hlen, hloop]
  simp only []
  by_cases hp : ∃ j id, ids[j]? = some id ∧ caseHasPartner st vc id (opTypes.getD j 0)
  · by_cases hr : loop.returned = true
    · refine ⟨{ st with results := loop.results }, by rw [if_pos hr],
        fun hno => absurd hp hno, hentries, fun _ => ⟨rfl, ?_⟩, rfl⟩
      intro file1 line1 tPre1 hself hrecv hsend hclose
      obtain ⟨new, hnew, _, _⟩ := selectCaseLoop_lookups info st se vc opTypes file1 line1
        tPre1 hself hrecv hsend hclose ids 0 st.results false hi1
      rw [hloop] at hnew
      rw [Option.some.inj hnew] at hr
      simp at hr
    · have hr2 := Bool.eq_false_iff.mpr hr
      have hf : loop.foundPartner = true := (hfound hr2).mpr (Or.inr hp)
      refine ⟨{ st with results := loop.results }, by rw [if_neg hr, hf]; rfl,
        fun hno => absurd hp hno, hentries, fun _ => ⟨rfl, ?_⟩, rfl⟩
      intro file1 line1 tPre1 hself hrecv hsend hclose
      obtain ⟨new, hnew, hall, hiff⟩ := selectCaseLoop_lookups info st se vc opTypes file1
        line1 tPre1 hself hrecv hsend hclose ids 0 st.results false hi1
      rw [hloop] at hnew
      simp only [Nat.zero_add] at hiff
      refine ⟨new, hiff.mpr hp, ?_, hall⟩
      rw [Option.some.inj hnew]
  · have hl := hnone hp
    subst hl
    refine ⟨{ st with results := st.results, leakingChannels := buckets }, by simp [hpush],
      fun _ => ⟨rfl, hbuckets⟩, hentries, fun h => absurd h hp, rfl⟩

/-- Witness of C13 (amended): the stuck select of routine 4 with a receive case
on channel 5 and a send case on channel 6, in the state without any recorded
operation, has no case with a partner; the call emits nothing, and bucket 5
receives the entry of the receive case. -/
theorem C13_select_stuck_witness :
    ([5, 6] : List Int) ≠ [] ∧
      (¬ ∃ j id, ([5, 6] : List Int)[j]? = some id ∧
        caseHasPartner {} exClockB id (([1, 0] : List Int).getD j 0)) ∧
      ∃ out, CheckForLeakSelectStuck infoFromTID {} exSelect [5, 6] [false, false] exClockB
          [1, 0] = some out ∧
        out.results = [] ∧ GoMap.getSlice out.leakingChannels 5 = [exSelectEntry] := by
  have hno : ¬ ∃ j id, ([5, 6] : List Int)[j]? = some id ∧
      caseHasPartner {} exClockB id (([1, 0] : List Int).getD j 0) := by
    rintro ⟨j, id, _, hp⟩
    rcases hp with ⟨_, hp⟩ | ⟨_, hp | hp⟩
    · exact hp rfl
    · exact hp rfl
    · simp [GoMap.lookup] at hp
  obtain ⟨out, hout, h1, _, _, _⟩ := C13_select_stuck infoFromTID {} exSelect [5, 6]
    [false, false] exClockB [1, 0] (by decide) rfl rfl
  exact ⟨by decide, hno, out, hout, (h1 hno).1, ((h1 hno).2 5).trans rfl⟩

/-! ## The removals of `CheckForLeakChannelRun` -/

/-- An entry of a map after a write is the written one or an old one. -/
theorem GoMap.mem_insert {α : Type} (m : GoMap α) (k : Int) (v : α) (b : Int × α)
    (h : b ∈ GoMap.insert m k v) : b = (k, v) ∨ b ∈ m := by
  induction m with
  | nil =>
    simp only [GoMap.insert, List.mem_singleton] at h
    exact Or.inl h
  | cons e rest ih =>
    obtain ⟨k2, v2⟩ := e
    unfold GoMap.insert at h
    by_cases hk : k2 = k
    · rw [if_pos hk] at h
      rcases List.mem_cons.mp h with h | h
      · exact Or.inl h
      · exact Or.inr (List.mem_cons_of_mem _ h)
    · rw [if_neg hk] at h
      rcases List.mem_cons.mp h with h | h
      · exact Or.inr (by rw [h]; exact List.mem_cons_self _ _)
      · rcases ih h with h | h
        · exact Or.inl h
        · exact Or.inr (List.mem_cons_of_mem _ h)

/-- An element of the slice read from a map is an element of a bucket of the
map. -/
theorem GoMap.mem_of_getSlice {α : Type} (m : GoMap (List α)) (k : Int) (e : α)
    (h : e ∈ GoMap.getSlice m k) : ∃ b ∈ m, e ∈ b.2 := by
  induction m with
  | nil => simp [GoMap.getSlice, GoMap.lookup] at h
  | cons x rest ih =>
    obtain ⟨k2, v2⟩ := x
    unfold GoMap.getSlice GoMap.lookup at h
    by_cases hk : k2 = k
    · rw [if_pos hk] at h
      exact ⟨(k2, v2), List.mem_cons_self _ _, h⟩
    · rw [if_neg hk] at h
      obtain ⟨b, hb, he⟩ := ih h
      exact ⟨b, List.mem_cons_of_mem _ hb, he⟩

/-- Removing from the slice an entry that `keep` does not mark preserves the
invariant of the loops; the results and the return value are not touched. -/
theorem removeAt_inv (keep : VectorClockTID2 → Bool) (objID : Int)
    (orig : List VectorClockTID2) (buckets0 : GoMap (List VectorClockTID2))
    (s s2 : RunLoopState) (j : Nat) (hinv : RunInv keep objID orig buckets0 s)
    (hkeep : ∀ x, s.backing[j]? = some x → keep x = false)
    (hrem : removeAt s objID j = some s2) :
    RunInv keep objID orig buckets0 s2 ∧ s2.results = s.results ∧ s2.res = s.res := by
  unfold removeAt at hrem
  simp only [] at hrem
  by_cases hj : j + 1 ≤ (GoMap.getSlice s.buckets objID).length
  · rw [if_pos hj] at hrem
    have hs2 := (Option.some.inj hrem).symm
    subst hs2
    generalize hcur : GoMap.getSlice s.buckets objID = cur at hj
    have htake := hinv.isTake
    have hsub := hinv.isSublist
    have hkept := hinv.kept
    rw [hcur] at htake hsub hkept
    have hjlt : j < cur.length := by omega
    have hlenle : cur.length ≤ s.backing.length := by
      have := congrArg List.length htake
      rw [List.length_take] at this
      omega
    have hbj : s.backing[j]? = some cur[j] := by
      have h1 : cur[j]? = (s.backing.take cur.length)[j]? := by rw [← htake]
      rw [List.getElem?_take_of_lt hjlt, List.getElem?_eq_getElem hjlt] at h1
      exact h1.symm
    have hkj : keep cur[j] = false := hkeep _ hbj
    have hsplit : cur = cur.take j ++ cur[j] :: cur.drop (j + 1) := by
      rw [← List.drop_eq_getElem_cons hjlt, List.take_append_drop]
    have hnew : GoMap.getSlice (GoMap.insert s.buckets objID
        (cur.take j ++ cur.drop (j + 1))) objID = cur.take j ++ cur.drop (j + 1) := by
      simp [GoMap.getSlice, GoMap.lookup_insert_self]
    have htj : s.backing.take j = cur.take j := by
      rw [htake, List.take_take, Nat.min_eq_left (by omega)]
    refine ⟨⟨?_, ?_, ?_, ?_, ?_, ?_⟩, rfl, rfl⟩
    · show GoMap.getSlice (GoMap.insert s.buckets objID (cur.take j ++ cur.drop (j + 1)))
          objID = _
      rw [hnew, htj]
      have hl : (cur.take j ++ cur.drop (j + 1)).length = cur.length - 1 := by
        simp; omega
      rw [List.append_assoc, ← List.append_assoc (cur.take j), ← hl, List.take_left']
      rfl
    · intro x hx
      simp only [List.mem_append] at hx
      rcases hx with (hx | hx) | hx
      · exact hinv.backingMem x (List.mem_of_mem_take hx)
      · exact hsub.subset (List.mem_of_mem_drop hx)
      · exact hinv.backingMem x (List.mem_of_mem_drop hx)
    · show (GoMap.getSlice (GoMap.insert s.buckets objID (cur.take j ++ cur.drop (j + 1)))
          objID).Sublist orig
      rw [hnew]
      refine List.Sublist.trans ?_ hsub
      conv_rhs => rw [hsplit]
      exact List.Sublist.append_left (List.sublist_cons_self _ _) _
    · show (GoMap.getSlice (GoMap.insert s.buckets objID (cur.take j ++ cur.drop (j + 1)))
          objID).filter keep = _
      have hf : cur.filter keep =
          (cur.take j).filter keep ++ (cur.drop (j + 1)).filter keep := by
        conv_lhs => rw [hsplit]
        rw [List.filter_append, List.filter_cons, hkj]
        simp
      rw [hnew, ← hkept, hf, List.filter_append]
    · intro c hc
      show GoMap.lookup (GoMap.insert s.buckets objID _) c = _
      rw [GoMap.lookup_insert_other _ _ _ _ hc]
      exact hinv.others c hc
    · intro b hb e he
      rcases GoMap.mem_insert _ _ _ _ hb with hb | hb
      · rw [hb] at he
        refine Or.inl (hsub.subset ?_)
        rcases List.mem_append.mp he with he | he
        · exact List.mem_of_mem_take he
        · exact List.mem_of_mem_drop he
      · exact hinv.entriesMem b hb e he
  · rw [if_neg hj] at hrem
    exact absurd hrem (by simp)

/-- The inner loop of `CheckForLeakChannelRun`, removing the entries with the
value `val` that `keep` does not mark, preserves the invariant when it ends. -/
theorem runRemoveLoop_inv (keep : VectorClockTID2 → Bool) (objID : Int)
    (orig : List VectorClockTID2) (buckets0 : GoMap (List VectorClockTID2)) (val : Int)
    (hkeep : ∀ x, x.val = val → keep x = false) :
    ∀ (n j : Nat) (s s2 : RunLoopState), RunInv keep objID orig buckets0 s →
      runRemoveLoop val objID n j s = some s2 →
      RunInv keep objID orig buckets0 s2 ∧ s2.results = s.results ∧ s2.res = s.res := by
  intro n
  induction n with
  | zero =>
    intro j s s2 hinv h
    simp only [runRemoveLoop, Option.some.injEq] at h
    subst h
    exact ⟨hinv, rfl, rfl⟩
  | succ n ih =>
    intro j s s2 hinv h
    unfold runRemoveLoop at h
    cases hb : s.backing[j]? with
    | none => simp [hb] at h
    | some x =>
      simp only [hb] at h
      by_cases hv : x.val = val
      · rw [if_pos hv] at h
        cases hr : removeAt s objID j with
        | none => simp [hr] at h
        | some s1 =>
          simp only [hr] at h
          obtain ⟨hinv1, hres1, hret1⟩ := removeAt_inv keep objID orig buckets0 s s1 j hinv
            (fun y hy => by
              rw [hb] at hy
              rw [← Option.some.inj hy]
              exact hkeep x hv) hr
          obtain ⟨hinv2, hres2, hret2⟩ := ih (j + 1) s1 s2 hinv1 h
          exact ⟨hinv2, hres2.trans hres1, hret2.trans hret1⟩
      · rw [if_neg hv] at h
        exact ih (j + 1) s s2 hinv h

/-- The loop of `CheckForLeakChannelRun` preserves the invariant when it ends:
with `keep` marking the entries whose `val` is not the `val` of an entry of the
bucket that the branch can match. -/
theorem runLoop_inv (info : String → Option (String × Int × Int)) (routineID objID : Int)
    (vcTID : VectorClockTID) (buffered : Bool)
    (tags : VectorClockTID2 → Option (String × String)) (orig : List VectorClockTID2)
    (buckets0 : GoMap (List VectorClockTID2)) :
    ∀ (n i : Nat) (s s2 : RunLoopState),
      RunInv (runKeeps tags vcTID orig) objID orig buckets0 s →
      runLoop info routineID objID vcTID buffered tags n i s = some s2 →
      RunInv (runKeeps tags vcTID orig) objID orig buckets0 s2 := by
  intro n
  induction n with
  | zero =>
    intro i s s2 hinv h
    simp only [runLoop, Option.some.injEq] at h
    subst h
    exact hinv
  | succ n ih =>
    intro i s s2 hinv h
    unfold runLoop at h
    cases hb : s.backing[i]? with
    | none => simp [hb] at h
    | some m =>
      simp only [hb] at h
      cases ht : tags m with
      | none =>
        simp only [ht] at h
        exact ih (i + 1) s s2 hinv h
      | some tg =>
        obtain ⟨t1, t2⟩ := tg
        simp only [ht] at h
        by_cases hc : GetHappensBefore m.vc vcTID.Vc = HappensBefore.Concurrent
        · rw [if_pos hc] at h
          have hm : m ∈ orig := hinv.backingMem m (List.mem_iff_getElem?.mpr ⟨i, hb⟩)
          have hkeep : ∀ x : VectorClockTID2, x.val = m.val →
              runKeeps tags vcTID orig x = false := by
            intro x hx
            unfold runKeeps
            rw [List.all_eq_false]
            exact ⟨m, hm, by simp [runMatches, ht, hc, hx]⟩
          cases h1 : info m.tID with
          | none =>
            simp only [h1, Option.some.injEq] at h
            subst h
            exact hinv
          | some i1 =>
            obtain ⟨f1, l1, p1⟩ := i1
            cases h2 : info vcTID.TID with
            | none =>
              simp only [h1, h2, Option.some.injEq] at h
              subst h
              exact hinv
            | some i2 =>
              obtain ⟨f2, l2, p2⟩ := i2
              simp only [h1, h2] at h
              generalize hs1 : ({ s with
                  results := s.results ++
                    [{ level := ResultLevel.CRITICAL,
                       resType := if buffered = true then LBufferedWith else LUnbufferedWith,
                       argType1 := "channel",
                       arg1 := [{ RoutineID := routineID, ObjID := objID, TPre := p1,
                                  ObjType := t1, File := f1, Line := l1 }],
                       argType2 := "partner",
                       arg2 := [{ RoutineID := m.routine, ObjID := objID, TPre := p2,
                                  ObjType := t2, File := f2, Line := l2 }] }]
                  res := true } : RunLoopState) = s1 at h
              have hinv1 : RunInv (runKeeps tags vcTID orig) objID orig buckets0 s1 := by
                subst hs1
                exact ⟨hinv.isTake, hinv.backingMem, hinv.isSublist, hinv.kept, hinv.others,
                  hinv.entriesMem⟩
              have hb1 : s1.backing[i]? = some m := by subst hs1; exact hb
              by_cases hv : m.val = -1
              · rw [if_pos hv] at h
                cases hr : removeAt s1 objID i with
                | none => simp [hr] at h
                | some s3 =>
                  simp only [hr] at h
                  obtain ⟨hinv3, _, _⟩ := removeAt_inv _ objID orig buckets0 s1 s3 i hinv1
                    (fun y hy => by
                      rw [hb1] at hy
                      rw [← Option.some.inj hy]
                      exact hkeep m rfl) hr
                  exact ih (i + 1) s3 s2 hinv3 h
              · rw [if_neg hv] at h
                cases hr : runRemoveLoop m.val objID (GoMap.getSlice s.buckets objID).length
                    0 s1 with
                | none => simp [hr] at h
                | some s3 =>
                  simp only [hr] at h
                  obtain ⟨hinv3, _, _⟩ := runRemoveLoop_inv _ objID orig buckets0 m.val hkeep
                    _ 0 s1 s3 hinv1 hr
                  exact ih (i + 1) s3 s2 hinv3 h
        · rw [if_neg hc] at h
          exact ih (i + 1) s s2 hinv h

/-- The loop of `CheckForLeakChannelRun` passes over a run of array elements
that the branch does not look at. -/
theorem runLoop_skip (info : String → Option (String × Int × Int)) (routineID objID : Int)
    (vcTID : VectorClockTID) (buffered : Bool)
    (tags : VectorClockTID2 → Option (String × String)) (s : RunLoopState) :
    ∀ (k n i : Nat), (∀ t, t < k → ∃ x, s.backing[i + t]? = some x ∧ tags x = none) →
      runLoop info routineID objID vcTID buffered tags (k + n) i s =
        runLoop info routineID objID vcTID buffered tags n (i + k) s := by
  intro k
  induction k with
  | zero => intro n i _; simp
  | succ k ih =>
    intro n i h
    obtain ⟨x, hx, hxt⟩ := h 0 (by omega)
    have hstep : k + 1 + n = (k + n) + 1 := by omega
    rw [hstep]
    conv_lhs => unfold runLoop
    rw [Nat.add_zero] at hx
    simp only [hx, hxt]
    rw [ih n (i + 1) (fun t ht => by
      obtain ⟨y, hy, hyt⟩ := h (t + 1) (by omega)
      exact ⟨y, by rw [← hy]; congr 1; omega, hyt⟩)]
    have hidx : i + 1 + k = i + (k + 1) := by omega
    rw [hidx]

/-- The inner loop passes over a run of array elements with another `val`. -/
theorem runRemoveLoop_skip (val : Int) (objID : Int) (s : RunLoopState) :
    ∀ (k n j : Nat), (∀ t, t < k → ∃ x, s.backing[j + t]? = some x ∧ x.val ≠ val) →
      runRemoveLoop val objID (k + n) j s = runRemoveLoop val objID n (j + k) s := by
  intro k
  induction k with
  | zero => intro n j _; simp
  | succ k ih =>
    intro n j h
    obtain ⟨x, hx, hxv⟩ := h 0 (by omega)
    have hstep : k + 1 + n = (k + n) + 1 := by omega
    rw [hstep]
    conv_lhs => unfold runRemoveLoop
    rw [Nat.add_zero] at hx
    simp only [hx, if_neg hxv]
    rw [ih n (j + 1) (fun t ht => by
      obtain ⟨y, hy, hyv⟩ := h (t + 1) (by omega)
      exact ⟨y, by rw [← hy]; congr 1; omega, hyv⟩)]
    have hidx : j + 1 + k = j + (k + 1) := by omega
    rw [hidx]

/-- The tags of the branches of `CheckForLeakChannelRun` depend on the `val` of
the entry only. -/
theorem runTags_val (opType : Int) (x y : VectorClockTID2) (h : x.val = y.val) :
    runTags opType x = runTags opType y := by
  unfold runTags runTagsSendClose runTagsRecv
  split_ifs <;> simp_all

/-- The last place of a non-empty array. -/
theorem drop_length_getLast {α : Type} (m : α) (post : List α) :
    (m :: post).drop post.length = [(m :: post).getLast (List.cons_ne_nil _ _)] := by
  induction post generalizing m with
  | nil => rfl
  | cons a rest ih =>
    rw [List.length_cons, List.drop_succ_cons, ih a, List.getLast_cons_cons]

/-- Removing element `pre.length` of the bucket `pre ++ m :: post`, which is
also the array. -/
theorem removeAt_middle (objID : Int) (pre post : List VectorClockTID2) (m : VectorClockTID2)
    (s : RunLoopState) (hb : s.backing = pre ++ m :: post)
    (hcur : GoMap.getSlice s.buckets objID = pre ++ m :: post) :
    removeAt s objID pre.length =
      some { s with
        buckets := GoMap.insert s.buckets objID (pre ++ post)
        backing := pre ++ post ++ [(m :: post).getLast (List.cons_ne_nil _ _)] } := by
  unfold removeAt
  simp only [hcur, hb]
  rw [if_pos (by simp)]
  have h1 : (pre ++ m :: post).take pre.length = pre := by simp
  have h2 : (pre ++ m :: post).drop (pre.length + 1) = post := by
    rw [List.drop_append_eq_append_drop]
    simp
  have h3 : (pre ++ m :: post).drop ((pre ++ m :: post).length - 1) =
      [(m :: post).getLast (List.cons_ne_nil _ _)] := by
    have hl : (pre ++ m :: post).length - 1 = pre.length + post.length := by simp
    rw [hl, List.drop_append, drop_length_getLast]
  rw [h1, h2, h3]

/-- After the removal of element `pre.length` the places behind it hold
entries of `post` only: the entries moved down and the old last one. -/
theorem backing_after_removal (pre post : List VectorClockTID2) (m : VectorClockTID2)
    (t : Nat) (ht : t < post.length) :
    ∃ x ∈ post, (pre ++ post ++ [(m :: post).getLast (List.cons_ne_nil _ _)])[
      pre.length + 1 + t]? = some x := by
  have hne : post ≠ [] := by
    intro h; rw [h] at ht; simp at ht
  have hlast : (m :: post).getLast (List.cons_ne_nil _ _) ∈ post := by
    rw [List.getLast_cons hne]
    exact List.getLast_mem hne
  have hget : (pre ++ post ++ [(m :: post).getLast (List.cons_ne_nil _ _)])[
      pre.length + 1 + t]? =
      (post ++ [(m :: post).getLast (List.cons_ne_nil _ _)])[1 + t]? := by
    rw [List.append_assoc, List.getElem?_append_right (by omega)]
    congr 1
    omega
  cases hx : (post ++ [(m :: post).getLast (List.cons_ne_nil _ _)])[1 + t]? with
  | none =>
    rw [List.getElem?_eq_none_iff] at hx
    simp at hx
    omega
  | some x =>
    refine ⟨x, ?_, by rw [hget, hx]⟩
    rcases List.mem_append.mp (List.mem_iff_getElem?.mpr ⟨1 + t, hx⟩) with h | h
    · exact h
    · rw [List.mem_singleton.mp h]; exact hlast

/-- The loop of `CheckForLeakChannelRun` on a bucket `pre ++ m :: post` in
which `m` is the only entry the branch looks at, with `m` concurrent to the
completed operation and both position lookups succeeding: one result is
emitted and `m` is removed. -/
theorem runLoop_single (info : String → Option (String × Int × Int)) (routineID objID : Int)
    (vcTID : VectorClockTID) (buffered : Bool)
    (tags : VectorClockTID2 → Option (String × String))
    (pre post : List VectorClockTID2) (m : VectorClockTID2) (s : RunLoopState)
    (hb : s.backing = pre ++ m :: post)
    (hcur : GoMap.getSlice s.buckets objID = pre ++ m :: post)
    (hskip : ∀ x ∈ pre ++ post, tags x = none) (hval : ∀ x ∈ pre ++ post, x.val ≠ m.val)
    (t1 t2 : String) (hm : tags m = some (t1, t2))
    (hc : GetHappensBefore m.vc vcTID.Vc = HappensBefore.Concurrent)
    (f1 : String) (l1 p1 : Int) (h1 : info m.tID = some (f1, l1, p1))
    (f2 : String) (l2 p2 : Int) (h2 : info vcTID.TID = some (f2, l2, p2)) :
    runLoop info routineID objID vcTID buffered tags (pre ++ m :: post).length 0 s =
      some { backing := pre ++ post ++ [(m :: post).getLast (List.cons_ne_nil _ _)]
             buckets := GoMap.insert s.buckets objID (pre ++ post)
             results := s.results ++
               [{ level := ResultLevel.CRITICAL,
                  resType := if buffered = true then LBufferedWith else LUnbufferedWith,
                  argType1 := "channel",
                  arg1 := [{ RoutineID := routineID, ObjID := objID, TPre := p1,
                             ObjType := t1, File := f1, Line := l1 }],
                  argType2 := "partner",
                  arg2 := [{ RoutineID := m.routine, ObjID := objID, TPre := p2,
                             ObjType := t2, File := f2, Line := l2 }] }]
             res := true } := by
  have hlen : (pre ++ m :: post).length = pre.length + (post.length + 1) := by simp
  have hpre : ∀ (s1 : RunLoopState), s1.backing = pre ++ m :: post →
      ∀ t, t < pre.length → ∃ x, s1.backing[0 + t]? = some x ∧ x ∈ pre := by
    intro s1 hb1 t ht
    rw [hb1, Nat.zero_add, List.getElem?_append_left ht]
    exact ⟨pre[t], List.getElem?_eq_getElem ht, List.getElem_mem ht⟩
  have hbp : ∀ (s1 : RunLoopState), s1.backing = pre ++ m :: post →
      s1.backing[pre.length]? = some m := by
    intro s1 hb1
    rw [hb1, List.getElem?_append_right (le_refl _)]
    simp
  rw [hlen, runLoop_skip info routineID objID vcTID buffered tags s pre.length _ 0
    (fun t ht => by
      obtain ⟨x, hx, hxm⟩ := hpre s hb t ht
      exact ⟨x, hx, hskip x (List.mem_append_left _ hxm)⟩), Nat.zero_add]
  conv_lhs => unfold runLoop
  simp only [hbp s hb, hm, hc, if_true, h1, h2]
  generalize hs1 : ({ s with
      results := s.results ++
        [{ level := ResultLevel.CRITICAL,
           resType := if buffered = true then LBufferedWith else LUnbufferedWith,
           argType1 := "channel",
           arg1 := [{ RoutineID := routineID, ObjID := objID, TPre := p1,
                      ObjType := t1, File := f1, Line := l1 }],
           argType2 := "partner",
           arg2 := [{ RoutineID := m.routine, ObjID := objID, TPre := p2,
                      ObjType := t2, File := f2, Line := l2 }] }]
      res := true } : RunLoopState) = s1
  have hb1 : s1.backing = pre ++ m :: post := by subst hs1; exact hb
  have hcur1 : GoMap.getSlice s1.buckets objID = pre ++ m :: post := by subst hs1; exact hcur
  have hrem := removeAt_middle objID pre post m s1 hb1 hcur1
  generalize hs2 : ({ s1 with
      buckets := GoMap.insert s1.buckets objID (pre ++ post)
      backing := pre ++ post ++ [(m :: post).getLast (List.cons_ne_nil _ _)] } :
        RunLoopState) = s2 at hrem
  have hb2 : s2.backing = pre ++ post ++ [(m :: post).getLast (List.cons_ne_nil _ _)] := by
    subst hs2; rfl
  have hpost : ∀ t, t < post.length → ∃ x, s2.backing[pre.length + 1 + t]? = some x ∧
      x ∈ post := by
    intro t ht
    obtain ⟨x, hx, hget⟩ := backing_after_removal pre post m t ht
    exact ⟨x, by rw [hb2]; exact hget, hx⟩
  have houter : runLoop info routineID objID vcTID buffered tags post.length
      (pre.length + 1) s2 = some s2 := by
    have := runLoop_skip info routineID objID vcTID buffered tags s2 post.length 0
      (pre.length + 1) (fun t ht => by
        obtain ⟨x, hx, hxm⟩ := hpost t ht
        exact ⟨x, hx, hskip x (List.mem_append_right _ hxm)⟩)
    rw [Nat.add_zero] at this
    rw [this]
    rfl
  have hfinal : s2 = { backing := pre ++ post ++ [(m :: post).getLast (List.cons_ne_nil _ _)]
                       buckets := GoMap.insert s.buckets objID (pre ++ post)
                       results := s.results ++
                         [{ level := ResultLevel.CRITICAL,
                            resType := if buffered = true then LBufferedWith
                              else LUnbufferedWith,
                            argType1 := "channel",
                            arg1 := [{ RoutineID := routineID, ObjID := objID, TPre := p1,
                                       ObjType := t1, File := f1, Line := l1 }],
                            argType2 := "partner",
                            arg2 := [{ RoutineID := m.routine, ObjID := objID, TPre := p2,
                                       ObjType := t2, File := f2, Line := l2 }] }]
                       res := true } := by
    subst hs2; subst hs1; rfl
  by_cases hv : m.val = -1
  · rw [if_pos hv, hrem]
    simp only []
    rw [houter, hfinal]
  · rw [if_neg hv]
    have hinner : runRemoveLoop m.val objID (GoMap.getSlice s.buckets objID).length 0 s1 =
        some s2 := by
      rw [hcur, hlen, runRemoveLoop_skip m.val objID s1 pre.length _ 0 (fun t ht => by
        obtain ⟨x, hx, hxm⟩ := hpre s1 hb1 t ht
        exact ⟨x, hx, hval x (List.mem_append_left _ hxm)⟩), Nat.zero_add]
      conv_lhs => unfold runRemoveLoop
      simp only [hbp s1 hb1, if_true, hrem]
      have := runRemoveLoop_skip m.val objID s2 post.length 0 (pre.length + 1)
        (fun t ht => by
          obtain ⟨x, hx, hxm⟩ := hpost t ht
          exact ⟨x, hx, hval x (List.mem_append_right _ hxm)⟩)
      rw [Nat.add_zero] at this
      rw [this]
      rfl
    rw [hinner]
    simp only []
    rw [houter, hfinal]

/-- C12 on the code: the removal after a match ranges over the bucket of the
completed operation only, although its comment reads "remove all operations
with the same val". The stuck select of routine 4 with the pre 1 and receive
cases on the channels 7 and 8 has no partner, so `CheckForLeakSelectStuck`
pushes one entry into bucket 7 and one into bucket 8, both with the pre of the
select. The completed send on channel 7 with the concurrent clock `[0, 3]` then
matches the entry of bucket 7: `CheckForLeakChannelRun` emits one result,
returns true and empties bucket 7, and the entry of the same select in bucket 8
remains. -/
theorem C12_run_leaves_select_entry_in_other_bucket :
    GetHappensBefore exClockB exSendVcTID.Vc = HappensBefore.Concurrent ∧
      ((CheckForLeakSelectStuck infoFromTID {} exSelect [7, 8] [true, true] exClockB
          [1, 1]).map (fun st =>
            ((GoMap.getSlice st.leakingChannels 7).map (fun e => (e.sel, e.val, e.selID)),
             (GoMap.getSlice st.leakingChannels 8).map (fun e => (e.sel, e.val, e.selID))))) =
        some ([(true, 1, 12)], [(true, 1, 12)]) ∧
      ((CheckForLeakSelectStuck infoFromTID {} exSelect [7, 8] [true, true] exClockB
          [1, 1]).bind (fun st =>
            CheckForLeakChannelRun infoFromTID st 3 7 exSendVcTID 0 true)).map (fun out =>
              (out.1.results.length, out.2,
               (GoMap.getSlice out.1.leakingChannels 7).map (fun e => (e.sel, e.val, e.selID)),
               (GoMap.getSlice out.1.leakingChannels 8).map
                 (fun e => (e.sel, e.val, e.selID)))) =
        some (1, true, [], [(true, 1, 12)]) :=
  ⟨by decide, by decide, rfl⟩

/-- The invariant of the loops holds when `CheckForLeakChannelRun` starts. -/
theorem runInv_start (keep : VectorClockTID2 → Bool) (objID : Int) (st : AnalysisState) :
    RunInv keep objID (GoMap.getSlice st.leakingChannels objID) st.leakingChannels
      { backing := GoMap.getSlice st.leakingChannels objID, buckets := st.leakingChannels,
        results := st.results, res := false } :=
  ⟨(List.take_length _).symm, fun _ hx => hx, List.Sublist.refl _, rfl, fun _ _ => rfl,
    fun b hb _ he => Or.inr ⟨b, hb, he⟩⟩

/-- Two cases of one select on the same channel give two adjacent entries with
the same `val`; when the first is matched, the inner loop removes it, moves the
second one down, meets it again at the old place and slices beyond the
shortened slice: the call panics. -/
theorem run_adjacent_same_val_panics :
    ((CheckForLeakSelectStuck infoFromTID {} exSelect [7, 7] [true, true] exClockB
        [1, 1]).bind (fun st =>
          CheckForLeakChannelRun infoFromTID st 3 7 exSendVcTID 0 true)).isNone = true := rfl

/-- What the removal of `CheckForLeakChannelRun` does: whenever the call for
channel `objID` returns,
the bucket of every other channel is unchanged (also for the entries of a
matched select), the bucket of `objID` is the old one with some entries left
out, in the same order, and every entry whose `val` is not the `val` of an
entry of the bucket that the branch can match (one it looks at, with a clock
`Concurrent` to the completed operation) is still there. When the bucket holds
exactly one entry that the branch looks at, this entry is `Concurrent` to the
completed operation and both position lookups succeed, the call returns true,
emits one result and removes exactly this entry from the bucket. -/
theorem CheckForLeakChannelRun_removal (info : String → Option (String × Int × Int))
    (st : AnalysisState) (routineID objID : Int) (vcTID : VectorClockTID) (opType : Int)
    (buffered : Bool) :
    (∀ out res,
      CheckForLeakChannelRun info st routineID objID vcTID opType buffered = some (out, res) →
      (∀ c, c ≠ objID →
        GoMap.lookup out.leakingChannels c = GoMap.lookup st.leakingChannels c) ∧
      (GoMap.getSlice out.leakingChannels objID).Sublist
        (GoMap.getSlice st.leakingChannels objID) ∧
      (GoMap.getSlice out.leakingChannels objID).filter
          (runKeeps (runTags opType) vcTID (GoMap.getSlice st.leakingChannels objID)) =
        (GoMap.getSlice st.leakingChannels objID).filter
          (runKeeps (runTags opType) vcTID (GoMap.getSlice st.leakingChannels objID))) ∧
    (∀ pre m post, GoMap.getSlice st.leakingChannels objID = pre ++ m :: post →
      (∀ x ∈ pre ++ post, runTags opType x = none) →
      runMatches (runTags opType) vcTID m = true →
      (info m.tID).isSome = true → (info vcTID.TID).isSome = true →
      ∃ out call,
        CheckForLeakChannelRun info st routineID objID vcTID opType buffered =
          some (out, true) ∧
        out.results = st.results ++ [call] ∧
        GoMap.getSlice out.leakingChannels objID = pre ++ post ∧
        ∀ c, c ≠ objID →
          GoMap.lookup out.leakingChannels c = GoMap.lookup st.leakingChannels c) := by
  constructor
  · intro out res h
    have hmain : ∀ tags, runTags opType = tags → ∀ s2,
        runLoop info routineID objID vcTID buffered tags
          (GoMap.getSlice st.leakingChannels objID).length 0
          { backing := GoMap.getSlice st.leakingChannels objID,
            buckets := st.leakingChannels, results := st.results, res := false } = some s2 →
        (∀ c, c ≠ objID → GoMap.lookup s2.buckets c = GoMap.lookup st.leakingChannels c) ∧
        (GoMap.getSlice s2.buckets objID).Sublist (GoMap.getSlice st.leakingChannels objID) ∧
        (GoMap.getSlice s2.buckets objID).filter
            (runKeeps (runTags opType) vcTID (GoMap.getSlice st.leakingChannels objID)) =
          (GoMap.getSlice st.leakingChannels objID).filter
            (runKeeps (runTags opType) vcTID (GoMap.getSlice st.leakingChannels objID)) := by
      intro tags htags s2 hs2
      rw [htags]
      have hinv := runLoop_inv info routineID objID vcTID buffered tags
        (GoMap.getSlice st.leakingChannels objID) st.leakingChannels _ 0 _ s2
        (runInv_start _ objID st) hs2
      exact ⟨hinv.others, hinv.isSublist, hinv.kept⟩
    unfold CheckForLeakChannelRun at h
    simp only [] at h
    by_cases hop : opType = 0 ∨ opType = 2
    · rw [if_pos hop] at h
      obtain ⟨s2, hs2, hfin⟩ := Option.map_eq_some'.mp h
      have hout : out = { st with leakingChannels := s2.buckets, results := s2.results } :=
        (congrArg Prod.fst hfin).symm
      subst hout
      exact hmain _ (by unfold runTags; rw [if_pos hop]) s2 hs2
    · by_cases hop1 : opType = 1
      · rw [if_neg hop, if_pos hop1] at h
        obtain ⟨s2, hs2, hfin⟩ := Option.map_eq_some'.mp h
        have hout : out = { st with leakingChannels := s2.buckets, results := s2.results } :=
          (congrArg Prod.fst hfin).symm
        subst hout
        exact hmain _ (by unfold runTags; rw [if_neg hop, if_pos hop1]) s2 hs2
      · rw [if_neg hop, if_neg hop1] at h
        have hout : out = st := (congrArg Prod.fst (Option.some.inj h)).symm
        subst hout
        exact ⟨fun _ _ => rfl, List.Sublist.refl _, rfl⟩
  · intro pre m post horig hskip hmatch hinfo1 hinfo2
    unfold runMatches at hmatch
    rw [Bool.and_eq_true, decide_eq_true_eq] at hmatch
    obtain ⟨htag, hc⟩ := hmatch
    obtain ⟨tg, htg⟩ := Option.isSome_iff_exists.mp htag
    obtain ⟨t1, t2⟩ := tg
    obtain ⟨i1, hi1⟩ := Option.isSome_iff_exists.mp hinfo1
    obtain ⟨f1, l1, p1⟩ := i1
    obtain ⟨i2, hi2⟩ := Option.isSome_iff_exists.mp hinfo2
    obtain ⟨f2, l2, p2⟩ := i2
    have hval : ∀ x ∈ pre ++ post, x.val ≠ m.val := by
      intro x hx hxv
      have := runTags_val opType x m hxv
      rw [hskip x hx, htg] at this
      exact absurd this (by simp)
    have hloop := runLoop_single info routineID objID vcTID buffered (runTags opType) pre post m
      { backing := pre ++ m :: post, buckets := st.leakingChannels, results := st.results,
        res := false } rfl horig hskip hval t1 t2 htg hc f1 l1 p1 hi1 f2 l2 p2 hi2
    have hrun : ∀ tags, runTags opType = tags →
        (runLoop info routineID objID vcTID buffered tags
          (GoMap.getSlice st.leakingChannels objID).length 0
          { backing := GoMap.getSlice st.leakingChannels objID,
            buckets := st.leakingChannels, results := st.results, res := false }).map
          (fun s2 => (({ st with leakingChannels := s2.buckets, results := s2.results } :
            AnalysisState), s2.res)) =
        some ({ st with
            leakingChannels := GoMap.insert st.leakingChannels objID (pre ++ post)
            results := st.results ++
              [{ level := ResultLevel.CRITICAL,
                 resType := if buffered = true then LBufferedWith else LUnbufferedWith,
                 argType1 := "channel",
                 arg1 := [{ RoutineID := routineID, ObjID := objID, TPre := p1,
                            ObjType := t1, File := f1, Line := l1 }],
                 argType2 := "partner",
                 arg2 := [{ RoutineID := m.routine, ObjID := objID, TPre := p2,
                            ObjType := t2, File := f2, Line := l2 }] }] }, true) := by
      intro tags htags
      rw [← htags, horig, hloop]
      rfl
    refine ⟨{ st with
        leakingChannels := GoMap.insert st.leakingChannels objID (pre ++ post)
        results := st.results ++
          [{ level := ResultLevel.CRITICAL,
             resType := if buffered = true then LBufferedWith else LUnbufferedWith,
             argType1 := "channel",
             arg1 := [{ RoutineID := routineID, ObjID := objID, TPre := p1,
                        ObjType := t1, File := f1, Line := l1 }],
             argType2 := "partner",
             arg2 := [{ RoutineID := m.routine, ObjID := objID, TPre := p2,
                        ObjType := t2, File := f2, Line := l2 }] }] },
      { level := ResultLevel.CRITICAL,
        resType := if buffered = true then LBufferedWith else LUnbufferedWith,
        argType1 := "channel",
        arg1 := [{ RoutineID := routineID, ObjID := objID, TPre := p1,
                   ObjType := t1, File := f1, Line := l1 }],
        argType2 := "partner",
        arg2 := [{ RoutineID := m.routine, ObjID := objID, TPre := p2,
                   ObjType := t2, File := f2, Line := l2 }] }, ?_, rfl, ?_, ?_⟩
    · unfold CheckForLeakChannelRun
      simp only []
      by_cases hop : opType = 0 ∨ opType = 2
      · rw [if_pos hop]
        exact hrun _ (by unfold runTags; rw [if_pos hop])
      · by_cases hop1 : opType = 1
        · rw [if_neg hop, if_pos hop1]
          exact hrun _ (by unfold runTags; rw [if_neg hop, if_pos hop1])
        · exfalso
          unfold runTags at htg
          rw [if_neg hop, if_neg hop1] at htg
          exact absurd htg (by simp)
    · simp [GoMap.getSlice, GoMap.lookup_insert_self]
    · intro c hc2
      exact GoMap.lookup_insert_other _ _ _ _ hc2

/-- Example of the removal: bucket 7 holds the entry of a stuck receive and
the entry of a case of the select with the pre 1, bucket 8 the entry of the
other case of the select. For the completed send on channel 7 with the
concurrent clock `[0, 3]` the call returns true with one result; it removes the
entry of the select from bucket 7, the entry of the stuck receive stays, and
bucket 8 is unchanged. -/
theorem CheckForLeakChannelRun_removal_example :
    GoMap.getSlice exCaseState.leakingChannels 7 = [exPlain] ++ exCase7 :: [] ∧
      runMatches (runTags 0) exSendVcTID exCase7 = true ∧
      ∃ out call,
        CheckForLeakChannelRun infoFromTID exCaseState 3 7 exSendVcTID 0 true =
          some (out, true) ∧
        out.results = [call] ∧
        GoMap.getSlice out.leakingChannels 7 = [exPlain] ∧
        GoMap.lookup out.leakingChannels 8 = some [exCase8] := by
  obtain ⟨out, call, hrun, hres, hbucket, hothers⟩ :=
    (CheckForLeakChannelRun_removal infoFromTID exCaseState 3 7 exSendVcTID 0 true).2 [exPlain] exCase7 []
      rfl
      (fun x hx => by
        rw [List.append_nil, List.mem_singleton] at hx
        rw [hx]
        decide)
      (by decide) (by decide) (by decide)
  exact ⟨rfl, by decide, out, call, hrun, hres, hbucket, (hothers 8 (by decide)).trans rfl⟩

/-! ## The leak buckets over a sequence of calls -/

/-- A write that appends to the bucket of `k` keeps every bucket as a start of
the new one, and a new entry of a bucket is an appended one or an old one. -/
theorem GoMap.insert_append {α : Type} (m : GoMap (List α)) (k : Int) (new : List α) :
    (∀ c, GoMap.getSlice m c <+:
      GoMap.getSlice (GoMap.insert m k (GoMap.getSlice m k ++ new)) c) ∧
    (∀ b ∈ GoMap.insert m k (GoMap.getSlice m k ++ new), ∀ e ∈ b.2,
      e ∈ new ∨ ∃ b0 ∈ m, e ∈ b0.2) := by
  constructor
  · intro c
    by_cases hc : c = k
    · subst hc
      simp only [GoMap.getSlice, GoMap.lookup_insert_self, Option.getD_some]
      exact List.prefix_append _ _
    · simp only [GoMap.getSlice, GoMap.lookup_insert_other _ _ _ _ hc]
      exact List.prefix_refl _
  · intro b hb e he
    rcases GoMap.mem_insert _ _ _ _ hb with hb | hb
    · rw [hb] at he
      rcases List.mem_append.mp he with he | he
      · exact Or.inr (GoMap.mem_of_getSlice m k e he)
      · exact Or.inl he
    · exact Or.inr ⟨b, hb, he⟩

/-- `CheckForLeakChannelStuck` leaves the buckets as they are or appends one
entry with the TID of the operation to the bucket of its channel. -/
theorem stuck_buckets (info : String → Option (String × Int × Int)) (st : AnalysisState)
    (ch : TraceElementChannel) (vc : VectorClock) :
    ((CheckForLeakChannelStuck info st ch vc).leakingChannels = st.leakingChannels ∨
      ∃ entry : VectorClockTID2, entry.tID = ch.GetTID ∧
        (CheckForLeakChannelStuck info st ch vc).leakingChannels =
          GoMap.insert st.leakingChannels ch.id
            (GoMap.getSlice st.leakingChannels ch.id ++ [entry])) ∧
    (CheckForLeakChannelStuck info st ch vc).selectCases = st.selectCases := by
  unfold CheckForLeakChannelStuck
  simp only []
  by_cases hid : ch.id = -1
  · rw [if_pos hid]
    generalize (if ch.opC = OpChannel.SendOp then some ("C" ++ "S")
      else if ch.opC = OpChannel.RecvOp then some ("C" ++ "R") else none) = objType
    cases objType with
    | none => exact ⟨Or.inl rfl, rfl⟩
    | some objType =>
      cases hinfo : info ch.GetTID with
      | none => exact ⟨Or.inl rfl, rfl⟩
      | some i1 => exact ⟨Or.inl rfl, rfl⟩
  · rw [if_neg hid]
    generalize (if ch.opC = OpChannel.SendOp then
        stuckLoop info ch vc (decide (ch.qSize ≠ 0)) "CS" "CR" st.mostRecentReceive
          st.results false
      else if ch.opC = OpChannel.RecvOp then
        stuckLoop info ch vc (decide (ch.qSize ≠ 0)) "CR" "CS" st.mostRecentSend
          st.results false
      else { results := st.results, foundPartner := false, returned := false }) = loop
    by_cases hr : loop.returned = true
    · rw [if_pos hr]
      exact ⟨Or.inl rfl, rfl⟩
    · rw [if_neg hr]
      by_cases hf : (!loop.foundPartner) = true
      · rw [if_pos hf]
        refine ⟨Or.inr ⟨_, ?_, rfl⟩, rfl⟩
        rfl
      · rw [if_neg hf]
        exact ⟨Or.inl rfl, rfl⟩

/-- The push loop of `CheckForLeakSelectStuck` only appends entries with the
TID of the select. -/
theorem selectPushLoop_buckets (se : TraceElementSelect) (vc : VectorClock)
    (opTypes : List Int) (buffered : List Bool) (ids : List Int) :
    ∀ (i : Nat) (buckets out : GoMap (List VectorClockTID2)),
      selectPushLoop se vc opTypes buffered ids i buckets = some out →
      (∀ c, GoMap.getSlice buckets c <+: GoMap.getSlice out c) ∧
      (∀ b ∈ out, ∀ e ∈ b.2, e.tID = se.GetTID ∨ ∃ b0 ∈ buckets, e ∈ b0.2) := by
  induction ids with
  | nil =>
    intro i buckets out h
    simp only [selectPushLoop, Option.some.injEq] at h
    subst h
    exact ⟨fun c => List.prefix_refl _, fun b hb e he => Or.inr ⟨b, hb, he⟩⟩
  | cons id rest ih =>
    intro i buckets out h
    unfold selectPushLoop at h
    cases h1 : opTypes[i]? with
    | none => simp [h1] at h
    | some opType =>
      cases h2 : buffered[i]? with
      | none => simp [h1, h2] at h
      | some buf =>
        simp only [h1, h2] at h
        obtain ⟨hpre, hmem⟩ := ih (i + 1) _ out h
        obtain ⟨hpre1, hmem1⟩ := GoMap.insert_append buckets id
          [({ routine := se.routine, id := id, vc := vc, tID := se.GetTID, typeVal := opType,
              val := se.tPre, buffered := buf, sel := true, selID := se.id } :
                VectorClockTID2)]
        refine ⟨fun c => (hpre1 c).trans (hpre c), fun b hb e he => ?_⟩
        rcases hmem b hb e he with h3 | ⟨b0, hb0, he0⟩
        · exact Or.inl h3
        · rcases hmem1 b0 hb0 e he0 with h4 | h4
          · rw [List.mem_singleton.mp h4]
            exact Or.inl rfl
          · exact Or.inr h4

/-- When `CheckForLeakChannelRun` returns, its buckets satisfy the invariant of
the loops, and the recorded select cases are unchanged. -/
theorem run_inv (info : String → Option (String × Int × Int)) (st : AnalysisState)
    (routineID objID : Int) (vcTID : VectorClockTID) (opType : Int) (buffered : Bool)
    (out : AnalysisState) (res : Bool)
    (h : CheckForLeakChannelRun info st routineID objID vcTID opType buffered =
      some (out, res)) :
    (∃ s2, RunInv (runKeeps (runTags opType) vcTID (GoMap.getSlice st.leakingChannels objID))
        objID (GoMap.getSlice st.leakingChannels objID) st.leakingChannels s2 ∧
      out.leakingChannels = s2.buckets) ∧
    out.selectCases = st.selectCases := by
  unfold CheckForLeakChannelRun at h
  simp only [] at h
  by_cases hop : opType = 0 ∨ opType = 2
  · rw [if_pos hop] at h
    obtain ⟨s2, hs2, hfin⟩ := Option.map_eq_some'.mp h
    have hout : out = { st with leakingChannels := s2.buckets, results := s2.results } :=
      (congrArg Prod.fst hfin).symm
    subst hout
    have ht : runTags opType = runTagsSendClose opType := by unfold runTags; rw [if_pos hop]
    rw [ht]
    exact ⟨⟨s2, runLoop_inv info routineID objID vcTID buffered _ _ st.leakingChannels _ 0 _ s2
      (runInv_start _ objID st) hs2, rfl⟩, rfl⟩
  · by_cases hop1 : opType = 1
    · rw [if_neg hop, if_pos hop1] at h
      obtain ⟨s2, hs2, hfin⟩ := Option.map_eq_some'.mp h
      have hout : out = { st with leakingChannels := s2.buckets, results := s2.results } :=
        (congrArg Prod.fst hfin).symm
      subst hout
      have ht : runTags opType = runTagsRecv := by
        unfold runTags; rw [if_neg hop, if_pos hop1]
      rw [ht]
      exact ⟨⟨s2, runLoop_inv info routineID objID vcTID buffered _ _ st.leakingChannels _ 0 _
        s2 (runInv_start _ objID st) hs2, rfl⟩, rfl⟩
    · rw [if_neg hop, if_neg hop1] at h
      have hout : out = st := (congrArg Prod.fst (Option.some.inj h)).symm
      subst hout
      exact ⟨⟨_, runInv_start _ objID out, rfl⟩, rfl⟩

/-- One call of a detector: `CheckForLeakChannelStuck` and
`CheckForLeakSelectStuck` keep every bucket as a start of the new one,
`CheckForLeakChannelRun` leaves of every bucket a part, in the same order; an
entry of a bucket after the call has a non-empty TID or was in a bucket
before; the recorded select cases are unchanged. -/
theorem applyOp_step (info : String → Option (String × Int × Int)) (st st2 : AnalysisState)
    (op : LeakOp) (h : applyOp info st op = some st2) :
    (∀ c, (op.isRun = false →
        GoMap.getSlice st.leakingChannels c <+: GoMap.getSlice st2.leakingChannels c) ∧
      (op.isRun = true →
        (GoMap.getSlice st2.leakingChannels c).Sublist (GoMap.getSlice st.leakingChannels c))) ∧
    (∀ b ∈ st2.leakingChannels, ∀ e ∈ b.2,
      e.tID ≠ "" ∨ ∃ b0 ∈ st.leakingChannels, e ∈ b0.2) ∧
    st2.selectCases = st.selectCases := by
  cases op with
  | stuck ch vc =>
    simp only [applyOp, Option.some.injEq] at h
    subst h
    obtain ⟨hb, hsel⟩ := stuck_buckets info st ch vc
    rcases hb with hb | ⟨entry, htid, hb⟩
    · rw [hb]
      exact ⟨fun c => ⟨fun _ => List.prefix_refl _, fun hr => by simp [LeakOp.isRun] at hr⟩,
        fun b hb2 e he => Or.inr ⟨b, hb2, he⟩, hsel⟩
    · rw [hb]
      obtain ⟨hpre, hmem⟩ := GoMap.insert_append st.leakingChannels ch.id [entry]
      refine ⟨fun c => ⟨fun _ => hpre c, fun hr => by simp [LeakOp.isRun] at hr⟩,
        fun b hb2 e he => ?_, hsel⟩
      rcases hmem b hb2 e he with h1 | h1
      · rw [List.mem_singleton.mp h1, htid]
        exact Or.inl (tid_ne_empty _ _)
      · exact Or.inr h1
  | selectStuck se ids buffered vc opTypes =>
    simp only [applyOp] at h
    unfold CheckForLeakSelectStuck at h
    have hsame : ∀ results, st2 = { st with results := results } →
        (∀ c, (LeakOp.isRun (.selectStuck se ids buffered vc opTypes) = false →
            GoMap.getSlice st.leakingChannels c <+: GoMap.getSlice st2.leakingChannels c) ∧
          (LeakOp.isRun (.selectStuck se ids buffered vc opTypes) = true →
            (GoMap.getSlice st2.leakingChannels c).Sublist
              (GoMap.getSlice st.leakingChannels c))) ∧
        (∀ b ∈ st2.leakingChannels, ∀ e ∈ b.2,
          e.tID ≠ "" ∨ ∃ b0 ∈ st.leakingChannels, e ∈ b0.2) ∧
        st2.selectCases = st.selectCases := by
      intro results hst2
      subst hst2
      exact ⟨fun c => ⟨fun _ => List.prefix_refl _, fun hr => by simp [LeakOp.isRun] at hr⟩,
        fun b hb2 e he => Or.inr ⟨b, hb2, he⟩, rfl⟩
    by_cases hlen : ids.length = 0
    · rw [if_pos hlen] at h
      cases hinfo : info se.GetTID with
      | none =>
        simp only [hinfo, Option.some.injEq] at h
        exact hsame st.results h.symm
      | some i1 =>
        obtain ⟨f, l, t⟩ := i1
        simp only [hinfo, Option.some.injEq] at h
        exact hsame _ h.symm
    · rw [if_neg hlen] at h
      cases hloop : selectCaseLoop info st se vc opTypes ids 0 st.results false with
      | none => simp [hloop] at h
      | some loop =>
        simp only [hloop] at h
        by_cases hr : loop.returned = true
        · rw [if_pos hr, Option.some.injEq] at h
          exact hsame _ h.symm
        · rw [if_neg hr] at h
          by_cases hf : (!loop.foundPartner) = true
          · rw [if_pos hf] at h
            cases hpush : selectPushLoop se vc opTypes buffered ids 0 st.leakingChannels with
            | none => simp [hpush] at h
            | some buckets =>
              simp only [hpush, Option.some.injEq] at h
              subst h
              obtain ⟨hpre, hmem⟩ := selectPushLoop_buckets se vc opTypes buffered ids 0
                st.leakingChannels buckets hpush
              refine ⟨fun c => ⟨fun _ => hpre c, fun hr2 => by simp [LeakOp.isRun] at hr2⟩,
                fun b hb2 e he => ?_, rfl⟩
              rcases hmem b hb2 e he with h1 | h1
              · rw [h1]
                exact Or.inl (tid_ne_empty _ _)
              · exact Or.inr h1
          · rw [if_neg hf, Option.some.injEq] at h
            exact hsame _ h.symm
  | run routineID objID vcTID opType buffered =>
    simp only [applyOp] at h
    obtain ⟨outres, hrun, hfst⟩ := Option.map_eq_some'.mp h
    obtain ⟨out, res⟩ := outres
    simp only at hfst
    subst hfst
    obtain ⟨⟨s2, hinv, hlc⟩, hsel⟩ := run_inv info st routineID objID vcTID opType buffered
      out res hrun
    rw [hlc]
    refine ⟨fun c => ⟨fun hr => by simp [LeakOp.isRun] at hr, fun _ => ?_⟩,
      fun b hb2 e he => ?_, hsel⟩
    · by_cases hc : c = objID
      · rw [hc]; exact hinv.isSublist
      · simp only [GoMap.getSlice, hinv.others c hc]
        exact List.Sublist.refl _
    · rcases hinv.entriesMem b hb2 e he with h1 | h1
      · exact Or.inr (GoMap.mem_of_getSlice _ _ _ h1)
      · exact Or.inr h1

/-- Over a sequence of calls of the detectors the bucket entries keep
non-empty TIDs, and the recorded select cases are unchanged. -/
theorem applyOps_tids (info : String → Option (String × Int × Int)) (ops : List LeakOp) :
    ∀ (st0 st : AnalysisState), applyOps info st0 ops = some st →
      (∀ e ∈ bucketEntries st0, e.tID ≠ "") →
      (∀ e ∈ bucketEntries st, e.tID ≠ "") ∧ st.selectCases = st0.selectCases := by
  induction ops with
  | nil =>
    intro st0 st h h0
    simp only [applyOps, Option.some.injEq] at h
    subst h
    exact ⟨h0, rfl⟩
  | cons op rest ih =>
    intro st0 st h h0
    unfold applyOps at h
    cases h1 : applyOp info st0 op with
    | none => simp [h1] at h
    | some st1 =>
      simp only [h1, Option.some_bind] at h
      obtain ⟨_, hmem, hsel⟩ := applyOp_step info st0 st1 op h1
      obtain ⟨h2, hsel2⟩ := ih st1 st h (fun e he => by
        obtain ⟨b, hb, heb⟩ := List.mem_flatMap.mp he
        rcases hmem b hb e heb with h3 | ⟨b0, hb0, he0⟩
        · exact h3
        · exact h0 e (List.mem_flatMap.mpr ⟨b0, hb0, he0⟩))
      exact ⟨h2, hsel2.trans hsel⟩

/-- The partner that the search of `checkForLeak` finds is a recorded case. -/
theorem leakPartnerLoop_mem (e : VectorClockTID2) (cases : List allSelectCase) (b : Bool)
    (c : allSelectCase) (h : (leakPartnerLoop e cases b).1 = some c) : c ∈ cases := by
  rcases leakPartnerLoop_spec e cases b with ⟨_, hnone⟩ | ⟨pre, c2, post, hcs, _, _, hsome⟩
  · rw [hnone] at h
    exact absurd h (by simp)
  · rw [hsome] at h
    rw [← Option.some.inj h, hcs]
    simp

/-- With the position lookups succeeding, the body of the loop of
`checkForLeak` emits for an entry with a non-empty TID exactly one result,
which reports the entry. -/
theorem leakEntry_reports (info : String → Option (String × Int × Int))
    (cases : List allSelectCase) (e : VectorClockTID2) (b : Bool) (htid : e.tID ≠ "")
    (hinfo : (info e.tID).isSome = true)
    (hcases : ∀ c ∈ cases, (info c.vcTID.TID).isSome = true) :
    ∃ call, (leakEntry info cases e b).1 = [call] ∧ IsLeakReport info e call := by
  obtain ⟨i1, hi1⟩ := Option.isSome_iff_exists.mp hinfo
  obtain ⟨f1, l1, p1⟩ := i1
  unfold leakEntry
  rw [if_neg htid]
  generalize hpl : leakPartnerLoop e cases b = r
  obtain ⟨r1, r2⟩ := r
  cases r1 with
  | none =>
    simp only [hi1]
    by_cases hsel : e.sel = true
    · rw [if_pos hsel]
      exact ⟨_, rfl, rfl, _, rfl, rfl, hi1⟩
    · rw [if_neg hsel]
      exact ⟨_, rfl, rfl, _, rfl, rfl, hi1⟩
  | some c =>
    have hc : c ∈ cases := leakPartnerLoop_mem e cases b c (by rw [hpl])
    obtain ⟨i2, hi2⟩ := Option.isSome_iff_exists.mp (hcases c hc)
    obtain ⟨f2, l2, p2⟩ := i2
    simp only [hi1, hi2]
    by_cases hsel : e.sel = true
    · rw [if_pos hsel]
      exact ⟨_, rfl, rfl, _, rfl, rfl, hi1⟩
    · rw [if_neg hsel]
      exact ⟨_, rfl, rfl, _, rfl, rfl, hi1⟩

/-- With the position lookups succeeding, the loop of `checkForLeak` over a
bucket emits one result for every entry, in the order of the entries. -/
theorem leakBucket_reports (info : String → Option (String × Int × Int))
    (cases : List allSelectCase)
    (hcases : ∀ c ∈ cases, (info c.vcTID.TID).isSome = true) (bucket : List VectorClockTID2) :
    ∀ (b : Bool), (∀ e ∈ bucket, e.tID ≠ "" ∧ (info e.tID).isSome = true) →
      List.Forall₂ (IsLeakReport info) bucket (leakBucket info cases bucket b) := by
  induction bucket with
  | nil => intro b _; exact List.Forall₂.nil
  | cons e rest ih =>
    intro b h
    obtain ⟨htid, hinfo⟩ := h e (List.mem_cons_self _ _)
    obtain ⟨call, hcall, hrep⟩ := leakEntry_reports info cases e b htid hinfo hcases
    unfold leakBucket
    simp only [hcall, List.singleton_append]
    exact List.Forall₂.cons hrep (ih _ (fun x hx => h x (List.mem_cons_of_mem _ hx)))

/-- With the position lookups succeeding, `checkForLeak` emits one result for
every entry of every bucket, in the order of the buckets and their entries. -/
theorem checkForLeak_reports (info : String → Option (String × Int × Int))
    (cases : List allSelectCase)
    (hcases : ∀ c ∈ cases, (info c.vcTID.TID).isSome = true)
    (buckets : GoMap (List VectorClockTID2))
    (h : ∀ b ∈ buckets, ∀ e ∈ b.2, e.tID ≠ "" ∧ (info e.tID).isSome = true) :
    List.Forall₂ (IsLeakReport info) (buckets.flatMap (fun bucket => bucket.2))
      (buckets.flatMap (fun bucket => leakBucket info cases bucket.2 false)) := by
  induction buckets with
  | nil => exact List.Forall₂.nil
  | cons b rest ih =>
    rw [List.flatMap_cons, List.flatMap_cons]
    exact List.rel_append
      (leakBucket_reports info cases hcases b.2 false (h b (List.mem_cons_self _ _)))
      (ih (fun b2 hb2 => h b2 (List.mem_cons_of_mem _ hb2)))

/-- C17, as stated, fails: `checkForLeak` removes nothing. The stuck receive
of routine 2 on channel 7 has no partner and is pushed into bucket 7;
`checkForLeak` reports it as a leak without a partner, and afterwards the entry
is still in bucket 7. -/
theorem C17_leak_bucket_drains_counterexample :
    (applyOps infoFromTID {} [.stuck exStuckRecv exClockB]).map (fun st =>
        ((GoMap.getSlice st.leakingChannels 7).map (fun e => e.tID),
         (checkForLeak infoFromTID st).results,
         (GoMap.getSlice (checkForLeak infoFromTID st).leakingChannels 7).map
           (fun e => e.tID))) =
      some (["a.go:12@9"],
        [{ level := ResultLevel.CRITICAL, resType := "L02", argType1 := "channel",
           arg1 := [{ RoutineID := 2, ObjID := 7, TPre := 9, ObjType := "CR", File := "a.go",
                      Line := 12 }],
           argType2 := "", arg2 := [] }],
        ["a.go:12@9"]) := by
  decide

/-- C17, amended: take any sequence of calls of `CheckForLeakChannelStuck`,
`CheckForLeakSelectStuck` and `CheckForLeakChannelRun` that starts with empty
buckets and returns, followed by `checkForLeak`, and let the position lookups
of the entries left in the buckets and of the recorded select cases succeed.
Then `checkForLeak` leaves every bucket as it is (it removes no entry, paired or
not) and emits exactly one result for every entry that is still in a bucket,
in the order of the buckets and their entries, and no other result. In every
call of the sequence `CheckForLeakChannelStuck` and `CheckForLeakSelectStuck`
only append to buckets, and `CheckForLeakChannelRun` only removes: it leaves of
every bucket a part, in the same order. -/
theorem C17_leak_bucket_accounting (info : String → Option (String × Int × Int))
    (st0 st : AnalysisState) (ops : List LeakOp) (hstart : st0.leakingChannels = [])
    (hops : applyOps info st0 ops = some st)
    (hinfo : ∀ e ∈ bucketEntries st, (info e.tID).isSome = true)
    (hcases : ∀ c ∈ st.selectCases, (info c.vcTID.TID).isSome = true) :
    (checkForLeak info st).leakingChannels = st.leakingChannels ∧
      (∃ calls, (checkForLeak info st).results = st.results ++ calls ∧
        List.Forall₂ (IsLeakReport info) (bucketEntries st) calls) ∧
      (∀ st1 op st2, applyOp info st1 op = some st2 → ∀ c,
        (op.isRun = false →
          GoMap.getSlice st1.leakingChannels c <+: GoMap.getSlice st2.leakingChannels c) ∧
        (op.isRun = true →
          (GoMap.getSlice st2.leakingChannels c).Sublist
            (GoMap.getSlice st1.leakingChannels c))) := by
  obtain ⟨htids, _⟩ := applyOps_tids info ops st0 st hops (fun e he => by
    unfold bucketEntries at he
    rw [hstart] at he
    simp at he)
  refine ⟨rfl, ⟨_, rfl, ?_⟩, fun st1 op st2 h => (applyOp_step info st1 st2 op h).1⟩
  exact checkForLeak_reports info st.selectCases hcases st.leakingChannels
    (fun b hb e he =>
      ⟨htids e (List.mem_flatMap.mpr ⟨b, hb, he⟩), hinfo e (List.mem_flatMap.mpr ⟨b, hb, he⟩)⟩)

/-- Witness of C17 (amended): the calls `exDrainOps` on the empty state push the
two entries of the stuck select and the entry of the stuck receive; the
completed send removes the entry of the select from bucket 7. `checkForLeak`
then reports the two entries left, the stuck receive in bucket 7 and the case
of the select in bucket 8, and leaves the buckets as they are. -/
theorem C17_leak_bucket_accounting_witness :
    applyOps infoFromTID {} exDrainOps = some exDrainState ∧
      (bucketEntries exDrainState).map (fun e => e.tID) = ["a.go:12@9", "s.go:3@1"] ∧
      (checkForLeak infoFromTID exDrainState).leakingChannels =
        exDrainState.leakingChannels ∧
      ∃ calls, (checkForLeak infoFromTID exDrainState).results =
          exDrainState.results ++ calls ∧
        List.Forall₂ (IsLeakReport infoFromTID) (bucketEntries exDrainState) calls := by
  have h := C17_leak_bucket_accounting infoFromTID {} exDrainState exDrainOps rfl rfl
    (fun e he => by
      have hb : bucketEntries exDrainState = [exPlain, exCase8] := rfl
      rw [hb] at he
      simp only [List.mem_cons, List.mem_singleton, List.not_mem_nil, or_false] at he
      rcases he with he | he <;> rw [he] <;> decide)
    (fun c hc => by
      have hs : exDrainState.selectCases = [] := rfl
      rw [hs] at hc
      simp at hc)
  exact ⟨rfl, by decide, h.1, h.2.1⟩

/-! ## Theorems on the eviction of `insert2` -/

theorem equalModuloLoop_iff (tid : Int) (c1 c2 : Int → Int) (n : Nat) :
    ∀ i : Int, equalModuloLoop tid c1 c2 n i = true ↔
      ∀ j, i ≤ j → j < i + n → j ≠ tid → c1 j = c2 j := by
  induction n with
  | zero =>
    intro i
    simp only [equalModuloLoop, true_iff]
    intro j h1 h2
    exact absurd h2 (by simp; omega)
  | succ n ih =>
    intro i
    unfold equalModuloLoop
    by_cases hi : i = tid
    · rw [if_pos hi, ih]
      constructor
      · intro h j h1 h2 h3
        have hne : j ≠ i := by rw [hi]; exact h3
        exact h j (by omega) (by push_cast at h2 ⊢; omega) h3
      · intro h j h1 h2 h3
        exact h j (by omega) (by push_cast at h2 ⊢; omega) h3
    · rw [if_neg hi]
      by_cases hc : c1 i ≠ c2 i
      · rw [if_pos hc]
        constructor
        · intro h; exact absurd h (by simp)
        · intro h
          exact absurd (h i (le_refl _) (by push_cast; omega) hi) hc
      · rw [if_neg hc, ih]
        have hc2 : c1 i = c2 i := not_not.mp hc
        constructor
        · intro h j h1 h2 h3
          by_cases hj : j = i
          · rw [hj]; exact hc2
          · exact h j (by omega) (by push_cast at h2 ⊢; omega) h3
        · intro h j h1 h2 h3
          exact h j (by omega) (by push_cast at h2 ⊢; omega) h3

/-- `equalModuloTID(tid, vc1, vc2)` holds exactly when the clocks have the same
size and agree on every coordinate of `1..size` but `tid`. -/
theorem equalModuloTID_iff (tid : ThreadId) (vc1 vc2 : VectorClock) :
    equalModuloTID tid vc1 vc2 = true ↔
      vc1.size = vc2.size ∧ ∀ j, 1 ≤ j → j ≤ vc1.size → j ≠ tid → vc1.clock j = vc2.clock j := by
  unfold equalModuloTID VectorClock.GetSize
  by_cases hs : vc1.size = vc2.size
  · rw [if_neg (not_not.mpr hs), equalModuloLoop_iff]
    constructor
    · intro h
      exact ⟨hs, fun j h1 h2 h3 => h j h1 (by omega) h3⟩
    · rintro ⟨_, h⟩ j h1 h2 h3
      exact h j h1 (by omega) h3
  · rw [if_pos hs]
    constructor
    · intro h; exact absurd h (by simp)
    · rintro ⟨h, _⟩; exact absurd h hs

theorem equalModuloTID_symm (tid : ThreadId) (a b : VectorClock)
    (h : equalModuloTID tid a b = true) : equalModuloTID tid b a = true := by
  rw [equalModuloTID_iff] at h ⊢
  exact ⟨h.1.symm, fun j h1 h2 h3 => (h.2 j h1 (by omega) h3).symm⟩

theorem equalModuloTID_trans (tid : ThreadId) (a b c : VectorClock)
    (h1 : equalModuloTID tid a b = true) (h2 : equalModuloTID tid b c = true) :
    equalModuloTID tid a c = true := by
  rw [equalModuloTID_iff] at h1 h2 ⊢
  exact ⟨h1.1.trans h2.1, fun j hj1 hj2 hj3 =>
    (h1.2 j hj1 hj2 hj3).trans (h2.2 j hj1 (by omega) hj3)⟩

/-- The loop of `insert2` over the stored events: every event equal to the new
one modulo its thread is overwritten, and `add_vc` stays set only when there
was none. -/
theorem evictLoop_spec (event : Event) (reqs : List Event) :
    ∀ b, (evictLoop event reqs b).1 =
        reqs.map (fun f =>
          if equalModuloTID event.thread_id event.vector_clock f.vector_clock then event
          else f) ∧
      (evictLoop event reqs b).2 =
        (b && !reqs.any (fun f =>
          equalModuloTID event.thread_id event.vector_clock f.vector_clock)) := by
  induction reqs with
  | nil => intro b; simp [evictLoop]
  | cons f rest ih =>
    intro b
    unfold evictLoop
    by_cases hf : equalModuloTID event.thread_id event.vector_clock f.vector_clock = true
    · simp [hf, (ih false).1, (ih false).2]
    · simp [hf, (ih b).1, (ih b).2]

/-- `insert2` records the event under the lockset: in the first dependency
that has this lockset, by eviction or appended, or in a new last dependency. -/
theorem insert2_spec (ds : List Dep) (ls : Lockset) (event : Event) :
    (∃ pre d post, ds = pre ++ d :: post ∧ d.ls = ls ∧ (∀ x ∈ pre, x.ls ≠ ls) ∧
        insert2 ds ls event = pre ++ { d with requests := evicted event d.requests } :: post) ∨
      ((∀ x ∈ ds, x.ls ≠ ls) ∧
        insert2 ds ls event = ds ++ [{ ls := ls, requests := [event] }]) := by
  induction ds with
  | nil => exact Or.inr ⟨fun x hx => by simp at hx, rfl⟩
  | cons v rest ih =>
    by_cases hv : v.ls.equal ls = true
    · have hls : v.ls = ls := (Lockset.equal_iff _ _).mp hv
      refine Or.inl ⟨[], v, rest, rfl, hls, fun x hx => by simp at hx, ?_⟩
      unfold insert2
      rw [if_pos hv]
      simp only [(evictLoop_spec event v.requests true).1,
        (evictLoop_spec event v.requests true).2, Bool.true_and, List.nil_append, evicted]
      by_cases hany : v.requests.any (fun f =>
          equalModuloTID event.thread_id event.vector_clock f.vector_clock) = true
      · simp only [hany, Bool.not_true, Bool.false_eq_true, if_false, if_true]
      · have hany2 := Bool.eq_false_iff.mpr hany
        have hmap : v.requests.map (fun f =>
            if equalModuloTID event.thread_id event.vector_clock f.vector_clock = true
            then event else f) = v.requests := by
          conv_rhs => rw [← List.map_id v.requests]
          apply List.map_congr_left
          intro f hf
          have := List.any_eq_false.mp hany2 f hf
          simp [this]
        simp only [hany2, Bool.not_false, if_true, Bool.false_eq_true, if_false, hmap]
    · have hls : v.ls ≠ ls := fun h => hv ((Lockset.equal_iff _ _).mpr h)
      rcases ih with ⟨pre, d, post, h1, h2, h3, h4⟩ | ⟨h1, h2⟩
      · refine Or.inl ⟨v :: pre, d, post, by simp [h1], h2, ?_, by simp [insert2, hv, h4]⟩
        intro x hx
        rcases List.mem_cons.mp hx with rfl | hx
        · exact hls
        · exact h3 x hx
      · refine Or.inr ⟨?_, by simp [insert2, hv, h2]⟩
        intro x hx
        rcases List.mem_cons.mp hx with rfl | hx
        · exact hls
        · exact h1 x hx

/-- The eviction keeps a list of events free of two events that are equal
modulo the coordinate of the thread of the new event, and with a stored event
equal to the new one the list does not grow. -/
theorem evicted_noEqualModulo (event : Event) (reqs : List Event)
    (h : NoEqualModulo event.thread_id reqs) :
    NoEqualModulo event.thread_id (evicted event reqs) := by
  unfold NoEqualModulo at h ⊢
  unfold evicted
  by_cases hany : reqs.any (fun f =>
      equalModuloTID event.thread_id event.vector_clock f.vector_clock) = true
  · rw [if_pos hany, List.pairwise_map]
    refine h.imp ?_
    intro a b hab
    by_cases ha : equalModuloTID event.thread_id event.vector_clock a.vector_clock = true
    · by_cases hb : equalModuloTID event.thread_id event.vector_clock b.vector_clock = true
      · have := equalModuloTID_trans _ _ _ _ (equalModuloTID_symm _ _ _ ha) hb
        rw [this] at hab
        exact absurd hab (by simp)
      · simp only [ha, hb, if_true, Bool.false_eq_true, if_false]
    · by_cases hb : equalModuloTID event.thread_id event.vector_clock b.vector_clock = true
      · simp only [ha, hb, if_true, Bool.false_eq_true, if_false]
        exact Bool.eq_false_iff.mpr (fun h2 => ha (equalModuloTID_symm _ _ _ h2))
      · simp only [ha, hb, Bool.false_eq_true, if_false]
        exact hab
  · have hany2 := Bool.eq_false_iff.mpr hany
    rw [if_neg hany, List.pairwise_append]
    refine ⟨h, List.pairwise_singleton _ _, fun a ha b hb => ?_⟩
    rw [List.mem_singleton.mp hb]
    have := List.any_eq_false.mp hany2 a ha
    exact Bool.eq_false_iff.mpr (fun h2 => this (equalModuloTID_symm _ _ _ h2))

/-- The lockset of the thread of the event after `acquire`. -/
theorem acquire_locksetOf (s : State) (l : LockId) (e : Event) :
    (acquire s l e).locksetOf e.thread_id = Insert.insert l (s.locksetOf e.thread_id) := by
  obtain ⟨thread, hls, _, hnew⟩ := acquire_thread s l e
  have h1 : (acquire s l e).locksetOf e.thread_id = thread.lockset.add l := by
    simp only [State.locksetOf, hnew]
  rw [h1, ← hls]
  rfl

/-- The dependencies recorded under the acquired lock after `acquire`: those
before the call when the lockset of the thread was empty, else the result of
`insert`. -/
theorem acquire_depsOf (s : State) (l : LockId) (e : Event) :
    (acquire s l e).depsOf e.thread_id l =
      if s.locksetOf e.thread_id = ∅ then s.depsOf e.thread_id l
      else insert (s.depsOf e.thread_id l) (s.locksetOf e.thread_id) e := by
  obtain ⟨thread, hls, hdeps, hnew⟩ := acquire_thread s l e
  simp only [State.depsOf, hnew]
  rw [← hls]
  by_cases hempty : thread.lockset = ∅
  · have h2 : thread.lockset.empty = true := (Lockset.empty_iff _).mpr hempty
    simp only [h2, Bool.not_true, Bool.false_eq_true, if_false, if_pos hempty]
    rw [hdeps l]
    rfl
  · have h2 : thread.lockset.empty = false :=
      Bool.eq_false_iff.mpr (fun h => hempty ((Lockset.empty_iff _).mp h))
    simp only [h2, Bool.not_false, if_true, if_neg hempty, GoMapK.getSlice,
      GoMapK.lookupK_insert_self, Option.getD_some]
    have := hdeps l
    simp only [GoMapK.getSlice, State.depsOf] at this
    rw [this]

/-- C21, as stated, fails: `acquire` records with `insert`, which has no
eviction. Thread 1 holds lock 1 and acquires lock 2 twice, with the events
`exEventA` (clock `[1, 0]`) and `exEventA3` (clock `[2, 0]`), which are equal
modulo the coordinate of thread 1. The dependency for lock 2 under the lockset
`{1}` then holds both events: the stored event is not replaced and the list has
grown. -/
theorem C21_eviction_counterexample :
    equalModuloTID exEventA3.thread_id exEventA3.vector_clock exEventA.vector_clock = true ∧
      (exLoopState.depsOf 1 ⟨2, false⟩).map
          (fun d => (d.ls, d.requests.map (fun f => f.trace_id))) =
        [({⟨1, false⟩}, ["d.go:5@3", "d.go:5@11"])] := by
  decide

/-- C21, amended: `acquire` records with `insert`, which appends every event
(one event more is recorded, also when a stored event is equal to it modulo the
thread). The eviction rule is what `insert2` does, which no function calls: in
the first dependency with the lockset, when some stored event has a clock of
the same size that agrees with the clock of the new event `e` on every
coordinate but the thread of `e`, every such event is replaced by `e` and the
list does not grow, otherwise `e` is appended; without such a dependency a new
one with `e` alone is appended. A list without two events equal modulo the
thread of `e` stays so under the eviction. -/
theorem C21_eviction_only_in_insert2 (s : State) (l : LockId) (e : Event) (ds : List Dep)
    (ls : Lockset) :
    ((acquire s l e).depsOf e.thread_id l =
        if s.locksetOf e.thread_id = ∅ then s.depsOf e.thread_id l
        else insert (s.depsOf e.thread_id l) (s.locksetOf e.thread_id) e) ∧
      requestCount (insert ds ls e) = requestCount ds + 1 ∧
      ((∃ pre d post, ds = pre ++ d :: post ∧ d.ls = ls ∧ (∀ x ∈ pre, x.ls ≠ ls) ∧
          insert2 ds ls e = pre ++ { d with requests := evicted e d.requests } :: post) ∨
        ((∀ x ∈ ds, x.ls ≠ ls) ∧
          insert2 ds ls e = ds ++ [{ ls := ls, requests := [e] }])) ∧
      (∀ reqs : List Event,
        (∃ f ∈ reqs, equalModuloTID e.thread_id e.vector_clock f.vector_clock = true) →
        evicted e reqs =
            reqs.map (fun f =>
              if equalModuloTID e.thread_id e.vector_clock f.vector_clock then e else f) ∧
          (evicted e reqs).length = reqs.length) ∧
      (∀ reqs : List Event,
        (∀ f ∈ reqs, equalModuloTID e.thread_id e.vector_clock f.vector_clock = false) →
        evicted e reqs = reqs ++ [e]) ∧
      (∀ reqs, NoEqualModulo e.thread_id reqs → NoEqualModulo e.thread_id (evicted e reqs)) ∧
      (∀ tid vc1 vc2, equalModuloTID tid vc1 vc2 = true ↔
        vc1.size = vc2.size ∧
          ∀ j, 1 ≤ j → j ≤ vc1.size → j ≠ tid → vc1.clock j = vc2.clock j) := by
  refine ⟨acquire_depsOf s l e, insert_requestCount ds ls e, insert2_spec ds ls e, ?_, ?_,
    evicted_noEqualModulo e, equalModuloTID_iff⟩
  · rintro reqs ⟨f, hf, heq⟩
    have hany : reqs.any (fun f =>
        equalModuloTID e.thread_id e.vector_clock f.vector_clock) = true :=
      List.any_eq_true.mpr ⟨f, hf, heq⟩
    unfold evicted
    rw [if_pos hany]
    exact ⟨rfl, List.length_map _ _⟩
  · intro reqs hall
    have hany : reqs.any (fun f =>
        equalModuloTID e.thread_id e.vector_clock f.vector_clock) = false :=
      List.any_eq_false.mpr (fun f hf => by rw [hall f hf]; simp)
    unfold evicted
    rw [if_neg (by rw [hany]; simp)]

/-- Witness of C21 (amended): `insert2` on the dependency that holds `exEventA`
(clock `[1, 0]`) with the new event `exEventA3` (clock `[2, 0]`) of thread 1:
the stored event is replaced and the list keeps its length 1. -/
theorem C21_eviction_only_in_insert2_witness :
    (∃ f ∈ [exEventA],
        equalModuloTID exEventA3.thread_id exEventA3.vector_clock f.vector_clock = true) ∧
      (evicted exEventA3 [exEventA]).length = 1 ∧
      (insert2 [{ ls := {⟨1, false⟩}, requests := [exEventA] }] {⟨1, false⟩} exEventA3).map
          (fun d => d.requests.map (fun f => f.trace_id)) = [["d.go:5@11"]] :=
  ⟨⟨exEventA, List.mem_singleton.mpr rfl, by decide⟩,
    ((C21_eviction_only_in_insert2 {} ⟨2, false⟩ exEventA3 [] ∅).2.2.2.1 [exEventA]
      ⟨exEventA, List.mem_singleton.mpr rfl, by decide⟩).2,
    by decide⟩

/-! ## Theorems on the search for cycles -/

/-- With a recursive call that agrees, `dfsDepsAt` finds the cycles of
`dfsDeps`. -/
theorem dfsDepsAt_fst
    (dfsRecAt : List LockDependency → (ThreadId → Bool) → List Cycle × Nat →
      Except Stop (List Cycle × Nat))
    (dfsRec : List LockDependency → (ThreadId → Bool) → List Cycle → Except Stop (List Cycle))
    (h : ∀ stack tr acc, (dfsRecAt stack tr acc).map Prod.fst = dfsRec stack tr acc.1)
    (chain_stack : List LockDependency) (is_traversed : ThreadId → Bool) (tid : ThreadId)
    (l : LockId) (deps : List Dep) (acc : List Cycle × Nat) :
    (dfsDepsAt dfsRecAt chain_stack is_traversed tid l deps acc).map Prod.fst =
      dfsDeps dfsRec chain_stack is_traversed tid l deps acc.1 := by
  induction deps generalizing acc with
  | nil => rfl
  | cons d rest ih =>
    unfold dfsDepsAt dfsDeps
    simp only []
    generalize ({ thread_id := tid, l := l, ls := d.ls, reqs := d.requests } :
      LockDependency) = ld
    cases hc : isChain chain_stack ld with
    | none => rfl
    | some b =>
      cases b with
      | false => exact ih acc
      | true =>
        simp only []
        cases hcc : isCycleChain chain_stack ld with
        | none => rfl
        | some b2 =>
          cases b2 with
          | true => exact ih _
          | false =>
            simp only []
            have hrec := h (chain_stack ++ [ld]) (Function.update is_traversed tid true) acc
            cases hr : dfsRecAt (chain_stack ++ [ld]) (Function.update is_traversed tid true)
                acc with
            | error e =>
              rw [hr] at hrec
              simp only [← hrec]
              rfl
            | ok acc2 =>
              rw [hr] at hrec
              simp only [← hrec]
              exact ih acc2

/-- With a recursive call that agrees, `dfsLocksAt` finds the cycles of
`dfsLocks`. -/
theorem dfsLocksAt_fst
    (dfsRecAt : List LockDependency → (ThreadId → Bool) → List Cycle × Nat →
      Except Stop (List Cycle × Nat))
    (dfsRec : List LockDependency → (ThreadId → Bool) → List Cycle → Except Stop (List Cycle))
    (h : ∀ stack tr acc, (dfsRecAt stack tr acc).map Prod.fst = dfsRec stack tr acc.1)
    (chain_stack : List LockDependency) (is_traversed : ThreadId → Bool) (tid : ThreadId)
    (locks : GoMapK LockId (List Dep)) (acc : List Cycle × Nat) :
    (dfsLocksAt dfsRecAt chain_stack is_traversed tid locks acc).map Prod.fst =
      dfsLocks dfsRec chain_stack is_traversed tid locks acc.1 := by
  induction locks generalizing acc with
  | nil => rfl
  | cons e rest ih =>
    obtain ⟨l, l_d⟩ := e
    unfold dfsLocksAt dfsLocks
    have hd := dfsDepsAt_fst dfsRecAt dfsRec h chain_stack is_traversed tid l l_d acc
    cases hr : dfsDepsAt dfsRecAt chain_stack is_traversed tid l l_d acc with
    | error e =>
      rw [hr] at hd
      simp only [← hd]
      rfl
    | ok acc2 =>
      rw [hr] at hd
      simp only [← hd]
      exact ih acc2

/-- With a recursive call that agrees, `dfsThreadsAt` finds the cycles of
`dfsThreads` over the same order. -/
theorem dfsThreadsAt_fst (s : State)
    (dfsRecAt : List LockDependency → (ThreadId → Bool) → List Cycle × Nat →
      Except Stop (List Cycle × Nat))
    (dfsRec : List LockDependency → (ThreadId → Bool) → List Cycle → Except Stop (List Cycle))
    (h : ∀ stack tr acc, (dfsRecAt stack tr acc).map Prod.fst = dfsRec stack tr acc.1)
    (chain_stack : List LockDependency) (is_traversed : ThreadId → Bool)
    (tids : List ThreadId) (acc : List Cycle × Nat) :
    (dfsThreadsAt s dfsRecAt chain_stack is_traversed tids acc).map Prod.fst =
      dfsThreads s dfsRec chain_stack is_traversed tids acc.1 := by
  induction tids generalizing acc with
  | nil => rfl
  | cons tid rest ih =>
    unfold dfsThreadsAt dfsThreads
    split_ifs
    · exact ih acc
    · have hd := dfsLocksAt_fst dfsRecAt dfsRec h chain_stack is_traversed tid
        (s.lockDeps tid) acc
      cases hr : dfsLocksAt dfsRecAt chain_stack is_traversed tid (s.lockDeps tid) acc with
      | error e =>
        rw [hr] at hd
        simp only [← hd]
        rfl
      | ok acc2 =>
        rw [hr] at hd
        simp only [← hd]
        exact ih acc2
    · exact ih acc

/-- When every `range` visits the thread ids in the same order, `dfsAt` finds
the cycles of `dfs`. -/
theorem dfsAt_fst (s : State) (thread_ids : List ThreadId) (fuel : Nat)
    (chain_stack : List LockDependency) (is_traversed : ThreadId → Bool)
    (acc : List Cycle × Nat) :
    (dfsAt s (fun _ => thread_ids) fuel chain_stack is_traversed acc).map Prod.fst =
      dfs s thread_ids fuel chain_stack is_traversed acc.1 := by
  induction fuel generalizing chain_stack is_traversed acc with
  | zero => rfl
  | succ fuel ih =>
    unfold dfsAt dfs
    exact dfsThreadsAt_fst s _ _ (fun stack tr acc2 => ih stack tr acc2) chain_stack
      is_traversed thread_ids (acc.1, acc.2 + 1)

/-- When every `range` visits the thread ids in the same order, `findLocksAt`
gives the stack and the cycles of `findLocks`. -/
theorem findLocksAt_fst (s : State) (thread_ids : List ThreadId) (fuel : Nat)
    (thread_id : ThreadId) (is_traversed : ThreadId → Bool)
    (locks : GoMapK LockId (List Dep)) (chain_stack : List LockDependency)
    (acc : List Cycle × Nat) :
    (findLocksAt s (fun _ => thread_ids) fuel thread_id is_traversed locks chain_stack acc).map
        (fun out => (out.1, out.2.1)) =
      findLocks s thread_ids fuel thread_id is_traversed locks chain_stack acc.1 := by
  induction locks generalizing chain_stack acc with
  | nil => rfl
  | cons e rest ih =>
    obtain ⟨l, ds⟩ := e
    unfold findLocksAt findLocks
    simp only []
    generalize chain_stack ++ ds.map (fun d =>
      ({ thread_id := thread_id, l := l, ls := d.ls, reqs := d.requests } : LockDependency)) =
      pushed
    have hd := dfsAt_fst s thread_ids fuel pushed is_traversed acc
    cases hr : dfsAt s (fun _ => thread_ids) fuel pushed is_traversed acc with
    | error e =>
      rw [hr] at hd
      simp only [← hd]
      rfl
    | ok acc2 =>
      rw [hr] at hd
      simp only [← hd]
      simp only [Except.map]
      split_ifs
      · rfl
      · exact ih _ acc2

/-- When every `range` visits the thread ids in the same order, `findThreadsAt`
gives the variables of `findThreads`. -/
theorem findThreadsAt_fst (s : State) (thread_ids : List ThreadId) (fuel : Nat)
    (tids : List ThreadId) (fs : FindState) (k : Nat) :
    (findThreadsAt s (fun _ => thread_ids) fuel tids fs k).map Prod.fst =
      findThreads s thread_ids fuel tids fs := by
  induction tids generalizing fs k with
  | nil => rfl
  | cons tid rest ih =>
    unfold findThreadsAt findThreads
    split_ifs
    · exact ih fs k
    · simp only []
      have hd := findLocksAt_fst s thread_ids fuel tid
        (Function.update fs.is_traversed tid true) (s.lockDeps tid) fs.chain_stack
        (fs.cycles, k)
      cases hr : findLocksAt s (fun _ => thread_ids) fuel tid
          (Function.update fs.is_traversed tid true) (s.lockDeps tid) fs.chain_stack
          (fs.cycles, k) with
      | error e =>
        rw [hr] at hd
        simp only [← hd]
        rfl
      | ok out =>
        rw [hr] at hd
        simp only [← hd]
        exact ih _ _

/-- The search `find_cycles` is the search `find_cyclesAt` of the run in which
every `range` statement visits the thread ids in the order of the list
`s.threads`. -/
theorem find_cyclesAt_const (s : State) :
    find_cyclesAt (fun _ => s.threads.map (fun entry => entry.1)) s = find_cycles s := by
  unfold find_cyclesAt find_cycles
  simp only [List.length_map]
  have hd := findThreadsAt_fst s (s.threads.map (fun entry => entry.1)) (s.threads.length + 1)
    (s.threads.map (fun entry => entry.1))
    { cycles := s.cycles, chain_stack := [], is_traversed := fun _ => false } 1
  cases hr : findThreadsAt s (fun _ => s.threads.map (fun entry => entry.1))
      (s.threads.length + 1) (s.threads.map (fun entry => entry.1))
      { cycles := s.cycles, chain_stack := [], is_traversed := fun _ => false } 1 with
  | error e =>
    rw [hr] at hd
    simp only [← hd]
    rfl
  | ok out =>
    rw [hr] at hd
    simp only [← hd]
    rfl

/-- The search `get_cycles` is the search `get_cyclesAt` of the run in which
every `range` statement visits the thread ids in the order of the list
`s.threads`. -/
theorem get_cyclesAt_const (s : State) :
    get_cyclesAt (fun _ => s.threads.map (fun entry => entry.1)) s = get_cycles s :=
  find_cyclesAt_const { s with cycles := [] }

/-- The three interleavings of the four acquires in which thread `A` acquires
first reach the state `s4State`. -/
theorem acquireAll_s4State (A B : ThreadId) (hne : A ≠ B) (l1 l2 : LockId) (hl : l1 ≠ l2)
    (eA1 eA2 eB2 eB1 : Event) (hA1 : eA1.thread_id = A) (hA2 : eA2.thread_id = A)
    (hB2 : eB2.thread_id = B) (hB1 : eB1.thread_id = B) :
    acquireAll {} [(l1, eA1), (l2, eA2), (l2, eB2), (l1, eB1)] = s4State A B l1 l2 eA2 eB1 ∧
      acquireAll {} [(l1, eA1), (l2, eB2), (l2, eA2), (l1, eB1)] = s4State A B l1 l2 eA2 eB1 ∧
      acquireAll {} [(l1, eA1), (l2, eB2), (l1, eB1), (l2, eA2)] =
        s4State A B l1 l2 eA2 eB1 := by
  have hne2 : ¬ B = A := fun h => hne h.symm
  have hl2 : ¬ l2 = l1 := fun h => hl h.symm
  refine ⟨?_, ?_, ?_⟩ <;>
  simp [s4State, acquireAll, acquire, GoMap.lookup, GoMap.insert, hne, hne2, Lockset.empty,
    Lockset.add, GoMapK.insert, GoMapK.getSlice, GoMapK.lookup, insert, Lockset.Clone, hA1,
    hA2, hB1, hB2, hl, hl2]

/-- The search on the state of two threads that have acquired two locks in
opposite order, for every choice of the orders of the `range` statements: one
cycle of two entries, which starts with the thread that the loop of
`find_cycles` visits first. -/
theorem get_cyclesAt_s4State (A B : ThreadId) (hne : A ≠ B) (l1 l2 : LockId) (hl : l1 ≠ l2)
    (eA2 eB1 : Event) (order : Nat → List ThreadId)
    (horder : ∀ k, order k = [A, B] ∨ order k = [B, A]) :
    (order 0 = [A, B] →
      get_cyclesAt order (s4State A B l1 l2 eA2 eB1) =
        .ok { s4State A B l1 l2 eA2 eB1 with
              cycles := [[{ thread_id := A, requests := [eA2] },
                          { thread_id := B, requests := [eB1] }]] }) ∧
    (order 0 = [B, A] →
      get_cyclesAt order (s4State A B l1 l2 eA2 eB1) =
        .ok { s4State A B l1 l2 eA2 eB1 with
              cycles := [[{ thread_id := B, requests := [eB1] },
                          { thread_id := A, requests := [eA2] }]] }) := by
  have hne2 : ¬ B = A := fun h => hne h.symm
  have hl2 : ¬ l2 = l1 := fun h => hl h.symm
  constructor
  · intro h0
    rcases horder 1 with h1 | h1 <;> rcases horder 2 with h2 | h2 <;>
    simp [s4State, get_cyclesAt, find_cyclesAt, findThreadsAt, findLocksAt, dfsAt, dfsThreadsAt,
      dfsLocksAt, dfsDepsAt, isChain, isChainLoop, isCycleChain, cycleOf, State.lockDeps,
      GoMap.lookup, hne, hne2, Lockset.disjoint, Function.update, hl, hl2, h0, h1, h2]
  · intro h0
    rcases horder 1 with h1 | h1 <;> rcases horder 2 with h2 | h2 <;>
    simp [s4State, get_cyclesAt, find_cyclesAt, findThreadsAt, findLocksAt, dfsAt, dfsThreadsAt,
      dfsLocksAt, dfsDepsAt, isChain, isChainLoop, isCycleChain, cycleOf, State.lockDeps,
      GoMap.lookup, hne, hne2, Lockset.disjoint, Function.update, hl, hl2, h0, h1, h2]

/-- The record that `checkForResourceDeadlockAt` emits for one cycle of two
entries whose position lookups succeed. -/
theorem checkForResourceDeadlockAt_two (info : String → Option (String × Int × Int))
    (PCyclicDeadlock : ResultType) (order : Nat → List ThreadId) (s : State)
    (X Y : ThreadId) (eX eY : Event) (restX restY : List Event) (results : List ResultCall)
    (fX fY : String) (lX pX lY pY : Int)
    (hcycles : get_cyclesAt order s =
      .ok { s with cycles := [[{ thread_id := X, requests := eX :: restX },
                               { thread_id := Y, requests := eY :: restY }]] })
    (hX : info eX.trace_id = some (fX, lX, pX)) (hY : info eY.trace_id = some (fY, lY, pY)) :
    checkForResourceDeadlockAt info PCyclicDeadlock order s results =
      some ({ s with cycles := [[{ thread_id := X, requests := eX :: restX },
                                 { thread_id := Y, requests := eY :: restY }]] },
        results ++
          [{ level := ResultLevel.CRITICAL, resType := PCyclicDeadlock, argType1 := "head",
             arg1 := [{ RoutineID := X, ObjID := 0, TPre := pX, ObjType := "DC",
                        File := fX, Line := lX }],
             argType2 := "tail",
             arg2 := [{ RoutineID := X, ObjID := 0, TPre := pX, ObjType := "DC",
                        File := fX, Line := lX },
                      { RoutineID := Y, ObjID := 0, TPre := pY, ObjType := "DC",
                        File := fY, Line := lY }] }]) := by
  unfold checkForResourceDeadlockAt
  rw [hcycles]
  simp [reportCycles, cycleElementsLoop, hX, hY]

/-- C22 on the code: the order of the two entries of the cycle is the order in
which the loop of `find_cycles` visits the threads map, which Go chooses anew
in every run. Thread 1 acquires the write locks 1 and 2, then thread 2 the
write locks 2 and 1. In a run in which the `range` statements visit thread 2
before thread 1, `get_cycles` reports the cycle with the entry of thread 2
first, and the result of `checkForResourceDeadlock` has thread 2 as head and
the tail `[2, 1]`: the chain is `[B, A]`, not `[A, B]`. -/
theorem C22_chain_order_counterexample :
    cycleSummary (get_cyclesAt (fun _ => [2, 1])
        (acquireAll {} [(⟨1, false⟩, exEventA), (⟨2, false⟩, exEventA2),
          (⟨2, false⟩, exEventB), (⟨1, false⟩, exEventB2)])) =
      some [[(2, ["d.go:10@6"]), (1, ["d.go:6@8"])]] ∧
    (checkForResourceDeadlockAt infoFromTID "P04" (fun _ => [2, 1])
        (acquireAll {} [(⟨1, false⟩, exEventA), (⟨2, false⟩, exEventA2),
          (⟨2, false⟩, exEventB), (⟨1, false⟩, exEventB2)]) []).map (fun out => out.2) =
      some [{ level := ResultLevel.CRITICAL, resType := "P04", argType1 := "head",
              arg1 := [{ RoutineID := 2, ObjID := 0, TPre := 6, ObjType := "DC",
                         File := "d.go", Line := 10 }],
              argType2 := "tail",
              arg2 := [{ RoutineID := 2, ObjID := 0, TPre := 6, ObjType := "DC",
                         File := "d.go", Line := 10 },
                       { RoutineID := 1, ObjID := 0, TPre := 8, ObjType := "DC",
                         File := "d.go", Line := 6 }] }] := by
  refine ⟨by decide, by decide⟩

/-- C22 (amended): two-thread cyclic deadlock. Let thread `A` acquire the lock
`l1` and then `l2`, and thread `B` acquire `l2` and then `l1`, with no
release, starting from the empty state, in any of the six interleavings of the
four calls, and let `s` be the state reached (`s4State A B ...` when `A`
acquires first, `s4State B A ...` when `B` does; the two are the same maps).
Then the dependency store is `A -> (l2, {l1})`, `B -> (l1, {l2})`, and for
every choice of the orders in which the `range` statements visit the two
threads, `get_cycles` returns exactly one cycle, with exactly two entries, one
for `A` and one for `B`, each with the event of the second acquire of its
thread, the first entry being the one of the thread that the loop of
`find_cycles` visits first (the chain is `[A, B]` or `[B, A]`); and when the
position lookups of the two events succeed, `checkForResourceDeadlock` emits
exactly one result for it: critical, of kind `PCyclicDeadlock`, with the first
entry as head and the two entries as tail, every participant tagged `DC`. -/
theorem C22_two_thread_cycle (info : String → Option (String × Int × Int))
    (PCyclicDeadlock : ResultType) (A B : ThreadId) (hne : A ≠ B) (l1 l2 : LockId)
    (hl : l1 ≠ l2) (eA1 eA2 eB2 eB1 : Event) (hA1 : eA1.thread_id = A)
    (hA2 : eA2.thread_id = A) (hB2 : eB2.thread_id = B) (hB1 : eB1.thread_id = B)
    (results : List ResultCall) (order : Nat → List ThreadId)
    (horder : ∀ k, order k = [A, B] ∨ order k = [B, A]) (s : State)
    (hs : s = s4State A B l1 l2 eA2 eB1 ∨ s = s4State B A l2 l1 eB1 eA2) :
    (acquireAll {} [(l1, eA1), (l2, eA2), (l2, eB2), (l1, eB1)] = s4State A B l1 l2 eA2 eB1 ∧
      acquireAll {} [(l1, eA1), (l2, eB2), (l2, eA2), (l1, eB1)] = s4State A B l1 l2 eA2 eB1 ∧
      acquireAll {} [(l1, eA1), (l2, eB2), (l1, eB1), (l2, eA2)] = s4State A B l1 l2 eA2 eB1 ∧
      acquireAll {} [(l2, eB2), (l1, eB1), (l1, eA1), (l2, eA2)] = s4State B A l2 l1 eB1 eA2 ∧
      acquireAll {} [(l2, eB2), (l1, eA1), (l1, eB1), (l2, eA2)] = s4State B A l2 l1 eB1 eA2 ∧
      acquireAll {} [(l2, eB2), (l1, eA1), (l2, eA2), (l1, eB1)] =
        s4State B A l2 l1 eB1 eA2) ∧
    (s.lockDeps A = [(l2, [{ ls := {l1}, requests := [eA2] }])] ∧
      s.lockDeps B = [(l1, [{ ls := {l2}, requests := [eB1] }])] ∧
      ∀ tid, tid ≠ A → tid ≠ B → s.lockDeps tid = []) ∧
    (order 0 = [A, B] →
      get_cyclesAt order s =
        .ok { s with cycles := [[{ thread_id := A, requests := [eA2] },
                                 { thread_id := B, requests := [eB1] }]] } ∧
      ∀ fA lA pA fB lB pB, info eA2.trace_id = some (fA, lA, pA) →
        info eB1.trace_id = some (fB, lB, pB) →
        checkForResourceDeadlockAt info PCyclicDeadlock order s results =
          some ({ s with cycles := [[{ thread_id := A, requests := [eA2] },
                                     { thread_id := B, requests := [eB1] }]] },
            results ++
              [{ level := ResultLevel.CRITICAL, resType := PCyclicDeadlock,
                 argType1 := "head",
                 arg1 := [{ RoutineID := A, ObjID := 0, TPre := pA, ObjType := "DC",
                            File := fA, Line := lA }],
                 argType2 := "tail",
                 arg2 := [{ RoutineID := A, ObjID := 0, TPre := pA, ObjType := "DC",
                            File := fA, Line := lA },
                          { RoutineID := B, ObjID := 0, TPre := pB, ObjType := "DC",
                            File := fB, Line := lB }] }])) ∧
    (order 0 = [B, A] →
      get_cyclesAt order s =
        .ok { s with cycles := [[{ thread_id := B, requests := [eB1] },
                                 { thread_id := A, requests := [eA2] }]] } ∧
      ∀ fA lA pA fB lB pB, info eA2.trace_id = some (fA, lA, pA) →
        info eB1.trace_id = some (fB, lB, pB) →
        checkForResourceDeadlockAt info PCyclicDeadlock order s results =
          some ({ s with cycles := [[{ thread_id := B, requests := [eB1] },
                                     { thread_id := A, requests := [eA2] }]] },
            results ++
              [{ level := ResultLevel.CRITICAL, resType := PCyclicDeadlock,
                 argType1 := "head",
                 arg1 := [{ RoutineID := B, ObjID := 0, TPre := pB, ObjType := "DC",
                            File := fB, Line := lB }],
                 argType2 := "tail",
                 arg2 := [{ RoutineID := B, ObjID := 0, TPre := pB, ObjType := "DC",
                            File := fB, Line := lB },
                          { RoutineID := A, ObjID := 0, TPre := pA, ObjType := "DC",
                            File := fA, Line := lA }] }])) := by
  have hne2 : B ≠ A := fun h => hne h.symm
  have hl2 : l2 ≠ l1 := fun h => hl h.symm
  have hordB : ∀ k, order k = [B, A] ∨ order k = [A, B] := fun k => (horder k).symm
  have hAB := acquireAll_s4State A B hne l1 l2 hl eA1 eA2 eB2 eB1 hA1 hA2 hB2 hB1
  have hBA := acquireAll_s4State B A hne2 l2 l1 hl2 eB2 eB1 eA1 eA2 hB2 hB1 hA1 hA2
  have hcAB := get_cyclesAt_s4State A B hne l1 l2 hl eA2 eB1 order horder
  have hcBA := get_cyclesAt_s4State B A hne2 l2 l1 hl2 eB1 eA2 order hordB
  refine ⟨⟨hAB.1, hAB.2.1, hAB.2.2, hBA.1, hBA.2.1, hBA.2.2⟩, ?_, ?_, ?_⟩
  · rcases hs with rfl | rfl
    · refine ⟨by simp [s4State, State.lockDeps, GoMap.lookup],
        by simp [s4State, State.lockDeps, GoMap.lookup, hne], fun tid h1 h2 => ?_⟩
      simp [s4State, State.lockDeps, GoMap.lookup, Ne.symm h1, Ne.symm h2]
    · refine ⟨by simp [s4State, State.lockDeps, GoMap.lookup, hne2],
        by simp [s4State, State.lockDeps, GoMap.lookup], fun tid h1 h2 => ?_⟩
      simp [s4State, State.lockDeps, GoMap.lookup, Ne.symm h1, Ne.symm h2]
  · intro h0
    have hc : get_cyclesAt order s =
        .ok { s with cycles := [[{ thread_id := A, requests := [eA2] },
                                 { thread_id := B, requests := [eB1] }]] } := by
      rcases hs with rfl | rfl
      · exact hcAB.1 h0
      · exact hcBA.2 h0
    exact ⟨hc, fun fA lA pA fB lB pB hiA hiB =>
      checkForResourceDeadlockAt_two info PCyclicDeadlock order s A B eA2 eB1 [] [] results
        fA fB lA pA lB pB hc hiA hiB⟩
  · intro h0
    have hc : get_cyclesAt order s =
        .ok { s with cycles := [[{ thread_id := B, requests := [eB1] },
                                 { thread_id := A, requests := [eA2] }]] } := by
      rcases hs with rfl | rfl
      · exact hcAB.2 h0
      · exact hcBA.1 h0
    exact ⟨hc, fun fA lA pA fB lB pB hiA hiB =>
      checkForResourceDeadlockAt_two info PCyclicDeadlock order s B A eB1 eA2 [] [] results
        fB fA lB pB lA pA hc hiB hiA⟩

/-- Witness of C22 (amended): thread 1 acquires the write locks 1 and 2, thread
2 the write locks 2 and 1, and every `range` statement visits thread 1 before
thread 2. `get_cycles` reports the one cycle of the threads 1 and 2, and
`checkForResourceDeadlock` emits one `P04` result with the participants tagged
`DC`. -/
theorem C22_two_thread_cycle_witness :
    (1 : ThreadId) ≠ 2 ∧ (⟨1, false⟩ : LockId) ≠ ⟨2, false⟩ ∧
      (get_cyclesAt (fun _ => [1, 2])
          (acquireAll {} [(⟨1, false⟩, exEventA), (⟨2, false⟩, exEventA2),
            (⟨2, false⟩, exEventB), (⟨1, false⟩, exEventB2)])).toOption.map
        (fun s => s.cycles.map (fun c => c.map (fun entry =>
          (entry.thread_id, entry.requests.map (fun e => e.trace_id))))) =
        some [[(1, ["d.go:6@8"]), (2, ["d.go:10@6"])]] ∧
      (checkForResourceDeadlockAt infoFromTID "P04" (fun _ => [1, 2])
          (acquireAll {} [(⟨1, false⟩, exEventA), (⟨2, false⟩, exEventA2),
            (⟨2, false⟩, exEventB), (⟨1, false⟩, exEventB2)]) []).map (fun out => out.2) =
        some [{ level := ResultLevel.CRITICAL, resType := "P04", argType1 := "head",
                arg1 := [{ RoutineID := 1, ObjID := 0, TPre := 8, ObjType := "DC",
                           File := "d.go", Line := 6 }],
                argType2 := "tail",
                arg2 := [{ RoutineID := 1, ObjID := 0, TPre := 8, ObjType := "DC",
                           File := "d.go", Line := 6 },
                         { RoutineID := 2, ObjID := 0, TPre := 6, ObjType := "DC",
                           File := "d.go", Line := 10 }] }] := by
  have h := C22_two_thread_cycle infoFromTID "P04" 1 2 (by decide) ⟨1, false⟩ ⟨2, false⟩
    (by decide) exEventA exEventA2 exEventB exEventB2 rfl rfl rfl rfl [] (fun _ => [1, 2])
    (fun _ => Or.inl rfl) (s4State 1 2 ⟨1, false⟩ ⟨2, false⟩ exEventA2 exEventB2) (Or.inl rfl)
  refine ⟨by decide, by decide, ?_, ?_⟩
  · rw [h.1.1, (h.2.2.1 rfl).1]
    rfl
  · rw [h.1.1, (h.2.2.1 rfl).2 "d.go" 6 8 "d.go" 10 6 (by decide) (by decide)]
    rfl

/-- C23 on the code: `find_cycles` pushes every dependency recorded under a
lock before it calls `dfs` once and pops one element. Thread 1 has acquired
lock 3 under the locksets `{1}` and `{2}`, thread 2 lock 1 under `{3}` and
`{4}` (a state reached by `acquire` and `release` calls). Whichever thread is
visited first, `get_cycles` reports a cycle of three entries of which the first
two belong to the same thread; for thread 1 first they are its dependencies
`(3, {1})` and `(3, {2})`, and lock 3 is not in the lockset `{2}`. -/
theorem C23_cycle_repeats_thread :
    ((applyLockCalls {} (exDoubleCallsA ++ exDoubleCallsB)).lockDeps 1).map
        (fun entry => (entry.1, entry.2.map (fun d => d.ls))) =
      [(⟨3, false⟩, [{⟨1, false⟩}, {⟨2, false⟩}])] ∧
    ((applyLockCalls {} (exDoubleCallsA ++ exDoubleCallsB)).lockDeps 2).map
        (fun entry => (entry.1, entry.2.map (fun d => d.ls))) =
      [(⟨1, false⟩, [{⟨3, false⟩}, {⟨4, false⟩}])] ∧
    cycleSummary (get_cycles (applyLockCalls {} (exDoubleCallsA ++ exDoubleCallsB))) =
      some [[(1, ["d.go:2@2"]), (1, ["d.go:6@6"]), (2, ["d.go:8@8"])]] ∧
    cycleSummary (get_cycles (applyLockCalls {} (exDoubleCallsB ++ exDoubleCallsA))) =
      some [[(2, ["d.go:8@8"]), (2, ["d.go:12@12"]), (1, ["d.go:2@2"])]] := by
  refine ⟨by decide, by decide, by decide, by decide⟩

/-- `ls.disjoint(ls2)` holds exactly when no lock id of `ls` is in `ls2`. -/
theorem Lockset.disjoint_iff (ls ls2 : Lockset) :
    ls.disjoint ls2 = true ↔ ∀ l ∈ ls, l ∉ ls2 := by
  simp [Lockset.disjoint]

/-- The first loop of `isChain` passes exactly when no stacked dependency is
on the lock of the candidate or has a lockset that shares a lock id with the
lockset of the candidate. -/
theorem isChainLoop_iff (dependency : LockDependency) (chain_stack : List LockDependency) :
    isChainLoop dependency chain_stack = true ↔
      ∀ d ∈ chain_stack, d.l ≠ dependency.l ∧ ∀ x ∈ d.ls, x ∉ dependency.ls := by
  induction chain_stack with
  | nil => simp [isChainLoop]
  | cons d rest ih =>
    unfold isChainLoop
    by_cases hl : d.l = dependency.l
    · simp [hl]
    · by_cases hd : d.ls.disjoint dependency.ls = true
      · have hd2 := (Lockset.disjoint_iff _ _).mp hd
        simp only [if_neg hl, hd, Bool.not_true, Bool.false_eq_true, if_false, ih,
          List.mem_cons, forall_eq_or_imp]
        exact ⟨fun h => ⟨⟨hl, hd2⟩, h⟩, fun h => h.2⟩
      · have hd2 : ¬ ∀ x ∈ d.ls, x ∉ dependency.ls :=
          fun h => hd ((Lockset.disjoint_iff _ _).mpr h)
        simp only [if_neg hl, Bool.eq_false_iff.mpr hd, Bool.not_false, if_true,
          Bool.false_eq_true, List.mem_cons, forall_eq_or_imp, false_iff]
        exact fun h => hd2 h.1.2

/-- `isChain` accepts a candidate exactly when the first loop passes and the
lock of the top of the stack is in the lockset of the candidate. -/
theorem isChain_iff (chain_stack : List LockDependency) (dependency : LockDependency) :
    isChain chain_stack dependency = some true ↔
      (∀ d ∈ chain_stack, d.l ≠ dependency.l ∧ ∀ x ∈ d.ls, x ∉ dependency.ls) ∧
        ∃ top, chain_stack.getLast? = some top ∧ top.l ∈ dependency.ls := by
  unfold isChain
  rw [← isChainLoop_iff]
  by_cases hloop : isChainLoop dependency chain_stack = true
  · simp only [hloop, Bool.not_true, Bool.false_eq_true, if_false, true_and]
    by_cases hempty : dependency.ls = ∅
    · simp [hempty]
    · rw [if_neg hempty]
      cases hlast : chain_stack.getLast? with
      | none => simp
      | some top => simp
  · simp [hloop]

/-- C24, as stated, fails: the stacked dependency holds the write lock of
mutex 1 in its lockset and the candidate the read lock of the same mutex (and
the lock of the top of the stack); `disjoint` finds the two locksets disjoint
and `isChain` accepts the candidate. The same holds with read and write
exchanged. -/
theorem C24_read_write_counterexample :
    (⟨1, false⟩ : LockId) ∈ exStackedWrite.ls ∧ (⟨1, true⟩ : LockId) ∈ exCandidateRead.ls ∧
      exStackedWrite.ls.disjoint exCandidateRead.ls = true ∧
      isChain [exStackedWrite] exCandidateRead = some true ∧
      isChain [{ exStackedWrite with ls := {⟨1, true⟩} }]
        { exCandidateRead with ls := {⟨1, false⟩, ⟨5, false⟩} } = some true := by
  decide

/-- C24, amended: the chain test compares lock ids as pairs of the mutex id and
the read flag. `disjoint` holds exactly when the two locksets share no lock
id; the read-lock id and the write-lock id of one mutex are different ids, so
a lockset that holds only the one and a lockset that holds only the other are
disjoint. `isChain` accepts a candidate exactly when no stacked dependency is
on the same lock id, no stacked lockset shares a lock id with the lockset of
the candidate, and the lock of the top of the stack is in the lockset of the
candidate. -/
theorem C24_chain_test_by_lock_id (chain_stack : List LockDependency)
    (dependency : LockDependency) (ls ls2 : Lockset) (o : Int) :
    (ls.disjoint ls2 = true ↔ ∀ l ∈ ls, l ∉ ls2) ∧
      Lockset.disjoint {⟨o, true⟩} {⟨o, false⟩} = true ∧
      Lockset.disjoint {⟨o, false⟩} {⟨o, true⟩} = true ∧
      (isChain chain_stack dependency = some true ↔
        (∀ d ∈ chain_stack, d.l ≠ dependency.l ∧ ∀ x ∈ d.ls, x ∉ dependency.ls) ∧
          ∃ top, chain_stack.getLast? = some top ∧ top.l ∈ dependency.ls) := by
  refine ⟨Lockset.disjoint_iff ls ls2, ?_, ?_, isChain_iff chain_stack dependency⟩
  · rw [Lockset.disjoint_iff]
    intro l hl
    rw [Finset.mem_singleton] at hl ⊢
    rw [hl]
    simp
  · rw [Lockset.disjoint_iff]
    intro l hl
    rw [Finset.mem_singleton] at hl ⊢
    rw [hl]
    simp

/-- Witness of C24 (amended): the candidate with the read lock of mutex 1 and
the lock of the top of the stack in its lockset passes the test against the
stacked dependency with the write lock of mutex 1. -/
theorem C24_chain_test_by_lock_id_witness :
    ((∀ d ∈ [exStackedWrite],
        d.l ≠ exCandidateRead.l ∧ ∀ x ∈ d.ls, x ∉ exCandidateRead.ls) ∧
      ∃ top, [exStackedWrite].getLast? = some top ∧ top.l ∈ exCandidateRead.ls) ∧
    isChain [exStackedWrite] exCandidateRead = some true :=
  ⟨(C24_chain_test_by_lock_id [exStackedWrite] exCandidateRead ∅ ∅ 1).2.2.2.mp (by decide),
    by decide⟩

/-! ## Theorems on the mutex events of the recorder -/

/-- The lockset of the thread of the event after `release`. -/
theorem release_locksetOf (s : State) (l : LockId) (e : Event) :
    (release s l e).locksetOf e.thread_id = (s.locksetOf e.thread_id).erase l := by
  unfold release State.locksetOf
  cases h : GoMap.lookup s.threads e.thread_id with
  | none => simp [h]
  | some th => simp [GoMap.lookup_insert_self, Lockset.remove]

/-- Writing to a key the value it already has leaves the map as it is. -/
theorem GoMap.insert_same {α : Type} (m : GoMap α) (k : Int) (v : α)
    (h : GoMap.lookup m k = some v) : GoMap.insert m k v = m := by
  induction m with
  | nil => simp [GoMap.lookup] at h
  | cons x rest ih =>
    obtain ⟨k2, v2⟩ := x
    unfold GoMap.lookup at h
    unfold GoMap.insert
    by_cases hk : k2 = k
    · rw [if_pos hk] at h
      rw [if_pos hk, ← Option.some.inj h, hk]
    · rw [if_neg hk] at h
      rw [if_neg hk, ih h]

/-- A `release` of a lock that the thread does not hold changes nothing. -/
theorem release_not_held (s : State) (l : LockId) (e : Event)
    (h : l ∉ s.locksetOf e.thread_id) : release s l e = s := by
  unfold release
  unfold State.locksetOf at h
  cases hth : GoMap.lookup s.threads e.thread_id with
  | none => rfl
  | some th =>
    simp only [hth] at h ⊢
    have h2 : th.lockset.remove l = th.lockset := Finset.erase_eq_of_not_mem h
    rw [h2]
    have h3 : ({ th with lockset := th.lockset } : Thread) = th := rfl
    rw [h3, GoMap.insert_same _ _ _ hth]

/-- C25 on the code: for an element with a non-empty clock,
`handleMutexEventForRessourceDeadlock` builds the event of the routine with a
copy of the clock and calls `acquire` with the write id for a `Lock` and for a
`TryLock` with `suc`, `acquire` with the read id for an `RLock`, and `release`
with the write or read id for an `Unlock` or `RUnlock`; the lock id is then
in, or no longer in, the lockset of the routine. A `TryLock` without `suc`
leaves the state unchanged. The `switch` has no case for `TryRLock`: the state
is unchanged also for a `TryRLock` with `suc = true`. -/
theorem C25_mutex_event_lockset (s : State) (element : TraceElementMutex)
    (hvc : element.GetVC.size ≠ 0) :
    ∃ vc, element.GetVC.Copy = some vc ∧
      (element.opM = OpMutex.LockOp ∨ (element.opM = OpMutex.TryLockOp ∧ element.suc = true) →
        handleMutexEventForRessourceDeadlock s element =
            some (acquire s ⟨element.GetID, false⟩
              ⟨element.GetRoutine, element.GetTID, vc⟩) ∧
          (acquire s ⟨element.GetID, false⟩
              ⟨element.GetRoutine, element.GetTID, vc⟩).locksetOf element.GetRoutine =
            Insert.insert ⟨element.GetID, false⟩ (s.locksetOf element.GetRoutine)) ∧
      (element.opM = OpMutex.RLockOp →
        handleMutexEventForRessourceDeadlock s element =
            some (acquire s ⟨element.GetID, true⟩
              ⟨element.GetRoutine, element.GetTID, vc⟩) ∧
          (acquire s ⟨element.GetID, true⟩
              ⟨element.GetRoutine, element.GetTID, vc⟩).locksetOf element.GetRoutine =
            Insert.insert ⟨element.GetID, true⟩ (s.locksetOf element.GetRoutine)) ∧
      (element.opM = OpMutex.UnlockOp →
        handleMutexEventForRessourceDeadlock s element =
            some (release s ⟨element.GetID, false⟩
              ⟨element.GetRoutine, element.GetTID, vc⟩) ∧
          (release s ⟨element.GetID, false⟩
              ⟨element.GetRoutine, element.GetTID, vc⟩).locksetOf element.GetRoutine =
            (s.locksetOf element.GetRoutine).erase ⟨element.GetID, false⟩) ∧
      (element.opM = OpMutex.RUnlockOp →
        handleMutexEventForRessourceDeadlock s element =
            some (release s ⟨element.GetID, true⟩
              ⟨element.GetRoutine, element.GetTID, vc⟩) ∧
          (release s ⟨element.GetID, true⟩
              ⟨element.GetRoutine, element.GetTID, vc⟩).locksetOf element.GetRoutine =
            (s.locksetOf element.GetRoutine).erase ⟨element.GetID, true⟩) ∧
      (element.opM = OpMutex.TryLockOp ∧ element.suc = false →
        handleMutexEventForRessourceDeadlock s element = some s) ∧
      (element.opM = OpMutex.TryRLockOp →
        handleMutexEventForRessourceDeadlock s element = some s) := by
  obtain ⟨vc, hcopy, _, _⟩ := Copy_spec element.GetVC hvc
  refine ⟨vc, hcopy, ?_, ?_, ?_, ?_, ?_, ?_⟩
  · intro h
    refine ⟨?_, acquire_locksetOf s _ ⟨element.GetRoutine, element.GetTID, vc⟩⟩
    unfold handleMutexEventForRessourceDeadlock
    rcases h with h | ⟨h, hsuc⟩
    · simp only [hcopy, h]
    · simp only [hcopy, h, hsuc, if_true]
  · intro h
    refine ⟨?_, acquire_locksetOf s _ ⟨element.GetRoutine, element.GetTID, vc⟩⟩
    unfold handleMutexEventForRessourceDeadlock
    simp only [hcopy, h]
  · intro h
    refine ⟨?_, release_locksetOf s _ ⟨element.GetRoutine, element.GetTID, vc⟩⟩
    unfold handleMutexEventForRessourceDeadlock
    simp only [hcopy, h]
  · intro h
    refine ⟨?_, release_locksetOf s _ ⟨element.GetRoutine, element.GetTID, vc⟩⟩
    unfold handleMutexEventForRessourceDeadlock
    simp only [hcopy, h]
  · rintro ⟨h, hsuc⟩
    unfold handleMutexEventForRessourceDeadlock
    simp only [hcopy, h, hsuc, Bool.false_eq_true, if_false]
  · intro h
    unfold handleMutexEventForRessourceDeadlock
    simp only [hcopy, h]

/-- The failing input of C25: the successful `TryRLock` of routine 1 on
mutex 4 leaves the empty state unchanged; afterwards the read id of mutex 4 is
not in the lockset of routine 1. -/
theorem C25_mutex_event_lockset_witness :
    exTryRLock.GetVC.size ≠ 0 ∧ exTryRLock.opM = OpMutex.TryRLockOp ∧ exTryRLock.suc = true ∧
      handleMutexEventForRessourceDeadlock {} exTryRLock = some {} ∧
      (⟨4, true⟩ : LockId) ∉ ({} : State).locksetOf 1 := by
  obtain ⟨_, _, _, _, _, _, _, h⟩ := C25_mutex_event_lockset {} exTryRLock (by decide)
  exact ⟨by decide, rfl, rfl, h rfl, by decide⟩

/-! ## Theorems on what the code does not treat as fatal -/

/-- C26, as stated, fails: `Sync` has no test of the widths. The clock `[1, 0]`
of width 2 joined with the received clock `[0, 1, 4]` of width 3 returns the
clock `[1, 1, 4]` of width 3, and `[0, 1, 4]` joined with the received `[1, 0]`
returns a clock of width 2 with the entries `1, 1` (and the entry 4 written
under the key 3, beyond its width). -/
theorem C26_width_mismatch_counterexample :
    exClockA.size ≠ 0 ∧ exClockW3.size ≠ 0 ∧ exClockA.size ≠ exClockW3.size ∧
      (exClockA.Sync exClockW3).map (fun r => (r.size, r.clock 1, r.clock 2, r.clock 3)) =
        some (3, 1, 1, 4) ∧
      (exClockW3.Sync exClockA).map (fun r => (r.size, r.clock 1, r.clock 2, r.clock 3)) =
        some (2, 1, 1, 4) := by
  decide

/-- C26, amended: `Sync` applied to two non-empty clocks, of the same width or
not, returns a clock. It has the width of the received clock; its entry `j` is
the larger of the entry of the receiver and the entry of the received clock
(0 beyond the width of the received clock) for `j` in `1..vc.size`, and the
entry of the received clock for the other `j` of its width. -/
theorem C26_Sync_returns_for_all_widths (vc rec : VectorClock) (hvc : vc.size ≠ 0)
    (hrec : rec.size ≠ 0) :
    ∃ r, vc.Sync rec = some r ∧ r.size = rec.size ∧
      ∀ j, r.clock j =
        if 1 ≤ j ∧ j ≤ vc.size then
          max (vc.clock j) (if 1 ≤ j ∧ j ≤ rec.size then rec.clock j else 0)
        else if 1 ≤ j ∧ j ≤ rec.size then rec.clock j else 0 :=
  Sync_spec vc rec hvc hrec

/-- Witness of C26 (amended): the join of `[1, 0]` with the received clock
`[0, 1, 4]` of width 3. -/
theorem C26_Sync_returns_for_all_widths_witness :
    exClockA.size ≠ 0 ∧ exClockW3.size ≠ 0 ∧
      ∃ r, exClockA.Sync exClockW3 = some r ∧ r.size = 3 ∧ r.clock 3 = 4 := by
  obtain ⟨r, hr, hsize, hclock⟩ :=
    C26_Sync_returns_for_all_widths exClockA exClockW3 (by decide) (by decide)
  exact ⟨by decide, by decide, r, hr, hsize, by rw [hclock 3]; decide⟩

/-- C27, as stated, fails: `release` does not abort. For a thread without a
recorded lockset the state is unchanged, and for thread 1 that holds lock 1
only, the release of lock 2 leaves its lockset as it is. -/
theorem C27_release_counterexample :
    release {} ⟨1, false⟩ exEventA = {} ∧
      (release (acquire {} ⟨1, false⟩ exEventA) ⟨2, false⟩ exEventA2).locksetOf 1 =
        (acquire {} ⟨1, false⟩ exEventA).locksetOf 1 ∧
      (acquire {} ⟨1, false⟩ exEventA).locksetOf 1 = {⟨1, false⟩} :=
  ⟨rfl, by decide, by decide⟩

/-- C27, amended: `release(s, l, e)` returns for every state. When the thread
of `e` does not hold `l` (its lockset is empty, it has no recorded lockset, or
it holds other locks only) the state is unchanged; in every case the lockset
afterwards is the one before without `l`. -/
theorem C27_release_not_held_is_noop (s : State) (l : LockId) (e : Event) :
    (l ∉ s.locksetOf e.thread_id → release s l e = s) ∧
      (GoMap.lookup s.threads e.thread_id = none → release s l e = s) ∧
      (release s l e).locksetOf e.thread_id = (s.locksetOf e.thread_id).erase l := by
  refine ⟨release_not_held s l e, fun h => ?_, release_locksetOf s l e⟩
  unfold release
  rw [h]

/-- Witness of C27 (amended): thread 1 holds lock 1 only; the release of lock 2
leaves the state unchanged. -/
theorem C27_release_not_held_is_noop_witness :
    (⟨2, false⟩ : LockId) ∉ (acquire {} ⟨1, false⟩ exEventA).locksetOf exEventA2.thread_id ∧
      release (acquire {} ⟨1, false⟩ exEventA) ⟨2, false⟩ exEventA2 =
        acquire {} ⟨1, false⟩ exEventA :=
  ⟨by decide,
    (C27_release_not_held_is_noop (acquire {} ⟨1, false⟩ exEventA) ⟨2, false⟩ exEventA2).1
      (by decide)⟩

/-! ## Theorems on failing position lookups -/

/-- When every entry of the cycle has a request, the loop over the entries
collects the participants of the entries whose position lookup succeeds. -/
theorem cycleElementsLoop_spec (info : String → Option (String × Int × Int))
    (cycle : List Entry) (h : ∀ entry ∈ cycle, entry.requests ≠ []) :
    ∀ acc, cycleElementsLoop info cycle acc = some (acc ++ cycle.filterMap (cycleElement info)) := by
  induction cycle with
  | nil => intro acc; simp [cycleElementsLoop]
  | cons entry rest ih =>
    intro acc
    have hrest := ih (fun x hx => h x (List.mem_cons_of_mem _ hx))
    have hne := h entry (List.mem_cons_self _ _)
    unfold cycleElementsLoop
    rw [List.filterMap_cons]
    unfold cycleElement
    cases hreq : entry.requests with
    | nil => exact absurd hreq hne
    | cons request more =>
      simp only [List.head?_cons]
      cases hinfo : info request.trace_id with
      | none => exact hrest acc
      | some i1 =>
        obtain ⟨f, l, t⟩ := i1
        simp only [hrest, List.append_assoc, List.singleton_append]
        rfl

/-- When the position lookup of the stuck operation fails, the loop of
`CheckForLeakChannelStuck` emits nothing. -/
theorem stuckLoop_self_fails (info : String → Option (String × Int × Int))
    (ch : TraceElementChannel) (vc : VectorClock) (buffered : Bool) (o1 o2 : String)
    (hself : info ch.GetTID = none)
    (index : GoMap (GoMap VectorClockTID3)) (results : List ResultCall) (found : Bool) :
    (stuckLoop info ch vc buffered o1 o2 index results found).results = results := by
  induction index generalizing results found with
  | nil => rfl
  | cons e rest ih =>
    obtain ⟨p, mrr⟩ := e
    unfold stuckLoop
    cases hl : GoMap.lookup mrr ch.id with
    | none => exact ih results found
    | some mr =>
      by_cases hc : GetHappensBefore mr.Vc vc = HappensBefore.Concurrent
      · simp only [hc, if_true, hself]
      · simp only [hc, if_false]
        exact ih results found

/-- When the position lookup of the stuck operation fails,
`CheckForLeakChannelStuck` emits nothing. -/
theorem stuck_self_fails (info : String → Option (String × Int × Int))
    (st : AnalysisState) (ch : TraceElementChannel) (vc : VectorClock)
    (hself : info ch.GetTID = none) :
    (CheckForLeakChannelStuck info st ch vc).results = st.results := by
  unfold CheckForLeakChannelStuck
  simp only []
  by_cases hid : ch.id = -1
  · rw [if_pos hid]
    generalize (if ch.opC = OpChannel.SendOp then some ("C" ++ "S")
      else if ch.opC = OpChannel.RecvOp then some ("C" ++ "R") else none) = objType
    cases objType with
    | none => rfl
    | some objType => simp only [hself]
  · rw [if_neg hid]
    have hloop : (if ch.opC = OpChannel.SendOp then
        stuckLoop info ch vc (decide (ch.qSize ≠ 0)) "CS" "CR" st.mostRecentReceive
          st.results false
      else if ch.opC = OpChannel.RecvOp then
        stuckLoop info ch vc (decide (ch.qSize ≠ 0)) "CR" "CS" st.mostRecentSend
          st.results false
      else { results := st.results, foundPartner := false, returned := false }).results =
        st.results := by
      split_ifs
      · exact stuckLoop_self_fails info ch vc _ _ _ hself _ _ _
      · exact stuckLoop_self_fails info ch vc _ _ _ hself _ _ _
      · rfl
    generalize (if ch.opC = OpChannel.SendOp then
        stuckLoop info ch vc (decide (ch.qSize ≠ 0)) "CS" "CR" st.mostRecentReceive
          st.results false
      else if ch.opC = OpChannel.RecvOp then
        stuckLoop info ch vc (decide (ch.qSize ≠ 0)) "CR" "CS" st.mostRecentSend
          st.results false
      else { results := st.results, foundPartner := false, returned := false }) = loop
      at hloop
    split_ifs <;> exact hloop

/-- When the position lookup of the completed operation fails, the loop of
`CheckForLeakChannelRun` changes nothing. -/
theorem runLoop_partner_fails (info : String → Option (String × Int × Int))
    (routineID objID : Int) (vcTID : VectorClockTID) (buffered : Bool)
    (tags : VectorClockTID2 → Option (String × String)) (hfail : info vcTID.TID = none)
    (s : RunLoopState) :
    ∀ n i, i + n ≤ s.backing.length →
      runLoop info routineID objID vcTID buffered tags n i s = some s := by
  intro n
  induction n with
  | zero => intro i _; rfl
  | succ n ih =>
    intro i hi
    have hlt : i < s.backing.length := by omega
    unfold runLoop
    rw [List.getElem?_eq_getElem hlt]
    simp only []
    cases ht : tags s.backing[i] with
    | none => exact ih (i + 1) (by omega)
    | some tg =>
      obtain ⟨t1, t2⟩ := tg
      simp only []
      by_cases hc : GetHappensBefore s.backing[i].vc vcTID.Vc = HappensBefore.Concurrent
      · rw [if_pos hc]
        cases h1 : info s.backing[i].tID with
        | none => rfl
        | some i1 =>
          obtain ⟨f1, l1, p1⟩ := i1
          simp only [hfail]
      · rw [if_neg hc]
        exact ih (i + 1) (by omega)

/-- When the position lookup of the completed operation fails,
`CheckForLeakChannelRun` returns false and changes nothing. -/
theorem run_partner_fails (info : String → Option (String × Int × Int))
    (st : AnalysisState) (routineID objID : Int) (vcTID : VectorClockTID) (opType : Int)
    (buffered : Bool) (hfail : info vcTID.TID = none) :
    CheckForLeakChannelRun info st routineID objID vcTID opType buffered = some (st, false) := by
  unfold CheckForLeakChannelRun
  simp only []
  by_cases hop : opType = 0 ∨ opType = 2
  · rw [if_pos hop, runLoop_partner_fails info routineID objID vcTID buffered _ hfail _ _ 0
      (by simp)]
    rfl
  · by_cases hop1 : opType = 1
    · rw [if_neg hop, if_pos hop1, runLoop_partner_fails info routineID objID vcTID buffered _
        hfail _ _ 0 (by simp)]
      rfl
    · rw [if_neg hop, if_neg hop1]

/-- When the position lookup of the entry, or of the partner found for it,
fails, the body of the loop of `checkForLeak` emits nothing for the entry. -/
theorem leakEntry_lookup_fails (info : String → Option (String × Int × Int))
    (cases : List allSelectCase) (e : VectorClockTID2) (b : Bool)
    (h : info e.tID = none ∨
      ∃ c, (leakPartnerLoop e cases b).1 = some c ∧ info c.vcTID.TID = none) :
    (leakEntry info cases e b).1 = [] := by
  unfold leakEntry
  by_cases htid : e.tID = ""
  · rw [if_pos htid]
  · rw [if_neg htid]
    generalize hpl : leakPartnerLoop e cases b = r at h
    obtain ⟨r1, r2⟩ := r
    cases r1 with
    | none =>
      rcases h with h | ⟨c, hc, _⟩
      · simp only [h]
        split_ifs <;> rfl
      · simp at hc
    | some c =>
      rcases h with h | ⟨c2, hc, hinfo⟩
      · simp only [h]
      · simp only [Option.some.injEq] at hc
        subst hc
        cases h1 : info e.tID with
        | none => rfl
        | some i1 =>
          obtain ⟨f1, l1, p1⟩ := i1
          simp only [hinfo]

/-- When the position lookup of the select fails, the loop over a recency
index emits nothing. -/
theorem selectPartnerLoop_self_fails (info : String → Option (String × Int × Int))
    (se : TraceElementSelect) (vc : VectorClock) (id : Int) (o2 : String)
    (hself : info se.GetTID = none)
    (index : GoMap (GoMap VectorClockTID3)) (results : List ResultCall) (found : Bool) :
    (selectPartnerLoop info se vc id o2 index results found).results = results := by
  induction index generalizing results found with
  | nil => rfl
  | cons e rest ih =>
    obtain ⟨p, mrr⟩ := e
    unfold selectPartnerLoop
    cases hl : GoMap.lookup mrr id with
    | none => exact ih results found
    | some mr =>
      by_cases hc : GetHappensBefore vc mr.Vc = HappensBefore.Concurrent
      · simp only [hc, if_true, hself]
      · simp only [hc, if_false]
        exact ih results found

/-- When the position lookup of the select fails, the body of the case loop
emits nothing. -/
theorem selectCase_self_fails (info : String → Option (String × Int × Int))
    (st : AnalysisState) (se : TraceElementSelect) (vc : VectorClock)
    (hself : info se.GetTID = none) (id opType : Int) (results : List ResultCall)
    (found : Bool) :
    (selectCase info st se vc id opType results found).results = results := by
  unfold selectCase
  by_cases h0 : opType = 0
  · rw [if_pos h0]
    exact selectPartnerLoop_self_fails info se vc id _ hself _ _ _
  · rw [if_neg h0]
    by_cases h1 : opType = 1
    · rw [if_pos h1]
      have hl := selectPartnerLoop_self_fails info se vc id "CS" hself st.mostRecentSend
        results found
      simp only []
      by_cases hr : (selectPartnerLoop info se vc id "CS" st.mostRecentSend results
          found).returned = true
      · rw [if_pos hr]; exact hl
      · rw [if_neg hr]
        unfold selectCloseCheck
        cases hcl : GoMap.lookup st.closeData id with
        | none => exact hl
        | some cl => simp only [hself]; exact hl
    · rw [if_neg h1]

/-- When the position lookup of the select fails, the case loop emits
nothing. -/
theorem selectCaseLoop_self_fails (info : String → Option (String × Int × Int))
    (st : AnalysisState) (se : TraceElementSelect) (vc : VectorClock) (opTypes : List Int)
    (hself : info se.GetTID = none) (ids : List Int) :
    ∀ (i : Nat) (results : List ResultCall) (found : Bool) (out : StuckLoopState),
      selectCaseLoop info st se vc opTypes ids i results found = some out →
      out.results = results := by
  induction ids with
  | nil =>
    intro i results found out h
    simp only [selectCaseLoop, Option.some.injEq] at h
    rw [← h]
  | cons id rest ih =>
    intro i results found out h
    unfold selectCaseLoop at h
    cases hop : opTypes[i]? with
    | none => simp [hop] at h
    | some opType =>
      simp only [hop] at h
      have hstep := selectCase_self_fails info st se vc hself id opType results found
      by_cases hr : (selectCase info st se vc id opType results found).returned = true
      · rw [if_pos hr, Option.some.injEq] at h
        rw [← h]; exact hstep
      · rw [if_neg hr] at h
        rw [ih _ _ _ out h, hstep]

/-- When the position lookup of the select fails, `CheckForLeakSelectStuck`
emits nothing. -/
theorem select_self_fails (info : String → Option (String × Int × Int))
    (st out : AnalysisState) (se : TraceElementSelect) (ids : List Int) (buffered : List Bool)
    (vc : VectorClock) (opTypes : List Int) (hself : info se.GetTID = none)
    (h : CheckForLeakSelectStuck info st se ids buffered vc opTypes = some out) :
    out.results = st.results := by
  unfold CheckForLeakSelectStuck at h
  by_cases hlen : ids.length = 0
  · rw [if_pos hlen] at h
    simp only [hself, Option.some.injEq] at h
    rw [← h]
  · rw [if_neg hlen] at h
    cases hloop : selectCaseLoop info st se vc opTypes ids 0 st.results false with
    | none => simp [hloop] at h
    | some loop =>
      have hres := selectCaseLoop_self_fails info st se vc opTypes hself ids 0 st.results
        false loop hloop
      simp only [hloop] at h
      by_cases hr : loop.returned = true
      · rw [if_pos hr, Option.some.injEq] at h
        rw [← h]; exact hres
      · rw [if_neg hr] at h
        by_cases hf : (!loop.foundPartner) = true
        · rw [if_pos hf] at h
          cases hpush : selectPushLoop se vc opTypes buffered ids 0 st.leakingChannels with
          | none => simp [hpush] at h
          | some buckets =>
            simp only [hpush, Option.some.injEq] at h
            rw [← h]; exact hres
        · rw [if_neg hf, Option.some.injEq] at h
          rw [← h]; exact hres

/-- C28, as stated, fails for `checkForResourceDeadlock`. In the scenario of two
threads the position of the event of thread 1 has no line number, so its
lookup fails; the cycle has the entries of the threads 1 and 2, and the call
emits a `P04` record whose head and tail hold the entry of thread 2 only. -/
theorem C28_partial_record_counterexample :
    infoFromTID exEventNoLine.trace_id = none ∧
      cycleSummary (get_cycles (s4State 1 2 ⟨1, false⟩ ⟨2, false⟩ exEventNoLine exEventB2)) =
        some [[(1, ["d.go@8"]), (2, ["d.go:10@6"])]] ∧
      (checkForResourceDeadlock infoFromTID "P04"
          (s4State 1 2 ⟨1, false⟩ ⟨2, false⟩ exEventNoLine exEventB2) []).map
          (fun out => out.2) =
        some [{ level := ResultLevel.CRITICAL, resType := "P04", argType1 := "head",
                arg1 := [{ RoutineID := 2, ObjID := 0, TPre := 6, ObjType := "DC",
                           File := "d.go", Line := 10 }],
                argType2 := "tail",
                arg2 := [{ RoutineID := 2, ObjID := 0, TPre := 6, ObjType := "DC",
                           File := "d.go", Line := 10 }] }] := by
  decide

/-- C28, amended: in the detectors of `analysisLeak.go` a failing position
lookup gives no record and no abort. `CheckForLeakChannelStuck` and
`CheckForLeakSelectStuck` emit nothing when the lookup of the stuck operation
fails, `CheckForLeakChannelRun` returns false and changes nothing when the
lookup of the completed operation fails, `CheckForLeakMutex` returns with the
state unchanged when the lookup of the stuck operation or of the recorded
acquire fails, and `checkForLeak` emits nothing for an entry when the lookup of
the entry or of its partner fails. `checkForResourceDeadlock` leaves an entry
whose lookup fails out of the record: for a cycle whose entries all have a
request and of which some lookup succeeds, it emits one record whose tail
holds the participants of the entries whose lookup succeeds, in the order of
the cycle, and whose head is the first of them. -/
theorem C28_lookup_failure (info : String → Option (String × Int × Int))
    (PCyclicDeadlock : ResultType) (st : AnalysisState) :
    (∀ ch vc, info ch.GetTID = none →
      (CheckForLeakChannelStuck info st ch vc).results = st.results) ∧
    (∀ se ids buffered vc opTypes out, info se.GetTID = none →
      CheckForLeakSelectStuck info st se ids buffered vc opTypes = some out →
      out.results = st.results) ∧
    (∀ routineID objID vcTID opType buffered, info vcTID.TID = none →
      CheckForLeakChannelRun info st routineID objID vcTID opType buffered =
        some (st, false)) ∧
    (∀ mu, info mu.GetTID = none → CheckForLeakMutex info st mu = some st) ∧
    (∀ mu acquire, GoMap.lookup st.mostRecentAcquireTotal mu.id = some acquire →
      info acquire.Elem.GetTID = none → CheckForLeakMutex info st mu = some st) ∧
    (∀ cases e b,
      (info e.tID = none ∨
        ∃ c, (leakPartnerLoop e cases b).1 = some c ∧ info c.vcTID.TID = none) →
      (leakEntry info cases e b).1 = []) ∧
    (∀ (cycle : Cycle) results, (∀ entry ∈ cycle, entry.requests ≠ []) →
      ∀ head more, cycle.filterMap (cycleElement info) = head :: more →
      reportCycles info PCyclicDeadlock [cycle] results =
        some (results ++
          [{ level := ResultLevel.CRITICAL, resType := PCyclicDeadlock, argType1 := "head",
             arg1 := [head], argType2 := "tail", arg2 := head :: more }])) := by
  refine ⟨fun ch vc h => stuck_self_fails info st ch vc h,
    fun se ids buffered vc opTypes out h1 h2 =>
      select_self_fails info st out se ids buffered vc opTypes h1 h2,
    fun routineID objID vcTID opType buffered h =>
      run_partner_fails info st routineID objID vcTID opType buffered h,
    fun mu h => ?_, fun mu acquire hl h => ?_,
    fun cases e b h => leakEntry_lookup_fails info cases e b h,
    fun cycle results hreq head more hmap => ?_⟩
  · unfold CheckForLeakMutex
    rw [h]
  · unfold CheckForLeakMutex
    cases h1 : info mu.GetTID with
    | none => rfl
    | some i1 =>
      obtain ⟨f1, l1, p1⟩ := i1
      simp only [hl, h]
  · unfold reportCycles
    rw [cycleElementsLoop_spec info cycle hreq [], List.nil_append, hmap]
    simp [reportCycles]

/-- Witness of C28 (amended): for the cycle of the threads 1 and 2 in which the
lookup of the entry of thread 1 fails, the record holds the participant of
thread 2 only. -/
theorem C28_lookup_failure_witness :
    (∀ entry ∈ ([{ thread_id := 1, requests := [exEventNoLine] },
        { thread_id := 2, requests := [exEventB2] }] : Cycle), entry.requests ≠ []) ∧
      reportCycles infoFromTID "P04"
          [[{ thread_id := 1, requests := [exEventNoLine] },
            { thread_id := 2, requests := [exEventB2] }]] [] =
        some [{ level := ResultLevel.CRITICAL, resType := "P04", argType1 := "head",
                arg1 := [{ RoutineID := 2, ObjID := 0, TPre := 6, ObjType := "DC",
                           File := "d.go", Line := 10 }],
                argType2 := "tail",
                arg2 := [{ RoutineID := 2, ObjID := 0, TPre := 6, ObjType := "DC",
                           File := "d.go", Line := 10 }] }] := by
  have hreq : ∀ entry ∈ ([{ thread_id := 1, requests := [exEventNoLine] },
      { thread_id := 2, requests := [exEventB2] }] : Cycle), entry.requests ≠ [] := by
    intro entry hentry
    simp only [List.mem_cons, List.mem_singleton, List.not_mem_nil, or_false] at hentry
    rcases hentry with h | h <;> rw [h] <;> exact List.cons_ne_nil _ _
  exact ⟨hreq,
    (C28_lookup_failure infoFromTID "P04" {}).2.2.2.2.2.2 _ [] hreq
      { RoutineID := 2, ObjID := 0, TPre := 6, ObjType := "DC", File := "d.go", Line := 10 } []
      (by decide)⟩

/-! ## Theorems on the order of the results -/

/-- A possible partner of a stuck operation comes from an entry of the recency
index. -/
theorem mem_concurrentPartners (index : GoMap (GoMap VectorClockTID3)) (id : Int)
    (vc : VectorClock) (pm : Int × VectorClockTID3)
    (h : pm ∈ concurrentPartners index id vc) :
    ∃ entry ∈ index, GoMap.lookup entry.2 id = some pm.2 := by
  unfold concurrentPartners at h
  obtain ⟨entry, hentry, hsome⟩ := List.mem_filterMap.mp h
  refine ⟨entry, hentry, ?_⟩
  cases hl : GoMap.lookup entry.2 id with
  | none => simp [hl] at hsome
  | some op =>
    simp only [hl] at hsome
    by_cases hc : GetHappensBefore op.Vc vc = HappensBefore.Concurrent
    · simp only [hc, if_true, Option.some.injEq] at hsome
      rw [← hsome]
    · simp [hc] at hsome

/-- With the position lookups succeeding, the results of the loop of
`CheckForLeakChannelStuck` over two orders of the same recency index are the
same up to their order. -/
theorem stuckLoop_perm (info : String → Option (String × Int × Int))
    (pos : String → String × Int × Int)
    (ch : TraceElementChannel) (vc : VectorClock) (buffered : Bool) (o1 o2 : String)
    (hself : info ch.GetTID = some (pos ch.GetTID))
    (index1 index2 : GoMap (GoMap VectorClockTID3)) (hperm : index1.Perm index2)
    (hpart : ∀ entry ∈ index1, ∀ op, GoMap.lookup entry.2 ch.id = some op →
      info op.Elem.GetTID = some (pos op.Elem.GetTID))
    (results : List ResultCall) (found : Bool) :
    ∃ new1 new2,
      (stuckLoop info ch vc buffered o1 o2 index1 results found).results = results ++ new1 ∧
      (stuckLoop info ch vc buffered o1 o2 index2 results found).results = results ++ new2 ∧
      new1.Perm new2 ∧
      (stuckLoop info ch vc buffered o1 o2 index1 results found).foundPartner =
        (stuckLoop info ch vc buffered o1 o2 index2 results found).foundPartner ∧
      (stuckLoop info ch vc buffered o1 o2 index1 results found).returned = false ∧
      (stuckLoop info ch vc buffered o1 o2 index2 results found).returned = false := by
  have hp1 : ∀ pm ∈ concurrentPartners index1 ch.id vc,
      info pm.2.Elem.GetTID = some (pos pm.2.Elem.GetTID) := by
    intro pm hpm
    obtain ⟨entry, he, hl⟩ := mem_concurrentPartners _ _ _ _ hpm
    exact hpart entry he pm.2 hl
  have hp2 : ∀ pm ∈ concurrentPartners index2 ch.id vc,
      info pm.2.Elem.GetTID = some (pos pm.2.Elem.GetTID) := by
    intro pm hpm
    obtain ⟨entry, he, hl⟩ := mem_concurrentPartners _ _ _ _ hpm
    exact hpart entry (hperm.mem_iff.mpr he) pm.2 hl
  have hpp : (concurrentPartners index1 ch.id vc).Perm (concurrentPartners index2 ch.id vc) :=
    List.Perm.filterMap _ hperm
  rw [stuckLoop_lookups_succeed info pos ch vc buffered o1 o2 hself index1 results found hp1,
    stuckLoop_lookups_succeed info pos ch vc buffered o1 o2 hself index2 results found hp2]
  refine ⟨_, _, rfl, rfl, List.Perm.map _ hpp, ?_, rfl, rfl⟩
  have hempty : (concurrentPartners index1 ch.id vc).isEmpty =
      (concurrentPartners index2 ch.id vc).isEmpty := by
    rw [Bool.eq_iff_iff, List.isEmpty_iff, List.isEmpty_iff]
    exact ⟨fun h => List.Perm.eq_nil (h ▸ hpp.symm), fun h => List.Perm.eq_nil (h ▸ hpp)⟩
  simp only [hempty]

/-- With the position lookups succeeding, `CheckForLeakChannelStuck` on two
states that differ in the order of the recency indices emits the same results
up to their order. -/
theorem stuck_perm (info : String → Option (String × Int × Int))
    (pos : String → String × Int × Int) (st1 st2 : AnalysisState)
    (ch : TraceElementChannel) (vc : VectorClock)
    (hres : st1.results = st2.results)
    (hrecv : st1.mostRecentReceive.Perm st2.mostRecentReceive)
    (hsend : st1.mostRecentSend.Perm st2.mostRecentSend)
    (hself : info ch.GetTID = some (pos ch.GetTID))
    (hpart : ∀ entry ∈ st1.mostRecentReceive ++ st1.mostRecentSend, ∀ op,
      GoMap.lookup entry.2 ch.id = some op →
      info op.Elem.GetTID = some (pos op.Elem.GetTID)) :
    ∃ new1 new2,
      (CheckForLeakChannelStuck info st1 ch vc).results = st1.results ++ new1 ∧
      (CheckForLeakChannelStuck info st2 ch vc).results = st1.results ++ new2 ∧
      new1.Perm new2 := by
  have hfinish : ∀ (L1 L2 : StuckLoopState) (new1 new2 : List ResultCall),
      L1.results = st1.results ++ new1 → L2.results = st1.results ++ new2 →
      new1.Perm new2 →
      ∀ entry : VectorClockTID2,
      ∃ new1 new2,
        (if L1.returned = true then { st1 with results := L1.results }
          else if (!L1.foundPartner) = true then
            { st1 with
              results := L1.results
              leakingChannels :=
                GoMap.insert st1.leakingChannels ch.id
                  (GoMap.getSlice st1.leakingChannels ch.id ++ [entry]) }
          else { st1 with results := L1.results }).results = st1.results ++ new1 ∧
        (if L2.returned = true then { st2 with results := L2.results }
          else if (!L2.foundPartner) = true then
            { st2 with
              results := L2.results
              leakingChannels :=
                GoMap.insert st2.leakingChannels ch.id
                  (GoMap.getSlice st2.leakingChannels ch.id ++ [entry]) }
          else { st2 with results := L2.results }).results = st1.results ++ new2 ∧
        new1.Perm new2 := by
    intro L1 L2 new1 new2 h1 h2 hp entry
    refine ⟨new1, new2, ?_, ?_, hp⟩
    · split_ifs <;> exact h1
    · split_ifs <;> exact h2
  unfold CheckForLeakChannelStuck
  simp only []
  by_cases hid : ch.id = -1
  · rw [if_pos hid, if_pos hid]
    generalize (if ch.opC = OpChannel.SendOp then some ("C" ++ "S")
      else if ch.opC = OpChannel.RecvOp then some ("C" ++ "R") else none) = objType
    cases objType with
    | none => exact ⟨[], [], by simp, by simp [hres], List.Perm.refl _⟩
    | some objType =>
      simp only [hself]
      exact ⟨_, _, rfl, by rw [← hres], List.Perm.refl _⟩
  · rw [if_neg hid, if_neg hid, ← hres]
    by_cases hop : ch.opC = OpChannel.SendOp
    · rw [if_pos hop, if_pos hop]
      obtain ⟨new1, new2, h1, h2, hp, -, -, -⟩ := stuckLoop_perm info pos ch vc
        (decide (ch.qSize ≠ 0)) "CS" "CR" hself st1.mostRecentReceive st2.mostRecentReceive
        hrecv (fun entry he => hpart entry (List.mem_append_left _ he)) st1.results false
      exact hfinish _ _ new1 new2 h1 h2 hp _
    · rw [if_neg hop, if_neg hop]
      by_cases hop2 : ch.opC = OpChannel.RecvOp
      · rw [if_pos hop2, if_pos hop2]
        obtain ⟨new1, new2, h1, h2, hp, -, -, -⟩ := stuckLoop_perm info pos ch vc
          (decide (ch.qSize ≠ 0)) "CR" "CS" hself st1.mostRecentSend st2.mostRecentSend
          hsend (fun entry he => hpart entry (List.mem_append_right _ he)) st1.results false
        exact hfinish _ _ new1 new2 h1 h2 hp _
      · rw [if_neg hop2, if_neg hop2]
        exact hfinish _ _ [] [] (by simp) (by simp) (List.Perm.refl _) _

/-- C29 on the code: the detectors visit Go maps with `range`, whose order the
language leaves open, so the same input gives different result sequences. The
states `exOrderStateA` and `exOrderStateB` hold the same recency index, buckets
and traces (every key reads the same value) in two visiting orders, and
`CheckForLeakChannelStuck`, `checkForLeak` and `checkForStuckRoutine` emit
their results in different orders; the same two threads of a lock-dependency
state, visited in the two orders, give the cycle `[1, 2]` and the cycle
`[2, 1]`. -/
theorem C29_determinism_counterexample :
    (exOrderStateA.mostRecentReceive.Perm exOrderStateB.mostRecentReceive ∧
      (∀ k, GoMap.lookup exOrderStateA.mostRecentReceive k =
        GoMap.lookup exOrderStateB.mostRecentReceive k) ∧
      (CheckForLeakChannelStuck infoFromTID exOrderStateA exStuckSend exClockB).results.map
          (fun r => r.arg2.map (fun a => a.RoutineID)) = [[3], [1]] ∧
      (CheckForLeakChannelStuck infoFromTID exOrderStateB exStuckSend exClockB).results.map
          (fun r => r.arg2.map (fun a => a.RoutineID)) = [[1], [3]]) ∧
    (exOrderStateA.leakingChannels.Perm exOrderStateB.leakingChannels ∧
      (∀ k, GoMap.lookup exOrderStateA.leakingChannels k =
        GoMap.lookup exOrderStateB.leakingChannels k) ∧
      (checkForLeak infoFromTID exOrderStateA).results.map
          (fun r => (r.resType, r.arg1.map (fun a => (a.RoutineID, a.ObjID)))) =
        [("L02", [(2, 7)]), ("L07", [(4, 12)]), ("L07", [(4, 12)])] ∧
      (checkForLeak infoFromTID exOrderStateB).results.map
          (fun r => (r.resType, r.arg1.map (fun a => (a.RoutineID, a.ObjID)))) =
        [("L07", [(4, 12)]), ("L02", [(2, 7)]), ("L07", [(4, 12)])]) ∧
    (exOrderStateA.traces.Perm exOrderStateB.traces ∧
      (∀ k, GoMap.lookup exOrderStateA.traces k = GoMap.lookup exOrderStateB.traces k) ∧
      (checkForStuckRoutine "LWithoutBlock" exOrderStateA).results.map
          (fun r => r.arg1.map (fun a => a.RoutineID)) = [[2], [5]] ∧
      (checkForStuckRoutine "LWithoutBlock" exOrderStateB).results.map
          (fun r => r.arg1.map (fun a => a.RoutineID)) = [[5], [2]]) ∧
    ((s4State 1 2 ⟨1, false⟩ ⟨2, false⟩ exEventA2 exEventB2).threads.Perm
        (s4State 2 1 ⟨2, false⟩ ⟨1, false⟩ exEventB2 exEventA2).threads ∧
      (∀ k, GoMap.lookup (s4State 1 2 ⟨1, false⟩ ⟨2, false⟩ exEventA2 exEventB2).threads k =
        GoMap.lookup (s4State 2 1 ⟨2, false⟩ ⟨1, false⟩ exEventB2 exEventA2).threads k) ∧
      cycleSummary (get_cycles (s4State 1 2 ⟨1, false⟩ ⟨2, false⟩ exEventA2 exEventB2)) =
        some [[(1, ["d.go:6@8"]), (2, ["d.go:10@6"])]] ∧
      cycleSummary (get_cycles (s4State 2 1 ⟨2, false⟩ ⟨1, false⟩ exEventB2 exEventA2)) =
        some [[(2, ["d.go:10@6"]), (1, ["d.go:6@8"])]]) := by
  refine ⟨⟨List.Perm.swap _ _ _, ?_, by decide, by decide⟩,
    ⟨List.Perm.swap _ _ _, ?_, by decide, by decide⟩,
    ⟨List.Perm.swap _ _ _, ?_, by decide, by decide⟩,
    ⟨List.Perm.swap _ _ _, ?_, by decide, by decide⟩⟩
  · intro k
    simp only [exOrderStateA, exOrderStateB, GoMap.lookup]
    split_ifs <;> first | rfl | omega
  · intro k
    simp only [exOrderStateA, exOrderStateB, GoMap.lookup]
    split_ifs <;> first | rfl | omega
  · intro k
    simp only [exOrderStateA, exOrderStateB, GoMap.lookup]
    split_ifs <;> first | rfl | omega
  · intro k
    simp only [s4State, GoMap.lookup]
    split_ifs <;> first | rfl | omega

/-- C29, amended: the results of two runs on the same input agree up to their
order. For two states with the same earlier results, select cases and forks,
whose traces, buckets and recency indices are the same entries in two visiting
orders: `checkForStuckRoutine` and `checkForLeak` append to the earlier results
two lists that are permutations of each other, and so does
`CheckForLeakChannelStuck` for every stuck operation whose position lookup and
whose recorded partners' position lookups succeed. -/
theorem C29_results_up_to_order (info : String → Option (String × Int × Int))
    (pos : String → String × Int × Int) (LWithoutBlock : ResultType)
    (st1 st2 : AnalysisState)
    (hres : st1.results = st2.results) (hsel : st1.selectCases = st2.selectCases)
    (hforks : st1.allForks = st2.allForks)
    (htraces : st1.traces.Perm st2.traces)
    (hbuckets : st1.leakingChannels.Perm st2.leakingChannels)
    (hrecv : st1.mostRecentReceive.Perm st2.mostRecentReceive)
    (hsend : st1.mostRecentSend.Perm st2.mostRecentSend) :
    (∃ new1 new2,
      (checkForStuckRoutine LWithoutBlock st1).results = st1.results ++ new1 ∧
      (checkForStuckRoutine LWithoutBlock st2).results = st1.results ++ new2 ∧
      new1.Perm new2) ∧
    (∃ new1 new2,
      (checkForLeak info st1).results = st1.results ++ new1 ∧
      (checkForLeak info st2).results = st1.results ++ new2 ∧
      new1.Perm new2) ∧
    (∀ (ch : TraceElementChannel) (vc : VectorClock),
      info ch.GetTID = some (pos ch.GetTID) →
      (∀ entry ∈ st1.mostRecentReceive ++ st1.mostRecentSend, ∀ op,
        GoMap.lookup entry.2 ch.id = some op →
        info op.Elem.GetTID = some (pos op.Elem.GetTID)) →
      ∃ new1 new2,
        (CheckForLeakChannelStuck info st1 ch vc).results = st1.results ++ new1 ∧
        (CheckForLeakChannelStuck info st2 ch vc).results = st1.results ++ new2 ∧
        new1.Perm new2) := by
  refine ⟨⟨st1.traces.filterMap (fun entry =>
        stuckRoutineResult LWithoutBlock st1.allForks entry.1 entry.2),
      st2.traces.filterMap (fun entry =>
        stuckRoutineResult LWithoutBlock st2.allForks entry.1 entry.2), ?_, ?_, ?_⟩,
    ⟨st1.leakingChannels.flatMap (fun bucket =>
        leakBucket info st1.selectCases bucket.2 false),
      st2.leakingChannels.flatMap (fun bucket =>
        leakBucket info st2.selectCases bucket.2 false), ?_, ?_, ?_⟩, ?_⟩
  · rfl
  · rw [hres]
    rfl
  · rw [hforks]
    exact htraces.filterMap _
  · rfl
  · rw [hres]
    rfl
  · rw [hsel]
    exact hbuckets.flatMap_right _
  · intro ch vc hself hpart
    exact stuck_perm info pos st1 st2 ch vc hres hrecv hsend hself hpart

/-- C29, amended, on the states `exOrderStateA` and `exOrderStateB`, which hold
the same maps in two visiting orders, with the stuck send `exStuckSend`. -/
theorem C29_results_up_to_order_witness :
    exOrderStateA.traces.Perm exOrderStateB.traces ∧
    exOrderStateA.leakingChannels.Perm exOrderStateB.leakingChannels ∧
    exOrderStateA.mostRecentReceive.Perm exOrderStateB.mostRecentReceive ∧
    (∃ new1 new2,
      (checkForStuckRoutine "LWithoutBlock" exOrderStateA).results =
        exOrderStateA.results ++ new1 ∧
      (checkForStuckRoutine "LWithoutBlock" exOrderStateB).results =
        exOrderStateA.results ++ new2 ∧
      new1.Perm new2) ∧
    (∃ new1 new2,
      (checkForLeak infoFromTID exOrderStateA).results = exOrderStateA.results ++ new1 ∧
      (checkForLeak infoFromTID exOrderStateB).results = exOrderStateA.results ++ new2 ∧
      new1.Perm new2) ∧
    (∃ new1 new2,
      (CheckForLeakChannelStuck infoFromTID exOrderStateA exStuckSend exClockB).results =
        exOrderStateA.results ++ new1 ∧
      (CheckForLeakChannelStuck infoFromTID exOrderStateB exStuckSend exClockB).results =
        exOrderStateA.results ++ new2 ∧
      new1.Perm new2) := by
  have h := C29_results_up_to_order infoFromTID
    (fun tID => (infoFromTID tID).getD ("", 0, 0)) "LWithoutBlock"
    exOrderStateA exOrderStateB rfl rfl rfl (List.Perm.swap _ _ _) (List.Perm.swap _ _ _)
    (List.Perm.swap _ _ _) (List.Perm.refl _)
  refine ⟨List.Perm.swap _ _ _, List.Perm.swap _ _ _, List.Perm.swap _ _ _, h.1, h.2.1,
    h.2.2 exStuckSend exClockB (by decide) ?_⟩
  intro entry hentry op hop
  simp only [exOrderStateA, List.append_nil, List.mem_cons, List.mem_singleton,
    List.not_mem_nil, or_false] at hentry
  rcases hentry with rfl | rfl
  · simp only [GoMap.lookup, exStuckSend, if_true, Option.some.injEq] at hop
    subst hop
    decide
  · simp only [GoMap.lookup, exStuckSend, if_true, Option.some.injEq] at hop
    subst hop
    decide

/-! ## Theorems on `reader.go` -/

/-- The empty line splits into one empty field. -/
theorem lineFields_empty : lineFields "" = [""] := by decide

/-- A line with a known tag and fewer fields than its case reads makes
`processElement` panic, unless it is an atomic line and atomics are ignored. -/
theorem processElement_tooFew {σ : Type} (adders : TraceAdders σ) (st : σ) (routine : Int)
    (ignoreAtomics : Bool) (element tag : String) (rest : List String)
    (hfields : lineFields element = tag :: rest) (htag : tag ∈ knownTags)
    (hign : ¬ (tag = "A" ∧ ignoreAtomics = true))
    (hlen : rest.length < lastFieldIndex tag) :
    processElement adders st element routine ignoreAtomics = none := by
  have hne : element ≠ "" := by
    intro h
    rw [h, lineFields_empty] at hfields
    simp only [List.cons.injEq] at hfields
    rw [← hfields.1] at htag
    revert htag
    decide
  have hk : ∀ k, lastFieldIndex tag = k + 1 → rest[k]? = none := by
    intro k hk
    exact List.getElem?_eq_none (by omega)
  unfold processElement
  rw [if_neg hne]
  simp only [hfields, List.getElem?_cons_zero]
  simp only [knownTags, List.mem_cons, List.mem_singleton, List.not_mem_nil, or_false] at htag
  rcases htag with rfl | rfl | rfl | rfl | rfl | rfl | rfl | rfl | rfl
  · have hi : ignoreAtomics = false := by
      cases ignoreAtomics
      · rfl
      · exact absurd ⟨rfl, rfl⟩ hign
    subst hi
    simp [hk 3 (by decide)]
  · simp [hk 7 (by decide)]
  · simp [hk 6 (by decide)]
  · simp [hk 2 (by decide)]
  · simp [hk 5 (by decide)]
  · simp [hk 6 (by decide)]
  · simp [hk 4 (by decide)]
  · simp [hk 4 (by decide)]
  · simp [hk 0 (by decide)]

/-- A line whose tag has no case makes `processElement` return the error of the
default case and leave the trace state as it is. -/
theorem processElement_unknown {σ : Type} (adders : TraceAdders σ) (st : σ) (routine : Int)
    (ignoreAtomics : Bool) (element tag : String) (rest : List String)
    (hne : element ≠ "") (hfields : lineFields element = tag :: rest)
    (htag : tag ∉ knownTags) :
    processElement adders st element routine ignoreAtomics =
      some (st, some ("Unknown element type in: " ++ element)) := by
  unfold processElement
  rw [if_neg hne]
  simp only [hfields, List.getElem?_cons_zero]
  simp only [knownTags, List.mem_cons, List.mem_singleton, List.not_mem_nil, or_false,
    not_or] at htag
  obtain ⟨h1, h2, h3, h4, h5, h6, h7, h8, h9⟩ := htag
  simp only [if_neg h1, if_neg h2, if_neg h3, if_neg h4, if_neg h5, if_neg h6, if_neg h7,
    if_neg h8, if_neg h9]

/-- With `ignoreAtomics` set, `processElement` returns `nil` for an atomic line
and adds nothing. -/
theorem processElement_atomic_ignored {σ : Type} (adders : TraceAdders σ) (st : σ)
    (routine : Int) (element : String) (rest : List String)
    (hfields : lineFields element = "A" :: rest) :
    processElement adders st element routine true = some (st, none) := by
  have hne : element ≠ "" := by
    intro h
    rw [h, lineFields_empty] at hfields
    simp only [List.cons.injEq] at hfields
    exact absurd hfields.1 (by decide)
  unfold processElement
  rw [if_neg hne]
  simp only [hfields, List.getElem?_cons_zero, if_true]

/-- A once line with at least six fields is passed to `AddTraceElementOnce`. -/
theorem processElement_once {σ : Type} (adders : TraceAdders σ) (st : σ)
    (routine : Int) (ignoreAtomics : Bool) (element : String) (f1 f2 f3 f4 f5 : String)
    (more : List String)
    (hfields : lineFields element = "O" :: f1 :: f2 :: f3 :: f4 :: f5 :: more) :
    processElement adders st element routine ignoreAtomics =
      some (AddTraceElementOnce adders st routine f1 f2 f3 f4 f5) := by
  have hne : element ≠ "" := by
    intro h
    rw [h, lineFields_empty] at hfields
    simp only [List.cons.injEq] at hfields
    exact absurd hfields.1 (by decide)
  unfold processElement
  rw [if_neg hne]
  simp [hfields]

/-- When the pre timestamp, the post timestamp or the id is not an integer,
`AddTraceElementOnce` returns an error and adds nothing. -/
theorem AddTraceElementOnce_not_integer {σ : Type} (adders : TraceAdders σ) (st : σ)
    (routine : Int) (tPre tPost id suc pos : String)
    (h : (strconvAtoi tPre.data).2 = false ∨ (strconvAtoi tPost.data).2 = false ∨
      (strconvAtoi id.data).2 = false) :
    ∃ msg, AddTraceElementOnce adders st routine tPre tPost id suc pos = (st, some msg) := by
  unfold AddTraceElementOnce
  simp only []
  by_cases h1 : (strconvAtoi tPre.data).2 = false
  · exact ⟨_, if_pos h1⟩
  · rw [if_neg h1]
    by_cases h2 : (strconvAtoi tPost.data).2 = false
    · exact ⟨_, if_pos h2⟩
    · rw [if_neg h2]
      by_cases h3 : (strconvAtoi id.data).2 = false
      · exact ⟨_, if_pos h3⟩
      · rcases h with h | h | h
        · exact absurd h h1
        · exact absurd h h2
        · exact absurd h h3

/-- A scan over lines that are empty or have an unknown tag runs to the end,
leaves the trace state as it is and sets `containsElem` if there is a line. -/
theorem scanLoop_dropped {σ : Type} (adders : TraceAdders σ) (routine : Int)
    (ignoreAtomics : Bool) (lines : List String) (st : σ) (containsElem : Bool)
    (hlines : ∀ line ∈ lines, line = "" ∨
      ∃ tag rest, lineFields line = tag :: rest ∧ tag ∉ knownTags) :
    scanLoop adders routine ignoreAtomics lines st containsElem =
      some (st, containsElem || !lines.isEmpty) := by
  induction lines generalizing containsElem with
  | nil => simp [scanLoop]
  | cons line rest ih =>
    have hp : ∃ msg, processElement adders st line routine ignoreAtomics =
        some (st, some msg) := by
      rcases hlines line (List.mem_cons_self _ _) with h | ⟨tag, more, hf, ht⟩
      · subst h
        exact ⟨_, rfl⟩
      · by_cases hne : line = ""
        · subst hne
          exact ⟨_, rfl⟩
        · exact ⟨_, processElement_unknown adders st routine ignoreAtomics line tag more hne hf ht⟩
    obtain ⟨msg, hp⟩ := hp
    unfold scanLoop
    rw [hp]
    simp only []
    rw [ih true (fun l hl => hlines l (List.mem_cons_of_mem _ hl))]
    simp

/-- For a file that could be opened, `CreateTraceFromFile` returns when the
loop returns, with the error of the scanner. -/
theorem CreateTraceFromFile_ok {σ : Type} (adders : TraceAdders σ) (st : σ)
    (routine : Int) (ignoreAtomics : Bool) (scan : FileScan) :
    CreateTraceFromFile adders st (.ok scan) routine ignoreAtomics =
      (scanLoop adders routine ignoreAtomics scan.lines st false).map
        (fun res => (res.1, res.2, scan.err)) := by
  unfold CreateTraceFromFile
  simp only []
  cases scanLoop adders routine ignoreAtomics scan.lines st false with
  | none => rfl
  | some res =>
    obtain ⟨st2, c⟩ := res
    cases herr : scan.err <;> simp [herr]

/-- C30 on the code: `processElement` returns an error for a line with an
unknown tag and for a once line whose pre timestamp, post timestamp or id is
not an integer, and returns `nil` without adding anything for an atomic line
when `ignoreAtomics` is set; a line with a known tag and too few fields makes
it panic at an index expression. `CreateTraceFromFile` does not look at the
value `processElement` returns: its error is the error of `os.Open` or of the
scanner, so a file whose lines are all empty or of an unknown tag gives `nil`,
and it panics when its first line has too few fields. -/
theorem C30_parse_errors_not_returned {σ : Type} (adders : TraceAdders σ) (st : σ)
    (routine : Int) (ignoreAtomics : Bool) :
    (∀ element tag rest, element ≠ "" → lineFields element = tag :: rest →
      tag ∉ knownTags →
      processElement adders st element routine ignoreAtomics =
        some (st, some ("Unknown element type in: " ++ element))) ∧
    (∀ element rest, lineFields element = "A" :: rest →
      processElement adders st element routine true = some (st, none)) ∧
    (∀ element tag rest, lineFields element = tag :: rest → tag ∈ knownTags →
      ¬ (tag = "A" ∧ ignoreAtomics = true) → rest.length < lastFieldIndex tag →
      processElement adders st element routine ignoreAtomics = none ∧
      ∀ more err, CreateTraceFromFile adders st (.ok ⟨element :: more, err⟩) routine
        ignoreAtomics = none) ∧
    (∀ element f1 f2 f3 f4 f5 more,
      lineFields element = "O" :: f1 :: f2 :: f3 :: f4 :: f5 :: more →
      (strconvAtoi f1.data).2 = false ∨ (strconvAtoi f2.data).2 = false ∨
        (strconvAtoi f3.data).2 = false →
      ∃ msg, processElement adders st element routine ignoreAtomics = some (st, some msg)) ∧
    (∀ err, CreateTraceFromFile adders st (.error err) routine ignoreAtomics =
      some (st, false, some err)) ∧
    (∀ scan, CreateTraceFromFile adders st (.ok scan) routine ignoreAtomics =
      (scanLoop adders routine ignoreAtomics scan.lines st false).map
        (fun res => (res.1, res.2, scan.err))) ∧
    (∀ lines, (∀ line ∈ lines, line = "" ∨
        ∃ tag rest, lineFields line = tag :: rest ∧ tag ∉ knownTags) →
      CreateTraceFromFile adders st (.ok ⟨lines, none⟩) routine ignoreAtomics =
        some (st, !lines.isEmpty, none)) := by
  refine ⟨?_, ?_, ?_, ?_, ?_, ?_, ?_⟩
  · intro element tag rest hne hfields htag
    exact processElement_unknown adders st routine ignoreAtomics element tag rest hne hfields
      htag
  · intro element rest hfields
    exact processElement_atomic_ignored adders st routine element rest hfields
  · intro element tag rest hfields htag hign hlen
    have hp := processElement_tooFew adders st routine ignoreAtomics element tag rest hfields
      htag hign hlen
    refine ⟨hp, ?_⟩
    intro more err
    rw [CreateTraceFromFile_ok]
    simp only [scanLoop, hp, Option.map_none']
  · intro element f1 f2 f3 f4 f5 more hfields hint
    rw [processElement_once adders st routine ignoreAtomics element f1 f2 f3 f4 f5 more hfields]
    obtain ⟨msg, hmsg⟩ := AddTraceElementOnce_not_integer adders st routine f1 f2 f3 f4 f5 hint
    exact ⟨msg, by rw [hmsg]⟩
  · intro err
    rfl
  · intro scan
    exact CreateTraceFromFile_ok adders st routine ignoreAtomics scan
  · intro lines hlines
    rw [CreateTraceFromFile_ok, scanLoop_dropped adders routine ignoreAtomics lines st false
      hlines]
    simp

/-- C30 on the code, on example lines with adders that count the added
elements: the lines `X,1` and `O,1,2,x,true,a.go:3` give an error, the line
`A,1` gives `nil` when atomics are ignored, the line `O,1` panics, and the file
of the two lines `X,1` and the empty line gives `true` and `nil`. -/
theorem C30_parse_errors_not_returned_witness :
    processElement exAdders 0 "X,1" 1 false =
      some (0, some "Unknown element type in: X,1") ∧
    processElement exAdders 0 "A,1" 1 true = some (0, none) ∧
    processElement exAdders 0 "O,1" 1 false = none ∧
    CreateTraceFromFile exAdders 0 (.ok ⟨["O,1", "X,1"], none⟩) 1 false = none ∧
    (∃ msg, processElement exAdders 0 "O,1,2,x,true,a.go:3" 1 false = some (0, some msg)) ∧
    CreateTraceFromFile exAdders 0 (.ok ⟨["X,1", ""], none⟩) 1 false =
      some (0, true, none) := by
  have h := C30_parse_errors_not_returned exAdders 0 1 false
  have h3 := h.2.2.1 "O,1" "O" ["1"] (by decide) (by decide) (by decide) (by decide)
  refine ⟨h.1 "X,1" "X" ["1"] (by decide) (by decide) (by decide),
    h.2.1 "A,1" ["1"] (by decide), h3.1, h3.2 ["X,1"] none,
    h.2.2.2.1 "O,1,2,x,true,a.go:3" "1" "2" "x" "true" "a.go:3" [] (by decide)
      (Or.inr (Or.inr (by decide))),
    h.2.2.2.2.2.2 ["X,1", ""] ?_⟩
  intro line hline
  simp only [List.mem_cons, List.mem_singleton, List.not_mem_nil, or_false] at hline
  rcases hline with rfl | rfl
  · exact Or.inr ⟨"X", ["1"], by decide, by decide⟩
  · exact Or.inl rfl

/-! ## Theorems on the chain and cycle tests -/

/-- C35, as stated, fails: `isChain` also rejects a candidate on the lock of a
stacked dependency. The stack holds the dependencies `(5, {1})` and
`(6, {2})`, the candidate is `(5, {6})`: its lockset is disjoint from both
stacked locksets and holds the lock 6 of the top of the stack, and `isChain`
returns false. -/
theorem C35_chain_test_counterexample :
    Disjoint exCandidateSameLock.ls exStackedWrite.ls ∧
      Disjoint exCandidateSameLock.ls exStackedTop.ls ∧
      [exStackedWrite, exStackedTop].getLast? = some exStackedTop ∧
      exStackedTop.l ∈ exCandidateSameLock.ls ∧
      isChain [exStackedWrite, exStackedTop] exCandidateSameLock = some false := by
  refine ⟨by decide, by decide, rfl, by decide, by decide⟩

/-- C35, amended: for a non-empty chain stack, `isChain` returns, and it
returns true exactly when no stacked dependency is on the lock of the
candidate, the lockset of the candidate is disjoint from the lockset of every
stacked dependency (LD-1), and the lock of the top of the stack is in the
lockset of the candidate (LD-2); `isCycleChain` returns, and it returns true
exactly when the lock of the candidate is in the lockset of the first stacked
dependency (LD-3). -/
theorem C35_chain_and_cycle_tests (chain_stack : List LockDependency)
    (dependency : LockDependency) (hne : chain_stack ≠ []) :
    (∃ result top, isChain chain_stack dependency = some result ∧
      chain_stack.getLast? = some top ∧
      (result = true ↔
        (∀ d ∈ chain_stack, d.l ≠ dependency.l) ∧
          (∀ d ∈ chain_stack, Disjoint dependency.ls d.ls) ∧ top.l ∈ dependency.ls)) ∧
    (∃ result first, isCycleChain chain_stack dependency = some result ∧
      chain_stack.head? = some first ∧ (result = true ↔ dependency.l ∈ first.ls)) := by
  constructor
  · obtain ⟨top, htop⟩ : ∃ top, chain_stack.getLast? = some top := by
      cases h : chain_stack.getLast? with
      | none => exact absurd (List.getLast?_eq_none_iff.mp h) hne
      | some top => exact ⟨top, rfl⟩
    have hiff := isChain_iff chain_stack dependency
    have hsome : ∃ result, isChain chain_stack dependency = some result := by
      unfold isChain
      rw [htop]
      split_ifs <;> exact ⟨_, rfl⟩
    obtain ⟨result, hres⟩ := hsome
    refine ⟨result, top, hres, htop, ?_⟩
    rw [hres, htop] at hiff
    simp only [Option.some.injEq, exists_eq_left'] at hiff
    rw [hiff]
    constructor
    · rintro ⟨hall, hin⟩
      refine ⟨fun d hd => (hall d hd).1, fun d hd => ?_, hin⟩
      rw [Finset.disjoint_right]
      exact (hall d hd).2
    · rintro ⟨hl, hdis, hin⟩
      refine ⟨fun d hd => ⟨hl d hd, ?_⟩, hin⟩
      exact Finset.disjoint_right.mp (hdis d hd)
  · cases chain_stack with
    | nil => exact absurd rfl hne
    | cons first rest =>
      refine ⟨decide (dependency.l ∈ first.ls), first, rfl, rfl, ?_⟩
      simp

/-- Witness of C35 (amended): on the stack of one dependency `(5, {1})` the
candidate `(6, {(1, read), 5})` passes the chain test. -/
theorem C35_chain_and_cycle_tests_witness :
    [exStackedWrite] ≠ [] ∧ isChain [exStackedWrite] exCandidateRead = some true ∧
      isCycleChain [exStackedWrite] exCandidateRead = some false := by
  have h := C35_chain_and_cycle_tests [exStackedWrite] exCandidateRead (by simp)
  refine ⟨by simp, ?_, ?_⟩
  · obtain ⟨result, top, hres, htop, hiff⟩ := h.1
    have htop2 : top = exStackedWrite := by
      simp only [List.getLast?_singleton, Option.some.injEq] at htop
      exact htop.symm
    subst htop2
    have : result = true := hiff.mpr ⟨by decide, by decide, by decide⟩
    rw [hres, this]
  · obtain ⟨result, first, hres, hfirst, hiff⟩ := h.2
    have hfirst2 : first = exStackedWrite := by
      simp only [List.head?_cons, Option.some.injEq] at hfirst
      exact hfirst.symm
    subst hfirst2
    have : result = false := by
      cases result with
      | false => rfl
      | true => exact absurd (hiff.mp rfl) (by decide)
    rw [hres, this]

/-- The two directions of `isCause` exclude each other, whatever the widths of
the two clocks. -/
theorem isCause_asymm (a b : VectorClock) (hab : isCause a b = true) :
    isCause b a = false := by
  rw [Bool.eq_false_iff]
  intro hba
  rw [isCause_iff] at hab hba
  obtain ⟨hle1, i, hi1, hi2, hlt1⟩ := hab
  obtain ⟨hle2, j, hj1, hj2, hlt2⟩ := hba
  by_cases hsz : i ≤ b.size
  · have := hle2 i hi1 hsz
    omega
  · have := hle1 j hj1 (by omega)
    omega

/-- C37: `GetHappensBefore` is antisymmetric for all clocks, of the same width
or not: `GetHappensBefore(a, b)` is `Before` exactly when
`GetHappensBefore(b, a)` is `After`, and it is `Concurrent` exactly when
`GetHappensBefore(b, a)` is `Concurrent`. -/
theorem C37_GetHappensBefore_antisymmetric (a b : VectorClock) :
    (GetHappensBefore a b = HappensBefore.Before ↔
        GetHappensBefore b a = HappensBefore.After) ∧
      (GetHappensBefore a b = HappensBefore.Concurrent ↔
        GetHappensBefore b a = HappensBefore.Concurrent) := by
  unfold GetHappensBefore
  cases hab : isCause a b with
  | true =>
    have hba := isCause_asymm a b hab
    simp [hba]
  | false =>
    cases hba : isCause b a with
    | true => simp
    | false => simp

/-! ## Theorems on the totality of `CheckForLeakChannelRun` -/

/-- C38 on the code: a stuck select of routine 4 with two receive cases on
channel 7 leaves two entries with the same `val` in bucket 7. A completed send
on channel 7 with a clock `Concurrent` to the select matches the first entry;
the inner loop removes it, which moves the second entry down in the array,
reads the second entry at index 1 and evaluates `leakingChannels[objID][2:]`
on the slice of length 1: `CheckForLeakChannelRun` panics. -/
theorem C38_run_panics_on_select_group :
    (CheckForLeakSelectStuck infoFromTID {} exSelect [7, 7] [true, true] exClockB
        [1, 1]).map (fun st =>
          (GoMap.getSlice st.leakingChannels 7).map (fun e => (e.sel, e.val, e.selID))) =
      some [(true, 1, 12), (true, 1, 12)] ∧
    GetHappensBefore exClockB exSendVcTID.Vc = HappensBefore.Concurrent ∧
    (CheckForLeakSelectStuck infoFromTID {} exSelect [7, 7] [true, true] exClockB
        [1, 1]).isSome = true ∧
    (CheckForLeakSelectStuck infoFromTID {} exSelect [7, 7] [true, true] exClockB
        [1, 1]).bind (fun st =>
          CheckForLeakChannelRun infoFromTID st 3 7 exSendVcTID 0 true) = none :=
  ⟨by decide, by decide, rfl, rfl⟩

/-! ## Theorems on `ProcessBug` -/

/-- The switch of `ProcessBug` on a known code: the type is the code, `actual`
is set for the codes of the actual bugs, `containsArg2` is cleared for the
codes with one list. -/
theorem bugSwitch_of_mem (code : String) (h : code ∈ bugCodes) :
    bugSwitch code =
      some (code, decide (code ∈ actualCodes), decide (code ∉ oneListCodes)) := by
  simp only [bugCodes, List.mem_cons, List.mem_singleton, List.not_mem_nil, or_false] at h
  rcases h with h | h | h | h | h | h | h | h | h | h | h | h | h | h | h | h | h | h <;>
    subst h <;> decide

/-- The switch of `ProcessBug` takes the default case on every other code. -/
theorem bugSwitch_of_not_mem (code : String) (h : code ∉ bugCodes) : bugSwitch code = none := by
  simp only [bugCodes, List.mem_cons, List.mem_singleton, List.not_mem_nil, or_false,
    not_or] at h
  obtain ⟨h1, h2, h3, h4, h5, h6, h7, h8, h9, h10, h11, h12, h13, h14, h15, h16, h17, h18⟩ := h
  unfold bugSwitch
  simp only [if_neg h1, if_neg h2, if_neg h3, if_neg h4, if_neg h5, if_neg h6, if_neg h7,
    if_neg h8, if_neg h9, if_neg h10, if_neg h11, if_neg h12, if_neg h13, if_neg h14,
    if_neg h15, if_neg h16, if_neg h17, if_neg h18]

/-- The loop over the first argument returns the elements when every lookup of
a non-blank argument succeeds. -/
theorem bugArgs1_ok {τ : Type} (getElem : String → Except String τ) (args : List String)
    (elems : List τ)
    (h : ∀ a ∈ args, stringsTrimSpace a ≠ "" → ∃ e, getElem a = .ok e) :
    ∃ out, bugArgs1 getElem args elems = .ok out := by
  induction args generalizing elems with
  | nil => exact ⟨elems, rfl⟩
  | cons a rest ih =>
    unfold bugArgs1
    by_cases hb : stringsTrimSpace a = ""
    · rw [if_pos hb]
      exact ih elems (fun x hx => h x (List.mem_cons_of_mem _ hx))
    · rw [if_neg hb]
      obtain ⟨e, he⟩ := h a (List.mem_cons_self _ _) hb
      rw [he]
      exact ih (elems ++ [e]) (fun x hx => h x (List.mem_cons_of_mem _ hx))

/-- A string that is not blank is not empty, so `bugArg[0]` is in range. -/
theorem data_ne_nil_of_not_blank (a : String) (h : stringsTrimSpace a ≠ "") : a.data ≠ [] := by
  intro hd
  apply h
  unfold stringsTrimSpace
  rw [hd]
  rfl

/-- The loop over the second argument does not panic. -/
theorem bugArgs2_isSome {τ : Type} (getElem : String → Except String τ) (args : List String)
    (elems : List τ) : (bugArgs2 getElem args elems).isSome = true := by
  induction args generalizing elems with
  | nil => rfl
  | cons a rest ih =>
    unfold bugArgs2
    by_cases hb : stringsTrimSpace a = ""
    · rw [if_pos hb]
      exact ih elems
    · rw [if_neg hb]
      have hne := data_ne_nil_of_not_blank a hb
      cases hd : a.data with
      | nil => exact absurd hd hne
      | cons first more =>
        simp only []
        by_cases hT : first = 'T'
        · rw [if_pos hT]
          cases getElem a with
          | error err => rfl
          | ok elem => exact ih _
        · rw [if_neg hT]
          exact ih elems

/-- The loop over the second argument returns the elements when every lookup
of a non-blank argument that starts with `T` succeeds. -/
theorem bugArgs2_ok {τ : Type} (getElem : String → Except String τ) (args : List String)
    (elems : List τ)
    (h : ∀ a ∈ args, stringsTrimSpace a ≠ "" → a.data.head? = some 'T' →
      ∃ e, getElem a = .ok e) :
    ∃ out, bugArgs2 getElem args elems = some (.ok out) := by
  induction args generalizing elems with
  | nil => exact ⟨elems, rfl⟩
  | cons a rest ih =>
    unfold bugArgs2
    by_cases hb : stringsTrimSpace a = ""
    · rw [if_pos hb]
      exact ih elems (fun x hx => h x (List.mem_cons_of_mem _ hx))
    · rw [if_neg hb]
      have hne := data_ne_nil_of_not_blank a hb
      cases hd : a.data with
      | nil => exact absurd hd hne
      | cons first more =>
        simp only []
        by_cases hT : first = 'T'
        · rw [if_pos hT]
          obtain ⟨e, he⟩ := h a (List.mem_cons_self _ _) hb (by rw [hd, hT]; rfl)
          rw [he]
          exact ih _ (fun x hx => h x (List.mem_cons_of_mem _ hx))
        · rw [if_neg hT]
          exact ih elems (fun x hx => h x (List.mem_cons_of_mem _ hx))

/-- `ProcessBug` on an input of two fields whose code has a second list: the
index expression `bugSplit[2]` panics. -/
theorem ProcessBug_two_fields_panics {τ : Type} (getElem : String → Except String τ)
    (bugStr code arg1 : String) (hfields : lineFields bugStr = [code, arg1])
    (hcode : code ∈ bugCodes) (hone : code ∉ oneListCodes) :
    ProcessBug getElem bugStr = none := by
  have hsw := bugSwitch_of_mem code hcode
  simp only [hone, not_false_eq_true, decide_True] at hsw
  unfold ProcessBug
  simp only [hfields, List.getElem?_cons_zero]
  rw [hsw]
  simp

/-- `ProcessBug` on an input of two fields whose code has one list. -/
theorem ProcessBug_two_fields_ok {τ : Type} (getElem : String → Except String τ)
    (bugStr code arg1 : String) (hfields : lineFields bugStr = [code, arg1])
    (hone : code ∈ oneListCodes)
    (h1 : ∀ a ∈ stringsSplit arg1 ';', stringsTrimSpace a ≠ "" → ∃ e, getElem a = .ok e) :
    ∃ bug, ProcessBug getElem bugStr = some (false, bug, none) ∧ bug.Typ = code := by
  have hcode : code ∈ bugCodes := by
    simp only [oneListCodes, List.mem_cons, List.mem_singleton, List.not_mem_nil,
      or_false] at hone
    rcases hone with h | h | h | h | h | h <;> subst h <;> decide
  have hact : decide (code ∈ actualCodes) = false := by
    simp only [oneListCodes, List.mem_cons, List.mem_singleton, List.not_mem_nil,
      or_false] at hone
    rcases hone with h | h | h | h | h | h <;> subst h <;> decide
  obtain ⟨out, hout⟩ := bugArgs1_ok getElem (stringsSplit arg1 ';') [] h1
  have hsw := bugSwitch_of_mem code hcode
  simp only [hone, not_true_eq_false, decide_False, hact] at hsw
  unfold ProcessBug
  simp only [hfields, List.getElem?_cons_zero]
  rw [hsw]
  simp [hout]
/-- `ProcessBug` on an input of three fields with a known code. -/
theorem ProcessBug_three_fields_ok {τ : Type} (getElem : String → Except String τ)
    (bugStr code arg1 arg2 : String) (hfields : lineFields bugStr = [code, arg1, arg2])
    (hcode : code ∈ bugCodes)
    (h1 : ∀ a ∈ stringsSplit arg1 ';', stringsTrimSpace a ≠ "" → ∃ e, getElem a = .ok e)
    (h2 : code ∉ oneListCodes → ∀ a ∈ stringsSplit arg2 ';', stringsTrimSpace a ≠ "" →
      a.data.head? = some 'T' → ∃ e, getElem a = .ok e) :
    ∃ bug, ProcessBug getElem bugStr = some (decide (code ∈ actualCodes), bug, none) ∧
      bug.Typ = code := by
  have hsw := bugSwitch_of_mem code hcode
  obtain ⟨out, hout⟩ := bugArgs1_ok getElem (stringsSplit arg1 ';') [] h1
  unfold ProcessBug
  simp only [hfields, List.getElem?_cons_zero]
  rw [hsw]
  by_cases hone : code ∈ oneListCodes
  · simp [hone, hout]
  · obtain ⟨out2, hout2⟩ := bugArgs2_ok getElem (stringsSplit arg2 ';') [] (h2 hone)
    simp [hone, hout, hout2]

/-- `ProcessBug` on an input of two or three fields with an unknown code. -/
theorem ProcessBug_unknown {τ : Type} (getElem : String → Except String τ)
    (bugStr code : String) (rest : List String) (hfields : lineFields bugStr = code :: rest)
    (hlen : rest.length = 1 ∨ rest.length = 2) (hcode : code ∉ bugCodes) :
    ProcessBug getElem bugStr =
      some (false, { Typ := "", TraceElement1 := [], TraceElement2 := [] },
        some ("Unknown bug type: " ++ bugStr)) := by
  have hsw := bugSwitch_of_not_mem code hcode
  unfold ProcessBug
  simp only [hfields, List.getElem?_cons_zero, List.length_cons]
  rw [hsw]
  rcases hlen with h | h <;> simp [h]

/-- `ProcessBug` on an input that does not split into two or three fields. -/
theorem ProcessBug_wrong_count {τ : Type} (getElem : String → Except String τ)
    (bugStr : String) (h2 : (lineFields bugStr).length ≠ 2)
    (h3 : (lineFields bugStr).length ≠ 3) :
    ProcessBug getElem bugStr =
      some (false, { Typ := "", TraceElement1 := [], TraceElement2 := [] },
        some ("Could not split bug: " ++ bugStr)) := by
  unfold ProcessBug
  simp only []
  rw [if_pos ⟨h3, h2⟩]

/-- `ProcessBug` panics exactly on the inputs of two fields whose code is known
and has a second list. -/
theorem ProcessBug_none_iff {τ : Type} (getElem : String → Except String τ)
    (bugStr : String) :
    ProcessBug getElem bugStr = none ↔
      ∃ code arg1, lineFields bugStr = [code, arg1] ∧ code ∈ bugCodes ∧
        code ∉ oneListCodes := by
  constructor
  · intro hnone
    by_cases hlen : (lineFields bugStr).length ≠ 2 ∧ (lineFields bugStr).length ≠ 3
    · rw [ProcessBug_wrong_count getElem bugStr hlen.1 hlen.2] at hnone
      exact absurd hnone (by simp)
    · rcases hf : lineFields bugStr with _ | ⟨code, _ | ⟨arg1, _ | ⟨arg2, _ | ⟨x, more⟩⟩⟩⟩
      · rw [hf] at hlen; simp at hlen
      · rw [hf] at hlen; simp at hlen
      · by_cases hcode : code ∈ bugCodes
        · by_cases hone : code ∈ oneListCodes
          · exfalso
            have hsw := bugSwitch_of_mem code hcode
            simp only [hone, not_true_eq_false, decide_False] at hsw
            unfold ProcessBug at hnone
            simp only [hf, List.getElem?_cons_zero] at hnone
            rw [hsw] at hnone
            cases h1 : bugArgs1 getElem (stringsSplit arg1 ';') [] with
            | error e => simp [h1] at hnone
            | ok out => simp [h1] at hnone
          · exact ⟨code, arg1, rfl, hcode, hone⟩
        · rw [ProcessBug_unknown getElem bugStr code [arg1] hf (Or.inl rfl) hcode] at hnone
          exact absurd hnone (by simp)
      · exfalso
        by_cases hcode : code ∈ bugCodes
        · have hsw := bugSwitch_of_mem code hcode
          unfold ProcessBug at hnone
          simp only [hf, List.getElem?_cons_zero] at hnone
          rw [hsw] at hnone
          have h2 := bugArgs2_isSome getElem (stringsSplit arg2 ';') []
          cases h1 : bugArgs1 getElem (stringsSplit arg1 ';') [] with
          | error e => by_cases hone : code ∈ oneListCodes <;> simp [h1, hone] at hnone
          | ok out =>
            cases hb : bugArgs2 getElem (stringsSplit arg2 ';') [] with
            | none => rw [hb] at h2; simp at h2
            | some r =>
              cases r with
              | error e => by_cases hone : code ∈ oneListCodes <;> simp [h1, hb, hone] at hnone
              | ok out2 => by_cases hone : code ∈ oneListCodes <;> simp [h1, hb, hone] at hnone
        · rw [ProcessBug_unknown getElem bugStr code [arg1, arg2] hf (Or.inr rfl) hcode]
            at hnone
          exact absurd hnone (by simp)
      · rw [hf] at hlen; simp at hlen
  · rintro ⟨code, arg1, hf, hcode, hone⟩
    exact ProcessBug_two_fields_panics getElem bugStr code arg1 hf hcode hone
/-- C31 on the code: what `ProcessBug` returns for an input with the fields
`code, arg1` or `code, arg1, arg2`. With three fields, a known code and
succeeding lookups it returns no error, a bug whose type is the code, and
`actual = true` exactly for the codes `A01` to `A05`; so it does with two
fields and a code with one list (`L02`, `L04`, `L05`, `L07`, `L09`, `L10`,
never actual). With two fields and any other known code the index expression
`bugSplit[2]` panics, as for the input `A04,T1`. An unknown code, and an input
that does not split into two or three fields, give an error. -/
theorem C31_ProcessBug_classification {τ : Type} (getElem : String → Except String τ)
    (bugStr code arg1 : String) :
    (∀ arg2, lineFields bugStr = [code, arg1, arg2] → code ∈ bugCodes →
      (∀ a ∈ stringsSplit arg1 ';', stringsTrimSpace a ≠ "" → ∃ e, getElem a = .ok e) →
      (code ∉ oneListCodes → ∀ a ∈ stringsSplit arg2 ';', stringsTrimSpace a ≠ "" →
        a.data.head? = some 'T' → ∃ e, getElem a = .ok e) →
      ∃ bug, ProcessBug getElem bugStr = some (decide (code ∈ actualCodes), bug, none) ∧
        bug.Typ = code) ∧
    (lineFields bugStr = [code, arg1] → code ∈ oneListCodes →
      (∀ a ∈ stringsSplit arg1 ';', stringsTrimSpace a ≠ "" → ∃ e, getElem a = .ok e) →
      code ∉ actualCodes ∧
        ∃ bug, ProcessBug getElem bugStr = some (false, bug, none) ∧ bug.Typ = code) ∧
    (lineFields bugStr = [code, arg1] → code ∈ bugCodes → code ∉ oneListCodes →
      ProcessBug getElem bugStr = none) ∧
    ProcessBug exGetElem "A04,T1" = none ∧
    (∀ rest, lineFields bugStr = code :: rest → rest.length = 1 ∨ rest.length = 2 →
      code ∉ bugCodes →
      ProcessBug getElem bugStr =
        some (false, { Typ := "", TraceElement1 := [], TraceElement2 := [] },
          some ("Unknown bug type: " ++ bugStr))) ∧
    ((lineFields bugStr).length ≠ 2 → (lineFields bugStr).length ≠ 3 →
      ProcessBug getElem bugStr =
        some (false, { Typ := "", TraceElement1 := [], TraceElement2 := [] },
          some ("Could not split bug: " ++ bugStr))) := by
  refine ⟨fun arg2 hf hcode h1 h2 =>
      ProcessBug_three_fields_ok getElem bugStr code arg1 arg2 hf hcode h1 h2,
    fun hf hone h1 => ⟨?_, ProcessBug_two_fields_ok getElem bugStr code arg1 hf hone h1⟩,
    fun hf hcode hone => ProcessBug_two_fields_panics getElem bugStr code arg1 hf hcode hone,
    by decide,
    fun rest hf hlen hcode => ProcessBug_unknown getElem bugStr code rest hf hlen hcode,
    fun h2 h3 => ProcessBug_wrong_count getElem bugStr h2 h3⟩
  simp only [oneListCodes, List.mem_cons, List.mem_singleton, List.not_mem_nil,
    or_false] at hone
  rcases hone with h | h | h | h | h | h <;> subst h <;> decide

/-- C31 on the code, on example inputs with a lookup that finds the arguments
starting with `T`: `A01,T1,T2` gives an actual bug of type `A01`, `P01,T1,T2`
a bug of type `P01` that is not actual, `L02,T1` a bug of type `L02`; `P01,T1`
panics; `P04,T1,T2` and `A01` give an error. -/
theorem C31_ProcessBug_classification_witness :
    ProcessBug exGetElem "A01,T1,T2" =
      some (true, { Typ := "A01", TraceElement1 := ["T1"], TraceElement2 := ["T2"] }, none) ∧
    (∃ bug, ProcessBug exGetElem "P01,T1,T2" = some (false, bug, none) ∧ bug.Typ = "P01") ∧
    (∃ bug, ProcessBug exGetElem "L02,T1" = some (false, bug, none) ∧ bug.Typ = "L02") ∧
    ProcessBug exGetElem "P01,T1" = none ∧
    ProcessBug exGetElem "P04,T1,T2" =
      some (false, { Typ := "", TraceElement1 := [], TraceElement2 := [] },
        some "Unknown bug type: P04,T1,T2") ∧
    ProcessBug exGetElem "A01" =
      some (false, { Typ := "", TraceElement1 := [], TraceElement2 := [] },
        some "Could not split bug: A01") := by
  have hlook : ∀ a ∈ stringsSplit "T1" ';', stringsTrimSpace a ≠ "" →
      ∃ e, exGetElem a = .ok e := by
    intro a ha _
    have : a = "T1" := by
      have hs : stringsSplit "T1" ';' = ["T1"] := by decide
      rw [hs] at ha
      simpa using ha
    subst this
    exact ⟨"T1", rfl⟩
  have hlook2 : ∀ a ∈ stringsSplit "T2" ';', stringsTrimSpace a ≠ "" →
      a.data.head? = some 'T' → ∃ e, exGetElem a = .ok e := by
    intro a ha _ _
    have : a = "T2" := by
      have hs : stringsSplit "T2" ';' = ["T2"] := by decide
      rw [hs] at ha
      simpa using ha
    subst this
    exact ⟨"T2", rfl⟩
  refine ⟨by decide,
    (C31_ProcessBug_classification exGetElem "P01,T1,T2" "P01" "T1").1 "T2" (by decide)
      (by decide) hlook (fun _ => hlook2),
    ((C31_ProcessBug_classification exGetElem "L02,T1" "L02" "T1").2.1 (by decide)
      (by decide) hlook).2,
    (C31_ProcessBug_classification exGetElem "P01,T1" "P01" "T1").2.2.1 (by decide)
      (by decide) (by decide),
    (C31_ProcessBug_classification exGetElem "P04,T1,T2" "P04" "T1").2.2.2.2.1 ["T1", "T2"]
      (by decide) (Or.inr rfl) (by decide),
    (C31_ProcessBug_classification exGetElem "A01" "A01" "").2.2.2.2.2 (by decide)
      (by decide)⟩

/-- C39 on the code: `ProcessBug` panics exactly on the inputs of two fields
whose code is known and has a second list, where `bugSplit[2]` is out of
range; the inputs `A01,T1` and `P03,` are such. On every other input it
returns: an empty argument is passed over, `bugArg[0]` is read for non-blank
arguments only, and the loop over the second argument never panics. -/
theorem C39_ProcessBug_panics_on_two_fields {τ : Type} (getElem : String → Except String τ)
    (bugStr : String) :
    (ProcessBug getElem bugStr = none ↔
      ∃ code arg1, lineFields bugStr = [code, arg1] ∧ code ∈ bugCodes ∧
        code ∉ oneListCodes) ∧
    (∀ args elems, (bugArgs2 getElem args elems).isSome = true) ∧
    ProcessBug exGetElem "A01,T1" = none ∧
    ProcessBug exGetElem "P03," = none ∧
    ProcessBug exGetElem "L02," =
      some (false, { Typ := "L02", TraceElement1 := [], TraceElement2 := [] }, none) ∧
    ProcessBug exGetElem "A01,," =
      some (true, { Typ := "A01", TraceElement1 := [], TraceElement2 := [] }, none) :=
  ⟨ProcessBug_none_iff getElem bugStr, fun args elems => bugArgs2_isSome getElem args elems,
    by decide, by decide, by decide, by decide⟩

/-! ## Theorems on the decimal representation -/

/-- The digits that `Nat.toDigitsCore` puts in front of the digits collected so
far do not depend on the bound, once it exceeds the number. -/
theorem toDigitsCore_eq_append (n : Nat) :
    ∀ (f : Nat) (ds : List Char), n < f →
      Nat.toDigitsCore 10 f n ds = Nat.toDigits 10 n ++ ds := by
  induction n using Nat.strong_induction_on with
  | _ n ih =>
    intro f ds hf
    cases f with
    | zero => omega
    | succ f =>
      unfold Nat.toDigits
      simp only [Nat.toDigitsCore]
      by_cases h0 : n / 10 = 0
      · simp [h0]
      · have hlt : n / 10 < n := Nat.div_lt_self (by omega) (by decide)
        simp only [if_neg h0]
        rw [ih (n / 10) hlt f _ (by omega), ih (n / 10) hlt n _ hlt]
        simp

/-- The decimal digits of a number below 10. -/
theorem toDigits_small (n : Nat) (h : n < 10) : Nat.toDigits 10 n = [Nat.digitChar n] := by
  unfold Nat.toDigits
  simp only [Nat.toDigitsCore]
  have h0 : n / 10 = 0 := Nat.div_eq_of_lt h
  have h1 : n % 10 = n := Nat.mod_eq_of_lt h
  simp [h0, h1]

/-- The decimal digits of a number from 10 on: the digits of the tenth, then
the last digit. -/
theorem toDigits_step (n : Nat) (h : 10 ≤ n) :
    Nat.toDigits 10 n = Nat.toDigits 10 (n / 10) ++ [Nat.digitChar (n % 10)] := by
  have h0 : n / 10 ≠ 0 := by
    intro h0
    have := Nat.div_eq_zero_iff (by decide : 0 < 10) |>.mp h0
    omega
  have hlt : n / 10 < n := Nat.div_lt_self (by omega) (by decide)
  conv_lhs => unfold Nat.toDigits
  simp only [Nat.toDigitsCore, if_neg h0]
  exact toDigitsCore_eq_append (n / 10) n _ hlt

/-- The character with the code `n + 48` is the digit `n`. -/
theorem digitString_eq (n : Nat) (h : n < 10) : digitString n = String.mk [Nat.digitChar n] := by
  unfold digitString
  interval_cases n <;> rfl

/-- `uint64ToString` returns Lean's decimal representation when the bound
is at least the number of digits. -/
theorem uint64ToString_eq (fuel n : Nat) (h : n < 10 ^ (fuel + 1)) :
    uint64ToString (fuel + 1) n = some (toString n) := by
  induction fuel generalizing n with
  | zero =>
    have h10 : n < 10 := by simpa using h
    unfold uint64ToString
    rw [if_pos h10, digitString_eq n h10]
    show _ = some (Nat.repr n)
    unfold Nat.repr
    rw [toDigits_small n h10]
    rfl
  | succ fuel ih =>
    unfold uint64ToString
    by_cases h10 : n < 10
    · rw [if_pos h10, digitString_eq n h10]
      show _ = some (Nat.repr n)
      unfold Nat.repr
      rw [toDigits_small n h10]
      rfl
    · rw [if_neg h10, ih (n / 10) (by
        rw [Nat.div_lt_iff_lt_mul (by decide)]
        rw [pow_succ] at h
        exact h)]
      rw [digitString_eq (n % 10) (Nat.mod_lt _ (by decide))]
      show _ = some (Nat.repr n)
      simp only [Option.map_some']
      show some (Nat.repr (n / 10) ++ _) = _
      unfold Nat.repr
      rw [toDigits_step n (by omega)]
      rfl
/-- On a non-negative argument `int64ToString` does what `uint64ToString`
does. -/
theorem int64ToString_nonneg (fuel : Nat) (n : Int) (h : 0 ≤ n) :
    int64ToString fuel n = uint64ToString fuel n.toNat := by
  induction fuel generalizing n with
  | zero => rfl
  | succ fuel ih =>
    unfold int64ToString uint64ToString
    rw [if_neg (by omega)]
    by_cases h10 : n < 10
    · rw [if_pos h10, if_pos (by omega)]
    · rw [if_neg h10, if_neg (by omega), ih (n / 10) (by omega)]
      have h1 : (n / 10).toNat = n.toNat / 10 := by omega
      have h2 : (n % 10).toNat = n.toNat % 10 := by omega
      rw [h1, h2]

/-- Lean's decimal representation of a negative integer. -/
theorem toString_neg (m : Nat) (h : 0 < m) : toString (-(m : Int)) = "-" ++ toString m := by
  cases m with
  | zero => omega
  | succ m => rfl

/-- `int64ToString` returns Lean's decimal representation of every `int64`
but the smallest, when the bound is at least 20. -/
theorem int64ToString_eq (fuel : Nat) (n : Int) (hfuel : 20 ≤ fuel) (hmin : minInt64 < n)
    (hmax : n ≤ 2 ^ 63 - 1) : int64ToString fuel n = some (toString n) := by
  obtain ⟨f, rfl⟩ : ∃ f, fuel = f + 2 := ⟨fuel - 2, by omega⟩
  have hpow : (2 : Nat) ^ 63 < 10 ^ (f + 1) :=
    calc (2 : Nat) ^ 63 < 10 ^ 19 := by norm_num
      _ ≤ 10 ^ (f + 1) := Nat.pow_le_pow_right (by decide) (by omega)
  unfold minInt64 at hmin
  by_cases hneg : n < 0
  · unfold int64ToString
    rw [if_pos hneg]
    have hw : wrapInt64 (-n) = -n := by
      unfold wrapInt64
      omega
    rw [hw, int64ToString_nonneg _ _ (by omega),
      uint64ToString_eq f (-n).toNat (by omega)]
    obtain ⟨m, hm⟩ : ∃ m : Nat, n = -(m : Int) := ⟨(-n).toNat, by omega⟩
    subst hm
    simp only [neg_neg, Int.toNat_ofNat, Option.map_some']
    rw [toString_neg m (by omega)]
  · rw [int64ToString_nonneg _ _ (by omega), uint64ToString_eq (f + 1) n.toNat (by
      have : (10 : Nat) ^ (f + 1) ≤ 10 ^ (f + 1 + 1) := Nat.pow_le_pow_right (by decide) (by omega)
      omega)]
    obtain ⟨m, hm⟩ : ∃ m : Nat, n = (m : Int) := ⟨n.toNat, by omega⟩
    subst hm
    rfl

/-- On the smallest `int64` the negation wraps to the argument itself, and the
recursion of `int64ToString` is not finished within any bound. -/
theorem int64ToString_min (fuel : Nat) : int64ToString fuel minInt64 = none := by
  induction fuel with
  | zero => rfl
  | succ fuel ih =>
    unfold int64ToString
    have hw : wrapInt64 (-minInt64) = minInt64 := by decide
    rw [if_pos (by decide), hw, ih]
    rfl

/-- C36 on the code: on the smallest `int64`, `-2 ^ 63`, the negation `-n`
wraps to `-2 ^ 63` again, so `int64ToString` calls itself with the same
argument and never returns. On every other `int64` it returns the decimal
representation (a bound of 20 on the depth of the recursion is enough), and
so does `uint64ToString` on every `uint64`. -/
theorem C36_int64ToString_min_never_returns :
    wrapInt64 (-minInt64) = minInt64 ∧
    (∀ fuel, int64ToString fuel minInt64 = none) ∧
    (∀ fuel n, 20 ≤ fuel → minInt64 < n → n ≤ 2 ^ 63 - 1 →
      int64ToString fuel n = some (toString n)) ∧
    (∀ fuel n, 20 ≤ fuel → n < 2 ^ 64 → uint64ToString fuel n = some (toString n)) := by
  refine ⟨by decide, int64ToString_min, int64ToString_eq, ?_⟩
  intro fuel n hfuel hn
  obtain ⟨f, rfl⟩ : ∃ f, fuel = f + 1 := ⟨fuel - 1, by omega⟩
  apply uint64ToString_eq
  have hpow : (2 : Nat) ^ 64 < 10 ^ (f + 1) :=
    calc (2 : Nat) ^ 64 < 10 ^ 20 := by norm_num
      _ ≤ 10 ^ (f + 1) := Nat.pow_le_pow_right (by decide) (by omega)
  omega

/-- C36 on the code, on examples: `-42` gives `-42`, the largest `int64` and
the largest `uint64` give their decimal representations. -/
theorem C36_int64ToString_min_never_returns_witness :
    int64ToString 20 (-42) = some "-42" ∧
    int64ToString 20 9223372036854775807 = some "9223372036854775807" ∧
    uint64ToString 20 18446744073709551615 = some "18446744073709551615" := by
  have h := C36_int64ToString_min_never_returns
  refine ⟨?_, ?_, ?_⟩
  · rw [h.2.2.1 20 (-42) (by decide) (by decide) (by decide)]
    rfl
  · rw [h.2.2.1 20 9223372036854775807 (by decide) (by decide) (by decide)]
    rfl
  · rw [h.2.2.2 20 18446744073709551615 (by decide) (by decide)]
    rfl

/-! ## Theorems on the once trace line -/

/-- The value of a list of digits followed by one more digit. -/
theorem digitsValue_append (ds : List Char) (d : Char) (acc : Nat) :
    digitsValue (ds ++ [d]) acc = (digitsValue ds acc).bind (fun v => digitsValue [d] v) := by
  induction ds generalizing acc with
  | nil => rfl
  | cons c cs ih =>
    rw [List.cons_append]
    conv_lhs => unfold digitsValue
    conv_rhs => rw [digitsValue]
    by_cases hc : '0' ≤ c ∧ c ≤ '9'
    · rw [if_pos hc, if_pos hc]
      exact ih _
    · rw [if_neg hc, if_neg hc]
      rfl

/-- The value of one decimal digit after the value `v`. -/
theorem digitsValue_digitChar (k v : Nat) (h : k < 10) :
    digitsValue [Nat.digitChar k] v = some (10 * v + k) := by
  interval_cases k <;> simp [digitsValue, Nat.digitChar]

/-- The value of the decimal digits of a number is the number. -/
theorem digitsValue_toDigits (n : Nat) : digitsValue (Nat.toDigits 10 n) 0 = some n := by
  induction n using Nat.strong_induction_on with
  | _ n ih =>
    by_cases h10 : n < 10
    · rw [toDigits_small n h10, digitsValue_digitChar n 0 h10]
      simp
    · rw [toDigits_step n (by omega), digitsValue_append,
        ih (n / 10) (Nat.div_lt_self (by omega) (by decide))]
      simp only [Option.some_bind]
      rw [digitsValue_digitChar (n % 10) (n / 10) (Nat.mod_lt _ (by decide))]
      congr 1
      omega

/-- The decimal digits of a number are digits. -/
theorem toDigits_isDigit (n : Nat) : ∀ c ∈ Nat.toDigits 10 n, '0' ≤ c ∧ c ≤ '9' := by
  induction n using Nat.strong_induction_on with
  | _ n ih =>
    have hd : ∀ k, k < 10 → '0' ≤ Nat.digitChar k ∧ Nat.digitChar k ≤ '9' := by
      intro k hk
      interval_cases k <;> decide
    by_cases h10 : n < 10
    · rw [toDigits_small n h10]
      intro c hc
      simp only [List.mem_singleton] at hc
      rw [hc]
      exact hd n h10
    · rw [toDigits_step n (by omega)]
      intro c hc
      rw [List.mem_append] at hc
      rcases hc with hc | hc
      · exact ih (n / 10) (Nat.div_lt_self (by omega) (by decide)) c hc
      · simp only [List.mem_singleton] at hc
        rw [hc]
        exact hd _ (Nat.mod_lt _ (by decide))

/-- The decimal digits of a number are not empty. -/
theorem toDigits_ne_nil (n : Nat) : Nat.toDigits 10 n ≠ [] := by
  by_cases h10 : n < 10
  · rw [toDigits_small n h10]
    simp
  · rw [toDigits_step n (by omega)]
    simp

/-- `atoiChars` on a list that starts with a digit. -/
theorem atoiChars_digit (c : Char) (cs : List Char) (h : '0' ≤ c ∧ c ≤ '9') :
    atoiChars (c :: cs) = (digitsValue (c :: cs) 0).map (fun n => (n : Int)) := by
  have h1 : c ≠ '-' := by
    rintro rfl
    exact absurd h (by decide)
  have h2 : c ≠ '+' := by
    rintro rfl
    exact absurd h (by decide)
  unfold atoiChars
  split <;> simp_all

/-- `strconv.Atoi` reads the decimal representation of an integer back. -/
theorem atoiChars_Itoa (n : Int) : atoiChars (Itoa n).data = some n := by
  unfold Itoa
  cases n with
  | ofNat m =>
    show atoiChars (Nat.repr m).data = _
    unfold Nat.repr
    show atoiChars (Nat.toDigits 10 m) = _
    have hne := toDigits_ne_nil m
    have hdig := toDigits_isDigit m
    have hval := digitsValue_toDigits m
    cases hd : Nat.toDigits 10 m with
    | nil => exact absurd hd hne
    | cons c cs =>
      rw [hd] at hdig hval
      rw [atoiChars_digit c cs (hdig c (List.mem_cons_self _ _)), hval]
      rfl
  | negSucc m =>
    show atoiChars ("-" ++ Nat.repr (m + 1)).data = _
    unfold Nat.repr
    show atoiChars ('-' :: Nat.toDigits 10 (m + 1)) = _
    have hne := toDigits_ne_nil (m + 1)
    have hval := digitsValue_toDigits (m + 1)
    cases hd : Nat.toDigits 10 (m + 1) with
    | nil => exact absurd hd hne
    | cons c cs =>
      rw [hd] at hval
      simp only [atoiChars, hval, Option.map_some']
      rfl

/-- The decimal representation of an integer holds no comma. -/
theorem Itoa_no_comma (n : Int) : ',' ∉ (Itoa n).data := by
  unfold Itoa
  cases n with
  | ofNat m =>
    show ',' ∉ (Nat.repr m).data
    unfold Nat.repr
    show ',' ∉ Nat.toDigits 10 m
    intro h
    exact absurd (toDigits_isDigit m _ h) (by decide)
  | negSucc m =>
    show ',' ∉ ("-" ++ Nat.repr (m + 1)).data
    unfold Nat.repr
    show ',' ∉ '-' :: Nat.toDigits 10 (m + 1)
    intro h
    rcases List.mem_cons.mp h with h | h
    · exact absurd h (by decide)
    · exact absurd (toDigits_isDigit (m + 1) _ h) (by decide)

/-- `strconv.Atoi` on the decimal representation of a 64-bit `int`. -/
theorem strconvAtoi_Itoa (n : Int) (hmin : -mathMaxInt - 1 ≤ n) (hmax : n ≤ mathMaxInt) :
    strconvAtoi (Itoa n).data = (n, true) := by
  unfold strconvAtoi
  rw [atoiChars_Itoa]
  simp only []
  rw [if_neg (by omega), if_neg (by omega)]
/-- `strings.Split` gives at least one part. -/
theorem splitChars_ne_nil (sep : Char) (cs : List Char) : splitChars sep cs ≠ [] := by
  cases cs with
  | nil => simp [splitChars]
  | cons c cs =>
    unfold splitChars
    cases splitChars sep cs with
    | nil => simp
    | cons first more => by_cases h : c = sep <;> simp [h]

/-- A string without the separator is its own single part. -/
theorem splitChars_no_sep (sep : Char) (a : List Char) (h : sep ∉ a) :
    splitChars sep a = [a] := by
  induction a with
  | nil => rfl
  | cons c cs ih =>
    have hc : c ≠ sep := fun hc => h (hc ▸ List.mem_cons_self _ _)
    have hcs : sep ∉ cs := fun hcs => h (List.mem_cons_of_mem _ hcs)
    unfold splitChars
    rw [ih hcs]
    simp [hc]

/-- The first part of a string ends at the first separator. -/
theorem splitChars_append_sep (sep : Char) (a b : List Char) (h : sep ∉ a) :
    splitChars sep (a ++ sep :: b) = a :: splitChars sep b := by
  induction a with
  | nil =>
    rw [List.nil_append]
    conv_lhs => unfold splitChars
    cases hb : splitChars sep b with
    | nil => exact absurd hb (splitChars_ne_nil sep b)
    | cons first more => simp
  | cons c cs ih =>
    have hc : c ≠ sep := fun hc => h (hc ▸ List.mem_cons_self _ _)
    have hcs : sep ∉ cs := fun hcs => h (List.mem_cons_of_mem _ hcs)
    rw [List.cons_append]
    conv_lhs => unfold splitChars
    rw [ih hcs]
    simp [hc]

/-- The fields of the line of a once element whose position holds no comma. -/
theorem lineFields_ToString (e : TraceElementOnce) (hpos : ',' ∉ e.pos.data) :
    lineFields e.ToString =
      ["O", Itoa e.tPre, Itoa e.tPost, Itoa e.id, if e.suc then "t" else "f", e.pos] := by
  have hdata : e.ToString.data =
      ['O'] ++ ',' :: ((Itoa e.tPre).data ++ ',' :: ((Itoa e.tPost).data ++ ',' ::
        ((Itoa e.id).data ++ ',' :: ((if e.suc then "t" else "f" : String).data ++
          ',' :: e.pos.data)))) := by
    unfold TraceElementOnce.ToString
    cases e.suc <;> simp [String.data_append]
  have hsuc : ',' ∉ (if e.suc then "t" else "f" : String).data := by
    cases e.suc <;> decide
  unfold lineFields
  rw [hdata, splitChars_append_sep _ _ _ (by decide),
    splitChars_append_sep _ _ _ (Itoa_no_comma _),
    splitChars_append_sep _ _ _ (Itoa_no_comma _),
    splitChars_append_sep _ _ _ (Itoa_no_comma _),
    splitChars_append_sep _ _ _ hsuc, splitChars_no_sep _ _ hpos]
  simp only [List.map_cons, List.map_nil]

/-- `AddTraceElementOnce` on arguments that parse: the element is built and
passed to `AddElementToTrace`. -/
theorem AddTraceElementOnce_parsed {σ : Type} (adders : TraceAdders σ) (st : σ)
    (routine : Int) (tPre tPost id suc pos : String) (sucBool : Bool)
    (h1 : (strconvAtoi tPre.data).2 = true) (h2 : (strconvAtoi tPost.data).2 = true)
    (h3 : (strconvAtoi id.data).2 = true) (h4 : strconvParseBool suc = some sucBool) :
    AddTraceElementOnce adders st routine tPre tPost id suc pos =
      adders.AddElementToTrace st
        (.once (onceElem routine (strconvAtoi tPre.data).1 (strconvAtoi tPost.data).1
          (strconvAtoi id.data).1 sucBool pos)) := by
  unfold AddTraceElementOnce
  simp only [h1, h2, h3, h4, Bool.true_eq_false, if_false]
  rfl

/-- `AddTraceElementOnce` on arguments of which one does not parse: one of the
four errors is returned and nothing is added. -/
theorem AddTraceElementOnce_not_parsed {σ : Type} (adders : TraceAdders σ) (st : σ)
    (routine : Int) (tPre tPost id suc pos : String)
    (h : (strconvAtoi tPre.data).2 = false ∨ (strconvAtoi tPost.data).2 = false ∨
      (strconvAtoi id.data).2 = false ∨ strconvParseBool suc = none) :
    ∃ msg ∈ ["tpre is not an integer", "tpost is not an integer", "id is not an integer",
        "suc is not a boolean"],
      AddTraceElementOnce adders st routine tPre tPost id suc pos = (st, some msg) := by
  unfold AddTraceElementOnce
  simp only []
  by_cases h1 : (strconvAtoi tPre.data).2 = false
  · exact ⟨_, by simp, if_pos h1⟩
  · rw [if_neg h1]
    by_cases h2 : (strconvAtoi tPost.data).2 = false
    · exact ⟨_, by simp, if_pos h2⟩
    · rw [if_neg h2]
      by_cases h3 : (strconvAtoi id.data).2 = false
      · exact ⟨_, by simp, if_pos h3⟩
      · rw [if_neg h3]
        have h4 : strconvParseBool suc = none := by
          rcases h with h | h | h | h
          · exact absurd h h1
          · exact absurd h h2
          · exact absurd h h3
          · exact h
        rw [h4]
        exact ⟨_, by simp, rfl⟩
/-- C32: the line of a once element and `AddTraceElementOnce`. For an element
whose position holds no comma (its timestamps and id being 64-bit `int`s),
`ToString` is `O,<tPre>,<tPost>,<id>,<t|f>,<pos>`, the line splits at the commas
into the tag and these five fields, and `AddTraceElementOnce` with the routine
of the element and the five fields builds the element with the same routine,
timestamps, id, `suc` and position and passes it to `AddElementToTrace`.
`AddTraceElementOnce` returns one of its four errors, and adds nothing, when
the pre timestamp, the post timestamp or the id is not an integer or `suc` is
not a boolean literal; otherwise it builds the element from the parsed values
and passes it to `AddElementToTrace`. -/
theorem C32_once_line_round_trip {σ : Type} (adders : TraceAdders σ) (st : σ)
    (e : TraceElementOnce) (hpos : ',' ∉ e.pos.data)
    (hPre : -mathMaxInt - 1 ≤ e.tPre ∧ e.tPre ≤ mathMaxInt)
    (hPost : -mathMaxInt - 1 ≤ e.tPost ∧ e.tPost ≤ mathMaxInt)
    (hId : -mathMaxInt - 1 ≤ e.id ∧ e.id ≤ mathMaxInt) :
    e.ToString =
      "O," ++ Itoa e.tPre ++ "," ++ Itoa e.tPost ++ "," ++ Itoa e.id ++ "," ++
        (if e.suc then "t" else "f") ++ "," ++ e.pos ∧
    lineFields e.ToString =
      ["O", Itoa e.tPre, Itoa e.tPost, Itoa e.id, if e.suc then "t" else "f", e.pos] ∧
    AddTraceElementOnce adders st e.routine (Itoa e.tPre) (Itoa e.tPost) (Itoa e.id)
        (if e.suc then "t" else "f") e.pos =
      adders.AddElementToTrace st
        (.once (onceElem e.routine e.tPre e.tPost e.id e.suc e.pos)) ∧
    (∀ routine tPre tPost id suc pos,
      (strconvAtoi tPre.data).2 = false ∨ (strconvAtoi tPost.data).2 = false ∨
        (strconvAtoi id.data).2 = false ∨ strconvParseBool suc = none →
      ∃ msg ∈ ["tpre is not an integer", "tpost is not an integer", "id is not an integer",
          "suc is not a boolean"],
        AddTraceElementOnce adders st routine tPre tPost id suc pos = (st, some msg)) ∧
    (∀ routine tPre tPost id suc pos sucBool,
      (strconvAtoi tPre.data).2 = true → (strconvAtoi tPost.data).2 = true →
      (strconvAtoi id.data).2 = true → strconvParseBool suc = some sucBool →
      AddTraceElementOnce adders st routine tPre tPost id suc pos =
        adders.AddElementToTrace st
          (.once (onceElem routine (strconvAtoi tPre.data).1 (strconvAtoi tPost.data).1
            (strconvAtoi id.data).1 sucBool pos))) := by
  refine ⟨?_, lineFields_ToString e hpos, ?_,
    fun routine tPre tPost id suc pos h =>
      AddTraceElementOnce_not_parsed adders st routine tPre tPost id suc pos h,
    fun routine tPre tPost id suc pos sucBool h1 h2 h3 h4 =>
      AddTraceElementOnce_parsed adders st routine tPre tPost id suc pos sucBool h1 h2 h3 h4⟩
  · unfold TraceElementOnce.ToString
    apply String.ext
    cases e.suc <;> simp [String.data_append]
  · have h1 := strconvAtoi_Itoa e.tPre hPre.1 hPre.2
    have h2 := strconvAtoi_Itoa e.tPost hPost.1 hPost.2
    have h3 := strconvAtoi_Itoa e.id hId.1 hId.2
    have h4 : strconvParseBool (if e.suc then "t" else "f") = some e.suc := by
      cases e.suc <;> decide
    rw [AddTraceElementOnce_parsed adders st e.routine _ _ _ _ e.pos e.suc (by rw [h1])
      (by rw [h2]) (by rw [h3]) h4, h1, h2, h3]

/-- Witness of C32: the once element of routine 3 at `o.go:7` has the line
`O,12,15,8,t,o.go:7`, and the reader adds one element for this line. -/
theorem C32_once_line_round_trip_witness :
    ',' ∉ exOnce.pos.data ∧ exOnce.ToString = "O,12,15,8,t,o.go:7" ∧
      lineFields exOnce.ToString = ["O", "12", "15", "8", "t", "o.go:7"] ∧
      AddTraceElementOnce exAdders 0 3 "12" "15" "8" "t" "o.go:7" = (1, none) := by
  have h := C32_once_line_round_trip exAdders 0 exOnce (by decide) (by decide) (by decide)
    (by decide)
  refine ⟨by decide, ?_, ?_, ?_⟩
  · rw [h.1]
    decide
  · rw [h.2.1]
    decide
  · have h3 := h.2.2.1
    exact h3

/-! ## Theorems on the dependency store and the cycle search -/

/-- An entry of a map after a write is the written one or an old one. -/
theorem GoMapK.mem_insertK {κ α : Type} [DecidableEq κ] (m : GoMapK κ α) (k : κ) (v : α)
    (b : κ × α) (h : b ∈ GoMapK.insert m k v) : b = (k, v) ∨ b ∈ m := by
  induction m with
  | nil =>
    simp only [GoMapK.insert, List.mem_singleton] at h
    exact Or.inl h
  | cons x rest ih =>
    obtain ⟨k2, v2⟩ := x
    unfold GoMapK.insert at h
    by_cases hk : k2 = k
    · rw [if_pos hk] at h
      rcases List.mem_cons.mp h with h | h
      · exact Or.inl h
      · exact Or.inr (List.mem_cons_of_mem _ h)
    · rw [if_neg hk] at h
      rcases List.mem_cons.mp h with h | h
      · exact Or.inr (h ▸ List.mem_cons_self _ _)
      · rcases ih h with h | h
        · exact Or.inl h
        · exact Or.inr (List.mem_cons_of_mem _ h)

/-- A value read from a map is the value of one of its entries. -/
theorem GoMap.mem_of_lookup {α : Type} (m : GoMap α) (k : Int) (v : α)
    (h : GoMap.lookup m k = some v) : (k, v) ∈ m := by
  induction m with
  | nil => simp [GoMap.lookup] at h
  | cons x rest ih =>
    obtain ⟨k2, v2⟩ := x
    unfold GoMap.lookup at h
    by_cases hk : k2 = k
    · rw [if_pos hk] at h
      simp only [Option.some.injEq] at h
      rw [hk, h]
      exact List.mem_cons_self _ _
    · rw [if_neg hk] at h
      exact List.mem_cons_of_mem _ (ih h)

/-- A value read from a map is the value of one of its entries. -/
theorem GoMapK.mem_of_lookupK {κ α : Type} [DecidableEq κ] (m : GoMapK κ α) (k : κ) (v : α)
    (h : GoMapK.lookup m k = some v) : (k, v) ∈ m := by
  induction m with
  | nil => simp [GoMapK.lookup] at h
  | cons x rest ih =>
    obtain ⟨k2, v2⟩ := x
    unfold GoMapK.lookup at h
    by_cases hk : k2 = k
    · rw [if_pos hk] at h
      simp only [Option.some.injEq] at h
      rw [hk, h]
      exact List.mem_cons_self _ _
    · rw [if_neg hk] at h
      exact List.mem_cons_of_mem _ (ih h)

/-- `insert` with a non-empty lockset keeps the invariant of the dependencies
of a lock, and establishes it from the empty list. -/
theorem insert_depsInv (ds : List Dep) (ls : Lockset) (event : Event) (hls : ls ≠ ∅)
    (h : ds = [] ∨ DepsInv ds) : DepsInv (insert ds ls event) := by
  have hall : ∀ d ∈ ds, d.ls ≠ ∅ ∧ d.requests ≠ [] := by
    rcases h with h | h
    · rw [h]; simp
    · exact h.2.1
  have hpair : ds.Pairwise (fun a b => a.ls ≠ b.ls) := by
    rcases h with h | h
    · rw [h]; exact List.Pairwise.nil
    · exact h.2.2
  rcases insert_spec ds ls event with ⟨pre, d, post, hds, hd, hpre, hins⟩ | ⟨hno, hins⟩
  · rw [hins]
    subst hds
    refine ⟨by simp, ?_, ?_⟩
    · intro x hx
      rcases List.mem_append.mp hx with hx | hx
      · exact hall x (List.mem_append_left _ hx)
      · rcases List.mem_cons.mp hx with hx | hx
        · subst hx
          exact ⟨(hall d (by simp)).1, by simp⟩
        · exact hall x (List.mem_append_right _ (List.mem_cons_of_mem _ hx))
    · rw [List.pairwise_append] at hpair ⊢
      obtain ⟨h1, h2, h3⟩ := hpair
      rw [List.pairwise_cons] at h2 ⊢
      refine ⟨h1, ⟨h2.1, h2.2⟩, ?_⟩
      intro a ha b hb
      rcases List.mem_cons.mp hb with hb | hb
      · subst hb
        exact h3 a ha d (List.mem_cons_self _ _)
      · exact h3 a ha b (List.mem_cons_of_mem _ hb)
  · rw [hins]
    refine ⟨by simp, ?_, ?_⟩
    · intro x hx
      rcases List.mem_append.mp hx with hx | hx
      · exact hall x hx
      · simp only [List.mem_singleton] at hx
        subst hx
        exact ⟨hls, by simp⟩
    · rw [List.pairwise_append]
      refine ⟨hpair, List.pairwise_singleton _ _, ?_⟩
      intro a ha b hb
      simp only [List.mem_singleton] at hb
      subst hb
      exact hno a ha

/-- The dependencies that `acquire` writes for a thread keep the invariant. -/
theorem acquire_thread_depsInv (thread : Thread) (l : LockId) (e : Event)
    (hdeps : ∀ x ∈ thread.lock_dependencies, DepsInv x.2) :
    ∀ x ∈ (if !thread.lockset.empty then
        GoMapK.insert thread.lock_dependencies l
          (insert (GoMapK.getSlice thread.lock_dependencies l) thread.lockset e)
      else thread.lock_dependencies), DepsInv x.2 := by
  intro x hx
  by_cases hempty : thread.lockset.empty = true
  · rw [hempty] at hx
    exact hdeps x hx
  · have hfalse : thread.lockset.empty = false := Bool.eq_false_iff.mpr hempty
    rw [hfalse] at hx
    rcases GoMapK.mem_insertK _ _ _ _ hx with hx | hx
    · rw [hx]
      apply insert_depsInv
      · intro hls
        exact hempty ((Lockset.empty_iff _).mpr hls)
      · unfold GoMapK.getSlice
        cases hlk : GoMapK.lookup thread.lock_dependencies l with
        | none => exact Or.inl rfl
        | some ds => exact Or.inr (hdeps _ (GoMapK.mem_of_lookupK _ _ _ hlk))
    · exact hdeps x hx

/-- `acquire` keeps the invariant of the dependency store. -/
theorem acquire_storeInv (s : State) (l : LockId) (e : Event) (h : s.StoreInv) :
    (acquire s l e).StoreInv := by
  intro entry hentry ld hld
  unfold acquire at hentry
  rcases GoMap.mem_insert _ _ _ _ hentry with hnew | hold
  · have hthread : ∀ x ∈ (match GoMap.lookup s.threads e.thread_id with
          | some thread => thread
          | none => ({ thread_id := e.thread_id, lockset := ∅, lock_dependencies := [] } :
              Thread)).lock_dependencies, DepsInv x.2 := by
      intro x hx
      cases hl : GoMap.lookup s.threads e.thread_id with
      | none =>
        rw [hl] at hx
        simp at hx
      | some t =>
        rw [hl] at hx
        exact h _ (GoMap.mem_of_lookup _ _ _ hl) x hx
    rw [hnew] at hld
    exact acquire_thread_depsInv _ l e hthread ld hld
  · exact h entry hold ld hld

/-- `release` keeps the invariant of the dependency store. -/
theorem release_storeInv (s : State) (l : LockId) (e : Event) (h : s.StoreInv) :
    (release s l e).StoreInv := by
  unfold release
  cases hl : GoMap.lookup s.threads e.thread_id with
  | none => exact h
  | some thread =>
    intro entry hentry ld hld
    simp only [] at hentry
    rcases GoMap.mem_insert _ _ _ _ hentry with hnew | hold
    · rw [hnew] at hld
      exact h _ (GoMap.mem_of_lookup _ _ _ hl) ld hld
    · exact h entry hold ld hld

/-- The invariant of the dependency store holds in every state reached from a
state with the invariant by `acquire` and `release` calls. -/
theorem applyLockCalls_storeInv (calls : List LockCall) (s : State) (h : s.StoreInv) :
    (applyLockCalls s calls).StoreInv := by
  induction calls generalizing s with
  | nil => exact h
  | cons call rest ih =>
    cases call with
    | acquire l e => exact ih _ (acquire_storeInv s l e h)
    | release l e => exact ih _ (release_storeInv s l e h)

/-- The empty state has the invariant. -/
theorem storeInv_empty : State.StoreInv {} := by
  intro entry hentry
  simp at hentry
/-- Marking one more thread of the list lowers the number of unmarked
threads. -/
theorem untraversed_update_lt (thread_ids : List ThreadId) (is_traversed : ThreadId → Bool)
    (tid : ThreadId) (hmem : tid ∈ thread_ids) (hfalse : is_traversed tid = false) :
    untraversed thread_ids (Function.update is_traversed tid true) <
      untraversed thread_ids is_traversed := by
  unfold untraversed
  induction thread_ids with
  | nil => simp at hmem
  | cons t rest ih =>
    have hle : ∀ l : List ThreadId,
        (l.filter (fun x => !Function.update is_traversed tid true x)).length ≤
          (l.filter (fun x => !is_traversed x)).length := by
      intro l
      induction l with
      | nil => simp
      | cons y ys ihy =>
        simp only [List.filter_cons]
        by_cases hy : y = tid
        · subst hy
          simp only [Function.update_same, Bool.not_true, Bool.false_eq_true, if_false]
          split_ifs <;> (try simp only [List.length_cons]) <;> omega
        · rw [Function.update_noteq hy]
          split_ifs <;> (try simp only [List.length_cons]) <;> omega
    simp only [List.filter_cons]
    by_cases ht : t = tid
    · subst ht
      simp only [Function.update_same, Bool.not_true, Bool.false_eq_true, if_false, hfalse,
        Bool.not_false, if_true, List.length_cons]
      have := hle rest
      omega
    · have hmem2 : tid ∈ rest := by
        rcases List.mem_cons.mp hmem with h | h
        · exact absurd h.symm ht
        · exact h
      rw [Function.update_noteq ht]
      have := ih hmem2
      split_ifs <;> (try simp only [List.length_cons]) <;> omega

/-- With a marked thread in the list, fewer threads are unmarked than the
list has. -/
theorem untraversed_lt_length (thread_ids : List ThreadId) (is_traversed : ThreadId → Bool)
    (tid : ThreadId) (hmem : tid ∈ thread_ids) (htrue : is_traversed tid = true) :
    untraversed thread_ids is_traversed < thread_ids.length := by
  unfold untraversed
  induction thread_ids with
  | nil => simp at hmem
  | cons t rest ih =>
    simp only [List.filter_cons, List.length_cons]
    have hle : (rest.filter (fun x => !is_traversed x)).length ≤ rest.length :=
      List.length_filter_le _ _
    by_cases ht : t = tid
    · subst ht
      simp only [htrue, Bool.not_true, Bool.false_eq_true, if_false]
      omega
    · have hmem2 : tid ∈ rest := by
        rcases List.mem_cons.mp hmem with h | h
        · exact absurd h.symm ht
        · exact h
      have := ih hmem2
      split_ifs <;> (try simp only [List.length_cons]) <;> omega

/-- The loop of `dfs` over the dependencies of a lock does not reach the bound
of the recursion when the recursive calls do not. -/
theorem dfsDeps_no_fuel
    (dfsRec : List LockDependency → (ThreadId → Bool) → List Cycle → Except Stop (List Cycle))
    (chain_stack : List LockDependency) (is_traversed : ThreadId → Bool) (tid : ThreadId)
    (l : LockId)
    (hrec : ∀ stack cycles,
      dfsRec stack (Function.update is_traversed tid true) cycles ≠ .error .fuel)
    (deps : List Dep) (cycles : List Cycle) :
    dfsDeps dfsRec chain_stack is_traversed tid l deps cycles ≠ .error .fuel := by
  induction deps generalizing cycles with
  | nil => simp [dfsDeps]
  | cons d rest ih =>
    unfold dfsDeps
    simp only []
    split
    · simp
    · exact ih cycles
    · split
      · simp
      · exact ih _
      · split
        · rename_i err hr
          intro herr
          apply hrec _ cycles
          have herr2 : err = Stop.fuel := by injection herr
          rw [hr, herr2]
        · exact ih _

/-- The loop of `dfs` over the locks of a thread does not reach the bound. -/
theorem dfsLocks_no_fuel
    (dfsRec : List LockDependency → (ThreadId → Bool) → List Cycle → Except Stop (List Cycle))
    (chain_stack : List LockDependency) (is_traversed : ThreadId → Bool) (tid : ThreadId)
    (hrec : ∀ stack cycles,
      dfsRec stack (Function.update is_traversed tid true) cycles ≠ .error .fuel)
    (locks : GoMapK LockId (List Dep)) (cycles : List Cycle) :
    dfsLocks dfsRec chain_stack is_traversed tid locks cycles ≠ .error .fuel := by
  induction locks generalizing cycles with
  | nil => simp [dfsLocks]
  | cons x rest ih =>
    obtain ⟨l, l_d⟩ := x
    unfold dfsLocks
    cases hr : dfsDeps dfsRec chain_stack is_traversed tid l l_d cycles with
    | error err =>
      simp only []
      intro herr
      apply dfsDeps_no_fuel dfsRec chain_stack is_traversed tid l hrec l_d cycles
      have herr2 : err = Stop.fuel := by injection herr
      rw [hr, herr2]
    | ok cycles2 => exact ih cycles2

/-- The loop of `dfs` over the threads does not reach the bound. -/
theorem dfsThreads_no_fuel (s : State)
    (dfsRec : List LockDependency → (ThreadId → Bool) → List Cycle → Except Stop (List Cycle))
    (chain_stack : List LockDependency) (is_traversed : ThreadId → Bool)
    (thread_ids : List ThreadId)
    (hrec : ∀ tid ∈ thread_ids, is_traversed tid = false → ∀ stack cycles,
      dfsRec stack (Function.update is_traversed tid true) cycles ≠ .error .fuel)
    (cycles : List Cycle) :
    dfsThreads s dfsRec chain_stack is_traversed thread_ids cycles ≠ .error .fuel := by
  induction thread_ids generalizing cycles with
  | nil => simp [dfsThreads]
  | cons tid rest ih =>
    have ih2 := ih (fun t ht => hrec t (List.mem_cons_of_mem _ ht))
    unfold dfsThreads
    by_cases hlen : (s.lockDeps tid).length = 0
    · rw [if_pos hlen]
      exact ih2 cycles
    · rw [if_neg hlen]
      by_cases htr : is_traversed tid = true
      · simp only [htr, Bool.not_true, Bool.false_eq_true, if_false]
        exact ih2 cycles
      · have hfalse : is_traversed tid = false := Bool.eq_false_iff.mpr htr
        simp only [hfalse, Bool.not_false, if_true]
        cases hr : dfsLocks dfsRec chain_stack is_traversed tid (s.lockDeps tid) cycles with
        | error err =>
          simp only []
          intro herr
          apply dfsLocks_no_fuel dfsRec chain_stack is_traversed tid
            (hrec tid (List.mem_cons_self _ _) hfalse) (s.lockDeps tid) cycles
          have herr2 : err = Stop.fuel := by injection herr
          rw [hr, herr2]
        | ok cycles2 => exact ih2 cycles2

/-- `dfs` does not reach a bound that exceeds the number of unmarked threads:
every nested call marks one more thread. -/
theorem dfs_no_fuel (s : State) (thread_ids : List ThreadId) (fuel : Nat)
    (chain_stack : List LockDependency) (is_traversed : ThreadId → Bool) (cycles : List Cycle)
    (h : untraversed thread_ids is_traversed < fuel) :
    dfs s thread_ids fuel chain_stack is_traversed cycles ≠ .error .fuel := by
  induction fuel generalizing chain_stack is_traversed cycles with
  | zero => omega
  | succ fuel ih =>
    unfold dfs
    apply dfsThreads_no_fuel
    intro tid hmem hfalse stack cycles2
    apply ih
    have := untraversed_update_lt thread_ids is_traversed tid hmem hfalse
    omega

/-- The loop of `find_cycles` over the locks of a thread does not reach the
bound. -/
theorem findLocks_no_fuel (s : State) (thread_ids : List ThreadId) (fuel : Nat)
    (thread_id : ThreadId) (is_traversed : ThreadId → Bool)
    (h : untraversed thread_ids is_traversed < fuel)
    (locks : GoMapK LockId (List Dep)) (chain_stack : List LockDependency)
    (cycles : List Cycle) :
    findLocks s thread_ids fuel thread_id is_traversed locks chain_stack cycles ≠
      .error .fuel := by
  induction locks generalizing chain_stack cycles with
  | nil => simp [findLocks]
  | cons x rest ih =>
    obtain ⟨l, ds⟩ := x
    unfold findLocks
    simp only []
    cases hr : dfs s thread_ids fuel
        (chain_stack ++ ds.map (fun d =>
          ({ thread_id := thread_id, l := l, ls := d.ls, reqs := d.requests } :
            LockDependency))) is_traversed cycles with
    | error err =>
      simp only []
      intro herr
      apply dfs_no_fuel s thread_ids fuel _ is_traversed cycles h
      have herr2 : err = Stop.fuel := by injection herr
      rw [hr, herr2]
    | ok cycles2 =>
      simp only []
      split_ifs
      · simp
      · exact ih _ cycles2

/-- The loop of `find_cycles` over the threads does not reach a bound of at
least the number of threads: the thread whose dependencies are pushed is
marked. -/
theorem findThreads_no_fuel (s : State) (thread_ids : List ThreadId) (fuel : Nat)
    (hfuel : thread_ids.length ≤ fuel) (sub : List ThreadId)
    (hsub : ∀ t ∈ sub, t ∈ thread_ids) (fs : FindState) :
    findThreads s thread_ids fuel sub fs ≠ .error .fuel := by
  induction sub generalizing fs with
  | nil => simp [findThreads]
  | cons thread_id rest ih =>
    have ih2 := ih (fun t ht => hsub t (List.mem_cons_of_mem _ ht))
    unfold findThreads
    by_cases hlen : (s.lockDeps thread_id).length = 0
    · rw [if_pos hlen]
      exact ih2 fs
    · rw [if_neg hlen]
      simp only []
      have hlt := untraversed_lt_length thread_ids
        (Function.update fs.is_traversed thread_id true) thread_id
        (hsub thread_id (List.mem_cons_self _ _)) (by simp)
      cases hr : findLocks s thread_ids fuel thread_id
          (Function.update fs.is_traversed thread_id true) (s.lockDeps thread_id)
          fs.chain_stack fs.cycles with
      | error err =>
        simp only []
        intro herr
        apply findLocks_no_fuel s thread_ids fuel thread_id
          (Function.update fs.is_traversed thread_id true) (by omega)
          (s.lockDeps thread_id) fs.chain_stack fs.cycles
        have herr2 : err = Stop.fuel := by injection herr
        rw [hr, herr2]
      | ok out =>
        obtain ⟨stack, cycles⟩ := out
        exact ih2 _

/-- `get_cycles` does not reach the bound of the recursion. -/
theorem get_cycles_no_fuel (s : State) : get_cycles s ≠ .error .fuel := by
  unfold get_cycles find_cycles
  simp only []
  cases hr : findThreads { s with cycles := [] }
      (s.threads.map (fun entry => entry.1)) ((s.threads.map (fun entry => entry.1)).length + 1)
      (s.threads.map (fun entry => entry.1))
      { cycles := [], chain_stack := [], is_traversed := fun _ => false } with
  | error err =>
    simp only []
    intro herr
    apply findThreads_no_fuel { s with cycles := [] } (s.threads.map (fun entry => entry.1))
      ((s.threads.map (fun entry => entry.1)).length + 1) (by omega)
      (s.threads.map (fun entry => entry.1)) (fun t ht => ht)
      { cycles := [], chain_stack := [], is_traversed := fun _ => false }
    have herr2 : err = Stop.fuel := by injection herr
    rw [hr, herr2]
  | ok fs => simp
/-- The cycle that `dfs` reports has a request in every entry when the stacked
dependencies and the closing one have. -/
theorem cycleOf_requests (chain_stack : List LockDependency) (ld : LockDependency)
    (hstack : ∀ d ∈ chain_stack, d.reqs ≠ []) (hld : ld.reqs ≠ []) :
    ∀ entry ∈ cycleOf chain_stack ld, entry.requests ≠ [] := by
  intro entry hentry
  unfold cycleOf at hentry
  rcases List.mem_append.mp hentry with h | h
  · obtain ⟨d, hd, rfl⟩ := List.mem_map.mp h
    exact hstack d hd
  · simp only [List.mem_singleton] at h
    rw [h]
    exact hld

/-- The loop of `dfs` over the dependencies of a lock, on a non-empty stack
whose dependencies have requests: no panic, and the cycles have requests. -/
theorem dfsDeps_ok
    (dfsRec : List LockDependency → (ThreadId → Bool) → List Cycle → Except Stop (List Cycle))
    (chain_stack : List LockDependency) (is_traversed : ThreadId → Bool) (tid : ThreadId)
    (l : LockId) (hne : chain_stack ≠ []) (hstack : ∀ d ∈ chain_stack, d.reqs ≠ [])
    (hrec : ∀ stack tr cycles, stack ≠ [] → (∀ d ∈ stack, d.reqs ≠ []) →
      CyclesHaveRequests cycles → SearchOk (dfsRec stack tr cycles))
    (deps : List Dep) (hdeps : ∀ d ∈ deps, d.requests ≠ []) (cycles : List Cycle)
    (hcycles : CyclesHaveRequests cycles) :
    SearchOk (dfsDeps dfsRec chain_stack is_traversed tid l deps cycles) := by
  induction deps generalizing cycles with
  | nil =>
    unfold dfsDeps
    refine ⟨by simp, ?_⟩
    intro out hout
    simp only [Except.ok.injEq] at hout
    rw [← hout]
    exact hcycles
  | cons d rest ih =>
    have ih2 := ih (fun x hx => hdeps x (List.mem_cons_of_mem _ hx))
    have hd : d.requests ≠ [] := hdeps d (List.mem_cons_self _ _)
    obtain ⟨top, htop⟩ : ∃ top, chain_stack.getLast? = some top := by
      cases h : chain_stack.getLast? with
      | none => exact absurd (List.getLast?_eq_none_iff.mp h) hne
      | some top => exact ⟨top, rfl⟩
    obtain ⟨first, hfirst⟩ : ∃ first, chain_stack.head? = some first := by
      cases chain_stack with
      | nil => exact absurd rfl hne
      | cons first more => exact ⟨first, rfl⟩
    unfold dfsDeps
    simp only []
    split
    · rename_i hchain
      unfold isChain at hchain
      rw [htop] at hchain
      split_ifs at hchain
    · exact ih2 cycles hcycles
    · split
      · rename_i hcyc
        unfold isCycleChain at hcyc
        rw [hfirst] at hcyc
        simp at hcyc
      · apply ih2
        intro c hc
        rcases List.mem_append.mp hc with hc | hc
        · exact hcycles c hc
        · simp only [List.mem_singleton] at hc
          rw [hc]
          exact cycleOf_requests chain_stack _ hstack hd
      · have hr := hrec
          (chain_stack ++ [{ thread_id := tid, l := l, ls := d.ls, reqs := d.requests }])
          (Function.update is_traversed tid true) cycles (by simp)
          (by
            intro x hx
            rcases List.mem_append.mp hx with hx | hx
            · exact hstack x hx
            · simp only [List.mem_singleton] at hx
              rw [hx]
              exact hd)
          hcycles
        split
        · rename_i err heq
          refine ⟨?_, by simp⟩
          intro herr
          have herr2 : err = Stop.panic := by injection herr
          apply hr.1
          rw [heq, herr2]
        · rename_i cycles2 heq
          exact ih2 cycles2 (hr.2 cycles2 heq)

/-- The loop of `dfs` over the locks of a thread: no panic, and the cycles
have requests. -/
theorem dfsLocks_ok
    (dfsRec : List LockDependency → (ThreadId → Bool) → List Cycle → Except Stop (List Cycle))
    (chain_stack : List LockDependency) (is_traversed : ThreadId → Bool) (tid : ThreadId)
    (hne : chain_stack ≠ []) (hstack : ∀ d ∈ chain_stack, d.reqs ≠ [])
    (hrec : ∀ stack tr cycles, stack ≠ [] → (∀ d ∈ stack, d.reqs ≠ []) →
      CyclesHaveRequests cycles → SearchOk (dfsRec stack tr cycles))
    (locks : GoMapK LockId (List Dep)) (hlocks : ∀ ld ∈ locks, ∀ d ∈ ld.2, d.requests ≠ [])
    (cycles : List Cycle) (hcycles : CyclesHaveRequests cycles) :
    SearchOk (dfsLocks dfsRec chain_stack is_traversed tid locks cycles) := by
  induction locks generalizing cycles with
  | nil =>
    unfold dfsLocks
    refine ⟨by simp, ?_⟩
    intro out hout
    simp only [Except.ok.injEq] at hout
    rw [← hout]
    exact hcycles
  | cons x rest ih =>
    obtain ⟨l, l_d⟩ := x
    have ih2 := ih (fun y hy => hlocks y (List.mem_cons_of_mem _ hy))
    have hr := dfsDeps_ok dfsRec chain_stack is_traversed tid l hne hstack hrec l_d
      (hlocks (l, l_d) (List.mem_cons_self _ _)) cycles hcycles
    unfold dfsLocks
    split
    · rename_i err heq
      refine ⟨?_, by simp⟩
      intro herr
      have herr2 : err = Stop.panic := by injection herr
      apply hr.1
      rw [heq, herr2]
    · rename_i cycles2 heq
      exact ih2 cycles2 (hr.2 cycles2 heq)

/-- The loop of `dfs` over the threads: no panic, and the cycles have
requests. -/
theorem dfsThreads_ok (s : State)
    (hs : ∀ tid, ∀ ld ∈ s.lockDeps tid, ∀ d ∈ ld.2, d.requests ≠ [])
    (dfsRec : List LockDependency → (ThreadId → Bool) → List Cycle → Except Stop (List Cycle))
    (chain_stack : List LockDependency) (is_traversed : ThreadId → Bool)
    (hne : chain_stack ≠ []) (hstack : ∀ d ∈ chain_stack, d.reqs ≠ [])
    (hrec : ∀ stack tr cycles, stack ≠ [] → (∀ d ∈ stack, d.reqs ≠ []) →
      CyclesHaveRequests cycles → SearchOk (dfsRec stack tr cycles))
    (thread_ids : List ThreadId) (cycles : List Cycle) (hcycles : CyclesHaveRequests cycles) :
    SearchOk (dfsThreads s dfsRec chain_stack is_traversed thread_ids cycles) := by
  induction thread_ids generalizing cycles with
  | nil =>
    unfold dfsThreads
    refine ⟨by simp, ?_⟩
    intro out hout
    simp only [Except.ok.injEq] at hout
    rw [← hout]
    exact hcycles
  | cons tid rest ih =>
    have hr := dfsLocks_ok dfsRec chain_stack is_traversed tid hne hstack hrec (s.lockDeps tid)
      (hs tid) cycles hcycles
    unfold dfsThreads
    split_ifs
    · exact ih cycles hcycles
    · split
      · rename_i err heq
        refine ⟨?_, by simp⟩
        intro herr
        have herr2 : err = Stop.panic := by injection herr
        apply hr.1
        rw [heq, herr2]
      · rename_i cycles2 heq
        exact ih cycles2 (hr.2 cycles2 heq)
    · exact ih cycles hcycles

/-- `dfs` on a non-empty stack whose dependencies have requests, in a state
whose dependencies have requests: no panic, and the cycles have requests. -/
theorem dfs_ok (s : State)
    (hs : ∀ tid, ∀ ld ∈ s.lockDeps tid, ∀ d ∈ ld.2, d.requests ≠ [])
    (thread_ids : List ThreadId) (fuel : Nat) (chain_stack : List LockDependency)
    (is_traversed : ThreadId → Bool) (cycles : List Cycle) (hne : chain_stack ≠ [])
    (hstack : ∀ d ∈ chain_stack, d.reqs ≠ []) (hcycles : CyclesHaveRequests cycles) :
    SearchOk (dfs s thread_ids fuel chain_stack is_traversed cycles) := by
  induction fuel generalizing chain_stack is_traversed cycles with
  | zero =>
    unfold dfs
    exact ⟨by simp, by simp⟩
  | succ fuel ih =>
    unfold dfs
    exact dfsThreads_ok s hs _ chain_stack is_traversed hne hstack
      (fun stack tr cycles2 h1 h2 h3 => ih stack tr cycles2 h1 h2 h3) thread_ids cycles hcycles

/-- The loop of `find_cycles` over the locks of a thread, when every lock has
a dependency and every dependency has requests: no panic, and the stack and
the cycles afterwards have requests. -/
theorem findLocks_ok (s : State)
    (hs : ∀ tid, ∀ ld ∈ s.lockDeps tid, ∀ d ∈ ld.2, d.requests ≠ [])
    (thread_ids : List ThreadId) (fuel : Nat) (thread_id : ThreadId)
    (is_traversed : ThreadId → Bool) (locks : GoMapK LockId (List Dep))
    (hlocks : ∀ ld ∈ locks, ld.2 ≠ [] ∧ ∀ d ∈ ld.2, d.requests ≠ [])
    (chain_stack : List LockDependency) (hstack : ∀ d ∈ chain_stack, d.reqs ≠ [])
    (cycles : List Cycle) (hcycles : CyclesHaveRequests cycles) :
    findLocks s thread_ids fuel thread_id is_traversed locks chain_stack cycles ≠
        .error .panic ∧
      ∀ out, findLocks s thread_ids fuel thread_id is_traversed locks chain_stack cycles =
          .ok out → (∀ d ∈ out.1, d.reqs ≠ []) ∧ CyclesHaveRequests out.2 := by
  induction locks generalizing chain_stack cycles with
  | nil =>
    unfold findLocks
    refine ⟨by simp, ?_⟩
    intro out hout
    simp only [Except.ok.injEq] at hout
    rw [← hout]
    exact ⟨hstack, hcycles⟩
  | cons x rest ih =>
    obtain ⟨l, ds⟩ := x
    have ih2 := ih (fun y hy => hlocks y (List.mem_cons_of_mem _ hy))
    obtain ⟨hds, hreq⟩ := hlocks (l, ds) (List.mem_cons_self _ _)
    have hpne : chain_stack ++ ds.map (fun d =>
        ({ thread_id := thread_id, l := l, ls := d.ls, reqs := d.requests } :
          LockDependency)) ≠ [] := by
      cases ds with
      | nil => exact absurd rfl hds
      | cons d more => simp
    have hpreq : ∀ x ∈ chain_stack ++ ds.map (fun d =>
        ({ thread_id := thread_id, l := l, ls := d.ls, reqs := d.requests } :
          LockDependency)), x.reqs ≠ [] := by
      intro x hx
      rcases List.mem_append.mp hx with hx | hx
      · exact hstack x hx
      · obtain ⟨d, hd, rfl⟩ := List.mem_map.mp hx
        exact hreq d hd
    have hr := dfs_ok s hs thread_ids fuel _ is_traversed cycles hpne hpreq hcycles
    unfold findLocks
    simp only []
    split
    · rename_i err heq
      refine ⟨?_, by simp⟩
      intro herr
      have herr2 : err = Stop.panic := by injection herr
      apply hr.1
      rw [heq, herr2]
    · rename_i cycles2 heq
      have hlen : ¬ (chain_stack ++ ds.map (fun d =>
          ({ thread_id := thread_id, l := l, ls := d.ls, reqs := d.requests } :
            LockDependency))).length = 0 := by
        intro h0
        exact hpne (List.length_eq_zero.mp h0)
      rw [if_neg hlen]
      exact ih2 _ (fun x hx => hpreq x (List.mem_of_mem_dropLast hx)) cycles2
        (hr.2 cycles2 heq)

/-- The loop of `find_cycles` over the threads, in a state with the invariant
of the dependency store: no panic, and the cycles afterwards have requests. -/
theorem findThreads_ok (s : State) (hinv : s.StoreInv) (thread_ids : List ThreadId)
    (fuel : Nat) (sub : List ThreadId) (fs : FindState)
    (hstack : ∀ d ∈ fs.chain_stack, d.reqs ≠ []) (hcycles : CyclesHaveRequests fs.cycles) :
    findThreads s thread_ids fuel sub fs ≠ .error .panic ∧
      ∀ out, findThreads s thread_ids fuel sub fs = .ok out →
        CyclesHaveRequests out.cycles := by
  have hdeps : ∀ tid, ∀ ld ∈ s.lockDeps tid, DepsInv ld.2 := by
    intro tid ld hld
    unfold State.lockDeps at hld
    cases hl : GoMap.lookup s.threads tid with
    | none =>
      rw [hl] at hld
      simp at hld
    | some thread =>
      rw [hl] at hld
      exact hinv _ (GoMap.mem_of_lookup _ _ _ hl) ld hld
  have hs : ∀ tid, ∀ ld ∈ s.lockDeps tid, ∀ d ∈ ld.2, d.requests ≠ [] :=
    fun tid ld hld d hd => ((hdeps tid ld hld).2.1 d hd).2
  induction sub generalizing fs with
  | nil =>
    unfold findThreads
    refine ⟨by simp, ?_⟩
    intro out hout
    simp only [Except.ok.injEq] at hout
    rw [← hout]
    exact hcycles
  | cons thread_id rest ih =>
    unfold findThreads
    split_ifs
    · exact ih fs hstack hcycles
    · simp only []
      have hr := findLocks_ok s hs thread_ids fuel thread_id
        (Function.update fs.is_traversed thread_id true) (s.lockDeps thread_id)
        (fun ld hld => ⟨(hdeps thread_id ld hld).1, fun d hd =>
          ((hdeps thread_id ld hld).2.1 d hd).2⟩)
        fs.chain_stack hstack fs.cycles hcycles
      split
      · rename_i err heq
        refine ⟨?_, by simp⟩
        intro herr
        have herr2 : err = Stop.panic := by injection herr
        apply hr.1
        rw [heq, herr2]
      · rename_i stack cycles heq
        have h2 := hr.2 (stack, cycles) heq
        exact ih _ h2.1 h2.2

/-- In a state with the invariant of the dependency store `get_cycles`
returns, and every entry of every cycle it reports has a request. -/
theorem get_cycles_returns (s : State) (hinv : s.StoreInv) :
    ∃ s2, get_cycles s = .ok s2 ∧ CyclesHaveRequests s2.cycles := by
  have hfuel := get_cycles_no_fuel s
  have hinv2 : State.StoreInv { s with cycles := [] } := hinv
  have hok := findThreads_ok { s with cycles := [] } hinv2
    (s.threads.map (fun entry => entry.1)) ((s.threads.map (fun entry => entry.1)).length + 1)
    (s.threads.map (fun entry => entry.1))
    { cycles := [], chain_stack := [], is_traversed := fun _ => false }
    (by simp) (by intro c hc; simp at hc)
  unfold get_cycles find_cycles at hfuel ⊢
  simp only [] at hfuel ⊢
  cases hr : findThreads { s with cycles := [] }
      (s.threads.map (fun entry => entry.1)) ((s.threads.map (fun entry => entry.1)).length + 1)
      (s.threads.map (fun entry => entry.1))
      { cycles := [], chain_stack := [], is_traversed := fun _ => false } with
  | error err =>
    rw [hr] at hfuel hok
    cases err with
    | panic => exact absurd rfl hok.1
    | fuel => exact absurd rfl hfuel
  | ok fs =>
    rw [hr] at hok
    exact ⟨_, rfl, hok.2 fs rfl⟩
/-- The dependencies read for a thread and a lock in a state with the
invariant: none, or a list with the invariant. -/
theorem depsOf_depsInv (s : State) (hinv : s.StoreInv) (t : ThreadId) (l : LockId) :
    s.depsOf t l = [] ∨ DepsInv (s.depsOf t l) := by
  unfold State.depsOf
  cases hl : GoMap.lookup s.threads t with
  | none => exact Or.inl rfl
  | some thread =>
    simp only []
    unfold GoMapK.getSlice
    cases hlk : GoMapK.lookup thread.lock_dependencies l with
    | none => exact Or.inl rfl
    | some ds =>
      exact Or.inr (hinv _ (GoMap.mem_of_lookup _ _ _ hl) _ (GoMapK.mem_of_lookupK _ _ _ hlk))

/-- C34: the cycle search terminates. `dfs` is embedded with a bound on the
depth of its recursion. A call of `dfs` does not reach a bound that exceeds the
number of threads not marked in `is_traversed`, because every nested call marks
one more thread; the loop of `find_cycles` marks the thread whose dependencies
it pushes, so a bound of the number of threads is enough there, and
`get_cycles` does not reach its bound on any state. On every state reached
from the empty state by `acquire` and `release` calls `get_cycles` returns (a
state that holds the finite list of the cycles found). -/
theorem C34_cycle_search_terminates (s : State) :
    get_cycles s ≠ .error .fuel ∧
    (∀ thread_ids fuel chain_stack is_traversed cycles,
      untraversed thread_ids is_traversed < fuel →
      dfs s thread_ids fuel chain_stack is_traversed cycles ≠ .error .fuel) ∧
    (∀ fuel sub fs, (s.threads.map (fun entry => entry.1)).length ≤ fuel →
      (∀ t ∈ sub, t ∈ s.threads.map (fun entry => entry.1)) →
      findThreads s (s.threads.map (fun entry => entry.1)) fuel sub fs ≠ .error .fuel) ∧
    (∀ calls, s = applyLockCalls {} calls → ∃ s2, get_cycles s = .ok s2) := by
  refine ⟨get_cycles_no_fuel s,
    fun thread_ids fuel chain_stack is_traversed cycles h =>
      dfs_no_fuel s thread_ids fuel chain_stack is_traversed cycles h,
    fun fuel sub fs hfuel hsub => findThreads_no_fuel s _ fuel hfuel sub hsub fs, ?_⟩
  intro calls hs
  obtain ⟨s2, h2, -⟩ := get_cycles_returns s
    (hs ▸ applyLockCalls_storeInv calls {} storeInv_empty)
  exact ⟨s2, h2⟩

/-- Witness of C34: `get_cycles` returns on the state reached by the calls of
the two threads of `exDoubleCallsA` and `exDoubleCallsB`, and `dfs` with the
bound 1 and no unmarked thread does not reach the bound. -/
theorem C34_cycle_search_terminates_witness :
    (∃ s2, get_cycles (applyLockCalls {} (exDoubleCallsA ++ exDoubleCallsB)) = .ok s2) ∧
      untraversed [1, 2] (fun _ => true) < 1 ∧
      dfs (applyLockCalls {} (exDoubleCallsA ++ exDoubleCallsB)) [1, 2] 1 [] (fun _ => true)
        [] ≠ .error .fuel := by
  have h := C34_cycle_search_terminates (applyLockCalls {} (exDoubleCallsA ++ exDoubleCallsB))
  exact ⟨h.2.2.2 _ rfl, by decide, h.2.1 [1, 2] 1 [] (fun _ => true) [] (by decide)⟩

/-- C40: the invariant of the dependency store. In every state reached from
the empty state by `acquire` and `release` calls, every list of dependencies
stored under a lock of a thread is not empty, every stored dependency has a
non-empty lockset and a non-empty list of events, and no two dependencies of
one list have the same lockset; so it is for the dependencies read for a
thread and a lock. `get_cycles` returns on such a state, every entry of every
cycle it reports has at least one request, and the loop of
`checkForResourceDeadlock` over the entries of a reported cycle does not panic
at `requests[0]`. -/
theorem C40_dependency_store_invariant (calls : List LockCall)
    (info : String → Option (String × Int × Int)) :
    (∀ entry ∈ (applyLockCalls {} calls).threads, ∀ ld ∈ entry.2.lock_dependencies,
      ld.2 ≠ [] ∧ (∀ d ∈ ld.2, d.ls ≠ ∅ ∧ d.requests ≠ []) ∧
        ld.2.Pairwise (fun a b => a.ls ≠ b.ls)) ∧
    (∀ t l, (∀ d ∈ (applyLockCalls {} calls).depsOf t l, d.ls ≠ ∅ ∧ d.requests ≠ []) ∧
      ((applyLockCalls {} calls).depsOf t l).Pairwise (fun a b => a.ls ≠ b.ls)) ∧
    ∃ s2, get_cycles (applyLockCalls {} calls) = .ok s2 ∧
      (∀ c ∈ s2.cycles, ∀ entry ∈ c, entry.requests ≠ []) ∧
      ∀ c ∈ s2.cycles, ∀ acc, cycleElementsLoop info c acc ≠ none := by
  have hinv := applyLockCalls_storeInv calls {} storeInv_empty
  refine ⟨fun entry hentry ld hld => hinv entry hentry ld hld, ?_, ?_⟩
  · intro t l
    rcases depsOf_depsInv _ hinv t l with h | h
    · rw [h]
      exact ⟨by simp, List.Pairwise.nil⟩
    · exact ⟨h.2.1, h.2.2⟩
  · obtain ⟨s2, h2, hreq⟩ := get_cycles_returns _ hinv
    refine ⟨s2, h2, hreq, ?_⟩
    intro c hc acc
    rw [cycleElementsLoop_spec info c (hreq c hc) acc]
    simp

/-- C40 on the state reached by the calls of the two threads of
`exDoubleCallsA` and `exDoubleCallsB`: the dependencies of thread 1 under lock
3 have the locksets `{1}` and `{2}` and one event each, and the cycle that
`get_cycles` reports has an event in every entry. -/
theorem C40_dependency_store_invariant_witness :
    ((applyLockCalls {} (exDoubleCallsA ++ exDoubleCallsB)).depsOf 1 ⟨3, false⟩).map
        (fun d => (d.ls, d.requests.length)) = [({⟨1, false⟩}, 1), ({⟨2, false⟩}, 1)] ∧
      (∀ d ∈ (applyLockCalls {} (exDoubleCallsA ++ exDoubleCallsB)).depsOf 1 ⟨3, false⟩,
        d.ls ≠ ∅ ∧ d.requests ≠ []) ∧
      ∃ s2, get_cycles (applyLockCalls {} (exDoubleCallsA ++ exDoubleCallsB)) = .ok s2 ∧
        ∀ c ∈ s2.cycles, ∀ entry ∈ c, entry.requests ≠ [] := by
  have h := C40_dependency_store_invariant (exDoubleCallsA ++ exDoubleCallsB) infoFromTID
  obtain ⟨s2, h2, hreq, -⟩ := h.2.2
  exact ⟨by decide, (h.2.1 1 ⟨3, false⟩).1, s2, h2, hreq⟩

/-! ## Theorems on the check for concurrent receives -/

end Advocate
